import Mathlib

/-!
# Verification of the clickhouse-client value model and wire codecs

This file embeds the core of the `clickhouse-client` Rust crate in Lean 4:

* the `Type` descriptor grammar (`src/value/ty/mod.rs`): `Display` and
  `FromStr`,
* the `Value` tagged union (`src/value/mod.rs`) and `is_same_type_as`,
* the RowBinary codec (`src/query/fmt/rowbin/mod.rs`),
* the TabSeparated codec (`src/query/fmt/tab/mod.rs`),
* `QueryData` row appending (`src/query/data.rs`),
* the older `core` value module (`src/core/val.rs`) with
  `as_nullable` / `as_non_nullable` / `null`.

Modelling conventions:

* Rust `String` / `&str` values are modelled as `RStr := List Nat`, the list
  of their UTF-8 bytes.  All character-level operations used by the crate
  (splitting, trimming and replacing around ASCII delimiters) act identically
  on UTF-8 byte sequences, because no ASCII byte occurs inside a multi-byte
  UTF-8 sequence.  `String::from_utf8` is modelled as the identity (its
  failure mode, invalid UTF-8, only swaps one error message for another in
  the functions studied here).
* Machine integers are `Nat` (unsigned) or `Int` (signed); their range
  restrictions (`u8`, `i8`, …) appear as explicit well-formedness
  hypotheses, mirroring what the Rust types guarantee by construction.
* `f32`/`f64` payloads are modelled as their raw little-endian bit patterns
  (a `Nat`), which is exactly what the RowBinary codec transports.
* `BTreeMap<String, iN>` is modelled as a list of pairs ordered strictly by
  byte-wise lexicographic key order; `HashMap<String, Value>` as a plain
  association list.
* Rust panics (`unimplemented!`, `unwrap`, `panic!`, out-of-bounds indexing)
  are modelled as a distinguished `.panicked` outcome, distinct from the
  typed `.error` outcome produced via `Result`.
* Recursive functions take an explicit recursion budget (`fuel`), decremented
  once per structural descent, so that every definition is structurally
  recursive and computable by the kernel.  Theorems carry the corresponding
  budget-sufficiency hypotheses; the budget never influences the result once
  it is large enough, which the round-trip theorems demonstrate.
-/

set_option maxHeartbeats 1000000
set_option maxRecDepth 8000

/-- A Rust byte buffer (`Vec<u8>` / `&[u8]`): a list of byte values. -/
abbrev Bytes := List Nat

/-- A Rust string, as its UTF-8 byte sequence. -/
abbrev RStr := List Nat

/-- UTF-8 encoding of one Unicode scalar value (by code point ranges). -/
def utf8Enc (c : Nat) : List Nat :=
  if c < 0x80 then [c]
  else if c < 0x800 then [0xc0 + c / 0x40, 0x80 + c % 0x40]
  else if c < 0x10000 then
    [0xe0 + c / 0x1000, 0x80 + c / 0x40 % 0x40, 0x80 + c % 0x40]
  else
    [0xf0 + c / 0x40000, 0x80 + c / 0x1000 % 0x40, 0x80 + c / 0x40 % 0x40,
      0x80 + c % 0x40]

/-- Byte list of a Lean string literal (used to write Rust string literals). -/
def bs (s : String) : RStr := s.data.flatMap (fun c => utf8Enc c.toNat)

/-- `Option.map`-style helper for `Except`. -/
abbrev EStr := Except String

-- ## Byte-string helpers mirroring the `str` methods used by the crate

/-- `str::strip_prefix`: remove `pre` from the front of `s`, if present. -/
def stripPrefixB : RStr → RStr → Option RStr
  | [], s => some s
  | _ :: _, [] => none
  | p :: ps, b :: s => if p = b then stripPrefixB ps s else none

/-- `str::strip_suffix`: remove `suf` from the end of `s`, if present. -/
def stripSuffixB (suf s : RStr) : Option RStr :=
  (stripPrefixB suf.reverse s.reverse).map List.reverse

/-- `str::split(sep)`: split on every occurrence of the byte `sep`;
the empty string yields one empty piece, like Rust's `split`. -/
def splitSep (sep : Nat) : RStr → List RStr
  | [] => [[]]
  | b :: s =>
    if b = sep then [] :: splitSep sep s
    else match splitSep sep s with
      | [] => [[b]]
      | p :: ps => (b :: p) :: ps

/-- ASCII whitespace recognised by `str::trim` (the crate only ever trims
ASCII data; non-ASCII Unicode whitespace is not modelled). -/
def isWhite (b : Nat) : Bool :=
  b = 32 || b = 9 || b = 10 || b = 11 || b = 12 || b = 13

/-- Drop leading whitespace. -/
def trimLeftB : RStr → RStr
  | [] => []
  | b :: s => if isWhite b then trimLeftB s else b :: s

/-- `str::trim`. -/
def trimB (s : RStr) : RStr := (trimLeftB ((trimLeftB s).reverse)).reverse

/-- `str::trim_start_matches(c)`: drop every leading occurrence of `c`. -/
def trimStartMatchesB (c : Nat) : RStr → RStr
  | [] => []
  | b :: s => if b = c then trimStartMatchesB c s else b :: s

/-- `str::trim_end_matches(c)`. -/
def trimEndMatchesB (c : Nat) (s : RStr) : RStr :=
  (trimStartMatchesB c s.reverse).reverse

/-- Non-overlapping left-to-right substring replacement (`str::replace`),
with an explicit budget (`s.length` always suffices for non-empty `pat`). -/
def replaceAux (pat rep : RStr) : Nat → RStr → RStr
  | 0, s => s
  | fuel + 1, s =>
    match stripPrefixB pat s with
    | some rest => rep ++ replaceAux pat rep fuel rest
    | none => match s with
      | [] => []
      | b :: s' => b :: replaceAux pat rep fuel s'

/-- `str::replace(pat, rep)` for a non-empty pattern. -/
def replaceB (pat rep s : RStr) : RStr := replaceAux pat rep s.length s

-- ## Decimal integer formatting and parsing

/-- Digits of `n`, most significant first (budget-driven; `n` suffices). -/
def natDecAux : Nat → Nat → List Nat
  | 0, _ => []
  | fuel + 1, n =>
    if n < 10 then [48 + n] else natDecAux fuel (n / 10) ++ [48 + n % 10]

/-- Decimal ASCII rendering of a natural number (`u8::to_string` etc.). -/
def natDec (n : Nat) : RStr := natDecAux (n + 1) n

/-- Decimal ASCII rendering of an integer (`i8::to_string` etc.). -/
def intDec (i : Int) : RStr :=
  if i < 0 then 45 :: natDec (-i).toNat else natDec i.toNat

/-- Fold ASCII digits into a number; `none` on a non-digit. -/
def digitsValAcc (acc : Nat) : RStr → Option Nat
  | [] => some acc
  | b :: s =>
    if 48 ≤ b ∧ b ≤ 57 then digitsValAcc (acc * 10 + (b - 48)) s else none

/-- Numeric value of a pure ASCII digit string. -/
def digitsVal (s : RStr) : Option Nat := digitsValAcc 0 s

/-- Digit-run to bounded value: `none` when empty, malformed or above `max`. -/
def boundedDigits (max : Nat) (s : RStr) : Option Nat :=
  if s = [] then none
  else match digitsVal s with
    | none => none
    | some n => if n ≤ max then some n else none

/-- Rust `u*::from_str`: optional `+` sign, one or more digits, bound check. -/
def parseUIntR (max : Nat) (s : RStr) : Option Nat :=
  boundedDigits max (if s.head? = some 43 then s.tail else s)

/-- Rust `i*::from_str`: optional sign, digits, range check. -/
def parseIntR (lo hi : Int) (s : RStr) : Option Int :=
  if s.head? = some 45 then
    match digitsVal s.tail with
    | none => none
    | some n =>
      if s.tail = [] then none
      else if lo ≤ -(n : Int) then some (-(n : Int)) else none
  else
    match parseUIntR hi.toNat s with
    | none => none
    | some n => some (n : Int)

-- ## Little-endian byte encodings and LEB128

/-- `w` little-endian bytes of `n` (`to_le_bytes` for unsigned values). -/
def leBytes : Nat → Nat → Bytes
  | 0, _ => []
  | w + 1, n => n % 256 :: leBytes w (n / 256)

/-- Read `w` little-endian bytes; returns the value and the rest. -/
def readLE : Nat → Bytes → Option (Nat × Bytes)
  | 0, bytes => some (0, bytes)
  | _ + 1, [] => none
  | w + 1, b :: bytes => (readLE w bytes).map (fun p => (b + 256 * p.1, p.2))

/-- Two's complement encoding of a signed value in `w` bytes. -/
def leBytesI (w : Nat) (i : Int) : Bytes :=
  leBytes w (i.emod (Nat.pow 2 (8 * w))).toNat

/-- Two's complement interpretation of an unsigned `w`-byte value. -/
def unTwos (w n : Nat) : Int :=
  if n < Nat.pow 2 (8 * w - 1) then (n : Int)
  else (n : Int) - (Nat.pow 2 (8 * w) : Nat)

/-- LEB128 unsigned write (`leb128::write::unsigned`), budget-driven. -/
def lebWriteAux : Nat → Nat → Bytes
  | 0, _ => []
  | fuel + 1, n =>
    if n < 128 then [n] else (n % 128 + 128) :: lebWriteAux fuel (n / 128)

/-- LEB128 unsigned write. -/
def lebWrite (n : Nat) : Bytes := lebWriteAux (n + 1) n

/-- LEB128 unsigned read (`leb128::read::unsigned`); fails on truncation.
(The crate's 64-bit overflow check is not modelled; every length the crate
writes fits in 64 bits.) -/
def lebRead : Bytes → Option (Nat × Bytes)
  | [] => none
  | b :: bytes =>
    if b < 128 then some (b, bytes)
    else (lebRead bytes).map (fun p => (b - 128 + 128 * p.1, p.2))

/-- `Read::read_exact` on a byte slice: take `n` bytes or fail. -/
def readExact : Nat → Bytes → Option (Bytes × Bytes)
  | 0, bytes => some ([], bytes)
  | _ + 1, [] => none
  | n + 1, b :: bytes => (readExact n bytes).map (fun p => (b :: p.1, p.2))

-- ## Byte-wise lexicographic order (Rust `String` ordering for `BTreeMap`)

/-- Strict byte-wise lexicographic order on byte strings. -/
def lexLt : RStr → RStr → Bool
  | [], [] => false
  | [], _ :: _ => true
  | _ :: _, [] => false
  | a :: s, b :: t => if a < b then true else if b < a then false else lexLt s t

/-- `BTreeMap::insert` on a key-sorted association list: insert in order,
replacing the value of an equal key. -/
def btInsert (k : RStr) (v : Int) : List (RStr × Int) → List (RStr × Int)
  | [] => [(k, v)]
  | (k', v') :: rest =>
    if lexLt k k' then (k, v) :: (k', v') :: rest
    else if k = k' then (k, v) :: rest
    else (k', v') :: btInsert k v rest

/-- Adjacent keys strictly increasing: the shape of a `BTreeMap` dump. -/
def sortedKeys : List (RStr × Int) → Bool
  | [] => true
  | [_] => true
  | (k₁, _) :: (k₂, v₂) :: rest =>
    lexLt k₁ k₂ && sortedKeys ((k₂, v₂) :: rest)

-- ## The `Type` descriptor (`src/value/ty/mod.rs`)

/-- `Type` from `src/value/ty/mod.rs`: the closed set of column types.
`BTreeMap<String, i8/i16>` payloads are key-sorted association lists; the
numeric range of enum indices and of `u8` parameters is tracked by
well-formedness conditions where a theorem needs it. -/
inductive Ty where
  | UInt8 | UInt16 | UInt32 | UInt64 | UInt128 | UInt256
  | Int8 | Int16 | Int32 | Int64 | Int128 | Int256
  | Float32 | Float64
  | Decimal (p s : Nat)
  | Decimal32 (s : Nat) | Decimal64 (s : Nat)
  | Decimal128 (s : Nat) | Decimal256 (s : Nat)
  | Bool | String
  | FixedString (n : Nat)
  | UUID | Date | Date32 | DateTime
  | DateTime64 (p : Nat)
  | Enum8 (vars : List (RStr × Int))
  | Enum16 (vars : List (RStr × Int))
  | Array (t : Ty)
  | Tuple (ts : List Ty)
  | Map (k v : Ty)
  | Nested (fs : List (RStr × Ty))
  | NullableUInt8 | NullableUInt16 | NullableUInt32 | NullableUInt64
  | NullableUInt128 | NullableUInt256
  | NullableInt8 | NullableInt16 | NullableInt32 | NullableInt64
  | NullableInt128 | NullableInt256
  | NullableFloat32 | NullableFloat64
  | NullableDecimal (p s : Nat)
  | NullableDecimal32 (s : Nat) | NullableDecimal64 (s : Nat)
  | NullableDecimal128 (s : Nat) | NullableDecimal256 (s : Nat)
  | NullableBool | NullableString
  | NullableFixedString (n : Nat)
  | NullableUUID | NullableDate | NullableDate32 | NullableDateTime
  | NullableDateTime64 (p : Nat)
  | NullableEnum8 (vars : List (RStr × Int))
  | NullableEnum16 (vars : List (RStr × Int))

/-- Structural-depth budget check: `tyFits f t` holds when every recursive
codec walk over `t` that burns one budget unit per descent finishes within
`f` units. -/
def tyFits : Nat → Ty → Bool
  | 0, _ => false
  | f + 1, t =>
    match t with
    | .Array t => tyFits f t
    | .Tuple ts => ts.all (tyFits f)
    | .Map k v => tyFits f k && tyFits f v
    | .Nested fs => fs.all (fun p => tyFits f p.2)
    | .NullableUInt8 => tyFits f .UInt8
    | .NullableUInt16 => tyFits f .UInt16
    | .NullableUInt32 => tyFits f .UInt32
    | .NullableUInt64 => tyFits f .UInt64
    | .NullableUInt128 => tyFits f .UInt128
    | .NullableUInt256 => tyFits f .UInt256
    | .NullableInt8 => tyFits f .Int8
    | .NullableInt16 => tyFits f .Int16
    | .NullableInt32 => tyFits f .Int32
    | .NullableInt64 => tyFits f .Int64
    | .NullableInt128 => tyFits f .Int128
    | .NullableInt256 => tyFits f .Int256
    | .NullableFloat32 => tyFits f .Float32
    | .NullableFloat64 => tyFits f .Float64
    | .NullableDecimal p s => tyFits f (.Decimal p s)
    | .NullableDecimal32 s => tyFits f (.Decimal32 s)
    | .NullableDecimal64 s => tyFits f (.Decimal64 s)
    | .NullableDecimal128 s => tyFits f (.Decimal128 s)
    | .NullableDecimal256 s => tyFits f (.Decimal256 s)
    | .NullableBool => tyFits f .Bool
    | .NullableString => tyFits f .String
    | .NullableFixedString n => tyFits f (.FixedString n)
    | .NullableUUID => tyFits f .UUID
    | .NullableDate => tyFits f .Date
    | .NullableDate32 => tyFits f .Date32
    | .NullableDateTime => tyFits f .DateTime
    | .NullableDateTime64 p => tyFits f (.DateTime64 p)
    | .NullableEnum8 vars => tyFits f (.Enum8 vars)
    | .NullableEnum16 vars => tyFits f (.Enum16 vars)
    | _ => true

/-- The `'name' = index` rendering of one enum entry. -/
def enumEntryStr (kv : RStr × Int) : RStr := 39 :: kv.1 ++ bs "' = " ++ intDec kv.2

/-- `", "`-joined list, as produced by `.join(", ")`. -/
def joinComma (l : List RStr) : RStr := (List.intersperse (bs ", ") l).flatten

/-- `impl Display for Type` (`src/value/ty/mod.rs`), with a structural
budget.  `BTreeMap::iter` runs in key order, i.e. list order here. -/
def tyToStrF : Nat → Ty → RStr
  | 0, _ => []
  | f + 1, t =>
    match t with
    | .UInt8 => bs "UInt8"
    | .UInt16 => bs "UInt16"
    | .UInt32 => bs "UInt32"
    | .UInt64 => bs "UInt64"
    | .UInt128 => bs "UInt128"
    | .UInt256 => bs "UInt256"
    | .Int8 => bs "Int8"
    | .Int16 => bs "Int16"
    | .Int32 => bs "Int32"
    | .Int64 => bs "Int64"
    | .Int128 => bs "Int128"
    | .Int256 => bs "Int256"
    | .Float32 => bs "Float32"
    | .Float64 => bs "Float64"
    | .Decimal p s => bs "Decimal(" ++ natDec p ++ bs "," ++ natDec s ++ bs ")"
    | .Decimal32 s => bs "Decimal32(" ++ natDec s ++ bs ")"
    | .Decimal64 s => bs "Decimal64(" ++ natDec s ++ bs ")"
    | .Decimal128 s => bs "Decimal128(" ++ natDec s ++ bs ")"
    | .Decimal256 s => bs "Decimal256(" ++ natDec s ++ bs ")"
    | .Bool => bs "Bool"
    | .String => bs "String"
    | .FixedString n => bs "FixedString(" ++ natDec n ++ bs ")"
    | .Date => bs "Date"
    | .Date32 => bs "Date32"
    | .DateTime => bs "DateTime"
    | .DateTime64 p => bs "DateTime64(" ++ natDec p ++ bs ")"
    | .UUID => bs "UUID"
    | .Enum8 vars => bs "Enum8(" ++ joinComma (vars.map enumEntryStr) ++ bs ")"
    | .Enum16 vars => bs "Enum16(" ++ joinComma (vars.map enumEntryStr) ++ bs ")"
    | .Array t => bs "Array(" ++ tyToStrF f t ++ bs ")"
    | .Map k v => bs "Map(" ++ tyToStrF f k ++ bs ", " ++ tyToStrF f v ++ bs ")"
    | .Tuple ts => bs "Tuple(" ++ joinComma (ts.map (tyToStrF f)) ++ bs ")"
    | .Nested fs =>
      bs "Nested(" ++
        joinComma (fs.map (fun p => p.1 ++ [32] ++ tyToStrF f p.2)) ++ bs ")"
    | .NullableUInt8 => bs "Nullable(UInt8)"
    | .NullableUInt16 => bs "Nullable(UInt16)"
    | .NullableUInt32 => bs "Nullable(UInt32)"
    | .NullableUInt64 => bs "Nullable(UInt64)"
    | .NullableUInt128 => bs "Nullable(UInt128)"
    | .NullableUInt256 => bs "Nullable(UInt256)"
    | .NullableInt8 => bs "Nullable(Int8)"
    | .NullableInt16 => bs "Nullable(Int16)"
    | .NullableInt32 => bs "Nullable(Int32)"
    | .NullableInt64 => bs "Nullable(Int64)"
    | .NullableInt128 => bs "Nullable(Int128)"
    | .NullableInt256 => bs "Nullable(Int256)"
    | .NullableFloat32 => bs "Nullable(Float32)"
    | .NullableFloat64 => bs "Nullable(Float64)"
    | .NullableDecimal p s =>
      bs "Nullable(Decimal(" ++ natDec p ++ bs "," ++ natDec s ++ bs "))"
    | .NullableDecimal32 s => bs "Nullable(Decimal32(" ++ natDec s ++ bs "))"
    | .NullableDecimal64 s => bs "Nullable(Decimal64(" ++ natDec s ++ bs "))"
    | .NullableDecimal128 s => bs "Nullable(Decimal128(" ++ natDec s ++ bs "))"
    | .NullableDecimal256 s => bs "Nullable(Decimal256(" ++ natDec s ++ bs "))"
    | .NullableBool => bs "Nullable(Bool)"
    | .NullableString => bs "Nullable(String)"
    | .NullableFixedString n => bs "Nullable(FixedString(" ++ natDec n ++ bs "))"
    | .NullableDate => bs "Nullable(Date)"
    | .NullableDate32 => bs "Nullable(Date32)"
    | .NullableDateTime => bs "Nullable(DateTime)"
    | .NullableDateTime64 p => bs "Nullable(DateTime64(" ++ natDec p ++ bs "))"
    | .NullableUUID => bs "Nullable(UUID)"
    | .NullableEnum8 vars => bs "Nullable(" ++ tyToStrF f (.Enum8 vars) ++ bs ")"
    | .NullableEnum16 vars => bs "Nullable(" ++ tyToStrF f (.Enum16 vars) ++ bs ")"

-- ## `impl FromStr for Type`

/-- `u8::from_str` through the crate's `?` conversion. -/
def parseU8E (s : RStr) : EStr Nat :=
  match parseUIntR 255 s with
  | some n => .ok n
  | none => .error "invalid digit found in string"

/-- `strip_prefix` then `strip_suffix(')')`: `none` means the prefix did not
match (fall through); `some none` means a missing closing parenthesis. -/
def argOf (pre s : RStr) : Option (Option RStr) :=
  match stripPrefixB pre s with
  | none => none
  | some rest => some (stripSuffixB (bs ")") rest)

/-- The enum-entry loop in `FromStr`: split each `'name' = index` pair and
`BTreeMap::insert` it (duplicates silently overwrite). -/
def parseEnumEntries (lo hi : Int) :
    List RStr → List (RStr × Int) → EStr (List (RStr × Int))
  | [], acc => .ok acc
  | piece :: rest, acc =>
    match splitSep 61 (trimB piece) with
    | [p0, p1] =>
      let name := trimEndMatchesB 39 (trimStartMatchesB 39 (trimB p0))
      match parseIntR lo hi (trimB p1) with
      | some idx => parseEnumEntries lo hi rest (btInsert name idx acc)
      | none => .error "invalid digit found in string"
    | _ => .error "invalid Enum8 type"

/-- The `Tuple` loop: parse each comma piece with the given inner parser. -/
def parseTyPieces (rec : RStr → EStr Ty) : List RStr → EStr (List Ty)
  | [] => .ok []
  | p :: rest =>
    match rec (trimB p) with
    | .ok t => (parseTyPieces rec rest).map (t :: ·)
    | .error e => .error e

/-- The `Nested` loop: each piece is `name Type`, split on a space. -/
def parseNestedPieces (rec : RStr → EStr Ty) :
    List RStr → EStr (List (RStr × Ty))
  | [] => .ok []
  | piece :: rest =>
    match splitSep 32 (trimB piece) with
    | [p0, p1] =>
      match rec (trimB p1) with
      | .ok t => (parseNestedPieces rec rest).map ((trimB p0, t) :: ·)
      | .error e => .error e
    | _ => .error "invalid Nested type"

/-- The `Nullable(T)` wrapping table at the end of `FromStr`. -/
def toNullable : Ty → EStr Ty
  | .UInt8 => .ok .NullableUInt8
  | .UInt16 => .ok .NullableUInt16
  | .UInt32 => .ok .NullableUInt32
  | .UInt64 => .ok .NullableUInt64
  | .UInt128 => .ok .NullableUInt128
  | .UInt256 => .ok .NullableUInt256
  | .Int8 => .ok .NullableInt8
  | .Int16 => .ok .NullableInt16
  | .Int32 => .ok .NullableInt32
  | .Int64 => .ok .NullableInt64
  | .Int128 => .ok .NullableInt128
  | .Int256 => .ok .NullableInt256
  | .Float32 => .ok .NullableFloat32
  | .Float64 => .ok .NullableFloat64
  | .Decimal p s => .ok (.NullableDecimal p s)
  | .Decimal32 s => .ok (.NullableDecimal32 s)
  | .Decimal64 s => .ok (.NullableDecimal64 s)
  | .Decimal128 s => .ok (.NullableDecimal128 s)
  | .Decimal256 s => .ok (.NullableDecimal256 s)
  | .Bool => .ok .NullableBool
  | .String => .ok .NullableString
  | .FixedString n => .ok (.NullableFixedString n)
  | .UUID => .ok .NullableUUID
  | .Date => .ok .NullableDate
  | .Date32 => .ok .NullableDate32
  | .DateTime => .ok .NullableDateTime
  | .DateTime64 p => .ok (.NullableDateTime64 p)
  | .Enum8 vars => .ok (.NullableEnum8 vars)
  | .Enum16 vars => .ok (.NullableEnum16 vars)
  | _ => .error "invalid Nullable type"

/-- `impl FromStr for Type` (`src/value/ty/mod.rs`), with a recursion budget
(`s.length + 1` always suffices, see `tyFromStr`).  Branch order follows the
source: exact scalar names, then the parameterised prefixes, `Nullable(`
last, and the final unrecognised-type error. -/
def tyFromStrF : Nat → RStr → EStr Ty
  | 0, _ => .error "recursion budget exhausted"
  | f + 1, s =>
    if s = bs "UInt8" then .ok .UInt8
    else if s = bs "UInt16" then .ok .UInt16
    else if s = bs "UInt32" then .ok .UInt32
    else if s = bs "UInt64" then .ok .UInt64
    else if s = bs "UInt128" then .ok .UInt128
    else if s = bs "UInt256" then .ok .UInt256
    else if s = bs "Int8" then .ok .Int8
    else if s = bs "Int16" then .ok .Int16
    else if s = bs "Int32" then .ok .Int32
    else if s = bs "Int64" then .ok .Int64
    else if s = bs "Int128" then .ok .Int128
    else if s = bs "Int256" then .ok .Int256
    else if s = bs "Float32" then .ok .Float32
    else if s = bs "Float64" then .ok .Float64
    else if s = bs "Bool" then .ok .Bool
    else if s = bs "String" then .ok .String
    else if s = bs "UUID" then .ok .UUID
    else if s = bs "Date" then .ok .Date
    else if s = bs "Date32" then .ok .Date32
    else if s = bs "DateTime" then .ok .DateTime
    else match argOf (bs "Decimal(") s with
    | some none => .error "invalid Decimal type"
    | some (some inner) =>
      match splitSep 44 inner with
      | [a, b] => do
        let p ← parseU8E (trimB a)
        let sc ← parseU8E (trimB b)
        .ok (.Decimal p sc)
      | _ => .error "invalid Decimal type"
    | none => match argOf (bs "Decimal32(") s with
    | some none => .error "invalid Decimal32 type"
    | some (some inner) => (parseU8E (trimB inner)).map .Decimal32
    | none => match argOf (bs "Decimal64(") s with
    | some none => .error "invalid Decimal64 type"
    | some (some inner) => (parseU8E (trimB inner)).map .Decimal64
    | none => match argOf (bs "Decimal128(") s with
    | some none => .error "invalid Decimal128 type"
    | some (some inner) => (parseU8E (trimB inner)).map .Decimal128
    | none => match argOf (bs "Decimal256(") s with
    | some none => .error "invalid Decimal256 type"
    | some (some inner) => (parseU8E (trimB inner)).map .Decimal256
    | none => match argOf (bs "FixedString(") s with
    | some none => .error "invalid FixedString type"
    | some (some inner) => (parseU8E (trimB inner)).map .FixedString
    | none => match argOf (bs "DateTime64(") s with
    | some none => .error "invalid DateTime64 type"
    | some (some inner) => (parseU8E (trimB inner)).map .DateTime64
    | none => match argOf (bs "Enum8(") s with
    | some none => .error "invalid DateTime64 type"
    | some (some inner) =>
      (parseEnumEntries (-128) 127 (splitSep 44 inner) []).map .Enum8
    | none => match argOf (bs "Enum16(") s with
    | some none => .error "invalid DateTime64 type"
    | some (some inner) =>
      (parseEnumEntries (-32768) 32767 (splitSep 44 inner) []).map .Enum16
    | none => match argOf (bs "Enum(") s with
    | some none => .error "invalid DateTime64 type"
    | some (some inner) =>
      (parseEnumEntries (-32768) 32767 (splitSep 44 inner) []).map .Enum16
    | none => match argOf (bs "Array(") s with
    | some none => .error "invalid Array type"
    | some (some inner) => (tyFromStrF f (trimB inner)).map .Array
    | none => match argOf (bs "Tuple(") s with
    | some none => .error "invalid Tuple type"
    | some (some inner) =>
      (parseTyPieces (tyFromStrF f) (splitSep 44 inner)).map .Tuple
    | none => match argOf (bs "Map(") s with
    | some none => .error "invalid Map type"
    | some (some inner) =>
      match splitSep 44 inner with
      | [a, b] => do
        let k ← tyFromStrF f (trimB a)
        let v ← tyFromStrF f (trimB b)
        .ok (.Map k v)
      | _ => .error "invalid Map type"
    | none => match argOf (bs "Nested(") s with
    | some none => .error "invalid Nested type"
    | some (some inner) =>
      (parseNestedPieces (tyFromStrF f) (splitSep 44 inner)).map .Nested
    | none => match argOf (bs "Nullable(") s with
    | some none => .error "invalid Nullable type"
    | some (some inner) =>
      match tyFromStrF f inner with
      | .ok t => toNullable t
      | .error e => .error e
    | none => .error "not a valid Clickhouse type"

/-- `Type::from_str` at its always-sufficient budget: every recursive call
strips a non-empty prefix and suffix, so the input length bounds the
recursion depth. -/
def tyFromStr (s : RStr) : EStr Ty := tyFromStrF (s.length + 1) s



-- ## Round-trip domain for the `Type` grammar (specification-side predicate)

/-- Conditions on one enum variant list under which the `Enum8(...)`/
`Enum16(...)` string form reparses to the same list: at least one entry,
keys strictly sorted (a `BTreeMap` dump), indices in range, and names free
of the bytes the entry syntax reserves (`,`, `=`, boundary `'`). -/
def enumVarsOK (lo hi : Int) (vars : List (RStr × Int)) : Bool :=
  !vars.isEmpty && sortedKeys vars &&
    vars.all (fun kv =>
      !kv.1.contains 44 && !kv.1.contains 61 &&
      !(kv.1.head? == some 39) && !(kv.1.getLast? == some 39) &&
      decide (lo ≤ kv.2) && decide (kv.2 ≤ hi))

/-- The corrected round-trip domain for claim C1: `parse (format t) = ok t`
holds for exactly the constructible types that avoid the parser's
comma/space-splitting ambiguities.  A comma-separated context (`Tuple`,
`Map`, the `Enum`/`Nested` entry lists) requires its arguments' canonical
strings to be comma-free, `Nested` field types must also be space-free and
field names must avoid spaces and commas, entry lists must be non-empty,
and numeric parameters must fit `u8` (what `parse::<u8>` accepts). -/
def rtOkF : Nat → Ty → Bool
  | 0, _ => false
  | f + 1, t =>
    match t with
    | .Decimal p s => decide (p < 256) && decide (s < 256)
    | .Decimal32 s => decide (s < 256)
    | .Decimal64 s => decide (s < 256)
    | .Decimal128 s => decide (s < 256)
    | .Decimal256 s => decide (s < 256)
    | .FixedString n => decide (n < 256)
    | .DateTime64 p => decide (p < 256)
    | .Enum8 vars => enumVarsOK (-128) 127 vars
    | .Enum16 vars => enumVarsOK (-32768) 32767 vars
    | .Array t => rtOkF f t
    | .Tuple ts =>
      !ts.isEmpty &&
        ts.all (fun t => rtOkF f t && !(tyToStrF f t).contains 44)
    | .Map k v =>
      rtOkF f k && rtOkF f v &&
        !(tyToStrF f k).contains 44 && !(tyToStrF f v).contains 44
    | .Nested fs =>
      !fs.isEmpty &&
        fs.all (fun p =>
          !p.1.isEmpty && p.1.all (fun b => !isWhite b && b ≠ 44) &&
          rtOkF f p.2 &&
          !(tyToStrF f p.2).contains 44 && !(tyToStrF f p.2).contains 32)
    | .NullableUInt8 => rtOkF f .UInt8
    | .NullableUInt16 => rtOkF f .UInt16
    | .NullableUInt32 => rtOkF f .UInt32
    | .NullableUInt64 => rtOkF f .UInt64
    | .NullableUInt128 => rtOkF f .UInt128
    | .NullableUInt256 => rtOkF f .UInt256
    | .NullableInt8 => rtOkF f .Int8
    | .NullableInt16 => rtOkF f .Int16
    | .NullableInt32 => rtOkF f .Int32
    | .NullableInt64 => rtOkF f .Int64
    | .NullableInt128 => rtOkF f .Int128
    | .NullableInt256 => rtOkF f .Int256
    | .NullableFloat32 => rtOkF f .Float32
    | .NullableFloat64 => rtOkF f .Float64
    | .NullableDecimal p s => rtOkF f (.Decimal p s)
    | .NullableDecimal32 s => rtOkF f (.Decimal32 s)
    | .NullableDecimal64 s => rtOkF f (.Decimal64 s)
    | .NullableDecimal128 s => rtOkF f (.Decimal128 s)
    | .NullableDecimal256 s => rtOkF f (.Decimal256 s)
    | .NullableBool => rtOkF f .Bool
    | .NullableString => rtOkF f .String
    | .NullableFixedString n => rtOkF f (.FixedString n)
    | .NullableUUID => rtOkF f .UUID
    | .NullableDate => rtOkF f .Date
    | .NullableDate32 => rtOkF f .Date32
    | .NullableDateTime => rtOkF f .DateTime
    | .NullableDateTime64 p => rtOkF f (.DateTime64 p)
    | .NullableEnum8 vars => rtOkF f (.Enum8 vars)
    | .NullableEnum16 vars => rtOkF f (.Enum16 vars)
    | _ => true

-- ## Values (`src/value/mod.rs`, `enum Value`)

/-- Result of a fallible Rust operation that may also panic
(`unimplemented!`, `unwrap`, out-of-bounds indexing).  A panic unwinds
through every caller, which `bind` mirrors. -/
inductive PRes (α : Type) where
  | ok (a : α)
  | err (e : String)
  | panicked (msg : String)
deriving Repr

def PRes.bind {α β : Type} : PRes α → (α → PRes β) → PRes β
  | .ok a, f => f a
  | .err e, _ => .err e
  | .panicked m, _ => .panicked m

def PRes.map {α β : Type} (f : α → β) : PRes α → PRes β
  | .ok a => .ok (f a)
  | .err e => .err e
  | .panicked m => .panicked m

/-- A UTF-8 continuation byte (`String::from_utf8` validation). -/
def utf8Cont (b : Nat) : Bool := 128 ≤ b && b ≤ 191

/-- Strict UTF-8 validity of a byte string, as checked by Rust's
`String::from_utf8` (RFC 3629: no overlongs, no surrogates, max U+10FFFF). -/
def utf8Valid : List Nat → Bool
  | [] => true
  | b :: r =>
    if b ≤ 127 then utf8Valid r
    else if 194 ≤ b && b ≤ 223 then
      match r with
      | c1 :: r1 => utf8Cont c1 && utf8Valid r1
      | _ => false
    else if b == 224 then
      match r with
      | c1 :: c2 :: r2 =>
        (160 ≤ c1 && c1 ≤ 191) && utf8Cont c2 && utf8Valid r2
      | _ => false
    else if 225 ≤ b && b ≤ 236 then
      match r with
      | c1 :: c2 :: r2 => utf8Cont c1 && utf8Cont c2 && utf8Valid r2
      | _ => false
    else if b == 237 then
      match r with
      | c1 :: c2 :: r2 =>
        (128 ≤ c1 && c1 ≤ 159) && utf8Cont c2 && utf8Valid r2
      | _ => false
    else if 238 ≤ b && b ≤ 239 then
      match r with
      | c1 :: c2 :: r2 => utf8Cont c1 && utf8Cont c2 && utf8Valid r2
      | _ => false
    else if b == 240 then
      match r with
      | c1 :: c2 :: c3 :: r3 =>
        (144 ≤ c1 && c1 ≤ 191) && utf8Cont c2 && utf8Cont c3 && utf8Valid r3
      | _ => false
    else if 241 ≤ b && b ≤ 243 then
      match r with
      | c1 :: c2 :: c3 :: r3 =>
        utf8Cont c1 && utf8Cont c2 && utf8Cont c3 && utf8Valid r3
      | _ => false
    else if b == 244 then
      match r with
      | c1 :: c2 :: c3 :: r3 =>
        (128 ≤ c1 && c1 ≤ 143) && utf8Cont c2 && utf8Cont c3 && utf8Valid r3
      | _ => false
    else false

/-- `enum Value` of `src/value/mod.rs`.  Machine integers are `Nat`/`Int`
(ranges enforced by `valWF`); `f32`/`f64` are carried as their little-endian
bit patterns (a `Nat`); `[u128; 2]` / `[i128; 2]` words are pairs in the
crate's `(hi, lo)` order; `String` is its UTF-8 bytes; `HashMap` is an
association list whose iteration order is its insertion order. -/
inductive Value where
  | UInt8 (v : Nat)
  | UInt16 (v : Nat)
  | UInt32 (v : Nat)
  | UInt64 (v : Nat)
  | UInt128 (v : Nat)
  | UInt256 (v : Nat × Nat)
  | Int8 (v : Int)
  | Int16 (v : Int)
  | Int32 (v : Int)
  | Int64 (v : Int)
  | Int128 (v : Int)
  | Int256 (v : Int × Int)
  | Float32 (bits : Nat)
  | Float64 (bits : Nat)
  | Bool (v : Bool)
  | String (v : RStr)
  | UUID (v : List Nat)
  | Date (v : Nat)
  | Date32 (v : Int)
  | DateTime (v : Nat)
  | DateTime64 (v : Int)
  | Enum8 (v : Int)
  | Enum16 (v : Int)
  | Array (vs : List Value)
  | Tuple (vs : List Value)
  | Map (m : List (RStr × Value))
  | Nested (m : List (RStr × Value))
  | NullableUInt8 (v : Option Nat)
  | NullableUInt16 (v : Option Nat)
  | NullableUInt32 (v : Option Nat)
  | NullableUInt64 (v : Option Nat)
  | NullableUInt128 (v : Option Nat)
  | NullableUInt256 (v : Option (Nat × Nat))
  | NullableInt8 (v : Option Int)
  | NullableInt16 (v : Option Int)
  | NullableInt32 (v : Option Int)
  | NullableInt64 (v : Option Int)
  | NullableInt128 (v : Option Int)
  | NullableInt256 (v : Option (Int × Int))
  | NullableFloat32 (bits : Option Nat)
  | NullableFloat64 (bits : Option Nat)
  | NullableBool (v : Option Bool)
  | NullableString (v : Option RStr)
  | NullableUUID (v : Option (List Nat))
  | NullableDate (v : Option Nat)
  | NullableDate32 (v : Option Int)
  | NullableDateTime (v : Option Nat)
  | NullableDateTime64 (v : Option Int)
  | NullableEnum8 (v : Option Int)
  | NullableEnum16 (v : Option Int)

/-- `Value::into_nullable` (`src/value/mod.rs`): the nullable counterpart of
a scalar value; `None` on containers; nullable inputs pass through. -/
def intoNullable : Value → Option Value
  | .UInt8 v => some (.NullableUInt8 (some v))
  | .UInt16 v => some (.NullableUInt16 (some v))
  | .UInt32 v => some (.NullableUInt32 (some v))
  | .UInt64 v => some (.NullableUInt64 (some v))
  | .UInt128 v => some (.NullableUInt128 (some v))
  | .UInt256 v => some (.NullableUInt256 (some v))
  | .Int8 v => some (.NullableInt8 (some v))
  | .Int16 v => some (.NullableInt16 (some v))
  | .Int32 v => some (.NullableInt32 (some v))
  | .Int64 v => some (.NullableInt64 (some v))
  | .Int128 v => some (.NullableInt128 (some v))
  | .Int256 v => some (.NullableInt256 (some v))
  | .Float32 v => some (.NullableFloat32 (some v))
  | .Float64 v => some (.NullableFloat64 (some v))
  | .Bool v => some (.NullableBool (some v))
  | .String v => some (.NullableString (some v))
  | .UUID v => some (.NullableUUID (some v))
  | .Date v => some (.NullableDate (some v))
  | .Date32 v => some (.NullableDate32 (some v))
  | .DateTime v => some (.NullableDateTime (some v))
  | .DateTime64 v => some (.NullableDateTime64 (some v))
  | .Enum8 v => some (.NullableEnum8 (some v))
  | .Enum16 v => some (.NullableEnum16 (some v))
  | .Array _ => none
  | .Tuple _ => none
  | .Map _ => none
  | .Nested _ => none
  | v => some v

/-- `Value::is_same_type_as` (`src/value/mod.rs`), fuel-structural.
`Tuple` compares lengths then zips; `Nested` only requires the value's keys
to appear among the field names and zips (truncating) over the fields. -/
def isSameTypeAsF : Nat → Value → Ty → Bool
  | 0, _, _ => false
  | f + 1, v, ty =>
    match v with
    | .UInt8 _ => (match ty with | .UInt8 => true | _ => false)
    | .UInt16 _ => (match ty with | .UInt16 => true | _ => false)
    | .UInt32 _ => (match ty with | .UInt32 => true | _ => false)
    | .UInt64 _ => (match ty with | .UInt64 => true | _ => false)
    | .UInt128 _ => (match ty with | .UInt128 => true | _ => false)
    | .UInt256 _ => (match ty with | .UInt256 => true | _ => false)
    | .Int8 _ => (match ty with | .Int8 => true | _ => false)
    | .Int16 _ => (match ty with | .Int16 => true | _ => false)
    | .Int32 _ => (match ty with | .Int32 => true | _ => false)
    | .Int64 _ => (match ty with | .Int64 => true | _ => false)
    | .Int128 _ => (match ty with | .Int128 => true | _ => false)
    | .Int256 _ => (match ty with | .Int256 => true | _ => false)
    | .Float32 _ => (match ty with | .Float32 => true | _ => false)
    | .Float64 _ => (match ty with | .Float64 => true | _ => false)
    | .Bool _ => (match ty with | .Bool => true | _ => false)
    | .String _ => (match ty with | .String => true | _ => false)
    | .UUID _ => (match ty with | .UUID => true | _ => false)
    | .Date _ => (match ty with | .Date => true | _ => false)
    | .Date32 _ => (match ty with | .Date32 => true | _ => false)
    | .DateTime _ => (match ty with | .DateTime => true | _ => false)
    | .DateTime64 _ => (match ty with | .DateTime64 _ => true | _ => false)
    | .Enum8 i =>
      match ty with
      | .Enum8 vars => vars.any (fun kv => kv.2 == i)
      | _ => false
    | .Enum16 i =>
      match ty with
      | .Enum16 vars => vars.any (fun kv => kv.2 == i)
      | _ => false
    | .Array vs =>
      match ty with
      | .Array t => vs.all (fun v => isSameTypeAsF f v t)
      | _ => false
    | .Tuple vs =>
      match ty with
      | .Tuple ts =>
        vs.length == ts.length &&
          (vs.zip ts).all (fun p => isSameTypeAsF f p.1 p.2)
      | _ => false
    | .Map m =>
      match ty with
      | .Map _ tv => m.all (fun kv => isSameTypeAsF f kv.2 tv)
      | _ => false
    | .Nested m =>
      match ty with
      | .Nested fields =>
        m.all (fun kv => fields.any (fun ft => ft.1 == kv.1)) &&
          (m.zip fields).all (fun p => isSameTypeAsF f p.1.2 p.2.2)
      | _ => false
    | .NullableUInt8 _ => (match ty with | .NullableUInt8 => true | _ => false)
    | .NullableUInt16 _ => (match ty with | .NullableUInt16 => true | _ => false)
    | .NullableUInt32 _ => (match ty with | .NullableUInt32 => true | _ => false)
    | .NullableUInt64 _ => (match ty with | .NullableUInt64 => true | _ => false)
    | .NullableUInt128 _ => (match ty with | .NullableUInt128 => true | _ => false)
    | .NullableUInt256 _ => (match ty with | .NullableUInt256 => true | _ => false)
    | .NullableInt8 _ => (match ty with | .NullableInt8 => true | _ => false)
    | .NullableInt16 _ => (match ty with | .NullableInt16 => true | _ => false)
    | .NullableInt32 _ => (match ty with | .NullableInt32 => true | _ => false)
    | .NullableInt64 _ => (match ty with | .NullableInt64 => true | _ => false)
    | .NullableInt128 _ => (match ty with | .NullableInt128 => true | _ => false)
    | .NullableInt256 _ => (match ty with | .NullableInt256 => true | _ => false)
    | .NullableFloat32 _ => (match ty with | .NullableFloat32 => true | _ => false)
    | .NullableFloat64 _ => (match ty with | .NullableFloat64 => true | _ => false)
    | .NullableBool _ => (match ty with | .NullableBool => true | _ => false)
    | .NullableString _ => (match ty with | .NullableString => true | _ => false)
    | .NullableUUID _ => (match ty with | .NullableUUID => true | _ => false)
    | .NullableDate _ => (match ty with | .NullableDate => true | _ => false)
    | .NullableDate32 _ => (match ty with | .NullableDate32 => true | _ => false)
    | .NullableDateTime _ => (match ty with | .NullableDateTime => true | _ => false)
    | .NullableDateTime64 _ => (match ty with | .NullableDateTime64 _ => true | _ => false)
    | .NullableEnum8 _ => (match ty with | .NullableEnum8 _ => true | _ => false)
    | .NullableEnum16 _ => (match ty with | .NullableEnum16 _ => true | _ => false)

/-- Keys of an association list are pairwise distinct (a `HashMap`
invariant the embedding keeps explicit). -/
def keysDistinctB : List (RStr × Value) → Bool
  | [] => true
  | kv :: rest =>
    rest.all (fun kv2 => !(kv2.1 == kv.1)) && keysDistinctB rest

/-- Unsigned value fits in `w` bytes. -/
def uOK (w : Nat) (v : Nat) : Bool := v < Nat.pow 2 (8 * w)

/-- Signed value fits in `w` two's-complement bytes. -/
def iOK (w : Nat) (v : Int) : Bool :=
  decide (-((Nat.pow 2 (8 * w - 1) : Nat) : Int) ≤ v) &&
    decide (v < ((Nat.pow 2 (8 * w - 1) : Nat) : Int))

/-- Well-formedness of a `Value`: every payload respects its Rust machine
type (integer ranges, float bit-pattern width, 16-byte UUID, UTF-8 strings,
distinct `HashMap` keys), with fuel bounding the nesting depth. -/
def valWF : Nat → Value → Bool
  | 0, _ => false
  | f + 1, v =>
    match v with
    | .UInt8 v => uOK 1 v
    | .UInt16 v => uOK 2 v
    | .UInt32 v => uOK 4 v
    | .UInt64 v => uOK 8 v
    | .UInt128 v => uOK 16 v
    | .UInt256 p => uOK 16 p.1 && uOK 16 p.2
    | .Int8 v => iOK 1 v
    | .Int16 v => iOK 2 v
    | .Int32 v => iOK 4 v
    | .Int64 v => iOK 8 v
    | .Int128 v => iOK 16 v
    | .Int256 p => iOK 16 p.1 && iOK 16 p.2
    | .Float32 b => uOK 4 b
    | .Float64 b => uOK 8 b
    | .Bool _ => true
    | .String s => utf8Valid s
    | .UUID u => u.length == 16 && u.all (fun b => b < 256)
    | .Date v => uOK 2 v
    | .Date32 v => iOK 4 v
    | .DateTime v => uOK 4 v
    | .DateTime64 v => iOK 8 v
    | .Enum8 v => iOK 1 v
    | .Enum16 v => iOK 2 v
    | .Array vs => vs.all (valWF f)
    | .Tuple vs => vs.all (valWF f)
    | .Map m =>
      keysDistinctB m &&
        m.all (fun kv => valWF f (.String kv.1) && valWF f kv.2)
    | .Nested m =>
      keysDistinctB m &&
        m.all (fun kv => valWF f (.String kv.1) && valWF f kv.2)
    | .NullableUInt8 o => o.all (fun v => valWF f (.UInt8 v))
    | .NullableUInt16 o => o.all (fun v => valWF f (.UInt16 v))
    | .NullableUInt32 o => o.all (fun v => valWF f (.UInt32 v))
    | .NullableUInt64 o => o.all (fun v => valWF f (.UInt64 v))
    | .NullableUInt128 o => o.all (fun v => valWF f (.UInt128 v))
    | .NullableUInt256 o => o.all (fun v => valWF f (.UInt256 v))
    | .NullableInt8 o => o.all (fun v => valWF f (.Int8 v))
    | .NullableInt16 o => o.all (fun v => valWF f (.Int16 v))
    | .NullableInt32 o => o.all (fun v => valWF f (.Int32 v))
    | .NullableInt64 o => o.all (fun v => valWF f (.Int64 v))
    | .NullableInt128 o => o.all (fun v => valWF f (.Int128 v))
    | .NullableInt256 o => o.all (fun v => valWF f (.Int256 v))
    | .NullableFloat32 o => o.all (fun v => valWF f (.Float32 v))
    | .NullableFloat64 o => o.all (fun v => valWF f (.Float64 v))
    | .NullableBool o => o.all (fun v => valWF f (.Bool v))
    | .NullableString o => o.all (fun v => valWF f (.String v))
    | .NullableUUID o => o.all (fun v => valWF f (.UUID v))
    | .NullableDate o => o.all (fun v => valWF f (.Date v))
    | .NullableDate32 o => o.all (fun v => valWF f (.Date32 v))
    | .NullableDateTime o => o.all (fun v => valWF f (.DateTime v))
    | .NullableDateTime64 o => o.all (fun v => valWF f (.DateTime64 v))
    | .NullableEnum8 o => o.all (fun v => valWF f (.Enum8 v))
    | .NullableEnum16 o => o.all (fun v => valWF f (.Enum16 v))

/-- The extra alignment the RowBinary round trip needs beyond
`is_same_type_as`: at every `Nested` node the value carries exactly as many
entries as the type has fields (`is_same_type_as` zips truncatingly, so it
accepts under-length `Nested` values that cannot round-trip). -/
def nestedExactF : Nat → Value → Ty → Bool
  | 0, _, _ => false
  | f + 1, v, ty =>
    match v, ty with
    | .Array vs, .Array t => vs.all (fun v => nestedExactF f v t)
    | .Tuple vs, .Tuple ts => (vs.zip ts).all (fun p => nestedExactF f p.1 p.2)
    | .Map m, .Map _ tv => m.all (fun kv => nestedExactF f kv.2 tv)
    | .Nested m, .Nested fields =>
      m.length == fields.length &&
        (m.zip fields).all (fun p => nestedExactF f p.1.2 p.2.2)
    | _, _ => true

/-- `RowBinFormatter::format_value` (`src/query/fmt/rowbin/mod.rs`),
fuel-structural.  `u64::to_le_bytes` etc. are `leBytes`; signed writes are
two's complement (`leBytesI`); the 256-bit words `(hi, lo)` are recombined
exactly as `U256::from_words(..).to_le_bytes()` / the `I256` analogue do;
the UUID is written as the two `u64` halves of `as_u64_pair` in little
endian, i.e. each big-endian 8-byte half reversed. -/
def formatValue : Nat → Value → Bytes
  | 0, _ => []
  | f + 1, v =>
    match v with
    | .UInt8 v => leBytes 1 v
    | .UInt16 v => leBytes 2 v
    | .UInt32 v => leBytes 4 v
    | .UInt64 v => leBytes 8 v
    | .UInt128 v => leBytes 16 v
    | .UInt256 p => leBytes 32 (p.1 * Nat.pow 2 128 + p.2)
    | .Int8 v => leBytesI 1 v
    | .Int16 v => leBytesI 2 v
    | .Int32 v => leBytesI 4 v
    | .Int64 v => leBytesI 8 v
    | .Int128 v => leBytesI 16 v
    | .Int256 p =>
      leBytesI 32 (p.1 * ((Nat.pow 2 128 : Nat) : Int) +
        p.2.emod ((Nat.pow 2 128 : Nat) : Int))
    | .Float32 b => leBytes 4 b
    | .Float64 b => leBytes 8 b
    | .Bool b => if b then [1] else [0]
    | .String s => lebWrite s.length ++ s
    | .UUID u => (u.take 8).reverse ++ (u.drop 8).reverse
    | .Date v => leBytes 2 v
    | .Date32 v => leBytesI 4 v
    | .DateTime v => leBytes 4 v
    | .DateTime64 v => leBytesI 8 v
    | .Enum8 v => leBytesI 1 v
    | .Enum16 v => leBytesI 2 v
    | .Array vs => lebWrite vs.length ++ (vs.map (formatValue f)).flatten
    | .Tuple vs => (vs.map (formatValue f)).flatten
    | .Map m =>
      lebWrite m.length ++
        (m.map (fun kv =>
          formatValue f (.String kv.1) ++ formatValue f kv.2)).flatten
    | .Nested m =>
      (m.map (fun kv =>
        formatValue f (.String kv.1) ++ formatValue f kv.2)).flatten
    | .NullableUInt8 o =>
      match o with
      | some v => 0 :: formatValue f (.UInt8 v)
      | none => [1]
    | .NullableUInt16 o =>
      match o with
      | some v => 0 :: formatValue f (.UInt16 v)
      | none => [1]
    | .NullableUInt32 o =>
      match o with
      | some v => 0 :: formatValue f (.UInt32 v)
      | none => [1]
    | .NullableUInt64 o =>
      match o with
      | some v => 0 :: formatValue f (.UInt64 v)
      | none => [1]
    | .NullableUInt128 o =>
      match o with
      | some v => 0 :: formatValue f (.UInt128 v)
      | none => [1]
    | .NullableUInt256 o =>
      match o with
      | some v => 0 :: formatValue f (.UInt256 v)
      | none => [1]
    | .NullableInt8 o =>
      match o with
      | some v => 0 :: formatValue f (.Int8 v)
      | none => [1]
    | .NullableInt16 o =>
      match o with
      | some v => 0 :: formatValue f (.Int16 v)
      | none => [1]
    | .NullableInt32 o =>
      match o with
      | some v => 0 :: formatValue f (.Int32 v)
      | none => [1]
    | .NullableInt64 o =>
      match o with
      | some v => 0 :: formatValue f (.Int64 v)
      | none => [1]
    | .NullableInt128 o =>
      match o with
      | some v => 0 :: formatValue f (.Int128 v)
      | none => [1]
    | .NullableInt256 o =>
      match o with
      | some v => 0 :: formatValue f (.Int256 v)
      | none => [1]
    | .NullableFloat32 o =>
      match o with
      | some v => 0 :: formatValue f (.Float32 v)
      | none => [1]
    | .NullableFloat64 o =>
      match o with
      | some v => 0 :: formatValue f (.Float64 v)
      | none => [1]
    | .NullableBool o =>
      match o with
      | some v => 0 :: formatValue f (.Bool v)
      | none => [1]
    | .NullableString o =>
      match o with
      | some v => 0 :: formatValue f (.String v)
      | none => [1]
    | .NullableUUID o =>
      match o with
      | some v => 0 :: formatValue f (.UUID v)
      | none => [1]
    | .NullableDate o =>
      match o with
      | some v => 0 :: formatValue f (.Date v)
      | none => [1]
    | .NullableDate32 o =>
      match o with
      | some v => 0 :: formatValue f (.Date32 v)
      | none => [1]
    | .NullableDateTime o =>
      match o with
      | some v => 0 :: formatValue f (.DateTime v)
      | none => [1]
    | .NullableDateTime64 o =>
      match o with
      | some v => 0 :: formatValue f (.DateTime64 v)
      | none => [1]
    | .NullableEnum8 o =>
      match o with
      | some v => 0 :: formatValue f (.Enum8 v)
      | none => [1]
    | .NullableEnum16 o =>
      match o with
      | some v => 0 :: formatValue f (.Enum16 v)
      | none => [1]


/-- `HashMap::insert`: replace the binding if the key exists, otherwise
append (iteration order modelled as insertion order). -/
def hmInsert (m : List (RStr × Value)) (k : RStr) (v : Value) :
    List (RStr × Value) :=
  if m.any (fun kv => kv.1 == k) then
    m.map (fun kv => if kv.1 == k then (k, v) else kv)
  else m ++ [(k, v)]

/-- `read_exact` of `w` bytes followed by `uX::from_le_bytes`. -/
def readLEU (w : Nat) (mk : Nat → Value) (bytes : Bytes) :
    PRes (Value × Bytes) :=
  match readLE w bytes with
  | none => .err "failed to fill whole buffer"
  | some (n, rest) => .ok (mk n, rest)

/-- `read_exact` of `w` bytes followed by `iX::from_le_bytes`. -/
def readLEI (w : Nat) (mk : Int → Value) (bytes : Bytes) :
    PRes (Value × Bytes) :=
  match readLE w bytes with
  | none => .err "failed to fill whole buffer"
  | some (n, rest) => .ok (mk (unTwos w n), rest)

/-- `RowBinFormatter::parse_value_str`: LEB128 length, that many bytes,
UTF-8 check. -/
def parseValueStr (bytes : Bytes) : PRes (RStr × Bytes) :=
  match lebRead bytes with
  | none => .err "leb128 read failure"
  | some (n, rest) =>
    match readExact n rest with
    | none => .err "failed to fill whole buffer"
    | some (buf, rest2) =>
      if utf8Valid buf then .ok (buf, rest2)
      else .err "invalid utf-8 sequence"

/-- The `for _ in 0..n` element loop of the `Type::Array` parse arm. -/
def parseArrayN (pv : Bytes → PRes (Value × Bytes)) :
    Nat → Bytes → PRes (List Value × Bytes)
  | 0, bytes => .ok ([], bytes)
  | n + 1, bytes =>
    (pv bytes).bind fun p =>
      (parseArrayN pv n p.2).map fun q => (p.1 :: q.1, q.2)

/-- The `for ty in types` loop of the `Type::Tuple` parse arm. -/
def parseTupleTs (pv : Ty → Bytes → PRes (Value × Bytes)) :
    List Ty → Bytes → PRes (List Value × Bytes)
  | [], bytes => .ok ([], bytes)
  | t :: ts, bytes =>
    (pv t bytes).bind fun p =>
      (parseTupleTs pv ts p.2).map fun q => (p.1 :: q.1, q.2)

/-- The `for _ in 0..n` entry loop of the `Type::Map` parse arm. -/
def parseMapN (pv : Bytes → PRes (Value × Bytes)) :
    Nat → Bytes → List (RStr × Value) → PRes (List (RStr × Value) × Bytes)
  | 0, bytes, acc => .ok (acc, bytes)
  | n + 1, bytes, acc =>
    (parseValueStr bytes).bind fun k =>
      (pv k.2).bind fun p =>
        parseMapN pv n p.2 (hmInsert acc k.1 p.1)

/-- The `for (_name, ty) in fields` loop of the `Type::Nested` parse arm. -/
def parseNestedF (pv : Ty → Bytes → PRes (Value × Bytes)) :
    List (RStr × Ty) → Bytes → List (RStr × Value) →
      PRes (List (RStr × Value) × Bytes)
  | [], bytes, acc => .ok (acc, bytes)
  | (_, t) :: fs, bytes, acc =>
    (parseValueStr bytes).bind fun k =>
      (pv t k.2).bind fun p =>
        parseNestedF pv fs p.2 (hmInsert acc k.1 p.1)

/-- The `impl_nullable!` macro of `parse_value`: one discriminant byte,
`0x01` = absent, `0x00` = parse the inner value and `into_nullable` it,
anything else an error. -/
def parseNullable (pv : Ty → Bytes → PRes (Value × Bytes)) (mkNone : Value)
    (innerTy : Ty) (bytes : Bytes) : PRes (Value × Bytes) :=
  match readExact 1 bytes with
  | none => .err "failed to fill whole buffer"
  | some (buf, rest) =>
    if buf == [1] then .ok (mkNone, rest)
    else if buf == [0] then
      (pv innerTy rest).bind fun p =>
        match intoNullable p.1 with
        | some nv => .ok (nv, p.2)
        | none => .err "Invalid nullable value"
    else .err "Invalid nullable value"


/-- `RowBinFormatter::parse_value` (`src/query/fmt/rowbin/mod.rs`),
fuel-structural.  The five `Decimal` arms and their `Nullable` twins are the
source's `unimplemented!` panics.  `U256::from_le_bytes(..).into_words()`
splits the 32-byte value into its `(hi, lo)` `u128` words; `I256` likewise
with `i128` words; the UUID arm reads the two little-endian `u64` halves of
`from_u64_pair`, i.e. reverses each 8-byte half back to big-endian bytes. -/
def parseValue : Nat → Ty → Bytes → PRes (Value × Bytes)
  | 0, _, _ => .err "recursion budget exhausted"
  | f + 1, ty, bytes =>
    match ty with
    | .UInt8 => readLEU 1 Value.UInt8 bytes
    | .UInt16 => readLEU 2 Value.UInt16 bytes
    | .UInt32 => readLEU 4 Value.UInt32 bytes
    | .UInt64 => readLEU 8 Value.UInt64 bytes
    | .UInt128 => readLEU 16 Value.UInt128 bytes
    | .UInt256 =>
      match readLE 32 bytes with
      | none => .err "failed to fill whole buffer"
      | some (n, rest) =>
        .ok (.UInt256 (n / Nat.pow 2 128, n % Nat.pow 2 128), rest)
    | .Int8 => readLEI 1 Value.Int8 bytes
    | .Int16 => readLEI 2 Value.Int16 bytes
    | .Int32 => readLEI 4 Value.Int32 bytes
    | .Int64 => readLEI 8 Value.Int64 bytes
    | .Int128 => readLEI 16 Value.Int128 bytes
    | .Int256 =>
      match readLE 32 bytes with
      | none => .err "failed to fill whole buffer"
      | some (n, rest) =>
        .ok (.Int256 (unTwos 16 (n / Nat.pow 2 128),
          unTwos 16 (n % Nat.pow 2 128)), rest)
    | .Float32 => readLEU 4 Value.Float32 bytes
    | .Float64 => readLEU 8 Value.Float64 bytes
    | .Decimal _ _ => .panicked "RowBinary format Decimal"
    | .Decimal32 _ => .panicked "RowBinary format Decimal32"
    | .Decimal64 _ => .panicked "RowBinary format Decimal64"
    | .Decimal128 _ => .panicked "RowBinary format Decimal128"
    | .Decimal256 _ => .panicked "RowBinary format Decimal256"
    | .Bool =>
      match readExact 1 bytes with
      | none => .err "failed to fill whole buffer"
      | some (buf, rest) =>
        if buf == [0] then .ok (.Bool false, rest)
        else if buf == [1] then .ok (.Bool true, rest)
        else .err "Invalid bool value"
    | .String => (parseValueStr bytes).map fun p => (.String p.1, p.2)
    | .FixedString n =>
      match readExact n bytes with
      | none => .err "failed to fill whole buffer"
      | some (buf, rest) =>
        if utf8Valid buf then .ok (.String buf, rest)
        else .err "invalid utf-8 sequence"
    | .UUID =>
      match readExact 8 bytes with
      | none => .err "failed to fill whole buffer"
      | some (b1, r1) =>
        match readExact 8 r1 with
        | none => .err "failed to fill whole buffer"
        | some (b2, r2) => .ok (.UUID (b1.reverse ++ b2.reverse), r2)
    | .Date => readLEU 2 Value.Date bytes
    | .Date32 => readLEI 4 Value.Date32 bytes
    | .DateTime => readLEU 4 Value.DateTime bytes
    | .DateTime64 _ => readLEI 8 Value.DateTime64 bytes
    | .Enum8 _ => readLEI 1 Value.Enum8 bytes
    | .Enum16 _ => readLEI 2 Value.Enum16 bytes
    | .Array t =>
      match lebRead bytes with
      | none => .err "leb128 read failure"
      | some (n, rest) =>
        (parseArrayN (parseValue f t) n rest).map fun p => (.Array p.1, p.2)
    | .Tuple ts =>
      (parseTupleTs (parseValue f) ts bytes).map fun p => (.Tuple p.1, p.2)
    | .Map _ tv =>
      match lebRead bytes with
      | none => .err "leb128 read failure"
      | some (n, rest) =>
        (parseMapN (parseValue f tv) n rest []).map fun p => (.Map p.1, p.2)
    | .Nested fields =>
      (parseNestedF (parseValue f) fields bytes []).map fun p =>
        (.Nested p.1, p.2)
    | .NullableUInt8 => parseNullable (parseValue f) (.NullableUInt8 none) .UInt8 bytes
    | .NullableUInt16 => parseNullable (parseValue f) (.NullableUInt16 none) .UInt16 bytes
    | .NullableUInt32 => parseNullable (parseValue f) (.NullableUInt32 none) .UInt32 bytes
    | .NullableUInt64 => parseNullable (parseValue f) (.NullableUInt64 none) .UInt64 bytes
    | .NullableUInt128 => parseNullable (parseValue f) (.NullableUInt128 none) .UInt128 bytes
    | .NullableUInt256 => parseNullable (parseValue f) (.NullableUInt256 none) .UInt256 bytes
    | .NullableInt8 => parseNullable (parseValue f) (.NullableInt8 none) .Int8 bytes
    | .NullableInt16 => parseNullable (parseValue f) (.NullableInt16 none) .Int16 bytes
    | .NullableInt32 => parseNullable (parseValue f) (.NullableInt32 none) .Int32 bytes
    | .NullableInt64 => parseNullable (parseValue f) (.NullableInt64 none) .Int64 bytes
    | .NullableInt128 => parseNullable (parseValue f) (.NullableInt128 none) .Int128 bytes
    | .NullableInt256 => parseNullable (parseValue f) (.NullableInt256 none) .Int256 bytes
    | .NullableFloat32 => parseNullable (parseValue f) (.NullableFloat32 none) .Float32 bytes
    | .NullableFloat64 => parseNullable (parseValue f) (.NullableFloat64 none) .Float64 bytes
    | .NullableDecimal _ _ => .panicked "RowBinary format Decimal"
    | .NullableDecimal32 _ => .panicked "RowBinary format Decimal32"
    | .NullableDecimal64 _ => .panicked "RowBinary format Decimal64"
    | .NullableDecimal128 _ => .panicked "RowBinary format Decimal128"
    | .NullableDecimal256 _ => .panicked "RowBinary format Decimal256"
    | .NullableBool => parseNullable (parseValue f) (.NullableBool none) .Bool bytes
    | .NullableString => parseNullable (parseValue f) (.NullableString none) .String bytes
    | .NullableFixedString n =>
      parseNullable (parseValue f) (.NullableString none) (.FixedString n) bytes
    | .NullableUUID => parseNullable (parseValue f) (.NullableUUID none) .UUID bytes
    | .NullableDate => parseNullable (parseValue f) (.NullableDate none) .Date bytes
    | .NullableDate32 => parseNullable (parseValue f) (.NullableDate32 none) .Date32 bytes
    | .NullableDateTime =>
      parseNullable (parseValue f) (.NullableDateTime none) .DateTime bytes
    | .NullableDateTime64 p =>
      parseNullable (parseValue f) (.NullableDateTime64 none) (.DateTime64 p) bytes
    | .NullableEnum8 vars =>
      parseNullable (parseValue f) (.NullableEnum8 none) (.Enum8 vars) bytes
    | .NullableEnum16 vars =>
      parseNullable (parseValue f) (.NullableEnum16 none) (.Enum16 vars) bytes

/-- `Formatter::deserialize_value` for `RowBinFormatter`: parse one value,
then reject leftover bytes. -/
def deserializeValue (f : Nat) (bytes : Bytes) (ty : Ty) : PRes Value :=
  (parseValue f ty bytes).bind fun p =>
    if p.2.isEmpty then .ok p.1
    else .err "Value bytes has remaining bytes"

/-- The `$NULL_TY(None)` value each nullable arm of `parse_value` returns on
discriminant `0x01` (`NullableFixedString` yields `NullableString(None)`);
`none` for every non-nullable type and for the unimplemented `Decimal`
nullables. -/
def nullNoneOf : Ty → Option Value
  | .NullableUInt8 => some (.NullableUInt8 none)
  | .NullableUInt16 => some (.NullableUInt16 none)
  | .NullableUInt32 => some (.NullableUInt32 none)
  | .NullableUInt64 => some (.NullableUInt64 none)
  | .NullableUInt128 => some (.NullableUInt128 none)
  | .NullableUInt256 => some (.NullableUInt256 none)
  | .NullableInt8 => some (.NullableInt8 none)
  | .NullableInt16 => some (.NullableInt16 none)
  | .NullableInt32 => some (.NullableInt32 none)
  | .NullableInt64 => some (.NullableInt64 none)
  | .NullableInt128 => some (.NullableInt128 none)
  | .NullableInt256 => some (.NullableInt256 none)
  | .NullableFloat32 => some (.NullableFloat32 none)
  | .NullableFloat64 => some (.NullableFloat64 none)
  | .NullableBool => some (.NullableBool none)
  | .NullableString => some (.NullableString none)
  | .NullableFixedString _ => some (.NullableString none)
  | .NullableUUID => some (.NullableUUID none)
  | .NullableDate => some (.NullableDate none)
  | .NullableDate32 => some (.NullableDate32 none)
  | .NullableDateTime => some (.NullableDateTime none)
  | .NullableDateTime64 _ => some (.NullableDateTime64 none)
  | .NullableEnum8 _ => some (.NullableEnum8 none)
  | .NullableEnum16 _ => some (.NullableEnum16 none)
  | _ => none

-- ## QueryData (`src/query/data.rs`)

/-- `enum QueryData`. -/
inductive QueryData where
  | NoHeaders (rows : List (List Value))
  | WithNames (names : List RStr) (rows : List (List Value))
  | WithNamesAndTypes (nts : List (RStr × Ty)) (rows : List (List Value))

/-- `QueryData::get_rows`. -/
def getRows : QueryData → List (List Value)
  | .NoHeaders rows => rows
  | .WithNames _ rows => rows
  | .WithNamesAndTypes _ rows => rows

/-- `QueryData::n_rows`. -/
def nRows (d : QueryData) : Nat := (getRows d).length

/-- `QueryData::get_columns`. -/
def getColumns : QueryData → Option (List (RStr × Option Ty))
  | .NoHeaders _ => none
  | .WithNames names _ => some (names.map (fun n => (n, none)))
  | .WithNamesAndTypes nts _ => some (nts.map (fun nt => (nt.1, some nt.2)))

/-- `QueryData::n_cols`: header width when headers exist, else the first
row's width (0 for an empty table). -/
def nCols (d : QueryData) : Nat :=
  match getColumns d with
  | some cols => cols.length
  | none => ((getRows d).head?.map List.length).getD 0

/-- `QueryData::get_types`. -/
def getTypes : QueryData → Option (List Ty)
  | .NoHeaders _ => none
  | .WithNames _ _ => none
  | .WithNamesAndTypes nts _ => some (nts.map (fun nt => nt.2))

/-- `self.get_rows_mut().push(row)`. -/
def pushRow : QueryData → List Value → QueryData
  | .NoHeaders rows, row => .NoHeaders (rows ++ [row])
  | .WithNames names rows, row => .WithNames names (rows ++ [row])
  | .WithNamesAndTypes nts rows, row => .WithNamesAndTypes nts (rows ++ [row])

/-- The type-check loop of `add_row_checked`: cell `i` is checked only when
column `i` exists and carries a type (`columns.get(i)` is
`Some((_, Some(ty)))`). -/
def rowTypeCheck (f : Nat) : List (RStr × Option Ty) → List Value → Bool
  | _, [] => true
  | [], _ :: _ => true
  | (_, some ty) :: cols, v :: row =>
    isSameTypeAsF f v ty && rowTypeCheck f cols row
  | (_, none) :: cols, _ :: row => rowTypeCheck f cols row

/-- `QueryData::add_row_checked`.  `dbg` models `cfg(debug_assertions)`:
both panics exist only in debug builds; in release builds the row is pushed
unconditionally.  Panic messages are modelled without their interpolated
values. -/
def addRowChecked (dbg : Bool) (f : Nat) (d : QueryData) (row : List Value) :
    PRes QueryData :=
  if dbg && decide (0 < nCols d) && decide (row.length ≠ nCols d) then
    .panicked "Row length does not match the number of columns"
  else if dbg && (match getColumns d with
      | some cols => !rowTypeCheck f cols row
      | none => false) then
    .panicked "Field should have the type"
  else .ok (pushRow d row)

-- ## RowBinary table parsing (`RowBinFormatter::parse_data`)

/-- The `for _i in 0..n` column-name loop. -/
def parseNamesN : Nat → Bytes → PRes (List RStr × Bytes)
  | 0, bytes => .ok ([], bytes)
  | n + 1, bytes =>
    (parseValueStr bytes).bind fun k =>
      (parseNamesN n k.2).map fun q => (k.1 :: q.1, q.2)

/-- The `for i in 0..n` column-type loop: each type string is read and fed
to `Type::from_str`; `names.get(i)` missing is the `"Missing column name"`
error. -/
def parseTypesN (names : List RStr) : Nat → Nat → Bytes →
    PRes (List (RStr × Ty) × Bytes)
  | _, 0, bytes => .ok ([], bytes)
  | i, n + 1, bytes =>
    (parseValueStr bytes).bind fun ts =>
      match tyFromStr ts.1 with
      | .error e => .err e
      | .ok ty =>
        match names.get? i with
        | none => .err "Missing column name"
        | some name =>
          (parseTypesN names (i + 1) n ts.2).map fun q =>
            ((name, ty) :: q.1, q.2)

/-- The `while !bytes.is_empty()` row loop: one value per column type,
rows appended via `add_row` (debug-checked).  `rowFuel` bounds the number
of rows (the loop diverges in Rust when `types` is empty and bytes
remain). -/
def parseRowsRB (dbg : Bool) (g : Nat) (types : List Ty) :
    Nat → QueryData → Bytes → PRes QueryData
  | 0, _, _ => .err "row budget exhausted"
  | _ + 1, d, [] => .ok d
  | rowFuel + 1, d, b :: bytes =>
    (parseTupleTs (parseValue g) types (b :: bytes)).bind fun p =>
      (addRowChecked dbg g d p.1).bind fun d2 =>
        parseRowsRB dbg g types rowFuel d2 p.2

/-- `RowBinFormatter::parse_data`.  The header length read is the source's
`leb128::read::unsigned(bytes).unwrap()` — a panic, not an error, on
truncated input.  The per-column loop of the row parser is shared with the
`Tuple` arm (`parseTupleTs`), which performs exactly the same iteration. -/
def parseDataRB (withNames withTypes dbg : Bool) (g rowFuel : Nat)
    (bytes : Bytes) (mapping : Option (List (RStr × Ty))) : PRes QueryData :=
  let hdr : PRes (QueryData × Bytes) :=
    if withNames then
      match lebRead bytes with
      | none => .panicked "leb128 read unwrap"
      | some (n, rest) =>
        (parseNamesN n rest).bind fun ns =>
          if withTypes then
            (parseTypesN ns.1 0 n ns.2).map fun q =>
              (QueryData.WithNamesAndTypes q.1 [], q.2)
          else .ok (QueryData.WithNames ns.1 [], ns.2)
    else .ok (QueryData.NoHeaders [], bytes)
  hdr.bind fun dr =>
    let tys : PRes (List Ty) :=
      match getTypes dr.1 with
      | some types => .ok types
      | none =>
        match mapping with
        | some mp => .ok (mp.map (fun nt => nt.2))
        | none => .err "Deserializing data requires a mapping table"
    tys.bind fun types => parseRowsRB dbg g types rowFuel dr.1 dr.2

/-- The result is a modelled panic. -/
def isPanic {α : Type} : PRes α → Bool
  | .panicked _ => true
  | _ => false

/-- Types whose RowBinary parse avoids the `unimplemented!` `Decimal` arms,
through every container the parser descends into. -/
def decFreeF : Nat → Ty → Bool
  | 0, _ => false
  | f + 1, ty =>
    match ty with
    | .Decimal _ _ => false
    | .Decimal32 _ => false
    | .Decimal64 _ => false
    | .Decimal128 _ => false
    | .Decimal256 _ => false
    | .NullableDecimal _ _ => false
    | .NullableDecimal32 _ => false
    | .NullableDecimal64 _ => false
    | .NullableDecimal128 _ => false
    | .NullableDecimal256 _ => false
    | .Array t => decFreeF f t
    | .Tuple ts => ts.all (decFreeF f)
    | .Map _ tv => decFreeF f tv
    | .Nested fs => fs.all (fun p => decFreeF f p.2)
    | _ => true

-- ## TabSeparated format (`src/query/fmt/tab/mod.rs`)

/-- `StringExt::escape`: four sequential single-character replaces. -/
def escape (s : RStr) : RStr :=
  replaceB [39] [92, 39] (replaceB [9] [92, 116]
    (replaceB [32] [92, 110] (replaceB [92] [92, 98] s)))

/-- `StringExt::unescape`: four sequential two-character replaces, in the
same order. -/
def unescape (s : RStr) : RStr :=
  replaceB [92, 39] [39] (replaceB [92, 116] [9]
    (replaceB [92, 110] [32] (replaceB [92, 98] [92] s)))

/-- `StringExt::enclose`: wrap in single quotes. -/
def enclose (s : RStr) : RStr := 39 :: s ++ [39]

/-- `StringExt::unenclose`: strip every leading and trailing quote. -/
def unenclose (s : RStr) : RStr :=
  trimEndMatchesB 39 (trimStartMatchesB 39 s)

/-- External renderings/parsers the TSV codec takes from other crates
(float `Display`/`FromStr`, `uuid`, `time`).  The date channel follows
`value/ext/time.rs`: `date32Str` renders a `time::Date` keyed by its day
number (`format_yyyy_mm_dd` of `from_unix_days`), and `date32Parse` is
`Date::parse_yyyy_mm_dd` composed with `unix_days`; `dateTimeStr` and
`dateTimeParse` are the whole-second pair (`…_hh_mm_ss`), `dateTime64Str`
and `dateTime64Parse` the nanosecond pair (`…_hh_mm_ss_ns`, whose format
always carries a subsecond field, so the two formats do not cross-parse). -/
structure TsvExt where
  f32Str : Nat → RStr
  f64Str : Nat → RStr
  uuidStr : List Nat → RStr
  date32Str : Int → RStr
  dateTimeStr : Nat → RStr
  dateTime64Str : Int → RStr
  f32Parse : RStr → Option Nat
  f64Parse : RStr → Option Nat
  uuidParse : RStr → Option (List Nat)
  date32Parse : RStr → Option Int
  dateTimeParse : RStr → Option Nat
  dateTime64Parse : RStr → Option Int

/-- Insertion into a `lexLt`-sorted list (`Vec<String>::sort`). -/
def insertLex (x : RStr) : List RStr → List RStr
  | [] => [x]
  | y :: l => if lexLt y x then y :: insertLex x l else x :: y :: l

/-- Sort rendered map entries (`kv.sort()`). -/
def sortLex : List RStr → List RStr
  | [] => []
  | x :: l => insertLex x (sortLex l)

/-- `TsvFormatter::format_value_iter`.  `U256`/`I256` `Display` render the
recombined 256-bit integer in decimal; `Map` renders sorted
`'key': value` entries; `Nested` re-enters as the `Array` of its values
with `is_within_array = false`. -/
def formatValueTsv (raw : Bool) (ext : TsvExt) : Nat → Value → Bool → RStr
  | 0, _, _ => []
  | f + 1, v, iwa =>
    match v with
    | .UInt8 v => natDec v
    | .UInt16 v => natDec v
    | .UInt32 v => natDec v
    | .UInt64 v => natDec v
    | .UInt128 v => natDec v
    | .UInt256 p => natDec (p.1 * Nat.pow 2 128 + p.2)
    | .Int8 v => intDec v
    | .Int16 v => intDec v
    | .Int32 v => intDec v
    | .Int64 v => intDec v
    | .Int128 v => intDec v
    | .Int256 p => intDec (p.1 * ((Nat.pow 2 128 : Nat) : Int) +
        p.2.emod ((Nat.pow 2 128 : Nat) : Int))
    | .Float32 b => ext.f32Str b
    | .Float64 b => ext.f64Str b
    | .Bool b => if b then bs "true" else bs "false"
    | .String s =>
      let e := if raw then s else escape s
      if iwa then enclose e else e
    | .UUID u => ext.uuidStr u
    | .Date v =>
      if iwa then enclose (ext.date32Str (v : Int)) else ext.date32Str (v : Int)
    | .Date32 v => if iwa then enclose (ext.date32Str v) else ext.date32Str v
    | .DateTime v =>
      if iwa then enclose (ext.dateTimeStr v) else ext.dateTimeStr v
    | .DateTime64 v =>
      if iwa then enclose (ext.dateTime64Str v) else ext.dateTime64Str v
    | .Enum8 v => intDec v
    | .Enum16 v => intDec v
    | .Array vs =>
      91 :: joinComma (vs.map (fun v => formatValueTsv raw ext f v true))
        ++ [93]
    | .Tuple vs =>
      40 :: joinComma (vs.map (fun v => formatValueTsv raw ext f v true))
        ++ [41]
    | .Map m =>
      123 :: joinComma (sortLex (m.map (fun kv =>
        39 :: kv.1 ++ bs "\': " ++ formatValueTsv raw ext f kv.2 true)))
        ++ [125]
    | .Nested m =>
      formatValueTsv raw ext f (.Array (m.map (fun kv => kv.2))) false
    | .NullableUInt8 o =>
      match o with
      | some v => formatValueTsv raw ext f (.UInt8 v) iwa
      | none => bs "\\N"
    | .NullableUInt16 o =>
      match o with
      | some v => formatValueTsv raw ext f (.UInt16 v) iwa
      | none => bs "\\N"
    | .NullableUInt32 o =>
      match o with
      | some v => formatValueTsv raw ext f (.UInt32 v) iwa
      | none => bs "\\N"
    | .NullableUInt64 o =>
      match o with
      | some v => formatValueTsv raw ext f (.UInt64 v) iwa
      | none => bs "\\N"
    | .NullableUInt128 o =>
      match o with
      | some v => formatValueTsv raw ext f (.UInt128 v) iwa
      | none => bs "\\N"
    | .NullableUInt256 o =>
      match o with
      | some v => formatValueTsv raw ext f (.UInt256 v) iwa
      | none => bs "\\N"
    | .NullableInt8 o =>
      match o with
      | some v => formatValueTsv raw ext f (.Int8 v) iwa
      | none => bs "\\N"
    | .NullableInt16 o =>
      match o with
      | some v => formatValueTsv raw ext f (.Int16 v) iwa
      | none => bs "\\N"
    | .NullableInt32 o =>
      match o with
      | some v => formatValueTsv raw ext f (.Int32 v) iwa
      | none => bs "\\N"
    | .NullableInt64 o =>
      match o with
      | some v => formatValueTsv raw ext f (.Int64 v) iwa
      | none => bs "\\N"
    | .NullableInt128 o =>
      match o with
      | some v => formatValueTsv raw ext f (.Int128 v) iwa
      | none => bs "\\N"
    | .NullableInt256 o =>
      match o with
      | some v => formatValueTsv raw ext f (.Int256 v) iwa
      | none => bs "\\N"
    | .NullableFloat32 o =>
      match o with
      | some v => formatValueTsv raw ext f (.Float32 v) iwa
      | none => bs "\\N"
    | .NullableFloat64 o =>
      match o with
      | some v => formatValueTsv raw ext f (.Float64 v) iwa
      | none => bs "\\N"
    | .NullableBool o =>
      match o with
      | some v => formatValueTsv raw ext f (.Bool v) iwa
      | none => bs "\\N"
    | .NullableString o =>
      match o with
      | some v => formatValueTsv raw ext f (.String v) iwa
      | none => bs "\\N"
    | .NullableUUID o =>
      match o with
      | some v => formatValueTsv raw ext f (.UUID v) iwa
      | none => bs "\\N"
    | .NullableDate o =>
      match o with
      | some v => formatValueTsv raw ext f (.Date v) iwa
      | none => bs "\\N"
    | .NullableDate32 o =>
      match o with
      | some v => formatValueTsv raw ext f (.Date32 v) iwa
      | none => bs "\\N"
    | .NullableDateTime o =>
      match o with
      | some v => formatValueTsv raw ext f (.DateTime v) iwa
      | none => bs "\\N"
    | .NullableDateTime64 o =>
      match o with
      | some v => formatValueTsv raw ext f (.DateTime64 v) iwa
      | none => bs "\\N"
    | .NullableEnum8 o =>
      match o with
      | some v => formatValueTsv raw ext f (.Enum8 v) iwa
      | none => bs "\\N"
    | .NullableEnum16 o =>
      match o with
      | some v => formatValueTsv raw ext f (.Enum16 v) iwa
      | none => bs "\\N"

/-- The element loop of the TSV `Array` parse arm. -/
def tsvPartsLoop (pv : RStr → PRes Value) : List RStr → PRes (List Value)
  | [] => .ok []
  | p :: ps =>
    (pv (trimB p)).bind fun v =>
      (tsvPartsLoop pv ps).map fun vs => v :: vs

/-- The element loop of the `Tuple` arm (`types[i]` indexing; the length
check keeps the index in bounds, so the middle arm is unreachable). -/
def tsvTupleLoop (pv : Ty → RStr → PRes Value) :
    List RStr → List Ty → PRes (List Value)
  | [], _ => .ok []
  | _ :: _, [] => .panicked "index out of bounds"
  | p :: ps, t :: ts =>
    (pv t (trimB p)).bind fun v =>
      (tsvTupleLoop pv ps ts).map fun vs => v :: vs

/-- The entry loop of the `Map` arm: each entry splits at `':'` into
exactly two parts, key unenclosed, value parsed recursively. -/
def tsvMapLoop (pv : RStr → PRes Value) :
    List RStr → List (RStr × Value) → PRes (List (RStr × Value))
  | [], acc => .ok acc
  | kv :: kvs, acc =>
    match splitSep 58 (trimB kv) with
    | [p0, p1] =>
      (pv (trimB p1)).bind fun v =>
        tsvMapLoop pv kvs (hmInsert acc (unenclose (trimB p0)) v)
    | _ => .err "Invalid map"

/-- The element loop of the `Nested` arm: `fields.get(i)` missing is the
`"Invalid nested value"` error; entries are keyed by the field names. -/
def tsvNestedLoop (pv : Ty → RStr → PRes Value) :
    List RStr → List (RStr × Ty) → List (RStr × Value) →
      PRes (List (RStr × Value))
  | [], _, acc => .ok acc
  | _ :: _, [], _ => .err "Invalid nested value"
  | p :: ps, ft :: fs, acc =>
    (pv ft.2 (trimB p)).bind fun v =>
      tsvNestedLoop pv ps fs (hmInsert acc ft.1 v)

/-- `TsvFormatter::parse_value_iter`.  The `Decimal` family parses as
`f64` and yields `Float64` values; the `Date | Date32` arm ends in
`Ok(date.into())`, which is `Value::Date32(date.unix_days())`
(`value/ext/time.rs`: "Date is mapped to Value::Date32"); the `DateTime`
arm ends in `Ok(dt.into())`, which is
`Value::DateTime64(dt.unix_nanoseconds())` — seconds times `10^9` for the
whole-second parse; the nullable arms compare against `"\N"` and otherwise
parse the inner type with `is_within_array = false` and `unwrap` the
`into_nullable`. -/
def parseValueTsv (ext : TsvExt) : Nat → Ty → RStr → Bool → PRes Value
  | 0, _, _, _ => .err "recursion budget exhausted"
  | f + 1, ty, s, iwa =>
    match ty with
    | .UInt8 =>
      match parseUIntR 255 s with
      | some v => .ok (.UInt8 v)
      | none => .err "invalid digit found in string"
    | .UInt16 =>
      match parseUIntR 65535 s with
      | some v => .ok (.UInt16 v)
      | none => .err "invalid digit found in string"
    | .UInt32 =>
      match parseUIntR 4294967295 s with
      | some v => .ok (.UInt32 v)
      | none => .err "invalid digit found in string"
    | .UInt64 =>
      match parseUIntR (Nat.pow 2 64 - 1) s with
      | some v => .ok (.UInt64 v)
      | none => .err "invalid digit found in string"
    | .UInt128 =>
      match parseUIntR (Nat.pow 2 128 - 1) s with
      | some v => .ok (.UInt128 v)
      | none => .err "invalid digit found in string"
    | .UInt256 =>
      match parseUIntR (Nat.pow 2 256 - 1) s with
      | some v => .ok (.UInt256 (v / Nat.pow 2 128, v % Nat.pow 2 128))
      | none => .err "invalid digit found in string"
    | .Int8 =>
      match parseIntR (-128) 127 s with
      | some v => .ok (.Int8 v)
      | none => .err "invalid digit found in string"
    | .Int16 =>
      match parseIntR (-32768) 32767 s with
      | some v => .ok (.Int16 v)
      | none => .err "invalid digit found in string"
    | .Int32 =>
      match parseIntR (-2147483648) 2147483647 s with
      | some v => .ok (.Int32 v)
      | none => .err "invalid digit found in string"
    | .Int64 =>
      match parseIntR (-((Nat.pow 2 63 : Nat) : Int)) (((Nat.pow 2 63 - 1 : Nat) : Int)) s with
      | some v => .ok (.Int64 v)
      | none => .err "invalid digit found in string"
    | .Int128 =>
      match parseIntR (-((Nat.pow 2 127 : Nat) : Int)) (((Nat.pow 2 127 - 1 : Nat) : Int)) s with
      | some v => .ok (.Int128 v)
      | none => .err "invalid digit found in string"
    | .Int256 =>
      match parseIntR (-((Nat.pow 2 255 : Nat) : Int))
          (((Nat.pow 2 255 - 1 : Nat) : Int)) s with
      | some v =>
        .ok (.Int256 (unTwos 16 ((v.emod (Nat.pow 2 256)).toNat / Nat.pow 2 128),
          unTwos 16 ((v.emod (Nat.pow 2 256)).toNat % Nat.pow 2 128)))
      | none => .err "invalid digit found in string"
    | .Float32 =>
      match ext.f32Parse s with
      | some b => .ok (.Float32 b)
      | none => .err "invalid float literal"
    | .Float64 =>
      match ext.f64Parse s with
      | some b => .ok (.Float64 b)
      | none => .err "invalid float literal"
    | .Decimal _ _ | .Decimal32 _ | .Decimal64 _ | .Decimal128 _
    | .Decimal256 _ =>
      match ext.f64Parse s with
      | some b => .ok (.Float64 b)
      | none => .err "invalid float literal"
    | .Bool =>
      if s == bs "true" then .ok (.Bool true)
      else if s == bs "false" then .ok (.Bool false)
      else .err "provided string was not true or false"
    | .String =>
      .ok (.String (if iwa then unenclose (unescape s) else unescape s))
    | .FixedString _ =>
      .ok (.String (if iwa then unenclose (unescape s) else unescape s))
    | .UUID =>
      match ext.uuidParse s with
      | some u => .ok (.UUID u)
      | none => .err "invalid UUID"
    | .Date | .Date32 =>
      match ext.date32Parse (if iwa then unenclose s else s) with
      | some d => .ok (.Date32 d)
      | none => .err "invalid date"
    | .DateTime =>
      match ext.dateTimeParse (if iwa then unenclose s else s) with
      | some d => .ok (.DateTime64 ((d : Int) * 1000000000))
      | none => .err "invalid datetime"
    | .DateTime64 _ =>
      match ext.dateTime64Parse (if iwa then unenclose s else s) with
      | some d => .ok (.DateTime64 d)
      | none => .err "invalid datetime"
    | .Enum8 vars =>
      match vars.find? (fun kv => kv.1 == s) with
      | some kv => .ok (.Enum8 kv.2)
      | none => .err "Invalid enum variant"
    | .Enum16 vars =>
      match vars.find? (fun kv => kv.1 == s) with
      | some kv => .ok (.Enum16 kv.2)
      | none => .err "Invalid enum variant"
    | .Array t =>
      match stripPrefixB [91] (trimB s) with
      | none => .err "Invalid array"
      | some s1 =>
        match stripSuffixB [93] s1 with
        | none => .err "Invalid array"
        | some s2 =>
          (tsvPartsLoop (fun p => parseValueTsv ext f t p true)
            (splitSep 44 (trimB s2))).map fun vs => .Array vs
    | .Tuple ts =>
      match stripPrefixB [40] (trimB s) with
      | none => .err "Invalid tuple"
      | some s1 =>
        match stripSuffixB [41] s1 with
        | none => .err "Invalid tuple"
        | some s2 =>
          if (splitSep 44 (trimB s2)).length ≠ ts.length then
            .err "Invalid tuple"
          else
            (tsvTupleLoop (fun t2 p => parseValueTsv ext f t2 p true)
              (splitSep 44 (trimB s2)) ts).map fun vs => .Tuple vs
    | .Map _ tv =>
      match stripPrefixB [123] (trimB s) with
      | none => .err "Invalid map"
      | some s1 =>
        match stripSuffixB [125] s1 with
        | none => .err "Invalid map"
        | some s2 =>
          (tsvMapLoop (fun p => parseValueTsv ext f tv p true)
            (splitSep 44 (trimB s2)) []).map fun m => .Map m
    | .Nested fields =>
      match stripPrefixB [91] (trimB s) with
      | none => .err "Invalid array"
      | some s1 =>
        match stripSuffixB [93] s1 with
        | none => .err "Invalid array"
        | some s2 =>
          (tsvNestedLoop (fun t2 p => parseValueTsv ext f t2 p true)
            (splitSep 44 (trimB s2)) fields []).map fun m => .Nested m
    | .NullableUInt8 =>
      if s == bs "\\N" then .ok (.NullableUInt8 none)
      else
        (parseValueTsv ext f .UInt8 s false).bind fun v =>
          match intoNullable v with
          | some nv => .ok nv
          | none => .panicked "called Option unwrap on None"
    | .NullableUInt16 =>
      if s == bs "\\N" then .ok (.NullableUInt16 none)
      else
        (parseValueTsv ext f .UInt16 s false).bind fun v =>
          match intoNullable v with
          | some nv => .ok nv
          | none => .panicked "called Option unwrap on None"
    | .NullableUInt32 =>
      if s == bs "\\N" then .ok (.NullableUInt32 none)
      else
        (parseValueTsv ext f .UInt32 s false).bind fun v =>
          match intoNullable v with
          | some nv => .ok nv
          | none => .panicked "called Option unwrap on None"
    | .NullableUInt64 =>
      if s == bs "\\N" then .ok (.NullableUInt64 none)
      else
        (parseValueTsv ext f .UInt64 s false).bind fun v =>
          match intoNullable v with
          | some nv => .ok nv
          | none => .panicked "called Option unwrap on None"
    | .NullableUInt128 =>
      if s == bs "\\N" then .ok (.NullableUInt128 none)
      else
        (parseValueTsv ext f .UInt128 s false).bind fun v =>
          match intoNullable v with
          | some nv => .ok nv
          | none => .panicked "called Option unwrap on None"
    | .NullableUInt256 =>
      if s == bs "\\N" then .ok (.NullableUInt256 none)
      else
        (parseValueTsv ext f .UInt256 s false).bind fun v =>
          match intoNullable v with
          | some nv => .ok nv
          | none => .panicked "called Option unwrap on None"
    | .NullableInt8 =>
      if s == bs "\\N" then .ok (.NullableInt8 none)
      else
        (parseValueTsv ext f .Int8 s false).bind fun v =>
          match intoNullable v with
          | some nv => .ok nv
          | none => .panicked "called Option unwrap on None"
    | .NullableInt16 =>
      if s == bs "\\N" then .ok (.NullableInt16 none)
      else
        (parseValueTsv ext f .Int16 s false).bind fun v =>
          match intoNullable v with
          | some nv => .ok nv
          | none => .panicked "called Option unwrap on None"
    | .NullableInt32 =>
      if s == bs "\\N" then .ok (.NullableInt32 none)
      else
        (parseValueTsv ext f .Int32 s false).bind fun v =>
          match intoNullable v with
          | some nv => .ok nv
          | none => .panicked "called Option unwrap on None"
    | .NullableInt64 =>
      if s == bs "\\N" then .ok (.NullableInt64 none)
      else
        (parseValueTsv ext f .Int64 s false).bind fun v =>
          match intoNullable v with
          | some nv => .ok nv
          | none => .panicked "called Option unwrap on None"
    | .NullableInt128 =>
      if s == bs "\\N" then .ok (.NullableInt128 none)
      else
        (parseValueTsv ext f .Int128 s false).bind fun v =>
          match intoNullable v with
          | some nv => .ok nv
          | none => .panicked "called Option unwrap on None"
    | .NullableInt256 =>
      if s == bs "\\N" then .ok (.NullableInt256 none)
      else
        (parseValueTsv ext f .Int256 s false).bind fun v =>
          match intoNullable v with
          | some nv => .ok nv
          | none => .panicked "called Option unwrap on None"
    | .NullableFloat32 =>
      if s == bs "\\N" then .ok (.NullableFloat32 none)
      else
        (parseValueTsv ext f .Float32 s false).bind fun v =>
          match intoNullable v with
          | some nv => .ok nv
          | none => .panicked "called Option unwrap on None"
    | .NullableFloat64 =>
      if s == bs "\\N" then .ok (.NullableFloat64 none)
      else
        (parseValueTsv ext f .Float64 s false).bind fun v =>
          match intoNullable v with
          | some nv => .ok nv
          | none => .panicked "called Option unwrap on None"
    | .NullableDecimal p s2 =>
      if s == bs "\\N" then .ok (.NullableFloat64 none)
      else
        (parseValueTsv ext f (.Decimal p s2) s false).bind fun v =>
          match intoNullable v with
          | some nv => .ok nv
          | none => .panicked "called Option unwrap on None"
    | .NullableDecimal32 s2 =>
      if s == bs "\\N" then .ok (.NullableFloat64 none)
      else
        (parseValueTsv ext f (.Decimal32 s2) s false).bind fun v =>
          match intoNullable v with
          | some nv => .ok nv
          | none => .panicked "called Option unwrap on None"
    | .NullableDecimal64 s2 =>
      if s == bs "\\N" then .ok (.NullableFloat64 none)
      else
        (parseValueTsv ext f (.Decimal64 s2) s false).bind fun v =>
          match intoNullable v with
          | some nv => .ok nv
          | none => .panicked "called Option unwrap on None"
    | .NullableDecimal128 s2 =>
      if s == bs "\\N" then .ok (.NullableFloat64 none)
      else
        (parseValueTsv ext f (.Decimal128 s2) s false).bind fun v =>
          match intoNullable v with
          | some nv => .ok nv
          | none => .panicked "called Option unwrap on None"
    | .NullableDecimal256 s2 =>
      if s == bs "\\N" then .ok (.NullableFloat64 none)
      else
        (parseValueTsv ext f (.Decimal256 s2) s false).bind fun v =>
          match intoNullable v with
          | some nv => .ok nv
          | none => .panicked "called Option unwrap on None"
    | .NullableBool =>
      if s == bs "\\N" then .ok (.NullableBool none)
      else
        (parseValueTsv ext f .Bool s false).bind fun v =>
          match intoNullable v with
          | some nv => .ok nv
          | none => .panicked "called Option unwrap on None"
    | .NullableString =>
      if s == bs "\\N" then .ok (.NullableString none)
      else
        (parseValueTsv ext f .String s false).bind fun v =>
          match intoNullable v with
          | some nv => .ok nv
          | none => .panicked "called Option unwrap on None"
    | .NullableUUID =>
      if s == bs "\\N" then .ok (.NullableUUID none)
      else
        (parseValueTsv ext f .UUID s false).bind fun v =>
          match intoNullable v with
          | some nv => .ok nv
          | none => .panicked "called Option unwrap on None"
    | .NullableDate =>
      if s == bs "\\N" then .ok (.NullableDate none)
      else
        (parseValueTsv ext f .Date s false).bind fun v =>
          match intoNullable v with
          | some nv => .ok nv
          | none => .panicked "called Option unwrap on None"
    | .NullableDate32 =>
      if s == bs "\\N" then .ok (.NullableDate32 none)
      else
        (parseValueTsv ext f .Date32 s false).bind fun v =>
          match intoNullable v with
          | some nv => .ok nv
          | none => .panicked "called Option unwrap on None"
    | .NullableDateTime =>
      if s == bs "\\N" then .ok (.NullableDateTime none)
      else
        (parseValueTsv ext f .DateTime s false).bind fun v =>
          match intoNullable v with
          | some nv => .ok nv
          | none => .panicked "called Option unwrap on None"
    | .NullableFixedString n =>
      if s == bs "\\N" then .ok (.NullableString none)
      else
        (parseValueTsv ext f (.FixedString n) s false).bind fun v =>
          match intoNullable v with
          | some nv => .ok nv
          | none => .panicked "called Option unwrap on None"
    | .NullableDateTime64 p =>
      if s == bs "\\N" then .ok (.NullableDateTime64 none)
      else
        (parseValueTsv ext f (.DateTime64 p) s false).bind fun v =>
          match intoNullable v with
          | some nv => .ok nv
          | none => .panicked "called Option unwrap on None"
    | .NullableEnum8 vars =>
      if s == bs "\\N" then .ok (.NullableEnum8 none)
      else
        (parseValueTsv ext f (.Enum8 vars) s false).bind fun v =>
          match intoNullable v with
          | some nv => .ok nv
          | none => .panicked "called Option unwrap on None"
    | .NullableEnum16 vars =>
      if s == bs "\\N" then .ok (.NullableEnum16 none)
      else
        (parseValueTsv ext f (.Enum16 vars) s false).bind fun v =>
          match intoNullable v with
          | some nv => .ok nv
          | none => .panicked "called Option unwrap on None"

/-- The `names` × `types` header zip of the TSV `parse_data`
(`(i, n) -> (n, types[i])`): indexing `types[i]` panics when the names row
has more cells than the types row. -/
def zipNT : List RStr → List Ty → PRes (List (RStr × Ty))
  | [], _ => .ok []
  | _ :: _, [] => .panicked "index out of bounds"
  | n :: ns, t :: ts => (zipNT ns ts).map fun l => (n, t) :: l

/-- `Type::from_str` over the cells of the types row; the first error is
returned. -/
def parseTyRow : List RStr → PRes (List Ty)
  | [] => .ok []
  | c :: cs =>
    match tyFromStr c with
    | .error e => .err e
    | .ok t => (parseTyRow cs).map fun ts => t :: ts

/-- The per-cell loop of one data row: `types.get(i)` missing is the
`"No type for value at index"` error. -/
def tsvRowLoop (pv : Ty → RStr → PRes Value) :
    List RStr → List Ty → PRes (List Value)
  | [], _ => .ok []
  | _ :: _, [] => .err "No type for value at index"
  | c :: cs, t :: ts =>
    (pv t c).bind fun v => (tsvRowLoop pv cs ts).map fun vs => v :: vs

/-- The row loop of the TSV `parse_data`: `break` at the first empty
line. -/
def tsvRowsLoop (pv : Ty → RStr → PRes Value) (dbg : Bool) (g : Nat)
    (types : List Ty) : List RStr → QueryData → PRes QueryData
  | [], d => .ok d
  | r :: rs, d =>
    if r.isEmpty then .ok d
    else
      (tsvRowLoop pv (splitSep 9 r) types).bind fun row =>
        (addRowChecked dbg g d row).bind fun d2 =>
          tsvRowsLoop pv dbg g types rs d2

/-- `TsvFormatter::parse_data`: split on newlines, consume the optional
name/type header rows, then parse data rows until the first empty line. -/
def parseDataTsv (withNames withTypes dbg : Bool) (ext : TsvExt) (g : Nat)
    (text : RStr) (mapping : Option (List (RStr × Ty))) : PRes QueryData :=
  ((if withNames then
    match splitSep 10 text with
    | [] => (.err "Table is missing the row with names" :
        PRes (QueryData × List RStr))
    | row0 :: rest =>
      let names := splitSep 9 row0
      if withTypes then
        match rest with
        | [] => .err "Table is missing the row with types"
        | row1 :: rest2 =>
          (parseTyRow (splitSep 9 row1)).bind fun types =>
            (zipNT names types).map fun nts =>
              (QueryData.WithNamesAndTypes nts [], rest2)
      else .ok (QueryData.WithNames names [], rest)
  else .ok (QueryData.NoHeaders [], splitSep 10 text)) :
      PRes (QueryData × List RStr)).bind fun dr =>
    ((match getTypes dr.1 with
    | some types => .ok types
    | none =>
      match mapping with
      | some mp => .ok (mp.map (fun nt => nt.2))
      | none => .err "Deserializing data requires a mapping table") :
        PRes (List Ty)).bind fun types =>
      tsvRowsLoop (fun t s => parseValueTsv ext g t s false) dbg g types
        dr.2 dr.1

/-- Modelled from the spec: the per-character escaping table of §4.5 —
backslash ↦ `\b`, space ↦ `\n`, tab ↦ `\t`, quote ↦ `\'`, all else
unchanged.  Compared below against the source-derived `escape`. -/
def escCharSpec (b : Nat) : RStr :=
  if b = 92 then [92, 98]
  else if b = 32 then [92, 110]
  else if b = 9 then [92, 116]
  else if b = 39 then [92, 39]
  else [b]

/-- The string after `unescape`'s first replace (`\b` ↦ `\`): backslashes
restored, the other three escapes still in place. -/
def escStage1 (b : Nat) : RStr :=
  if b = 32 then [92, 110]
  else if b = 9 then [92, 116]
  else if b = 39 then [92, 39]
  else [b]

/-- After the second replace (`\n` ↦ space). -/
def escStage2 (b : Nat) : RStr :=
  if b = 9 then [92, 116] else if b = 39 then [92, 39] else [b]

/-- After the third replace (`\t` ↦ tab). -/
def escStage3 (b : Nat) : RStr :=
  if b = 39 then [92, 39] else [b]

/-- No occurrence of byte `c` immediately followed by byte `d`. -/
def noSeq (c d : Nat) : RStr → Bool
  | a :: b :: s => !(a == c && b == d) && noSeq c d (b :: s)
  | _ => true

/-- The domain on which `unescape` inverts `escape`: no backslash
immediately followed by `n` or `t` (those pairs collide with the `\n`/`\t`
escape sequences during the sequential unescape replaces). -/
def escUnescOK (s : RStr) : Bool := noSeq 92 110 s && noSeq 92 116 s


/-- No occurrence of byte `c` in `s`. -/
def noByteB (c : Nat) (s : RStr) : Bool := s.all (fun b => b != c)

/-- A string cell that survives the TSV round trip: collision-free for
`unescape` (see `escUnescOK`); inside an array it must additionally avoid
the nesting-blind comma split, the map colon split, the quote trimming of
`unenclose` and the boundary `\'` collision. -/
def tsvStrOK (s : RStr) (iwa : Bool) : Bool :=
  escUnescOK s &&
  (!iwa || (noByteB 44 s && noByteB 58 s &&
    s.head? != some 39 && s.getLast? != some 39 && s.getLast? != some 92))

/-- The rendered map entries are already in strictly increasing
byte-lexicographic order, so the formatter's sort leaves them unchanged. -/
def lexSorted : List RStr → Bool
  | [] => true
  | [_] => true
  | x :: y :: l => lexLt x y && lexSorted (y :: l)

/-- A map key that survives the TSV round trip: no comma (entry split), no
colon (key/value split), no quote at either end (`unenclose` trims every
leading and trailing quote). -/
def mapKeyOK (k : RStr) : Bool :=
  noByteB 44 k && noByteB 58 k && k.head? != some 39 && k.getLast? != some 39

/-- What the TSV codec needs from an external rendering for the round trip:
trim-stable, free of the comma and colon separators, no quote at either
end, and distinguishable from the TSV null literal `\N`. -/
def extRenderOK (r : RStr) : Prop :=
  r ≠ [] ∧ trimB r = r ∧ noByteB 44 r = true ∧ noByteB 58 r = true ∧
  r.head? ≠ some 39 ∧ r.getLast? ≠ some 39 ∧ r ≠ bs "\\N"

/-- The external renderers/parsers invert each other and render into the
TSV-safe fragment.  (The crate delegates floats, UUIDs and dates to
`std`/`uuid`/`time`; the round-trip claim is settled relative to this
contract.) -/
def TsvExtOK (ext : TsvExt) : Prop :=
  (∀ b, ext.f32Parse (ext.f32Str b) = some b) ∧
  (∀ b, ext.f64Parse (ext.f64Str b) = some b) ∧
  (∀ u, ext.uuidParse (ext.uuidStr u) = some u) ∧
  (∀ d, ext.date32Parse (ext.date32Str d) = some d) ∧
  (∀ d, ext.dateTimeParse (ext.dateTimeStr d) = some d) ∧
  (∀ d, ext.dateTime64Parse (ext.dateTime64Str d) = some d) ∧
  (∀ b, extRenderOK (ext.f32Str b)) ∧
  (∀ b, extRenderOK (ext.f64Str b)) ∧
  (∀ u, extRenderOK (ext.uuidStr u)) ∧
  (∀ d, extRenderOK (ext.date32Str d)) ∧
  (∀ d, extRenderOK (ext.dateTimeStr d)) ∧
  (∀ d, extRenderOK (ext.dateTime64Str d))

/-- The domain on which the TSV codec round-trips, checked against the
source of `format_value_iter`/`parse_value_iter`: machine-int ranges;
collision-free strings; containers only at top level, non-empty, with
aligned arities; map keys separator-free, entries pre-sorted by rendering
and keys distinct; nested entries named exactly like the type's fields;
nullables only at top level.  Because the `Date | Date32` parse arm ends
in `Ok(date.into())` = `Value::Date32` and the `DateTime` arm in
`Ok(dt.into())` = `Value::DateTime64` (`value/ext/time.rs`), only
`Date32` values round-trip under the `Date`/`Date32` types and only
`DateTime64` under `DateTime64`; non-null `Date`, `DateTime`,
`NullableDate`, `NullableDateTime` values come back as a different
constructor and are excluded, as are the `Decimal` arms (parse to
`Float64`) and `Enum8`/`Enum16` (format as the raw index but parse by
symbolic name — see the counterexample). -/
def tsvOkF (ext : TsvExt) : Nat → Value → Ty → Bool → Bool
  | 0, _, _, _ => false
  | f + 1, v, ty, iwa =>
    match v with
    | .UInt8 v => (match ty with | .UInt8 => uOK 1 v | _ => false)
    | .UInt16 v => (match ty with | .UInt16 => uOK 2 v | _ => false)
    | .UInt32 v => (match ty with | .UInt32 => uOK 4 v | _ => false)
    | .UInt64 v => (match ty with | .UInt64 => uOK 8 v | _ => false)
    | .UInt128 v => (match ty with | .UInt128 => uOK 16 v | _ => false)
    | .UInt256 p =>
      (match ty with | .UInt256 => uOK 16 p.1 && uOK 16 p.2 | _ => false)
    | .Int8 v => (match ty with | .Int8 => iOK 1 v | _ => false)
    | .Int16 v => (match ty with | .Int16 => iOK 2 v | _ => false)
    | .Int32 v => (match ty with | .Int32 => iOK 4 v | _ => false)
    | .Int64 v => (match ty with | .Int64 => iOK 8 v | _ => false)
    | .Int128 v => (match ty with | .Int128 => iOK 16 v | _ => false)
    | .Int256 p =>
      (match ty with | .Int256 => iOK 16 p.1 && iOK 16 p.2 | _ => false)
    | .Float32 _ => (match ty with | .Float32 => true | _ => false)
    | .Float64 _ => (match ty with | .Float64 => true | _ => false)
    | .Bool _ => (match ty with | .Bool => true | _ => false)
    | .String s =>
      (match ty with
       | .String => tsvStrOK s iwa
       | .FixedString _ => tsvStrOK s iwa
       | _ => false)
    | .UUID _ => (match ty with | .UUID => true | _ => false)
    | .Date _ => false
    | .DateTime _ => false
    | .DateTime64 _ => (match ty with | .DateTime64 _ => true | _ => false)
    | .Date32 _ => (match ty with | .Date | .Date32 => true | _ => false)
    | .Enum8 _ => false
    | .Enum16 _ => false
    | .Array vs =>
      (match ty with
       | .Array t =>
         !iwa && !vs.isEmpty && vs.all (fun v => tsvOkF ext f v t true)
       | _ => false)
    | .Tuple vs =>
      (match ty with
       | .Tuple ts =>
         !iwa && !vs.isEmpty && vs.length == ts.length &&
           (List.zip vs ts).all (fun p => tsvOkF ext f p.1 p.2 true)
       | _ => false)
    | .Map m =>
      (match ty with
       | .Map _ tv =>
         !iwa && !m.isEmpty && keysDistinctB m &&
           m.all (fun kv => mapKeyOK kv.1 && tsvOkF ext f kv.2 tv true) &&
           lexSorted (m.map (fun kv =>
             39 :: kv.1 ++ bs "\': " ++ formatValueTsv false ext f kv.2 true))
       | _ => false)
    | .Nested m =>
      (match ty with
       | .Nested fields =>
         !iwa && !m.isEmpty && m.length == fields.length &&
           keysDistinctB m &&
           (match f with
            | 0 => false
            | f2 + 1 => (List.zip m fields).all (fun p =>
                p.1.1 == p.2.1 && tsvOkF ext f2 p.1.2 p.2.2 true))
       | _ => false)
    | .NullableUInt8 o =>
      (match ty with
       | .NullableUInt8 => !iwa && (match o with
         | none => true
         | some v => tsvOkF ext f (.UInt8 v) .UInt8 false)
       | _ => false)
    | .NullableUInt16 o =>
      (match ty with
       | .NullableUInt16 => !iwa && (match o with
         | none => true
         | some v => tsvOkF ext f (.UInt16 v) .UInt16 false)
       | _ => false)
    | .NullableUInt32 o =>
      (match ty with
       | .NullableUInt32 => !iwa && (match o with
         | none => true
         | some v => tsvOkF ext f (.UInt32 v) .UInt32 false)
       | _ => false)
    | .NullableUInt64 o =>
      (match ty with
       | .NullableUInt64 => !iwa && (match o with
         | none => true
         | some v => tsvOkF ext f (.UInt64 v) .UInt64 false)
       | _ => false)
    | .NullableUInt128 o =>
      (match ty with
       | .NullableUInt128 => !iwa && (match o with
         | none => true
         | some v => tsvOkF ext f (.UInt128 v) .UInt128 false)
       | _ => false)
    | .NullableUInt256 o =>
      (match ty with
       | .NullableUInt256 => !iwa && (match o with
         | none => true
         | some p => tsvOkF ext f (.UInt256 p) .UInt256 false)
       | _ => false)
    | .NullableInt8 o =>
      (match ty with
       | .NullableInt8 => !iwa && (match o with
         | none => true
         | some v => tsvOkF ext f (.Int8 v) .Int8 false)
       | _ => false)
    | .NullableInt16 o =>
      (match ty with
       | .NullableInt16 => !iwa && (match o with
         | none => true
         | some v => tsvOkF ext f (.Int16 v) .Int16 false)
       | _ => false)
    | .NullableInt32 o =>
      (match ty with
       | .NullableInt32 => !iwa && (match o with
         | none => true
         | some v => tsvOkF ext f (.Int32 v) .Int32 false)
       | _ => false)
    | .NullableInt64 o =>
      (match ty with
       | .NullableInt64 => !iwa && (match o with
         | none => true
         | some v => tsvOkF ext f (.Int64 v) .Int64 false)
       | _ => false)
    | .NullableInt128 o =>
      (match ty with
       | .NullableInt128 => !iwa && (match o with
         | none => true
         | some v => tsvOkF ext f (.Int128 v) .Int128 false)
       | _ => false)
    | .NullableInt256 o =>
      (match ty with
       | .NullableInt256 => !iwa && (match o with
         | none => true
         | some p => tsvOkF ext f (.Int256 p) .Int256 false)
       | _ => false)
    | .NullableFloat32 o =>
      (match ty with
       | .NullableFloat32 => !iwa && (match o with
         | none => true
         | some b => tsvOkF ext f (.Float32 b) .Float32 false)
       | _ => false)
    | .NullableFloat64 o =>
      (match ty with
       | .NullableFloat64 => !iwa && (match o with
         | none => true
         | some b => tsvOkF ext f (.Float64 b) .Float64 false)
       | _ => false)
    | .NullableBool o =>
      (match ty with
       | .NullableBool => !iwa && (match o with
         | none => true
         | some b => tsvOkF ext f (.Bool b) .Bool false)
       | _ => false)
    | .NullableString o =>
      (match ty with
       | .NullableString => !iwa && (match o with
         | none => true
         | some s => tsvOkF ext f (.String s) .String false)
       | .NullableFixedString n => !iwa && (match o with
         | none => true
         | some s => tsvOkF ext f (.String s) (.FixedString n) false)
       | _ => false)
    | .NullableUUID o =>
      (match ty with
       | .NullableUUID => !iwa && (match o with
         | none => true
         | some u => tsvOkF ext f (.UUID u) .UUID false)
       | _ => false)
    | .NullableDate o =>
      (match ty with
       | .NullableDate => !iwa && (match o with
         | none => true
         | some _ => false)
       | _ => false)
    | .NullableDateTime o =>
      (match ty with
       | .NullableDateTime => !iwa && (match o with
         | none => true
         | some _ => false)
       | _ => false)
    | .NullableDateTime64 o =>
      (match ty with
       | .NullableDateTime64 p => !iwa && (match o with
         | none => true
         | some d => tsvOkF ext f (.DateTime64 d) (.DateTime64 p) false)
       | _ => false)
    | .NullableDate32 o =>
      (match ty with
       | .NullableDate32 => !iwa && (match o with
         | none => true
         | some d => tsvOkF ext f (.Date32 d) .Date32 false)
       | _ => false)
    | .NullableEnum8 _ => false
    | .NullableEnum16 _ => false

/-- What an element rendering needs to survive the comma split and the
per-element trim of the TSV container loops. -/
def cellOK (r : RStr) : Prop :=
  r ≠ [] ∧ trimB r = r ∧ noByteB 44 r = true ∧ noByteB 58 r = true

def intDecVal (s : RStr) : Option Int :=
  if s.head? = some 45 then (digitsVal (s.drop 1)).map (fun n => -(n : Int))
  else (digitsVal s).map (fun n => (n : Int))

def uuidStr0 (u : List Nat) : RStr := 117 :: u.flatMap (fun b => 45 :: natDec b)

def uuidParse0 (s : RStr) : Option (List Nat) :=
  match s with
  | 117 :: r =>
    some (((splitSep 45 r).drop 1).map (fun p => (digitsVal p).getD 0))
  | _ => none

def extStd : TsvExt :=
  ⟨natDec, natDec, uuidStr0, intDec, natDec, intDec,
   digitsVal, digitsVal, uuidParse0, intDecVal, digitsVal, intDecVal⟩

/-- `Value` of `src/core/val.rs` (the core value type: it has the
`Decimal32/64/128` and `FixedString` variants and no `Tuple`; `[u8; 32]`
and `[u8; 16]` payloads are byte lists, floats are opaque bit patterns). -/
inductive CValue where
  | UInt8 (v : Nat)
  | UInt16 (v : Nat)
  | UInt32 (v : Nat)
  | UInt64 (v : Nat)
  | UInt128 (v : Nat)
  | UInt256 (v : List Nat)
  | Int8 (v : Int)
  | Int16 (v : Int)
  | Int32 (v : Int)
  | Int64 (v : Int)
  | Int128 (v : Int)
  | Int256 (v : List Nat)
  | Float32 (v : Nat)
  | Float64 (v : Nat)
  | Decimal32 (v : Int)
  | Decimal64 (v : Int)
  | Decimal128 (v : Int)
  | Bool (v : Bool)
  | String (v : RStr)
  | FixedString (v : RStr)
  | Date (v : Nat)
  | Date32 (v : Int)
  | DateTime (v : Nat)
  | DateTime64 (v : Int)
  | UUID (v : List Nat)
  | Enum8 (v : Int)
  | Enum16 (v : Int)
  | Array (v : List CValue)
  | Map (v : List (RStr × CValue))
  | Nested (v : List (RStr × CValue))
  | NullableUInt8 (v : Option (Nat))
  | NullableUInt16 (v : Option (Nat))
  | NullableUInt32 (v : Option (Nat))
  | NullableUInt64 (v : Option (Nat))
  | NullableUInt128 (v : Option (Nat))
  | NullableUInt256 (v : Option (List Nat))
  | NullableInt8 (v : Option (Int))
  | NullableInt16 (v : Option (Int))
  | NullableInt32 (v : Option (Int))
  | NullableInt64 (v : Option (Int))
  | NullableInt128 (v : Option (Int))
  | NullableInt256 (v : Option (List Nat))
  | NullableFloat32 (v : Option (Nat))
  | NullableFloat64 (v : Option (Nat))
  | NullableDecimal32 (v : Option (Int))
  | NullableDecimal64 (v : Option (Int))
  | NullableDecimal128 (v : Option (Int))
  | NullableBool (v : Option (Bool))
  | NullableString (v : Option (RStr))
  | NullableFixedString (v : Option (RStr))
  | NullableDate (v : Option (Nat))
  | NullableDate32 (v : Option (Int))
  | NullableDateTime (v : Option (Nat))
  | NullableDateTime64 (v : Option (Int))
  | NullableUUID (v : Option (List Nat))
  | NullableEnum8 (v : Option (Int))
  | NullableEnum16 (v : Option (Int))

/-- `Type` of `src/core/ty.rs`. -/
inductive CType where
  | UInt8
  | UInt16
  | UInt32
  | UInt64
  | UInt128
  | UInt256
  | Int8
  | Int16
  | Int32
  | Int64
  | Int128
  | Int256
  | Float32
  | Float64
  | Decimal (p s : Nat)
  | Decimal32 (s : Nat)
  | Decimal64 (s : Nat)
  | Decimal128 (s : Nat)
  | Decimal256 (s : Nat)
  | Bool
  | String
  | FixedString (n : Nat)
  | Date
  | Date32
  | DateTime
  | DateTime64 (p : Nat)
  | Enum (vars : List (RStr × Option Int))
  | Enum8 (vars : List (RStr × Option Int))
  | Enum16 (vars : List (RStr × Option Int))
  | UUID
  | Array (t : CType)
  | Map (k v : CType)
  | Nested (fields : List (RStr × CType))
  | Tuple (ts : List CType)
  | NullableUInt8
  | NullableUInt16
  | NullableUInt32
  | NullableUInt64
  | NullableUInt128
  | NullableUInt256
  | NullableInt8
  | NullableInt16
  | NullableInt32
  | NullableInt64
  | NullableInt128
  | NullableInt256
  | NullableFloat32
  | NullableFloat64
  | NullableDecimal (p s : Nat)
  | NullableDecimal32 (s : Nat)
  | NullableDecimal64 (s : Nat)
  | NullableDecimal128 (s : Nat)
  | NullableDecimal256 (s : Nat)
  | NullableBool
  | NullableString
  | NullableFixedString (n : Nat)
  | NullableDate
  | NullableDate32
  | NullableDateTime
  | NullableDateTime64 (p : Nat)
  | NullableUUID
  | NullableEnum (vars : List (RStr × Option Int))
  | NullableEnum8 (vars : List (RStr × Option Int))
  | NullableEnum16 (vars : List (RStr × Option Int))

/-- `Value::as_nullable`: `Some(NullableX(Some(x)))` for the non-nullable
scalars, `None` for `Enum8`/`Enum16` and the containers, the value itself
when already nullable. -/
def CValue.asNullable : CValue → Option CValue
  | .UInt8 x => some (.NullableUInt8 (some x))
  | .UInt16 x => some (.NullableUInt16 (some x))
  | .UInt32 x => some (.NullableUInt32 (some x))
  | .UInt64 x => some (.NullableUInt64 (some x))
  | .UInt128 x => some (.NullableUInt128 (some x))
  | .UInt256 x => some (.NullableUInt256 (some x))
  | .Int8 x => some (.NullableInt8 (some x))
  | .Int16 x => some (.NullableInt16 (some x))
  | .Int32 x => some (.NullableInt32 (some x))
  | .Int64 x => some (.NullableInt64 (some x))
  | .Int128 x => some (.NullableInt128 (some x))
  | .Int256 x => some (.NullableInt256 (some x))
  | .Float32 x => some (.NullableFloat32 (some x))
  | .Float64 x => some (.NullableFloat64 (some x))
  | .Decimal32 x => some (.NullableDecimal32 (some x))
  | .Decimal64 x => some (.NullableDecimal64 (some x))
  | .Decimal128 x => some (.NullableDecimal128 (some x))
  | .Bool x => some (.NullableBool (some x))
  | .String x => some (.NullableString (some x))
  | .FixedString x => some (.NullableFixedString (some x))
  | .Date x => some (.NullableDate (some x))
  | .Date32 x => some (.NullableDate32 (some x))
  | .DateTime x => some (.NullableDateTime (some x))
  | .DateTime64 x => some (.NullableDateTime64 (some x))
  | .UUID x => some (.NullableUUID (some x))
  | .Enum8 _ => none
  | .Enum16 _ => none
  | .Array _ => none
  | .Map _ => none
  | .Nested _ => none
  | .NullableUInt8 x => some (.NullableUInt8 x)
  | .NullableUInt16 x => some (.NullableUInt16 x)
  | .NullableUInt32 x => some (.NullableUInt32 x)
  | .NullableUInt64 x => some (.NullableUInt64 x)
  | .NullableUInt128 x => some (.NullableUInt128 x)
  | .NullableUInt256 x => some (.NullableUInt256 x)
  | .NullableInt8 x => some (.NullableInt8 x)
  | .NullableInt16 x => some (.NullableInt16 x)
  | .NullableInt32 x => some (.NullableInt32 x)
  | .NullableInt64 x => some (.NullableInt64 x)
  | .NullableInt128 x => some (.NullableInt128 x)
  | .NullableInt256 x => some (.NullableInt256 x)
  | .NullableFloat32 x => some (.NullableFloat32 x)
  | .NullableFloat64 x => some (.NullableFloat64 x)
  | .NullableDecimal32 x => some (.NullableDecimal32 x)
  | .NullableDecimal64 x => some (.NullableDecimal64 x)
  | .NullableDecimal128 x => some (.NullableDecimal128 x)
  | .NullableBool x => some (.NullableBool x)
  | .NullableString x => some (.NullableString x)
  | .NullableFixedString x => some (.NullableFixedString x)
  | .NullableDate x => some (.NullableDate x)
  | .NullableDate32 x => some (.NullableDate32 x)
  | .NullableDateTime x => some (.NullableDateTime x)
  | .NullableDateTime64 x => some (.NullableDateTime64 x)
  | .NullableUUID x => some (.NullableUUID x)
  | .NullableEnum8 x => some (.NullableEnum8 x)
  | .NullableEnum16 x => some (.NullableEnum16 x)

/-- `Value::as_non_nullable`: identity (`Some(self)`) on non-nullable
values, `x.map(X)` on `NullableX(x)`. -/
def CValue.asNonNullable : CValue → Option CValue
  | .UInt8 x => some (.UInt8 x)
  | .UInt16 x => some (.UInt16 x)
  | .UInt32 x => some (.UInt32 x)
  | .UInt64 x => some (.UInt64 x)
  | .UInt128 x => some (.UInt128 x)
  | .UInt256 x => some (.UInt256 x)
  | .Int8 x => some (.Int8 x)
  | .Int16 x => some (.Int16 x)
  | .Int32 x => some (.Int32 x)
  | .Int64 x => some (.Int64 x)
  | .Int128 x => some (.Int128 x)
  | .Int256 x => some (.Int256 x)
  | .Float32 x => some (.Float32 x)
  | .Float64 x => some (.Float64 x)
  | .Decimal32 x => some (.Decimal32 x)
  | .Decimal64 x => some (.Decimal64 x)
  | .Decimal128 x => some (.Decimal128 x)
  | .Bool x => some (.Bool x)
  | .String x => some (.String x)
  | .FixedString x => some (.FixedString x)
  | .Date x => some (.Date x)
  | .Date32 x => some (.Date32 x)
  | .DateTime x => some (.DateTime x)
  | .DateTime64 x => some (.DateTime64 x)
  | .UUID x => some (.UUID x)
  | .Enum8 x => some (.Enum8 x)
  | .Enum16 x => some (.Enum16 x)
  | .Array x => some (.Array x)
  | .Map x => some (.Map x)
  | .Nested x => some (.Nested x)
  | .NullableUInt8 x => x.map (fun y => .UInt8 y)
  | .NullableUInt16 x => x.map (fun y => .UInt16 y)
  | .NullableUInt32 x => x.map (fun y => .UInt32 y)
  | .NullableUInt64 x => x.map (fun y => .UInt64 y)
  | .NullableUInt128 x => x.map (fun y => .UInt128 y)
  | .NullableUInt256 x => x.map (fun y => .UInt256 y)
  | .NullableInt8 x => x.map (fun y => .Int8 y)
  | .NullableInt16 x => x.map (fun y => .Int16 y)
  | .NullableInt32 x => x.map (fun y => .Int32 y)
  | .NullableInt64 x => x.map (fun y => .Int64 y)
  | .NullableInt128 x => x.map (fun y => .Int128 y)
  | .NullableInt256 x => x.map (fun y => .Int256 y)
  | .NullableFloat32 x => x.map (fun y => .Float32 y)
  | .NullableFloat64 x => x.map (fun y => .Float64 y)
  | .NullableDecimal32 x => x.map (fun y => .Decimal32 y)
  | .NullableDecimal64 x => x.map (fun y => .Decimal64 y)
  | .NullableDecimal128 x => x.map (fun y => .Decimal128 y)
  | .NullableBool x => x.map (fun y => .Bool y)
  | .NullableString x => x.map (fun y => .String y)
  | .NullableFixedString x => x.map (fun y => .FixedString y)
  | .NullableDate x => x.map (fun y => .Date y)
  | .NullableDate32 x => x.map (fun y => .Date32 y)
  | .NullableDateTime x => x.map (fun y => .DateTime y)
  | .NullableDateTime64 x => x.map (fun y => .DateTime64 y)
  | .NullableUUID x => x.map (fun y => .UUID y)
  | .NullableEnum8 x => x.map (fun y => .Enum8 y)
  | .NullableEnum16 x => x.map (fun y => .Enum16 y)

/-- `Value::null`: `None` for non-nullable types, `Some(NullableX(None))`
for nullable ones — with `NullableUInt256` yielding `NullableInt8(None)`
as in the source, and `unimplemented!` panics on `NullableDecimal`,
`NullableDecimal256` and `NullableEnum`. -/
def CValue.null : CType → PRes (Option CValue)
  | .UInt8 | .UInt16 | .UInt32 | .UInt64 | .UInt128 | .UInt256
  | .Int8 | .Int16 | .Int32 | .Int64 | .Int128 | .Int256
  | .Float32 | .Float64 | .Decimal _ _ | .Decimal32 _ | .Decimal64 _
  | .Decimal128 _ | .Decimal256 _ | .Bool | .String | .FixedString _
  | .Date | .Date32 | .DateTime | .DateTime64 _ | .UUID | .Enum _
  | .Enum8 _ | .Enum16 _ | .Array _ | .Map _ _ | .Nested _
  | .Tuple _ => .ok none
  | .NullableUInt8 => .ok (some (.NullableUInt8 none))
  | .NullableUInt16 => .ok (some (.NullableUInt16 none))
  | .NullableUInt32 => .ok (some (.NullableUInt32 none))
  | .NullableUInt64 => .ok (some (.NullableUInt64 none))
  | .NullableUInt128 => .ok (some (.NullableUInt128 none))
  | .NullableUInt256 => .ok (some (.NullableInt8 none))
  | .NullableInt8 => .ok (some (.NullableInt8 none))
  | .NullableInt16 => .ok (some (.NullableInt16 none))
  | .NullableInt32 => .ok (some (.NullableInt32 none))
  | .NullableInt64 => .ok (some (.NullableInt64 none))
  | .NullableInt128 => .ok (some (.NullableInt128 none))
  | .NullableInt256 => .ok (some (.NullableInt256 none))
  | .NullableFloat32 => .ok (some (.NullableFloat32 none))
  | .NullableFloat64 => .ok (some (.NullableFloat64 none))
  | .NullableDecimal _ _ => .panicked "not implemented: Decimal value"
  | .NullableDecimal32 _ => .ok (some (.NullableDecimal32 none))
  | .NullableDecimal64 _ => .ok (some (.NullableDecimal64 none))
  | .NullableDecimal128 _ => .ok (some (.NullableDecimal128 none))
  | .NullableDecimal256 _ => .panicked "not implemented: Decimal256 value"
  | .NullableBool => .ok (some (.NullableBool none))
  | .NullableString => .ok (some (.NullableString none))
  | .NullableFixedString _ => .ok (some (.NullableFixedString none))
  | .NullableDate => .ok (some (.NullableDate none))
  | .NullableDate32 => .ok (some (.NullableDate32 none))
  | .NullableDateTime => .ok (some (.NullableDateTime none))
  | .NullableDateTime64 _ => .ok (some (.NullableDateTime64 none))
  | .NullableUUID => .ok (some (.NullableUUID none))
  | .NullableEnum _ => .panicked "not implemented: NullableEnum value"
  | .NullableEnum8 _ => .ok (some (.NullableEnum8 none))
  | .NullableEnum16 _ => .ok (some (.NullableEnum16 none))

-- ### END OF DEFINITIONS / START OF THEOREMS ###

-- ## Helper lemmas: splitting, trimming, digits

theorem stripPrefixB_self_append (p s : RStr) : stripPrefixB p (p ++ s) = some s := by
  induction p with
  | nil => rfl
  | cons b p ih => simp [stripPrefixB, ih]

theorem stripSuffixB_append_single (c : Nat) (s : RStr) :
    stripSuffixB [c] (s ++ [c]) = some s := by
  unfold stripSuffixB
  have h1 : (s ++ [c]).reverse = [c] ++ s.reverse := by simp
  have h2 : ([c] : RStr).reverse = [c] := by simp
  rw [h1, h2, stripPrefixB_self_append]
  simp

theorem splitSep_ne_nil (sep : Nat) (s : RStr) : splitSep sep s ≠ [] := by
  induction s with
  | nil => simp [splitSep]
  | cons b s ih =>
    simp only [splitSep]
    split
    · simp
    · split
      · simp
      · simp

theorem splitSep_cons_sep (sep : Nat) (s : RStr) :
    splitSep sep (sep :: s) = [] :: splitSep sep s := by
  simp [splitSep]

theorem splitSep_cons_ne (sep b : Nat) (s : RStr) (h : b ≠ sep) :
    splitSep sep (b :: s) = List.modifyHead (b :: ·) (splitSep sep s) := by
  simp only [splitSep, if_neg h]
  rcases hs : splitSep sep s with _ | ⟨p, ps⟩
  · exact absurd hs (splitSep_ne_nil sep s)
  · rfl

theorem splitSep_append_noSep (sep : Nat) (p s : RStr)
    (h : ∀ b ∈ p, b ≠ sep) :
    splitSep sep (p ++ s) = List.modifyHead (p ++ ·) (splitSep sep s) := by
  induction p with
  | nil =>
    rw [List.nil_append]
    rcases hs : splitSep sep s with _ | ⟨q, qs⟩
    · exact absurd hs (splitSep_ne_nil sep s)
    · simp
  | cons b p ih =>
    have hb : b ≠ sep := h b (by simp)
    rw [List.cons_append, splitSep_cons_ne sep b (p ++ s) hb,
      ih (fun x hx => h x (by simp [hx]))]
    rcases hs : splitSep sep s with _ | ⟨q, qs⟩
    · exact absurd hs (splitSep_ne_nil sep s)
    · rfl

theorem splitSep_single_noSep (sep : Nat) (p : RStr) (h : ∀ b ∈ p, b ≠ sep) :
    splitSep sep p = [p] := by
  have h2 := splitSep_append_noSep sep p [] h
  rw [List.append_nil] at h2
  rw [h2]
  simp [splitSep]

/-- Splitting a `", "`-join on `','` recovers the pieces, the later ones with
their leading space. -/
theorem splitSep_joinComma (p : RStr) (ps : List RStr)
    (hp : ∀ b ∈ p, b ≠ 44) (hps : ∀ q ∈ ps, ∀ b ∈ q, b ≠ 44) :
    splitSep 44 (joinComma (p :: ps)) = p :: ps.map (fun q => 32 :: q) := by
  induction ps generalizing p with
  | nil => simpa [joinComma] using splitSep_single_noSep 44 p hp
  | cons q qs ih =>
    have hq : ∀ b ∈ q, b ≠ 44 := hps q (by simp)
    have hqs : ∀ r ∈ qs, ∀ b ∈ r, b ≠ 44 := fun r hr => hps r (by simp [hr])
    have hjoin : joinComma (p :: q :: qs) = p ++ (44 :: 32 :: joinComma (q :: qs)) := by
      simp [joinComma, List.intersperse_cons_cons, bs, utf8Enc]
    rw [hjoin, splitSep_append_noSep 44 p _ hp, splitSep_cons_sep,
      splitSep_cons_ne 44 32 _ (by omega), ih q hq hqs]
    simp

theorem trimLeftB_eq_self {s : RStr} (h : ∀ b, s.head? = some b → isWhite b = false) :
    trimLeftB s = s := by
  cases s with
  | nil => rfl
  | cons b s => simp [trimLeftB, h b rfl]

theorem trimB_eq_self {s : RStr}
    (h1 : ∀ b, s.head? = some b → isWhite b = false)
    (h2 : ∀ b, s.getLast? = some b → isWhite b = false) :
    trimB s = s := by
  unfold trimB
  rw [trimLeftB_eq_self h1, trimLeftB_eq_self, List.reverse_reverse]
  intro b hb
  exact h2 b (by rwa [List.head?_reverse] at hb)

theorem trimB_cons_space (s : RStr) : trimB (32 :: s) = trimB s := by
  simp [trimB, trimLeftB, isWhite]

theorem natDec_ne_nil (n : Nat) : natDec n ≠ [] := by
  unfold natDec natDecAux
  split <;> simp

theorem natDec_digits (n : Nat) : ∀ b ∈ natDec n, 48 ≤ b ∧ b ≤ 57 := by
  have key : ∀ fuel n, n < fuel → ∀ b ∈ natDecAux fuel n, 48 ≤ b ∧ b ≤ 57 := by
    intro fuel
    induction fuel with
    | zero => omega
    | succ fuel ih =>
      intro n hn b hb
      unfold natDecAux at hb
      split at hb
      · simp at hb
        omega
      · rename_i h10
        simp only [List.mem_append, List.mem_singleton] at hb
        rcases hb with hb | hb
        · exact ih (n / 10) (by omega) b hb
        · omega
  exact fun b hb => key (n + 1) n (by omega) b hb

theorem natDec_head_digit (n : Nat) :
    ∀ b, (natDec n).head? = some b → 48 ≤ b ∧ b ≤ 57 := by
  intro b hb
  cases hl : natDec n with
  | nil => exact absurd hl (natDec_ne_nil n)
  | cons x xs =>
    rw [hl] at hb
    simp at hb
    exact natDec_digits n b (by simp [hl, hb])

theorem trimB_natDec (n : Nat) : trimB (natDec n) = natDec n := by
  apply trimB_eq_self
  · intro b hb
    have := natDec_head_digit n b hb
    simp [isWhite]
    omega
  · intro b hb
    have := natDec_digits n b (List.mem_of_getLast?_eq_some hb)
    simp [isWhite]
    omega

theorem dva_append (a : Nat) (s t : RStr) :
    digitsValAcc a (s ++ t) =
      match digitsValAcc a s with
      | some m => digitsValAcc m t
      | none => none := by
  induction s generalizing a with
  | nil => rfl
  | cons b s ih =>
    simp only [List.cons_append, digitsValAcc]
    split
    · exact ih _
    · rfl

theorem digitsValAcc_natDec (n : Nat) :
    ∀ a, digitsValAcc a (natDec n) = some (a * 10 ^ (natDec n).length + n) := by
  suffices key : ∀ fuel n, n < fuel → ∀ a,
      digitsValAcc a (natDecAux fuel n) =
        some (a * 10 ^ (natDecAux fuel n).length + n) by
    exact fun a => key (n + 1) n (by omega) a
  intro fuel
  induction fuel with
  | zero => omega
  | succ fuel ih =>
    intro n hn a
    unfold natDecAux
    split
    · rename_i h10
      show digitsValAcc a [48 + n] = _
      unfold digitsValAcc
      rw [if_pos ⟨by omega, by omega⟩]
      unfold digitsValAcc
      simp only [List.length_cons, List.length_nil, pow_one, Nat.zero_add,
        Option.some.injEq]
      omega
    · rename_i h10
      rw [dva_append]
      rw [ih (n / 10) (by omega) a]
      show digitsValAcc (a * 10 ^ (natDecAux fuel (n / 10)).length + n / 10)
          [48 + n % 10] = _
      unfold digitsValAcc
      rw [if_pos ⟨by omega, by omega⟩]
      unfold digitsValAcc
      simp only [List.length_append, List.length_cons, List.length_nil,
        Nat.zero_add, Option.some.injEq]
      rw [pow_succ, ← mul_assoc]
      omega

theorem digitsVal_natDec (n : Nat) : digitsVal (natDec n) = some n := by
  unfold digitsVal
  rw [digitsValAcc_natDec n 0]
  simp

theorem parseUIntR_natDec {max n : Nat} (h : n ≤ max) :
    parseUIntR max (natDec n) = some n := by
  unfold parseUIntR
  have hd : ¬ (natDec n).head? = some 43 := by
    intro hb
    have := natDec_head_digit n 43 hb
    omega
  rw [if_neg hd]
  unfold boundedDigits
  rw [if_neg (natDec_ne_nil n), digitsVal_natDec]
  simp [h]

theorem parseU8E_natDec {n : Nat} (h : n ≤ 255) : parseU8E (natDec n) = .ok n := by
  unfold parseU8E
  rw [parseUIntR_natDec h]

theorem intDec_ne_nil (i : Int) : intDec i ≠ [] := by
  unfold intDec
  split
  · simp
  · exact natDec_ne_nil _

theorem intDec_bytes (i : Int) : ∀ b ∈ intDec i, b = 45 ∨ (48 ≤ b ∧ b ≤ 57) := by
  unfold intDec
  split <;> intro b hb
  · simp at hb
    rcases hb with hb | hb
    · omega
    · exact Or.inr (natDec_digits _ b hb)
  · exact Or.inr (natDec_digits _ b hb)

theorem parseIntR_intDec {lo hi i : Int} (hlo : lo ≤ i) (hhi : i ≤ hi) :
    parseIntR lo hi (intDec i) = some i := by
  unfold parseIntR intDec
  by_cases hneg : i < 0
  · rw [if_pos hneg]
    have hhead : (45 :: natDec (-i).toNat : RStr).head? = some 45 := rfl
    rw [if_pos hhead]
    have htail : (45 :: natDec (-i).toNat : RStr).tail = natDec (-i).toNat := rfl
    rw [htail, digitsVal_natDec]
    show (if natDec (-i).toNat = [] then none
      else if lo ≤ -(((-i).toNat : Nat) : Int) then
        some (-(((-i).toNat : Nat) : Int)) else none) = some i
    rw [if_neg (natDec_ne_nil _)]
    have htoNat : (((-i).toNat : Nat) : Int) = -i := by omega
    rw [htoNat, neg_neg, if_pos hlo]
  · rw [if_neg hneg]
    have hhead : ¬ (natDec i.toNat).head? = some 45 := by
      intro hb
      have := natDec_head_digit i.toNat 45 hb
      omega
    rw [if_neg hhead]
    rw [parseUIntR_natDec (n := i.toNat) (by omega)]
    show some ((i.toNat : Nat) : Int) = some i
    congr 1
    omega

theorem intDec_no44 (i : Int) : ∀ b ∈ intDec i, b ≠ 44 := by
  intro b hb
  rcases intDec_bytes i b hb with h | h <;> omega

theorem intDec_no61 (i : Int) : ∀ b ∈ intDec i, b ≠ 61 := by
  intro b hb
  rcases intDec_bytes i b hb with h | h <;> omega

theorem trimB_intDec (i : Int) : trimB (intDec i) = intDec i := by
  apply trimB_eq_self
  · intro b hb
    have hmem : b ∈ intDec i := by
      cases hl : intDec i with
      | nil => exact absurd hl (intDec_ne_nil i)
      | cons x xs => rw [hl] at hb; simp at hb; simp [hl, hb]
    rcases intDec_bytes i b hmem with h | h <;> (simp [isWhite]; omega)
  · intro b hb
    rcases intDec_bytes i b (List.mem_of_getLast?_eq_some hb) with h | h <;>
      (simp [isWhite]; omega)

-- quick sanity checks (kernel-evaluable)
example : bs "Ab" = [65, 98] := rfl
example : splitSep 44 (bs "a,b,") = [bs "a", bs "b", []] := rfl
example : splitSep 44 [] = [[]] := rfl
example : trimB (bs "  a b ") = bs "a b" := rfl
example : replaceB (bs "ab") (bs "X") (bs "cabab") = bs "cXX" := rfl
example : natDec 107 = bs "107" := rfl
example : intDec (-128) = bs "-128" := rfl
example : parseIntR (-128) 127 (bs "-128") = some (-128) := rfl
example : parseIntR (-128) 127 (bs "128") = none := rfl
example : parseUIntR 255 (bs "255") = some 255 := rfl
example : lebWrite 300 = [172, 2] := rfl
example : lebRead [172, 2, 7] = some (300, [7]) := rfl
example : leBytes 2 300 = [44, 1] := rfl
example : leBytesI 1 (-2) = [254] := rfl
example : unTwos 1 254 = -2 := rfl


-- sanity checks against the crate's own unit tests (`value/ty/tests.rs`)
example : tyToStrF 1 .UInt8 = bs "UInt8" := rfl
example : tyFromStr (bs "UInt8") = .ok .UInt8 := rfl
example : tyToStrF 2 (.Decimal 1 1) = bs "Decimal(1,1)" := rfl
example : tyFromStr (bs "Decimal(1,1)") = .ok (.Decimal 1 1) := rfl
example : tyToStrF 2 (.Array .UInt8) = bs "Array(UInt8)" := rfl
example : tyFromStr (bs "Array(UInt8)") = .ok (.Array .UInt8) := rfl
example : tyToStrF 2 (.Tuple [.UInt8, .UInt16]) = bs "Tuple(UInt8, UInt16)" := rfl
example : tyFromStr (bs "Tuple(UInt8, UInt16)") = .ok (.Tuple [.UInt8, .UInt16]) := rfl
example : tyToStrF 2 (.Map .String .UInt8) = bs "Map(String, UInt8)" := rfl
example : tyFromStr (bs "Map(String, UInt8)") = .ok (.Map .String .UInt8) := rfl
example :
    tyToStrF 2 (.Enum8 [(bs "var1", 0), (bs "var2", 1)]) =
      bs "Enum8('var1' = 0, 'var2' = 1)" := rfl
example :
    tyFromStr (bs "Enum8('var1' = 0, 'var2' = 1)") =
      .ok (.Enum8 [(bs "var1", 0), (bs "var2", 1)]) := rfl
example :
    tyToStrF 2 (.Nested [(bs "a", .UInt8), (bs "b", .UInt16)]) =
      bs "Nested(a UInt8, b UInt16)" := rfl
example :
    tyFromStr (bs "Nested(a UInt8, b UInt16)") =
      .ok (.Nested [(bs "a", .UInt8), (bs "b", .UInt16)]) := rfl
example : tyFromStr (bs "Nullable(Enum8('a' = 1))") =
    .ok (.NullableEnum8 [(bs "a", 1)]) := rfl
example : tyToStrF 3 (.NullableEnum8 [(bs "a", 1)]) =
    bs "Nullable(Enum8('a' = 1))" := rfl
-- the C1 counterexample shape and the C7 duplicate behaviour
example : tyToStrF 3 (.Map (.Map .String .UInt8) .UInt8) =
    bs "Map(Map(String, UInt8), UInt8)" := rfl
example : tyFromStr (bs "Map(Map(String, UInt8), UInt8)") =
    .error "invalid Map type" := rfl
example : tyFromStr (bs "Enum8('a' = 1, 'a' = 2)") =
    .ok (.Enum8 [(bs "a", 2)]) := rfl
example : tyFromStr (bs "Enum8('a' = 1, 'b' = 1)") =
    .ok (.Enum8 [(bs "a", 1), (bs "b", 1)]) := rfl
example : tyFromStr (bs "Enum8()") = .error "invalid Enum8 type" := rfl


-- expansions of the string literals used by the grammar, for `simp`

@[simp] theorem bvUInt8 : bs "UInt8" = [85, 73, 110, 116, 56] := rfl
@[simp] theorem bvUInt16 : bs "UInt16" = [85, 73, 110, 116, 49, 54] := rfl
@[simp] theorem bvUInt32 : bs "UInt32" = [85, 73, 110, 116, 51, 50] := rfl
@[simp] theorem bvUInt64 : bs "UInt64" = [85, 73, 110, 116, 54, 52] := rfl
@[simp] theorem bvUInt128 : bs "UInt128" = [85, 73, 110, 116, 49, 50, 56] := rfl
@[simp] theorem bvUInt256 : bs "UInt256" = [85, 73, 110, 116, 50, 53, 54] := rfl
@[simp] theorem bvInt8 : bs "Int8" = [73, 110, 116, 56] := rfl
@[simp] theorem bvInt16 : bs "Int16" = [73, 110, 116, 49, 54] := rfl
@[simp] theorem bvInt32 : bs "Int32" = [73, 110, 116, 51, 50] := rfl
@[simp] theorem bvInt64 : bs "Int64" = [73, 110, 116, 54, 52] := rfl
@[simp] theorem bvInt128 : bs "Int128" = [73, 110, 116, 49, 50, 56] := rfl
@[simp] theorem bvInt256 : bs "Int256" = [73, 110, 116, 50, 53, 54] := rfl
@[simp] theorem bvFloat32 : bs "Float32" = [70, 108, 111, 97, 116, 51, 50] := rfl
@[simp] theorem bvFloat64 : bs "Float64" = [70, 108, 111, 97, 116, 54, 52] := rfl
@[simp] theorem bvBool : bs "Bool" = [66, 111, 111, 108] := rfl
@[simp] theorem bvString : bs "String" = [83, 116, 114, 105, 110, 103] := rfl
@[simp] theorem bvUUID : bs "UUID" = [85, 85, 73, 68] := rfl
@[simp] theorem bvDate : bs "Date" = [68, 97, 116, 101] := rfl
@[simp] theorem bvDate32 : bs "Date32" = [68, 97, 116, 101, 51, 50] := rfl
@[simp] theorem bvDateTime : bs "DateTime" = [68, 97, 116, 101, 84, 105, 109, 101] := rfl
@[simp] theorem bvDecimalP : bs "Decimal(" = [68, 101, 99, 105, 109, 97, 108, 40] := rfl
@[simp] theorem bvDecimal32P : bs "Decimal32(" = [68, 101, 99, 105, 109, 97, 108, 51, 50, 40] := rfl
@[simp] theorem bvDecimal64P : bs "Decimal64(" = [68, 101, 99, 105, 109, 97, 108, 54, 52, 40] := rfl
@[simp] theorem bvDecimal128P : bs "Decimal128(" = [68, 101, 99, 105, 109, 97, 108, 49, 50, 56, 40] := rfl
@[simp] theorem bvDecimal256P : bs "Decimal256(" = [68, 101, 99, 105, 109, 97, 108, 50, 53, 54, 40] := rfl
@[simp] theorem bvFixedStringP : bs "FixedString(" = [70, 105, 120, 101, 100, 83, 116, 114, 105, 110, 103, 40] := rfl
@[simp] theorem bvDateTime64P : bs "DateTime64(" = [68, 97, 116, 101, 84, 105, 109, 101, 54, 52, 40] := rfl
@[simp] theorem bvEnum8P : bs "Enum8(" = [69, 110, 117, 109, 56, 40] := rfl
@[simp] theorem bvEnum16P : bs "Enum16(" = [69, 110, 117, 109, 49, 54, 40] := rfl
@[simp] theorem bvEnumP : bs "Enum(" = [69, 110, 117, 109, 40] := rfl
@[simp] theorem bvArrayP : bs "Array(" = [65, 114, 114, 97, 121, 40] := rfl
@[simp] theorem bvTupleP : bs "Tuple(" = [84, 117, 112, 108, 101, 40] := rfl
@[simp] theorem bvMapP : bs "Map(" = [77, 97, 112, 40] := rfl
@[simp] theorem bvNestedP : bs "Nested(" = [78, 101, 115, 116, 101, 100, 40] := rfl
@[simp] theorem bvNullableP : bs "Nullable(" = [78, 117, 108, 108, 97, 98, 108, 101, 40] := rfl
@[simp] theorem bvQ : bs ")" = [41] := rfl
@[simp] theorem bvCS : bs ", " = [44, 32] := rfl
@[simp] theorem bvASES : bs "' = " = [39, 32, 61, 32] := rfl
@[simp] theorem bvC : bs "," = [44] := rfl
@[simp] theorem bvNullablePUInt8Q : bs "Nullable(UInt8)" = [78, 117, 108, 108, 97, 98, 108, 101, 40, 85, 73, 110, 116, 56, 41] := rfl
@[simp] theorem bvNullablePUInt16Q : bs "Nullable(UInt16)" = [78, 117, 108, 108, 97, 98, 108, 101, 40, 85, 73, 110, 116, 49, 54, 41] := rfl
@[simp] theorem bvNullablePUInt32Q : bs "Nullable(UInt32)" = [78, 117, 108, 108, 97, 98, 108, 101, 40, 85, 73, 110, 116, 51, 50, 41] := rfl
@[simp] theorem bvNullablePUInt64Q : bs "Nullable(UInt64)" = [78, 117, 108, 108, 97, 98, 108, 101, 40, 85, 73, 110, 116, 54, 52, 41] := rfl
@[simp] theorem bvNullablePUInt128Q : bs "Nullable(UInt128)" = [78, 117, 108, 108, 97, 98, 108, 101, 40, 85, 73, 110, 116, 49, 50, 56, 41] := rfl
@[simp] theorem bvNullablePUInt256Q : bs "Nullable(UInt256)" = [78, 117, 108, 108, 97, 98, 108, 101, 40, 85, 73, 110, 116, 50, 53, 54, 41] := rfl
@[simp] theorem bvNullablePInt8Q : bs "Nullable(Int8)" = [78, 117, 108, 108, 97, 98, 108, 101, 40, 73, 110, 116, 56, 41] := rfl
@[simp] theorem bvNullablePInt16Q : bs "Nullable(Int16)" = [78, 117, 108, 108, 97, 98, 108, 101, 40, 73, 110, 116, 49, 54, 41] := rfl
@[simp] theorem bvNullablePInt32Q : bs "Nullable(Int32)" = [78, 117, 108, 108, 97, 98, 108, 101, 40, 73, 110, 116, 51, 50, 41] := rfl
@[simp] theorem bvNullablePInt64Q : bs "Nullable(Int64)" = [78, 117, 108, 108, 97, 98, 108, 101, 40, 73, 110, 116, 54, 52, 41] := rfl
@[simp] theorem bvNullablePInt128Q : bs "Nullable(Int128)" = [78, 117, 108, 108, 97, 98, 108, 101, 40, 73, 110, 116, 49, 50, 56, 41] := rfl
@[simp] theorem bvNullablePInt256Q : bs "Nullable(Int256)" = [78, 117, 108, 108, 97, 98, 108, 101, 40, 73, 110, 116, 50, 53, 54, 41] := rfl
@[simp] theorem bvNullablePFloat32Q : bs "Nullable(Float32)" = [78, 117, 108, 108, 97, 98, 108, 101, 40, 70, 108, 111, 97, 116, 51, 50, 41] := rfl
@[simp] theorem bvNullablePFloat64Q : bs "Nullable(Float64)" = [78, 117, 108, 108, 97, 98, 108, 101, 40, 70, 108, 111, 97, 116, 54, 52, 41] := rfl
@[simp] theorem bvNullablePDecimalP : bs "Nullable(Decimal(" = [78, 117, 108, 108, 97, 98, 108, 101, 40, 68, 101, 99, 105, 109, 97, 108, 40] := rfl
@[simp] theorem bvNullablePDecimal32P : bs "Nullable(Decimal32(" = [78, 117, 108, 108, 97, 98, 108, 101, 40, 68, 101, 99, 105, 109, 97, 108, 51, 50, 40] := rfl
@[simp] theorem bvNullablePDecimal64P : bs "Nullable(Decimal64(" = [78, 117, 108, 108, 97, 98, 108, 101, 40, 68, 101, 99, 105, 109, 97, 108, 54, 52, 40] := rfl
@[simp] theorem bvNullablePDecimal128P : bs "Nullable(Decimal128(" = [78, 117, 108, 108, 97, 98, 108, 101, 40, 68, 101, 99, 105, 109, 97, 108, 49, 50, 56, 40] := rfl
@[simp] theorem bvNullablePDecimal256P : bs "Nullable(Decimal256(" = [78, 117, 108, 108, 97, 98, 108, 101, 40, 68, 101, 99, 105, 109, 97, 108, 50, 53, 54, 40] := rfl
@[simp] theorem bvNullablePBoolQ : bs "Nullable(Bool)" = [78, 117, 108, 108, 97, 98, 108, 101, 40, 66, 111, 111, 108, 41] := rfl
@[simp] theorem bvNullablePStringQ : bs "Nullable(String)" = [78, 117, 108, 108, 97, 98, 108, 101, 40, 83, 116, 114, 105, 110, 103, 41] := rfl
@[simp] theorem bvNullablePFixedStringP : bs "Nullable(FixedString(" = [78, 117, 108, 108, 97, 98, 108, 101, 40, 70, 105, 120, 101, 100, 83, 116, 114, 105, 110, 103, 40] := rfl
@[simp] theorem bvNullablePDateQ : bs "Nullable(Date)" = [78, 117, 108, 108, 97, 98, 108, 101, 40, 68, 97, 116, 101, 41] := rfl
@[simp] theorem bvNullablePDate32Q : bs "Nullable(Date32)" = [78, 117, 108, 108, 97, 98, 108, 101, 40, 68, 97, 116, 101, 51, 50, 41] := rfl
@[simp] theorem bvNullablePDateTimeQ : bs "Nullable(DateTime)" = [78, 117, 108, 108, 97, 98, 108, 101, 40, 68, 97, 116, 101, 84, 105, 109, 101, 41] := rfl
@[simp] theorem bvNullablePDateTime64P : bs "Nullable(DateTime64(" = [78, 117, 108, 108, 97, 98, 108, 101, 40, 68, 97, 116, 101, 84, 105, 109, 101, 54, 52, 40] := rfl
@[simp] theorem bvNullablePUUIDQ : bs "Nullable(UUID)" = [78, 117, 108, 108, 97, 98, 108, 101, 40, 85, 85, 73, 68, 41] := rfl
@[simp] theorem bvQQ : bs "))" = [41, 41] := rfl

-- ## Lexicographic order and `BTreeMap` insertion

theorem contains_false {l : List Nat} {a : Nat} (h : l.contains a = false) :
    a ∉ l := by
  intro hm
  rw [List.contains_eq_any_beq, List.any_eq_false] at h
  exact h a hm (by simp)

theorem lexLt_trans : ∀ {a b c : RStr},
    lexLt a b = true → lexLt b c = true → lexLt a c = true := by
  intro a
  induction a with
  | nil =>
    intro b c hab hbc
    cases b with
    | nil => simp [lexLt] at hab
    | cons b bt =>
      cases c with
      | nil => simp [lexLt] at hbc
      | cons c ct => simp [lexLt]
  | cons a at' ih =>
    intro b c hab hbc
    cases b with
    | nil => simp [lexLt] at hab
    | cons b bt =>
      cases c with
      | nil => simp [lexLt] at hbc
      | cons c ct =>
        simp only [lexLt] at hab hbc ⊢
        by_cases h1 : a < b
        · by_cases h2 : b < c
          · rw [if_pos (by omega)]
          · rw [if_neg h2] at hbc
            by_cases h3 : c < b
            · rw [if_pos h3] at hbc
              exact absurd hbc (by simp)
            · have : b = c := by omega
              rw [if_pos (by omega)]
        · rw [if_neg h1] at hab
          by_cases h4 : b < a
          · rw [if_pos h4] at hab
            exact absurd hab (by simp)
          · have hba : a = b := by omega
            subst hba
            by_cases h2 : a < c
            · rw [if_pos h2]
            · rw [if_neg h2] at hbc ⊢
              by_cases h3 : c < a
              · rw [if_pos h3] at hbc
                exact absurd hbc (by simp)
              · rw [if_neg h3] at hbc ⊢
                rw [if_neg h1] at hab
                exact ih hab hbc

theorem lexLt_irrefl : ∀ a : RStr, lexLt a a = false := by
  intro a
  induction a with
  | nil => rfl
  | cons b t ih => simp [lexLt, ih]

theorem lexLt_asymm : ∀ {a b : RStr}, lexLt a b = true → lexLt b a = false := by
  intro a
  induction a with
  | nil =>
    intro b hab
    cases b with
    | nil => simp [lexLt] at hab
    | cons c ct => simp [lexLt]
  | cons a at' ih =>
    intro b hab
    cases b with
    | nil => simp [lexLt] at hab
    | cons c ct =>
      simp only [lexLt] at hab ⊢
      by_cases h1 : a < c
      · rw [if_neg (by omega), if_pos h1]
      · rw [if_neg h1] at hab
        by_cases h2 : c < a
        · rw [if_pos h2] at hab
          exact absurd hab (by simp)
        · rw [if_neg h2] at hab
          rw [if_neg h2, if_neg h1]
          exact ih hab

theorem lexLt_ne {a b : RStr} (h : lexLt a b = true) : a ≠ b := by
  intro he
  subst he
  rw [lexLt_irrefl] at h
  exact absurd h (by simp)

theorem btInsert_append {k : RStr} {v : Int} :
    ∀ {acc : List (RStr × Int)}, (∀ q ∈ acc, lexLt q.1 k = true) →
      btInsert k v acc = acc ++ [(k, v)] := by
  intro acc
  induction acc with
  | nil => intro _; rfl
  | cons q rest ih =>
    intro h
    have hq := h q (by simp)
    unfold btInsert
    rw [if_neg (by rw [lexLt_asymm hq]; simp),
      if_neg (Ne.symm (lexLt_ne hq)), ih (fun r hr => h r (by simp [hr]))]
    simp

theorem sortedKeys_cons {p : RStr × Int} {l : List (RStr × Int)}
    (h : sortedKeys (p :: l) = true) :
    sortedKeys l = true ∧ ∀ q ∈ l, lexLt p.1 q.1 = true := by
  induction l generalizing p with
  | nil => exact ⟨rfl, by simp⟩
  | cons q rest ih =>
    obtain ⟨k1, v1⟩ := p
    obtain ⟨k2, v2⟩ := q
    unfold sortedKeys at h
    rw [Bool.and_eq_true] at h
    obtain ⟨hlt, hrest⟩ := h
    obtain ⟨hsr, hall⟩ := ih hrest
    refine ⟨hrest, ?_⟩
    intro r hrm
    rcases List.mem_cons.mp hrm with he | hm
    · subst he; exact hlt
    · exact lexLt_trans hlt (hall r hm)

-- ## Enum entry strings: shape of the reparse

theorem intDec_last_digit (i : Int) :
    ∀ b, (intDec i).getLast? = some b → 48 ≤ b ∧ b ≤ 57 := by
  intro b hb
  unfold intDec at hb
  split at hb
  · rw [List.getLast?_cons] at hb
    cases hg : (natDec (-i).toNat).getLast? with
    | none =>
      rw [List.getLast?_eq_none_iff] at hg
      exact absurd hg (natDec_ne_nil _)
    | some c =>
      rw [hg] at hb
      simp at hb
      have := natDec_digits _ c (List.mem_of_getLast?_eq_some hg)
      omega
  · exact natDec_digits _ b (List.mem_of_getLast?_eq_some hb)

theorem trimB_enumEntry (kv : RStr × Int) :
    trimB (enumEntryStr kv) = enumEntryStr kv := by
  apply trimB_eq_self
  · intro b hb
    unfold enumEntryStr at hb
    simp at hb
    subst hb
    decide
  · intro b hb
    unfold enumEntryStr at hb
    have h1 : (39 :: kv.1 ++ bs "' = " ++ intDec kv.2).getLast? =
        (intDec kv.2).getLast? := by
      rw [List.getLast?_append]
      cases hg : (intDec kv.2).getLast? with
      | none =>
        rw [List.getLast?_eq_none_iff] at hg
        exact absurd hg (intDec_ne_nil _)
      | some c => simp
    rw [h1] at hb
    have := intDec_last_digit kv.2 b hb
    simp [isWhite]
    omega

theorem enumEntryStr_split (k : RStr) (v : Int) :
    enumEntryStr (k, v) = (39 :: (k ++ [39, 32])) ++ 61 :: 32 :: intDec v := by
  unfold enumEntryStr
  simp

theorem splitSep61_enumEntry (k : RStr) (v : Int)
    (h61 : k.contains 61 = false) :
    splitSep 61 (enumEntryStr (k, v)) =
      [39 :: (k ++ [39, 32]), 32 :: intDec v] := by
  rw [enumEntryStr_split]
  have hnot61 : (61 : Nat) ∉ k := contains_false h61
  have hA : ∀ b ∈ (39 :: (k ++ [39, 32]) : RStr), b ≠ 61 := by
    intro b hb
    simp at hb
    rcases hb with hb | hb | hb | hb
    · omega
    · intro he; subst he; exact hnot61 hb
    · omega
    · omega
  rw [splitSep_append_noSep 61 _ _ hA, splitSep_cons_sep,
    splitSep_cons_ne 61 32 _ (by omega),
    splitSep_single_noSep 61 (intDec v) (intDec_no61 v)]
  simp

theorem trimB_enum_p0 (k : RStr) :
    trimB (39 :: (k ++ [39, 32])) = 39 :: (k ++ [39]) := by
  have hin : trimLeftB (39 :: (k ++ [39, 32])) = 39 :: (k ++ [39, 32]) :=
    trimLeftB_eq_self (by intro b hb; simp at hb; subst hb; decide)
  unfold trimB
  rw [hin]
  have h1 : (39 :: (k ++ [39, 32]) : RStr).reverse =
      32 :: (39 :: (k.reverse ++ [39])) := by
    simp
  rw [h1]
  have h2 : trimLeftB (32 :: (39 :: (k.reverse ++ [39]))) =
      39 :: (k.reverse ++ [39]) := by
    rw [show trimLeftB (32 :: (39 :: (k.reverse ++ [39]))) =
        trimLeftB (39 :: (k.reverse ++ [39])) from by simp [trimLeftB, isWhite]]
    exact trimLeftB_eq_self (by intro b hb; simp at hb; subst hb; decide)
  rw [h2]
  simp

theorem enum_name_extract {k : RStr} (h1 : k.head? ≠ some 39)
    (h2 : k.getLast? ≠ some 39) :
    trimEndMatchesB 39 (trimStartMatchesB 39 (39 :: (k ++ [39]))) = k := by
  rw [show trimStartMatchesB 39 (39 :: (k ++ [39])) =
      trimStartMatchesB 39 (k ++ [39]) from by simp [trimStartMatchesB]]
  cases k with
  | nil => rfl
  | cons b kt =>
    have hb : b ≠ 39 := by
      intro he
      exact h1 (by simp [he])
    rw [show trimStartMatchesB 39 ((b :: kt) ++ [39]) = (b :: kt) ++ [39] from by
      simp [trimStartMatchesB, hb]]
    unfold trimEndMatchesB
    have h3 : ((b :: kt) ++ [39] : RStr).reverse = 39 :: (b :: kt).reverse := by
      simp
    rw [h3]
    rw [show trimStartMatchesB 39 (39 :: (b :: kt).reverse) =
      trimStartMatchesB 39 ((b :: kt).reverse) from by simp [trimStartMatchesB]]
    have h4 : trimStartMatchesB 39 ((b :: kt).reverse) = (b :: kt).reverse := by
      cases hr : (b :: kt).reverse with
      | nil => rfl
      | cons c ct =>
        have hc : c ≠ 39 := by
          intro he
          apply h2
          rw [List.getLast?_eq_head?_reverse, hr, he]
          rfl
        simp [trimStartMatchesB, hc]
    rw [h4]
    simp

-- ## The enum-entry loop on well-formed dumps

theorem parseEnumEntries_ok (lo hi : Int) :
    ∀ (vars : List (RStr × Int)) (pieces : List RStr)
      (acc : List (RStr × Int)),
      List.Forall₂ (fun pc kv => trimB pc = enumEntryStr kv) pieces vars →
      (∀ kv ∈ vars, kv.1.contains 61 = false ∧ ¬ kv.1.head? = some 39 ∧
        ¬ kv.1.getLast? = some 39 ∧ lo ≤ kv.2 ∧ kv.2 ≤ hi) →
      (∀ kv ∈ vars, ∀ q ∈ acc, lexLt q.1 kv.1 = true) →
      sortedKeys vars = true →
      parseEnumEntries lo hi pieces acc = .ok (acc ++ vars) := by
  intro vars
  induction vars with
  | nil =>
    intro pieces acc hf _ _ _
    rw [List.forall₂_nil_right_iff.mp hf]
    simp [parseEnumEntries]
  | cons kv rest ih =>
    intro pieces acc hf hok hacc hsort
    obtain ⟨k, v⟩ := kv
    rcases hf with _ | ⟨hpc, hfr⟩
    rename_i pc pcs
    obtain ⟨h61, hh, hl, hlo, hhi⟩ := hok (k, v) (by simp)
    unfold parseEnumEntries
    rw [hpc, splitSep61_enumEntry k v h61]
    show (match [39 :: (k ++ [39, 32]), 32 :: intDec v] with
      | [p0, p1] =>
        match parseIntR lo hi (trimB p1) with
        | some idx => parseEnumEntries lo hi pcs
            (btInsert (trimEndMatchesB 39 (trimStartMatchesB 39 (trimB p0))) idx acc)
        | none => Except.error "invalid digit found in string"
      | _ => Except.error "invalid Enum8 type") = _
    show (match parseIntR lo hi (trimB (32 :: intDec v)) with
      | some idx => parseEnumEntries lo hi pcs
          (btInsert (trimEndMatchesB 39
            (trimStartMatchesB 39 (trimB (39 :: (k ++ [39, 32]))))) idx acc)
      | none => Except.error "invalid digit found in string") = _
    rw [trimB_cons_space, trimB_intDec, parseIntR_intDec hlo hhi]
    show parseEnumEntries lo hi pcs
        (btInsert (trimEndMatchesB 39
          (trimStartMatchesB 39 (trimB (39 :: (k ++ [39, 32]))))) v acc) = _
    rw [trimB_enum_p0, enum_name_extract hh hl]
    have hsorted := sortedKeys_cons hsort
    rw [btInsert_append (fun q hq => hacc (k, v) (by simp) q hq)]
    rw [ih pcs (acc ++ [(k, v)]) hfr
      (fun kv2 h2 => hok kv2 (by simp [h2]))
      (fun kv2 h2 q hq => by
        rcases List.mem_append.mp hq with hq | hq
        · exact hacc kv2 (by simp [h2]) q hq
        · rcases List.mem_singleton.mp hq with rfl
          exact hsorted.2 kv2 h2)
      hsorted.1]
    simp

-- ## The `Tuple` / `Nested` piece loops

theorem parseTyPieces_ok (rec : RStr → EStr Ty) :
    ∀ (pieces : List RStr) (ts : List Ty),
      List.Forall₂ (fun pc t => rec (trimB pc) = .ok t) pieces ts →
      parseTyPieces rec pieces = .ok ts := by
  intro pieces
  induction pieces with
  | nil =>
    intro ts hf
    rw [List.forall₂_nil_left_iff.mp hf]
    rfl
  | cons pc pcs ih =>
    intro ts hf
    rcases hf with _ | ⟨hpc, hfr⟩
    unfold parseTyPieces
    rw [hpc, ih _ hfr]
    rfl

theorem parseNestedPieces_ok (rec : RStr → EStr Ty) :
    ∀ (pieces : List RStr) (fs : List (RStr × Ty)),
      List.Forall₂ (fun pc nt =>
        ∃ p0 p1, splitSep 32 (trimB pc) = [p0, p1] ∧ trimB p0 = nt.1 ∧
          rec (trimB p1) = .ok nt.2) pieces fs →
      parseNestedPieces rec pieces = .ok fs := by
  intro pieces
  induction pieces with
  | nil =>
    intro fs hf
    rw [List.forall₂_nil_left_iff.mp hf]
    rfl
  | cons pc pcs ih =>
    intro fs hf
    rcases hf with _ | ⟨hpc, hfr⟩
    obtain ⟨p0, p1, hsplit, hname, hty⟩ := hpc
    unfold parseNestedPieces
    rw [hsplit]
    show (match rec (trimB p1) with
      | .ok t => (parseNestedPieces rec pcs).map ((trimB p0, t) :: ·)
      | .error e => .error e) = _
    rw [hty, hname, ih _ hfr]
    rfl

-- ## Shape of formatted type strings

theorem tyToStr_ne_nil : ∀ f t, tyFits f t = true → tyToStrF f t ≠ [] := by
  intro f t hf
  match f, t with
  | 0, t => simp [tyFits] at hf
  | f + 1, t => cases t <;> simp [tyToStrF]

theorem tyToStr_head_nonwhite : ∀ f t, tyFits f t = true →
    ∀ b, (tyToStrF f t).head? = some b → isWhite b = false := by
  intro f t hf b hb
  match f, t with
  | 0, t => simp [tyFits] at hf
  | f + 1, t => cases t <;> simp_all [tyToStrF, isWhite] <;> omega

theorem tyToStr_last_nonwhite : ∀ f t, tyFits f t = true →
    ∀ b, (tyToStrF f t).getLast? = some b → isWhite b = false := by
  intro f t hf b hb
  rw [List.getLast?_eq_head?_reverse] at hb
  match f, t with
  | 0, t => simp [tyFits] at hf
  | f + 1, t => cases t <;> simp_all [tyToStrF, isWhite] <;> omega

theorem tyToStr_trimStable (f : Nat) (t : Ty) (hf : tyFits f t = true) :
    trimB (tyToStrF f t) = tyToStrF f t :=
  trimB_eq_self (tyToStr_head_nonwhite f t hf) (tyToStr_last_nonwhite f t hf)

-- ## Parsing each scalar and parameterised head, at any positive budget

theorem tfUInt8 : ∀ g, 0 < g → tyFromStrF g (bs "UInt8") = .ok .UInt8 := by
  intro g hg
  cases g with
  | zero => omega
  | succ g => simp [tyFromStrF]

theorem tfUInt16 : ∀ g, 0 < g → tyFromStrF g (bs "UInt16") = .ok .UInt16 := by
  intro g hg
  cases g with
  | zero => omega
  | succ g => simp [tyFromStrF]

theorem tfUInt32 : ∀ g, 0 < g → tyFromStrF g (bs "UInt32") = .ok .UInt32 := by
  intro g hg
  cases g with
  | zero => omega
  | succ g => simp [tyFromStrF]

theorem tfUInt64 : ∀ g, 0 < g → tyFromStrF g (bs "UInt64") = .ok .UInt64 := by
  intro g hg
  cases g with
  | zero => omega
  | succ g => simp [tyFromStrF]

theorem tfUInt128 : ∀ g, 0 < g → tyFromStrF g (bs "UInt128") = .ok .UInt128 := by
  intro g hg
  cases g with
  | zero => omega
  | succ g => simp [tyFromStrF]

theorem tfUInt256 : ∀ g, 0 < g → tyFromStrF g (bs "UInt256") = .ok .UInt256 := by
  intro g hg
  cases g with
  | zero => omega
  | succ g => simp [tyFromStrF]

theorem tfInt8 : ∀ g, 0 < g → tyFromStrF g (bs "Int8") = .ok .Int8 := by
  intro g hg
  cases g with
  | zero => omega
  | succ g => simp [tyFromStrF]

theorem tfInt16 : ∀ g, 0 < g → tyFromStrF g (bs "Int16") = .ok .Int16 := by
  intro g hg
  cases g with
  | zero => omega
  | succ g => simp [tyFromStrF]

theorem tfInt32 : ∀ g, 0 < g → tyFromStrF g (bs "Int32") = .ok .Int32 := by
  intro g hg
  cases g with
  | zero => omega
  | succ g => simp [tyFromStrF]

theorem tfInt64 : ∀ g, 0 < g → tyFromStrF g (bs "Int64") = .ok .Int64 := by
  intro g hg
  cases g with
  | zero => omega
  | succ g => simp [tyFromStrF]

theorem tfInt128 : ∀ g, 0 < g → tyFromStrF g (bs "Int128") = .ok .Int128 := by
  intro g hg
  cases g with
  | zero => omega
  | succ g => simp [tyFromStrF]

theorem tfInt256 : ∀ g, 0 < g → tyFromStrF g (bs "Int256") = .ok .Int256 := by
  intro g hg
  cases g with
  | zero => omega
  | succ g => simp [tyFromStrF]

theorem tfFloat32 : ∀ g, 0 < g → tyFromStrF g (bs "Float32") = .ok .Float32 := by
  intro g hg
  cases g with
  | zero => omega
  | succ g => simp [tyFromStrF]

theorem tfFloat64 : ∀ g, 0 < g → tyFromStrF g (bs "Float64") = .ok .Float64 := by
  intro g hg
  cases g with
  | zero => omega
  | succ g => simp [tyFromStrF]

theorem tfBool : ∀ g, 0 < g → tyFromStrF g (bs "Bool") = .ok .Bool := by
  intro g hg
  cases g with
  | zero => omega
  | succ g => simp [tyFromStrF]

theorem tfString : ∀ g, 0 < g → tyFromStrF g (bs "String") = .ok .String := by
  intro g hg
  cases g with
  | zero => omega
  | succ g => simp [tyFromStrF]

theorem tfUUID : ∀ g, 0 < g → tyFromStrF g (bs "UUID") = .ok .UUID := by
  intro g hg
  cases g with
  | zero => omega
  | succ g => simp [tyFromStrF]

theorem tfDate : ∀ g, 0 < g → tyFromStrF g (bs "Date") = .ok .Date := by
  intro g hg
  cases g with
  | zero => omega
  | succ g => simp [tyFromStrF]

theorem tfDate32 : ∀ g, 0 < g → tyFromStrF g (bs "Date32") = .ok .Date32 := by
  intro g hg
  cases g with
  | zero => omega
  | succ g => simp [tyFromStrF]

theorem tfDateTime : ∀ g, 0 < g → tyFromStrF g (bs "DateTime") = .ok .DateTime := by
  intro g hg
  cases g with
  | zero => omega
  | succ g => simp [tyFromStrF]

theorem tfDecimal32 (n : Nat) (hn : n < 256) : ∀ g, 0 < g →
    tyFromStrF g (bs "Decimal32(" ++ natDec n ++ bs ")") = .ok (.Decimal32 n) := by
  intro g hg
  cases g with
  | zero => omega
  | succ g =>
    simp [tyFromStrF, argOf, stripPrefixB, stripSuffixB, List.append_assoc]
    rw [trimB_natDec, parseU8E_natDec (show n ≤ 255 by omega)]
    rfl

theorem tfDecimal64 (n : Nat) (hn : n < 256) : ∀ g, 0 < g →
    tyFromStrF g (bs "Decimal64(" ++ natDec n ++ bs ")") = .ok (.Decimal64 n) := by
  intro g hg
  cases g with
  | zero => omega
  | succ g =>
    simp [tyFromStrF, argOf, stripPrefixB, stripSuffixB, List.append_assoc]
    rw [trimB_natDec, parseU8E_natDec (show n ≤ 255 by omega)]
    rfl

theorem tfDecimal128 (n : Nat) (hn : n < 256) : ∀ g, 0 < g →
    tyFromStrF g (bs "Decimal128(" ++ natDec n ++ bs ")") = .ok (.Decimal128 n) := by
  intro g hg
  cases g with
  | zero => omega
  | succ g =>
    simp [tyFromStrF, argOf, stripPrefixB, stripSuffixB, List.append_assoc]
    rw [trimB_natDec, parseU8E_natDec (show n ≤ 255 by omega)]
    rfl

theorem tfDecimal256 (n : Nat) (hn : n < 256) : ∀ g, 0 < g →
    tyFromStrF g (bs "Decimal256(" ++ natDec n ++ bs ")") = .ok (.Decimal256 n) := by
  intro g hg
  cases g with
  | zero => omega
  | succ g =>
    simp [tyFromStrF, argOf, stripPrefixB, stripSuffixB, List.append_assoc]
    rw [trimB_natDec, parseU8E_natDec (show n ≤ 255 by omega)]
    rfl

theorem tfFixedString (n : Nat) (hn : n < 256) : ∀ g, 0 < g →
    tyFromStrF g (bs "FixedString(" ++ natDec n ++ bs ")") = .ok (.FixedString n) := by
  intro g hg
  cases g with
  | zero => omega
  | succ g =>
    simp [tyFromStrF, argOf, stripPrefixB, stripSuffixB, List.append_assoc]
    rw [trimB_natDec, parseU8E_natDec (show n ≤ 255 by omega)]
    rfl

theorem tfDateTime64 (n : Nat) (hn : n < 256) : ∀ g, 0 < g →
    tyFromStrF g (bs "DateTime64(" ++ natDec n ++ bs ")") = .ok (.DateTime64 n) := by
  intro g hg
  cases g with
  | zero => omega
  | succ g =>
    simp [tyFromStrF, argOf, stripPrefixB, stripSuffixB, List.append_assoc]
    rw [trimB_natDec, parseU8E_natDec (show n ≤ 255 by omega)]
    rfl

theorem tfDecimal (p s : Nat) (hp : p < 256) (hs : s < 256) : ∀ g, 0 < g →
    tyFromStrF g
      (bs "Decimal(" ++ natDec p ++ bs "," ++ natDec s ++ bs ")") =
      .ok (.Decimal p s) := by
  intro g hg
  cases g with
  | zero => omega
  | succ g =>
    simp [tyFromStrF, argOf, stripPrefixB, stripSuffixB, List.append_assoc]
    have h1 : splitSep 44 (natDec p ++ 44 :: natDec s) = [natDec p, natDec s] := by
      rw [splitSep_append_noSep 44 _ _
          (fun b hb => by have := natDec_digits p b hb; omega),
        splitSep_cons_sep,
        splitSep_single_noSep 44 _
          (fun b hb => by have := natDec_digits s b hb; omega)]
      simp
    rw [h1]
    simp [trimB_natDec, parseU8E_natDec (show p ≤ 255 by omega),
      parseU8E_natDec (show s ≤ 255 by omega)]
    rfl

-- ## Parsing whole enum heads

theorem enumEntryStr_no44 {kv : RStr × Int} (h : kv.1.contains 44 = false) :
    ∀ b ∈ enumEntryStr kv, b ≠ 44 := by
  have hk := contains_false h
  intro b hb
  unfold enumEntryStr at hb
  simp at hb
  rcases hb with hb | hb | hb | hb | hb | hb | hb
  · omega
  · intro he; subst he; exact hk hb
  · omega
  · omega
  · omega
  · omega
  · exact intDec_no44 kv.2 b hb

theorem joinComma_cons_cons (p q : RStr) (l : List RStr) :
    joinComma (p :: q :: l) = p ++ (44 :: 32 :: joinComma (q :: l)) := by
  simp [joinComma, List.intersperse_cons_cons, bs, utf8Enc]

theorem joinComma_le_length : ∀ (l : List RStr), ∀ x ∈ l,
    x.length ≤ (joinComma l).length := by
  intro l
  induction l with
  | nil => simp
  | cons y l ih =>
    intro x hx
    rcases List.mem_cons.mp hx with rfl | hm
    · cases l with
      | nil => simp [joinComma]
      | cons z l' => rw [joinComma_cons_cons]; simp
    · cases l with
      | nil => simp at hm
      | cons z l' =>
        rw [joinComma_cons_cons]
        have := ih x hm
        simp only [List.length_append, List.length_cons]
        omega

/-- Well-formed enum dumps reparse through the entry loop. -/
theorem parseEnum_joined (lo hi : Int) (vars : List (RStr × Int))
    (h : enumVarsOK lo hi vars = true) :
    parseEnumEntries lo hi (splitSep 44 (joinComma (vars.map enumEntryStr))) []
      = .ok vars := by
  unfold enumVarsOK at h
  rw [Bool.and_eq_true, Bool.and_eq_true] at h
  obtain ⟨⟨hne, hsort⟩, hall⟩ := h
  rw [List.all_eq_true] at hall
  have hcond : ∀ kv ∈ vars, kv.1.contains 61 = false ∧
      ¬ kv.1.head? = some 39 ∧ ¬ kv.1.getLast? = some 39 ∧
      lo ≤ kv.2 ∧ kv.2 ≤ hi := by
    intro kv hkv
    have := hall kv hkv
    simp only [Bool.and_eq_true, Bool.not_eq_true', beq_eq_false_iff_ne,
      ne_eq, decide_eq_true_eq] at this
    exact ⟨this.1.1.1.1.2, this.1.1.1.2, this.1.1.2, this.1.2, this.2⟩
  have h44 : ∀ kv ∈ vars, kv.1.contains 44 = false := by
    intro kv hkv
    have := hall kv hkv
    simp only [Bool.and_eq_true, Bool.not_eq_true'] at this
    exact this.1.1.1.1.1
  cases vars with
  | nil => simp at hne
  | cons kv rest =>
    rw [List.map_cons, splitSep_joinComma _ _
      (enumEntryStr_no44 (h44 kv (by simp)))
      (by
        intro q hq b hb
        rw [List.mem_map] at hq
        obtain ⟨kv2, hkv2, rfl⟩ := hq
        exact enumEntryStr_no44 (h44 kv2 (by simp [hkv2])) b hb)]
    apply parseEnumEntries_ok lo hi (kv :: rest) _ []
    · refine List.Forall₂.cons (trimB_enumEntry kv) ?_
      rw [List.map_map]
      rw [List.forall₂_map_left_iff]
      rw [List.forall₂_same]
      intro x _
      show trimB (32 :: enumEntryStr x) = enumEntryStr x
      rw [trimB_cons_space, trimB_enumEntry]
    · exact hcond
    · simp
    · exact hsort

theorem tfEnum8 (vars : List (RStr × Int))
    (h : enumVarsOK (-128) 127 vars = true) : ∀ g, 0 < g →
    tyFromStrF g (bs "Enum8(" ++ joinComma (vars.map enumEntryStr) ++ bs ")")
      = .ok (.Enum8 vars) := by
  intro g hg
  cases g with
  | zero => omega
  | succ g =>
    simp [tyFromStrF, argOf, stripPrefixB, stripSuffixB, List.append_assoc]
    rw [parseEnum_joined _ _ vars h]
    rfl

theorem tfEnum16 (vars : List (RStr × Int))
    (h : enumVarsOK (-32768) 32767 vars = true) : ∀ g, 0 < g →
    tyFromStrF g (bs "Enum16(" ++ joinComma (vars.map enumEntryStr) ++ bs ")")
      = .ok (.Enum16 vars) := by
  intro g hg
  cases g with
  | zero => omega
  | succ g =>
    simp [tyFromStrF, argOf, stripPrefixB, stripSuffixB, List.append_assoc]
    rw [parseEnum_joined _ _ vars h]
    rfl
/-- `tfDecimal` restated in the cons-normalised list form that `simp`
produces for the rendered `Decimal(p,s)` string. -/
theorem tfDecimalN (p s : Nat) (hp : p < 256) (hs : s < 256) (g : Nat)
    (hg : 0 < g) :
    tyFromStrF g (68 :: 101 :: 99 :: 105 :: 109 :: 97 :: 108 :: 40 ::
      (natDec p ++ 44 :: (natDec s ++ [41]))) = .ok (.Decimal p s) := by
  have h := tfDecimal p s hp hs g hg
  simpa [bs, utf8Enc, List.append_assoc] using h


/-- C1 engine: on the `rtOkF` domain, `FromStr` inverts `Display`, at any
sufficient budgets. -/
theorem tyRoundTripAux : ∀ f t g, tyFits f t = true → rtOkF f t = true →
    (tyToStrF f t).length < g → tyFromStrF g (tyToStrF f t) = .ok t := by
  intro f
  induction f using Nat.strong_induction_on with
  | _ f ih =>
    intro t g hfit hok hlen
    match f, t with
    | 0, t => simp [tyFits] at hfit
    | f + 1, t =>
      have ihf : ∀ t g, tyFits f t = true → rtOkF f t = true →
          (tyToStrF f t).length < g → tyFromStrF g (tyToStrF f t) = .ok t :=
        ih f (Nat.lt_succ_self f)
      cases t with
      | UInt8 =>
        simp only [tyToStrF] at hlen ⊢
        exact tfUInt8 g (by omega)
      | UInt16 =>
        simp only [tyToStrF] at hlen ⊢
        exact tfUInt16 g (by omega)
      | UInt32 =>
        simp only [tyToStrF] at hlen ⊢
        exact tfUInt32 g (by omega)
      | UInt64 =>
        simp only [tyToStrF] at hlen ⊢
        exact tfUInt64 g (by omega)
      | UInt128 =>
        simp only [tyToStrF] at hlen ⊢
        exact tfUInt128 g (by omega)
      | UInt256 =>
        simp only [tyToStrF] at hlen ⊢
        exact tfUInt256 g (by omega)
      | Int8 =>
        simp only [tyToStrF] at hlen ⊢
        exact tfInt8 g (by omega)
      | Int16 =>
        simp only [tyToStrF] at hlen ⊢
        exact tfInt16 g (by omega)
      | Int32 =>
        simp only [tyToStrF] at hlen ⊢
        exact tfInt32 g (by omega)
      | Int64 =>
        simp only [tyToStrF] at hlen ⊢
        exact tfInt64 g (by omega)
      | Int128 =>
        simp only [tyToStrF] at hlen ⊢
        exact tfInt128 g (by omega)
      | Int256 =>
        simp only [tyToStrF] at hlen ⊢
        exact tfInt256 g (by omega)
      | Float32 =>
        simp only [tyToStrF] at hlen ⊢
        exact tfFloat32 g (by omega)
      | Float64 =>
        simp only [tyToStrF] at hlen ⊢
        exact tfFloat64 g (by omega)
      | Bool =>
        simp only [tyToStrF] at hlen ⊢
        exact tfBool g (by omega)
      | String =>
        simp only [tyToStrF] at hlen ⊢
        exact tfString g (by omega)
      | UUID =>
        simp only [tyToStrF] at hlen ⊢
        exact tfUUID g (by omega)
      | Date =>
        simp only [tyToStrF] at hlen ⊢
        exact tfDate g (by omega)
      | Date32 =>
        simp only [tyToStrF] at hlen ⊢
        exact tfDate32 g (by omega)
      | DateTime =>
        simp only [tyToStrF] at hlen ⊢
        exact tfDateTime g (by omega)
      | Decimal32 n =>
        simp only [tyToStrF] at hlen ⊢
        simp [rtOkF] at hok
        exact tfDecimal32 n hok g (by omega)
      | Decimal64 n =>
        simp only [tyToStrF] at hlen ⊢
        simp [rtOkF] at hok
        exact tfDecimal64 n hok g (by omega)
      | Decimal128 n =>
        simp only [tyToStrF] at hlen ⊢
        simp [rtOkF] at hok
        exact tfDecimal128 n hok g (by omega)
      | Decimal256 n =>
        simp only [tyToStrF] at hlen ⊢
        simp [rtOkF] at hok
        exact tfDecimal256 n hok g (by omega)
      | FixedString n =>
        simp only [tyToStrF] at hlen ⊢
        simp [rtOkF] at hok
        exact tfFixedString n hok g (by omega)
      | DateTime64 n =>
        simp only [tyToStrF] at hlen ⊢
        simp [rtOkF] at hok
        exact tfDateTime64 n hok g (by omega)
      | Decimal p s =>
        simp only [tyToStrF] at hlen ⊢
        simp [rtOkF] at hok
        exact tfDecimal p s hok.1 hok.2 g (by omega)
      | Enum8 vars =>
        simp only [tyToStrF] at hlen ⊢
        simp only [rtOkF] at hok
        exact tfEnum8 vars hok g (by omega)
      | Enum16 vars =>
        simp only [tyToStrF] at hlen ⊢
        simp only [rtOkF] at hok
        exact tfEnum16 vars hok g (by omega)
      | NullableUInt8 =>
        simp only [tyToStrF] at hlen ⊢
        simp at hlen
        cases g with
        | zero => omega
        | succ g =>
          simp [tyFromStrF, argOf, stripPrefixB, stripSuffixB, toNullable, bs, utf8Enc,
            List.append_assoc,
            show tyFromStrF g [85, 73, 110, 116, 56] = Except.ok Ty.UInt8 from
              tfUInt8 g (by omega)]
      | NullableUInt16 =>
        simp only [tyToStrF] at hlen ⊢
        simp at hlen
        cases g with
        | zero => omega
        | succ g =>
          simp [tyFromStrF, argOf, stripPrefixB, stripSuffixB, toNullable, bs, utf8Enc,
            List.append_assoc,
            show tyFromStrF g [85, 73, 110, 116, 49, 54] = Except.ok Ty.UInt16 from
              tfUInt16 g (by omega)]
      | NullableUInt32 =>
        simp only [tyToStrF] at hlen ⊢
        simp at hlen
        cases g with
        | zero => omega
        | succ g =>
          simp [tyFromStrF, argOf, stripPrefixB, stripSuffixB, toNullable, bs, utf8Enc,
            List.append_assoc,
            show tyFromStrF g [85, 73, 110, 116, 51, 50] = Except.ok Ty.UInt32 from
              tfUInt32 g (by omega)]
      | NullableUInt64 =>
        simp only [tyToStrF] at hlen ⊢
        simp at hlen
        cases g with
        | zero => omega
        | succ g =>
          simp [tyFromStrF, argOf, stripPrefixB, stripSuffixB, toNullable, bs, utf8Enc,
            List.append_assoc,
            show tyFromStrF g [85, 73, 110, 116, 54, 52] = Except.ok Ty.UInt64 from
              tfUInt64 g (by omega)]
      | NullableUInt128 =>
        simp only [tyToStrF] at hlen ⊢
        simp at hlen
        cases g with
        | zero => omega
        | succ g =>
          simp [tyFromStrF, argOf, stripPrefixB, stripSuffixB, toNullable, bs, utf8Enc,
            List.append_assoc,
            show tyFromStrF g [85, 73, 110, 116, 49, 50, 56] = Except.ok Ty.UInt128 from
              tfUInt128 g (by omega)]
      | NullableUInt256 =>
        simp only [tyToStrF] at hlen ⊢
        simp at hlen
        cases g with
        | zero => omega
        | succ g =>
          simp [tyFromStrF, argOf, stripPrefixB, stripSuffixB, toNullable, bs, utf8Enc,
            List.append_assoc,
            show tyFromStrF g [85, 73, 110, 116, 50, 53, 54] = Except.ok Ty.UInt256 from
              tfUInt256 g (by omega)]
      | NullableInt8 =>
        simp only [tyToStrF] at hlen ⊢
        simp at hlen
        cases g with
        | zero => omega
        | succ g =>
          simp [tyFromStrF, argOf, stripPrefixB, stripSuffixB, toNullable, bs, utf8Enc,
            List.append_assoc,
            show tyFromStrF g [73, 110, 116, 56] = Except.ok Ty.Int8 from
              tfInt8 g (by omega)]
      | NullableInt16 =>
        simp only [tyToStrF] at hlen ⊢
        simp at hlen
        cases g with
        | zero => omega
        | succ g =>
          simp [tyFromStrF, argOf, stripPrefixB, stripSuffixB, toNullable, bs, utf8Enc,
            List.append_assoc,
            show tyFromStrF g [73, 110, 116, 49, 54] = Except.ok Ty.Int16 from
              tfInt16 g (by omega)]
      | NullableInt32 =>
        simp only [tyToStrF] at hlen ⊢
        simp at hlen
        cases g with
        | zero => omega
        | succ g =>
          simp [tyFromStrF, argOf, stripPrefixB, stripSuffixB, toNullable, bs, utf8Enc,
            List.append_assoc,
            show tyFromStrF g [73, 110, 116, 51, 50] = Except.ok Ty.Int32 from
              tfInt32 g (by omega)]
      | NullableInt64 =>
        simp only [tyToStrF] at hlen ⊢
        simp at hlen
        cases g with
        | zero => omega
        | succ g =>
          simp [tyFromStrF, argOf, stripPrefixB, stripSuffixB, toNullable, bs, utf8Enc,
            List.append_assoc,
            show tyFromStrF g [73, 110, 116, 54, 52] = Except.ok Ty.Int64 from
              tfInt64 g (by omega)]
      | NullableInt128 =>
        simp only [tyToStrF] at hlen ⊢
        simp at hlen
        cases g with
        | zero => omega
        | succ g =>
          simp [tyFromStrF, argOf, stripPrefixB, stripSuffixB, toNullable, bs, utf8Enc,
            List.append_assoc,
            show tyFromStrF g [73, 110, 116, 49, 50, 56] = Except.ok Ty.Int128 from
              tfInt128 g (by omega)]
      | NullableInt256 =>
        simp only [tyToStrF] at hlen ⊢
        simp at hlen
        cases g with
        | zero => omega
        | succ g =>
          simp [tyFromStrF, argOf, stripPrefixB, stripSuffixB, toNullable, bs, utf8Enc,
            List.append_assoc,
            show tyFromStrF g [73, 110, 116, 50, 53, 54] = Except.ok Ty.Int256 from
              tfInt256 g (by omega)]
      | NullableFloat32 =>
        simp only [tyToStrF] at hlen ⊢
        simp at hlen
        cases g with
        | zero => omega
        | succ g =>
          simp [tyFromStrF, argOf, stripPrefixB, stripSuffixB, toNullable, bs, utf8Enc,
            List.append_assoc,
            show tyFromStrF g [70, 108, 111, 97, 116, 51, 50] = Except.ok Ty.Float32 from
              tfFloat32 g (by omega)]
      | NullableFloat64 =>
        simp only [tyToStrF] at hlen ⊢
        simp at hlen
        cases g with
        | zero => omega
        | succ g =>
          simp [tyFromStrF, argOf, stripPrefixB, stripSuffixB, toNullable, bs, utf8Enc,
            List.append_assoc,
            show tyFromStrF g [70, 108, 111, 97, 116, 54, 52] = Except.ok Ty.Float64 from
              tfFloat64 g (by omega)]
      | NullableBool =>
        simp only [tyToStrF] at hlen ⊢
        simp at hlen
        cases g with
        | zero => omega
        | succ g =>
          simp [tyFromStrF, argOf, stripPrefixB, stripSuffixB, toNullable, bs, utf8Enc,
            List.append_assoc,
            show tyFromStrF g [66, 111, 111, 108] = Except.ok Ty.Bool from
              tfBool g (by omega)]
      | NullableString =>
        simp only [tyToStrF] at hlen ⊢
        simp at hlen
        cases g with
        | zero => omega
        | succ g =>
          simp [tyFromStrF, argOf, stripPrefixB, stripSuffixB, toNullable, bs, utf8Enc,
            List.append_assoc,
            show tyFromStrF g [83, 116, 114, 105, 110, 103] = Except.ok Ty.String from
              tfString g (by omega)]
      | NullableUUID =>
        simp only [tyToStrF] at hlen ⊢
        simp at hlen
        cases g with
        | zero => omega
        | succ g =>
          simp [tyFromStrF, argOf, stripPrefixB, stripSuffixB, toNullable, bs, utf8Enc,
            List.append_assoc,
            show tyFromStrF g [85, 85, 73, 68] = Except.ok Ty.UUID from
              tfUUID g (by omega)]
      | NullableDate =>
        simp only [tyToStrF] at hlen ⊢
        simp at hlen
        cases g with
        | zero => omega
        | succ g =>
          simp [tyFromStrF, argOf, stripPrefixB, stripSuffixB, toNullable, bs, utf8Enc,
            List.append_assoc,
            show tyFromStrF g [68, 97, 116, 101] = Except.ok Ty.Date from
              tfDate g (by omega)]
      | NullableDate32 =>
        simp only [tyToStrF] at hlen ⊢
        simp at hlen
        cases g with
        | zero => omega
        | succ g =>
          simp [tyFromStrF, argOf, stripPrefixB, stripSuffixB, toNullable, bs, utf8Enc,
            List.append_assoc,
            show tyFromStrF g [68, 97, 116, 101, 51, 50] = Except.ok Ty.Date32 from
              tfDate32 g (by omega)]
      | NullableDateTime =>
        simp only [tyToStrF] at hlen ⊢
        simp at hlen
        cases g with
        | zero => omega
        | succ g =>
          simp [tyFromStrF, argOf, stripPrefixB, stripSuffixB, toNullable, bs, utf8Enc,
            List.append_assoc,
            show tyFromStrF g [68, 97, 116, 101, 84, 105, 109, 101] = Except.ok Ty.DateTime from
              tfDateTime g (by omega)]
      | NullableDecimal32 n =>
        cases f with
        | zero => simp [tyFits] at hfit
        | succ f =>
          simp [rtOkF] at hok
          simp only [tyToStrF] at hlen ⊢
          simp [List.length_append] at hlen
          cases g with
          | zero => omega
          | succ g =>
            simp [tyFromStrF, argOf, stripPrefixB, stripSuffixB, toNullable, bs, utf8Enc,
              List.append_assoc,
              show tyFromStrF g (68 :: 101 :: 99 :: 105 :: 109 :: 97 :: 108 :: 51 :: 50 :: 40 :: (natDec n ++ [41])) =
                  Except.ok (Ty.Decimal32 n) from tfDecimal32 n hok g (by omega)]
      | NullableDecimal64 n =>
        cases f with
        | zero => simp [tyFits] at hfit
        | succ f =>
          simp [rtOkF] at hok
          simp only [tyToStrF] at hlen ⊢
          simp [List.length_append] at hlen
          cases g with
          | zero => omega
          | succ g =>
            simp [tyFromStrF, argOf, stripPrefixB, stripSuffixB, toNullable, bs, utf8Enc,
              List.append_assoc,
              show tyFromStrF g (68 :: 101 :: 99 :: 105 :: 109 :: 97 :: 108 :: 54 :: 52 :: 40 :: (natDec n ++ [41])) =
                  Except.ok (Ty.Decimal64 n) from tfDecimal64 n hok g (by omega)]
      | NullableDecimal128 n =>
        cases f with
        | zero => simp [tyFits] at hfit
        | succ f =>
          simp [rtOkF] at hok
          simp only [tyToStrF] at hlen ⊢
          simp [List.length_append] at hlen
          cases g with
          | zero => omega
          | succ g =>
            simp [tyFromStrF, argOf, stripPrefixB, stripSuffixB, toNullable, bs, utf8Enc,
              List.append_assoc,
              show tyFromStrF g (68 :: 101 :: 99 :: 105 :: 109 :: 97 :: 108 :: 49 :: 50 :: 56 :: 40 :: (natDec n ++ [41])) =
                  Except.ok (Ty.Decimal128 n) from tfDecimal128 n hok g (by omega)]
      | NullableDecimal256 n =>
        cases f with
        | zero => simp [tyFits] at hfit
        | succ f =>
          simp [rtOkF] at hok
          simp only [tyToStrF] at hlen ⊢
          simp [List.length_append] at hlen
          cases g with
          | zero => omega
          | succ g =>
            simp [tyFromStrF, argOf, stripPrefixB, stripSuffixB, toNullable, bs, utf8Enc,
              List.append_assoc,
              show tyFromStrF g (68 :: 101 :: 99 :: 105 :: 109 :: 97 :: 108 :: 50 :: 53 :: 54 :: 40 :: (natDec n ++ [41])) =
                  Except.ok (Ty.Decimal256 n) from tfDecimal256 n hok g (by omega)]
      | NullableFixedString n =>
        cases f with
        | zero => simp [tyFits] at hfit
        | succ f =>
          simp [rtOkF] at hok
          simp only [tyToStrF] at hlen ⊢
          simp [List.length_append] at hlen
          cases g with
          | zero => omega
          | succ g =>
            simp [tyFromStrF, argOf, stripPrefixB, stripSuffixB, toNullable, bs, utf8Enc,
              List.append_assoc,
              show tyFromStrF g (70 :: 105 :: 120 :: 101 :: 100 :: 83 :: 116 :: 114 :: 105 :: 110 :: 103 :: 40 :: (natDec n ++ [41])) =
                  Except.ok (Ty.FixedString n) from tfFixedString n hok g (by omega)]
      | NullableDateTime64 n =>
        cases f with
        | zero => simp [tyFits] at hfit
        | succ f =>
          simp [rtOkF] at hok
          simp only [tyToStrF] at hlen ⊢
          simp [List.length_append] at hlen
          cases g with
          | zero => omega
          | succ g =>
            simp [tyFromStrF, argOf, stripPrefixB, stripSuffixB, toNullable, bs, utf8Enc,
              List.append_assoc,
              show tyFromStrF g (68 :: 97 :: 116 :: 101 :: 84 :: 105 :: 109 :: 101 :: 54 :: 52 :: 40 :: (natDec n ++ [41])) =
                  Except.ok (Ty.DateTime64 n) from tfDateTime64 n hok g (by omega)]
      | NullableDecimal p s =>
        cases f with
        | zero => simp [tyFits] at hfit
        | succ f =>
          simp [rtOkF] at hok
          simp only [tyToStrF] at hlen ⊢
          simp [List.length_append] at hlen
          cases g with
          | zero => omega
          | succ g =>
            simp [tyFromStrF, argOf, stripPrefixB, stripSuffixB, toNullable, bs, utf8Enc,
              List.append_assoc,
              tfDecimalN p s hok.1 hok.2 g (by omega)]
      | NullableEnum8 vars =>
        cases f with
        | zero => simp [tyFits] at hfit
        | succ f =>
          simp only [rtOkF] at hok
          simp only [tyToStrF] at hlen ⊢
          simp [List.length_append] at hlen
          cases g with
          | zero => omega
          | succ g =>
            simp [tyFromStrF, argOf, stripPrefixB, stripSuffixB, toNullable, bs, utf8Enc,
              List.append_assoc,
              show tyFromStrF g
                  (69 :: 110 :: 117 :: 109 :: 56 :: 40 :: (joinComma (vars.map enumEntryStr) ++ [41])) =
                  Except.ok (Ty.Enum8 vars) from tfEnum8 vars hok g (by omega)]
      | NullableEnum16 vars =>
        cases f with
        | zero => simp [tyFits] at hfit
        | succ f =>
          simp only [rtOkF] at hok
          simp only [tyToStrF] at hlen ⊢
          simp [List.length_append] at hlen
          cases g with
          | zero => omega
          | succ g =>
            simp [tyFromStrF, argOf, stripPrefixB, stripSuffixB, toNullable, bs, utf8Enc,
              List.append_assoc,
              show tyFromStrF g
                  (69 :: 110 :: 117 :: 109 :: 49 :: 54 :: 40 :: (joinComma (vars.map enumEntryStr) ++ [41])) =
                  Except.ok (Ty.Enum16 vars) from tfEnum16 vars hok g (by omega)]
      | Array t2 =>
        simp only [tyFits] at hfit
        simp only [rtOkF] at hok
        simp only [tyToStrF] at hlen ⊢
        have hl2 : (tyToStrF f t2).length + 7 ≤ g := by simp at hlen; omega
        cases g with
        | zero => omega
        | succ g =>
          simp [tyFromStrF, argOf, stripPrefixB, stripSuffixB, bs, utf8Enc,
            List.append_assoc]
          rw [tyToStr_trimStable f t2 hfit, ihf t2 g hfit hok (by omega)]
          rfl
      | Map k v =>
        simp only [tyFits] at hfit
        simp only [rtOkF] at hok
        rw [Bool.and_eq_true] at hfit
        obtain ⟨hfk, hfv⟩ := hfit
        rw [Bool.and_eq_true, Bool.and_eq_true, Bool.and_eq_true] at hok
        obtain ⟨⟨⟨hok1, hok2⟩, hoc1⟩, hoc2⟩ := hok
        rw [Bool.not_eq_true'] at hoc1 hoc2
        simp only [tyToStrF] at hlen ⊢
        have hl2 : (tyToStrF f k).length + (tyToStrF f v).length + 8 ≤ g := by
          simp at hlen; omega
        cases g with
        | zero => omega
        | succ g =>
          simp [tyFromStrF, argOf, stripPrefixB, stripSuffixB, bs, utf8Enc,
            List.append_assoc]
          have hsplit : splitSep 44 (tyToStrF f k ++ (44 :: (32 :: tyToStrF f v)))
              = [tyToStrF f k, 32 :: tyToStrF f v] := by
            rw [splitSep_append_noSep 44 _ _
                (fun b hb => by
                  intro he; subst he; exact (contains_false hoc1) hb),
              splitSep_cons_sep,
              splitSep_cons_ne 44 32 _ (by omega),
              splitSep_single_noSep 44 _
                (fun b hb => by
                  intro he; subst he; exact (contains_false hoc2) hb)]
            simp
          rw [hsplit]
          show (do
            let k2 ← tyFromStrF g (trimB (tyToStrF f k))
            let v2 ← tyFromStrF g (trimB (32 :: tyToStrF f v))
            Except.ok (Ty.Map k2 v2)) = _
          rw [trimB_cons_space, tyToStr_trimStable f k hfk,
            tyToStr_trimStable f v hfv,
            ihf k g hfk hok1 (by omega), ihf v g hfv hok2 (by omega)]
          rfl
      | Tuple ts =>
        simp only [tyFits] at hfit
        simp only [rtOkF] at hok
        rw [Bool.and_eq_true] at hok
        obtain ⟨hne, hall⟩ := hok
        rw [List.all_eq_true] at hall hfit
        simp only [tyToStrF] at hlen ⊢
        have hjlen : (joinComma (ts.map (tyToStrF f))).length + 8 ≤ g := by
          simp at hlen; omega
        cases g with
        | zero => omega
        | succ g =>
          simp [tyFromStrF, argOf, stripPrefixB, stripSuffixB, bs, utf8Enc,
            List.append_assoc]
          cases ts with
          | nil => simp at hne
          | cons t0 rest =>
            have hcf : ∀ t2 ∈ t0 :: rest, ∀ b ∈ tyToStrF f t2, b ≠ 44 := by
              intro t2 ht2 b hb
              have h3 := hall t2 ht2
              rw [Bool.and_eq_true, Bool.not_eq_true'] at h3
              intro he; subst he
              exact (contains_false h3.2) hb
            rw [List.map_cons, splitSep_joinComma _ _
              (hcf t0 (by simp))
              (by
                intro q hq b hb
                rw [List.mem_map] at hq
                obtain ⟨t2, ht2, rfl⟩ := hq
                exact hcf t2 (by simp [ht2]) b hb)]
            have hpieces : parseTyPieces (tyFromStrF g)
                (tyToStrF f t0 ::
                  (rest.map (tyToStrF f)).map (fun q => 32 :: q)) =
                .ok (t0 :: rest) := by
              apply parseTyPieces_ok
              refine List.Forall₂.cons ?_ ?_
              · show tyFromStrF g (trimB (tyToStrF f t0)) = .ok t0
                rw [tyToStr_trimStable f t0 (hfit t0 (by simp))]
                have hlt : (tyToStrF f t0).length ≤
                    (joinComma ((t0 :: rest).map (tyToStrF f))).length :=
                  joinComma_le_length _ _ (by simp)
                have h0 := hall t0 (by simp)
                rw [Bool.and_eq_true] at h0
                refine ihf t0 g (hfit t0 (by simp)) h0.1 ?_
                omega
              · rw [List.map_map, List.forall₂_map_left_iff, List.forall₂_same]
                intro t2 ht2
                show tyFromStrF g (trimB (32 :: tyToStrF f t2)) = .ok t2
                rw [trimB_cons_space,
                  tyToStr_trimStable f t2 (hfit t2 (by simp [ht2]))]
                have hlt : (tyToStrF f t2).length ≤
                    (joinComma ((t0 :: rest).map (tyToStrF f))).length :=
                  joinComma_le_length _ _
                    (List.mem_map_of_mem _ (List.mem_cons_of_mem _ ht2))
                have h0 := hall t2 (by simp [ht2])
                rw [Bool.and_eq_true] at h0
                refine ihf t2 g (hfit t2 (by simp [ht2])) h0.1 ?_
                omega
            rw [hpieces]
            rfl
      | Nested fs =>
        simp only [tyFits] at hfit
        simp only [rtOkF] at hok
        rw [Bool.and_eq_true] at hok
        obtain ⟨hne, hall⟩ := hok
        rw [List.all_eq_true] at hall hfit
        simp only [tyToStrF] at hlen ⊢
        have hjlen :
            (joinComma (fs.map (fun p => p.1 ++ [32] ++ tyToStrF f p.2))).length
              + 9 ≤ g := by
          have he2 : (fun (p : RStr × Ty) => p.1 ++ [32] ++ tyToStrF f p.2)
              = (fun p => p.1 ++ 32 :: tyToStrF f p.2) := by
            funext p; simp
          rw [he2]
          simp at hlen
          omega
        have hfield : ∀ p2 ∈ fs, p2.1 ≠ [] ∧
            (∀ b ∈ p2.1, isWhite b = false ∧ b ≠ 44) ∧
            (tyToStrF f p2.2).contains 44 = false ∧
            (tyToStrF f p2.2).contains 32 = false ∧ rtOkF f p2.2 = true := by
          intro p2 hp2
          have h3 := hall p2 hp2
          simp only [Bool.and_eq_true, Bool.not_eq_true',
            List.isEmpty_eq_false] at h3
          refine ⟨h3.1.1.1.1, ?_, h3.1.2, h3.2, h3.1.1.2⟩
          intro b hb
          have h4 := List.all_eq_true.mp h3.1.1.1.2 b hb
          rw [Bool.and_eq_true, Bool.not_eq_true', decide_eq_true_eq] at h4
          exact h4
        cases g with
        | zero => omega
        | succ g =>
          simp [tyFromStrF, argOf, stripPrefixB, stripSuffixB, bs, utf8Enc,
            List.append_assoc]
          cases fs with
          | nil => simp at hne
          | cons p0 rest =>
            have hcf : ∀ p2 ∈ p0 :: rest,
                ∀ b ∈ p2.1 ++ 32 :: tyToStrF f p2.2, b ≠ 44 := by
              intro p2 hp2 b hb
              obtain ⟨hn, hnb, hc44, hc32, hr⟩ := hfield p2 hp2
              rw [List.mem_append] at hb
              rcases hb with hb | hb
              · exact (hnb b hb).2
              · rcases List.mem_cons.mp hb with rfl | hb
                · omega
                · intro he; subst he; exact (contains_false hc44) hb
            rw [List.map_cons, splitSep_joinComma _ _
              (hcf p0 (by simp))
              (by
                intro q hq b hb
                rw [List.mem_map] at hq
                obtain ⟨p2, hp2, rfl⟩ := hq
                exact hcf p2 (by simp [hp2]) b hb)]
            have hrel : ∀ p2 ∈ p0 :: rest,
                ∃ q0 q1, splitSep 32
                    (trimB (p2.1 ++ [32] ++ tyToStrF f p2.2)) = [q0, q1] ∧
                  trimB q0 = p2.1 ∧ tyFromStrF g (trimB q1) = .ok p2.2 := by
              intro p2 hp2
              obtain ⟨hn, hnb, hc44, hc32, hr⟩ := hfield p2 hp2
              have hfitp := hfit p2 hp2
              have htne := tyToStr_ne_nil f p2.2 hfitp
              have htrim : trimB (p2.1 ++ [32] ++ tyToStrF f p2.2) =
                  p2.1 ++ [32] ++ tyToStrF f p2.2 := by
                apply trimB_eq_self
                · intro b hb
                  cases hn2 : p2.1 with
                  | nil => exact absurd hn2 hn
                  | cons c ct =>
                    rw [hn2] at hb
                    have hcw := (hnb c (by simp [hn2])).1
                    simp at hb
                    subst hb
                    exact hcw
                · intro b hb
                  rw [List.getLast?_append] at hb
                  cases hg2 : (tyToStrF f p2.2).getLast? with
                  | none => exact absurd (List.getLast?_eq_none_iff.mp hg2) htne
                  | some c =>
                    rw [hg2] at hb
                    simp at hb
                    have hcw := tyToStr_last_nonwhite f p2.2 hfitp c hg2
                    subst hb
                    exact hcw
              refine ⟨p2.1, tyToStrF f p2.2, ?_, ?_, ?_⟩
              · rw [htrim]
                have hx : p2.1 ++ [32] ++ tyToStrF f p2.2 =
                    p2.1 ++ (32 :: tyToStrF f p2.2) := by simp
                rw [hx, splitSep_append_noSep 32 _ _
                    (fun b hb => by
                      have := (hnb b hb).1
                      intro he; subst he; simp [isWhite] at this),
                  splitSep_cons_sep,
                  splitSep_single_noSep 32 _
                    (fun b hb => by
                      intro he; subst he; exact (contains_false hc32) hb)]
                simp
              · apply trimB_eq_self
                · intro b hb
                  have hm : b ∈ p2.1 := by
                    cases hn2 : p2.1 with
                    | nil => exact absurd hn2 hn
                    | cons c ct => rw [hn2] at hb; simp at hb; simp [hn2, hb]
                  exact (hnb b hm).1
                · intro b hb
                  exact (hnb b (List.mem_of_getLast?_eq_some hb)).1
              · rw [tyToStr_trimStable f p2.2 hfitp]
                have hlt : (p2.1 ++ [32] ++ tyToStrF f p2.2).length ≤
                    (joinComma ((p0 :: rest).map
                      (fun p => p.1 ++ [32] ++ tyToStrF f p.2))).length :=
                  joinComma_le_length _ _ (List.mem_map_of_mem _ hp2)
                refine ihf p2.2 g hfitp hr ?_
                simp only [List.length_append] at hlt
                omega
            have hpieces : parseNestedPieces (tyFromStrF g)
                ((p0.1 ++ 32 :: tyToStrF f p0.2) ::
                  (rest.map (fun p => p.1 ++ 32 :: tyToStrF f p.2)).map
                    (fun q => 32 :: q)) = .ok (p0 :: rest) := by
              apply parseNestedPieces_ok
              refine List.Forall₂.cons ?_ ?_
              · show ∃ q0 q1,
                    splitSep 32 (trimB (p0.1 ++ 32 :: tyToStrF f p0.2)) =
                      [q0, q1] ∧
                    trimB q0 = p0.1 ∧ tyFromStrF g (trimB q1) = Except.ok p0.2
                rw [show p0.1 ++ 32 :: tyToStrF f p0.2
                    = p0.1 ++ [32] ++ tyToStrF f p0.2 from by simp]
                exact hrel p0 (by simp)
              · rw [List.map_map, List.forall₂_map_left_iff, List.forall₂_same]
                intro p2 hp2
                show ∃ q0 q1,
                    splitSep 32 (trimB (32 :: (p2.1 ++ 32 :: tyToStrF f p2.2))) =
                      [q0, q1] ∧
                    trimB q0 = p2.1 ∧ tyFromStrF g (trimB q1) = Except.ok p2.2
                rw [trimB_cons_space,
                  show p2.1 ++ 32 :: tyToStrF f p2.2
                    = p2.1 ++ [32] ++ tyToStrF f p2.2 from by simp]
                exact hrel p2 (by simp [hp2])
            rw [hpieces]
            rfl

-- ## Claim C1

/-- C1 (amended): the spec's universal round-trip
`Type::from_str(&t.to_string()) == Ok(t)` fails on constructible composites
whose rendered arguments contain commas (the parser splits `Decimal`, `Map`,
`Tuple` and `Nested` arguments at every comma, ignoring nesting) and on enums
with duplicate or unsorted names.  On the amended domain `rtOkF` — numeric
parameters in `u8` range, enum entry lists non-empty with strictly sorted
quote-free names and in-range indices, `Tuple`/`Map` argument renderings
comma-free, `Nested` field lists non-empty with well-formed names and
comma-free space-free field-type renderings — parsing the rendered string
recovers the type exactly. -/
theorem C1_type_string_roundtrip (t : Ty) (f : Nat)
    (hfit : tyFits f t = true) (hok : rtOkF f t = true) :
    tyFromStr (tyToStrF f t) = .ok t :=
  tyRoundTripAux f t ((tyToStrF f t).length + 1) hfit hok (Nat.lt_succ_self _)

/-- Witness for C1 at `Tuple(UInt8, Nested(a Array(String)))`. -/
theorem C1_type_string_roundtrip_witness :
    tyFits 5 (Ty.Tuple [Ty.UInt8, Ty.Nested [(bs "a", Ty.Array Ty.String)]])
        = true ∧
    rtOkF 5 (Ty.Tuple [Ty.UInt8, Ty.Nested [(bs "a", Ty.Array Ty.String)]])
        = true ∧
    tyFromStr (tyToStrF 5
        (Ty.Tuple [Ty.UInt8, Ty.Nested [(bs "a", Ty.Array Ty.String)]])) =
      .ok (Ty.Tuple [Ty.UInt8, Ty.Nested [(bs "a", Ty.Array Ty.String)]]) :=
  ⟨rfl, rfl, C1_type_string_roundtrip _ 5 rfl rfl⟩

/-- C1 counterexample: `Map(Map(String, UInt8), UInt8)` is a constructible
`Type`, but its rendered string fails to reparse — the parser splits the
`Map(...)` argument at the first comma, yielding `"Map(String"` /
`"UInt8), UInt8"` and an error, so the round-trip claim as stated is false. -/
theorem C1_type_string_roundtrip_cex :
    tyFits 3 (Ty.Map (Ty.Map Ty.String Ty.UInt8) Ty.UInt8) = true ∧
    tyFromStr (tyToStrF 3 (Ty.Map (Ty.Map Ty.String Ty.UInt8) Ty.UInt8)) =
      .error "invalid Map type" :=
  ⟨rfl, rfl⟩

-- ## Claim C7

/-- C7 (amended): the claim's rejection of duplicates is false — the parser
inserts entries into a `BTreeMap`, so a repeated name silently overwrites the
earlier binding (last occurrence wins) and duplicate indices are accepted;
an empty entry list is an error as claimed.  For a duplicate-free entry list
(strictly sorted names, quote-free, indices in `i8` range for `Enum8`),
parsing the `Enum8('k1' = i1, ...)` form returns the enum type containing
exactly the listed name-to-index pairs. -/
theorem C7_enum_parse_exact (vars : List (RStr × Int))
    (h : enumVarsOK (-128) 127 vars = true) :
    tyFromStr (bs "Enum8(" ++ joinComma (vars.map enumEntryStr) ++ bs ")") =
      .ok (.Enum8 vars) :=
  tfEnum8 vars h _ (Nat.succ_pos _)

/-- Witness for C7 at `Enum8('a' = 1, 'b' = 5)`. -/
theorem C7_enum_parse_exact_witness :
    enumVarsOK (-128) 127 [(bs "a", (1 : Int)), (bs "b", 5)] = true ∧
    tyFromStr (bs "Enum8(" ++
        joinComma ([(bs "a", (1 : Int)), (bs "b", 5)].map enumEntryStr) ++
        bs ")") = .ok (.Enum8 [(bs "a", 1), (bs "b", 5)]) :=
  ⟨rfl, C7_enum_parse_exact _ rfl⟩

/-- C7 counterexample: `Enum8('a' = 1, 'a' = 2)` is accepted (the duplicate
name collapses to the second binding) and `Enum8('a' = 1, 'b' = 1)` is
accepted (duplicate index), where the claim demands parse errors. -/
theorem C7_enum_dup_cex :
    tyFromStr (bs "Enum8('a' = 1, 'a' = 2)") = .ok (.Enum8 [(bs "a", 2)]) ∧
    tyFromStr (bs "Enum8('a' = 1, 'b' = 1)") =
      .ok (.Enum8 [(bs "a", 1), (bs "b", 1)]) :=
  ⟨rfl, rfl⟩

theorem readExact_append (l rest : Bytes) :
    readExact l.length (l ++ rest) = some (l, rest) := by
  induction l with
  | nil => rfl
  | cons b t ih => simp [readExact, ih]

theorem readLE_leBytes (w : Nat) : ∀ n rest, n < Nat.pow 2 (8 * w) →
    readLE w (leBytes w n ++ rest) = some (n, rest) := by
  induction w with
  | zero =>
    intro n rest h
    have hn : n = 0 := by simpa [Nat.pow] using h
    simp [hn, leBytes, readLE]
  | succ w ih =>
    intro n rest h
    have hp : Nat.pow 2 (8 * (w + 1)) = Nat.pow 2 (8 * w) * 256 := by
      rw [show 8 * (w + 1) = 8 * w + 8 from by omega]
      exact Nat.pow_add 2 (8 * w) 8
    have hd : n / 256 < Nat.pow 2 (8 * w) := by
      rw [hp] at h
      omega
    have hrec := ih (n / 256) rest hd
    show (readLE w (leBytes w (n / 256) ++ rest)).map
      (fun p => (n % 256 + 256 * p.1, p.2)) = some (n, rest)
    rw [hrec]
    show some (n % 256 + 256 * (n / 256), rest) = some (n, rest)
    have he : n % 256 + 256 * (n / 256) = n := by omega
    rw [he]

theorem lebRead_lebWrite (n : Nat) (rest : Bytes) :
    lebRead (lebWrite n ++ rest) = some (n, rest) := by
  have key : ∀ fuel n rest, n < fuel →
      lebRead (lebWriteAux fuel n ++ rest) = some (n, rest) := by
    intro fuel
    induction fuel with
    | zero => omega
    | succ fuel ih =>
      intro n rest h
      by_cases h128 : n < 128
      · show lebRead (lebWriteAux (fuel + 1) n ++ rest) = some (n, rest)
        rw [lebWriteAux, if_pos h128]
        show (if n < 128 then some (n, rest)
          else (lebRead rest).map (fun p => (n - 128 + 128 * p.1, p.2)))
            = some (n, rest)
        rw [if_pos h128]
      · have hd : n / 128 < fuel := by
          have := Nat.div_lt_self (by omega : 0 < n) (by omega : (1 : Nat) < 128)
          omega
        have hrec := ih (n / 128) rest hd
        show lebRead (lebWriteAux (fuel + 1) n ++ rest) = some (n, rest)
        rw [lebWriteAux, if_neg h128]
        show (if n % 128 + 128 < 128 then some (n % 128 + 128, _)
          else (lebRead (lebWriteAux fuel (n / 128) ++ rest)).map
            (fun p => (n % 128 + 128 - 128 + 128 * p.1, p.2))) = some (n, rest)
        rw [if_neg (by omega), hrec]
        show some (n % 128 + 128 - 128 + 128 * (n / 128), rest) = some (n, rest)
        have he : n % 128 + 128 - 128 + 128 * (n / 128) = n := by omega
        rw [he]
  exact key (n + 1) n rest (Nat.lt_succ_self n)

theorem unTwos_emod (w : Nat) (i : Int) (hw : 0 < w) (h : iOK w i = true) :
    unTwos w ((i.emod (Nat.pow 2 (8 * w))).toNat) = i := by
  rw [iOK, Bool.and_eq_true, decide_eq_true_eq, decide_eq_true_eq] at h
  have h1 : 8 * w - 1 + 1 = 8 * w := by omega
  have hM : Nat.pow 2 (8 * w) = 2 * Nat.pow 2 (8 * w - 1) := by
    rw [← h1]
    exact Nat.pow_succ'
  have hh : 0 < Nat.pow 2 (8 * w - 1) := Nat.pos_pow_of_pos _ (by omega)
  rcases le_or_lt 0 i with hi | hi
  · have he : i.emod (Nat.pow 2 (8 * w)) = i :=
      Int.emod_eq_of_lt hi (by omega)
    rw [he, unTwos, if_pos (by omega)]
    omega
  · have h2 : (i + (Nat.pow 2 (8 * w) : Int) * 1).emod (Nat.pow 2 (8 * w))
        = i.emod (Nat.pow 2 (8 * w)) := by
      exact Int.add_mul_emod_self_left i ((Nat.pow 2 (8 * w) : Nat) : Int) 1
    have he : i.emod (Nat.pow 2 (8 * w)) = i + (Nat.pow 2 (8 * w) : Int) := by
      rw [← h2]
      have h3 : i + (Nat.pow 2 (8 * w) : Int) * 1
          = i + (Nat.pow 2 (8 * w) : Int) := by ring
      rw [h3]
      exact Int.emod_eq_of_lt (by omega) (by omega)
    rw [he, unTwos, if_neg (by omega)]
    omega
theorem readLEU_leBytes (w : Nat) (mk : Nat → Value) (n : Nat) (rest : Bytes)
    (h : n < Nat.pow 2 (8 * w)) :
    readLEU w mk (leBytes w n ++ rest) = .ok (mk n, rest) := by
  rw [readLEU, readLE_leBytes w n rest h]

theorem readLEI_leBytesI (w : Nat) (mk : Int → Value) (i : Int) (rest : Bytes)
    (hw : 0 < w) (h : iOK w i = true) :
    readLEI w mk (leBytesI w i ++ rest) = .ok (mk i, rest) := by
  have h2 : 0 < Nat.pow 2 (8 * w) := Nat.pos_pow_of_pos _ (by omega)
  have hpos : (0 : Int) < ((Nat.pow 2 (8 * w) : Nat) : Int) := by omega
  have h0 : 0 ≤ i.emod (Nat.pow 2 (8 * w)) := by
    exact Int.emod_nonneg i (by omega)
  have h1 : i.emod (Nat.pow 2 (8 * w)) < ((Nat.pow 2 (8 * w) : Nat) : Int) := by
    exact Int.emod_lt_of_pos i hpos
  have hlt : (i.emod (Nat.pow 2 (8 * w))).toNat < Nat.pow 2 (8 * w) := by
    omega
  simp only [readLEI, leBytesI, readLE_leBytes w _ rest hlt,
    unTwos_emod w i hw h]

theorem parseValueStr_fmt (s : RStr) (rest : Bytes) (h : utf8Valid s = true) :
    parseValueStr (lebWrite s.length ++ s ++ rest) = .ok (s, rest) := by
  simp only [parseValueStr, List.append_assoc,
    lebRead_lebWrite s.length (s ++ rest), readExact_append s rest, h,
    if_true]

theorem hmInsert_notmem (acc : List (RStr × Value)) (k : RStr) (v : Value)
    (h : acc.all (fun kv2 => !(kv2.1 == k)) = true) :
    hmInsert acc k v = acc ++ [(k, v)] := by
  rw [hmInsert, if_neg]
  intro hc
  rw [List.any_eq_true] at hc
  obtain ⟨kv, hm, he⟩ := hc
  have := List.all_eq_true.mp h kv hm
  rw [he] at this
  simp at this

theorem parseArrayN_fmt (pv : Bytes → PRes (Value × Bytes))
    (fmt : Value → Bytes) (vs : List Value)
    (h : ∀ v ∈ vs, ∀ rest, pv (fmt v ++ rest) = .ok (v, rest)) :
    ∀ rest, parseArrayN pv vs.length ((vs.map fmt).flatten ++ rest)
      = .ok (vs, rest) := by
  induction vs with
  | nil => intro rest; rfl
  | cons v vs ih =>
    intro rest
    have hsplit : ((v :: vs).map fmt).flatten ++ rest
        = fmt v ++ ((vs.map fmt).flatten ++ rest) := by simp
    show (pv (((v :: vs).map fmt).flatten ++ rest)).bind
      (fun p => (parseArrayN pv vs.length p.2).map fun q => (p.1 :: q.1, q.2))
        = .ok (v :: vs, rest)
    rw [hsplit, h v (by simp) _]
    show (parseArrayN pv vs.length ((vs.map fmt).flatten ++ rest)).map
      (fun q => (v :: q.1, q.2)) = .ok (v :: vs, rest)
    rw [ih (fun v hv => h v (by simp [hv]))]
    rfl

theorem parseTupleTs_fmt (pv : Ty → Bytes → PRes (Value × Bytes))
    (fmt : Value → Bytes) (vs : List Value) (ts : List Ty)
    (h : List.Forall₂
      (fun v t => ∀ rest, pv t (fmt v ++ rest) = .ok (v, rest)) vs ts) :
    ∀ rest, parseTupleTs pv ts ((vs.map fmt).flatten ++ rest)
      = .ok (vs, rest) := by
  induction h with
  | nil => intro rest; rfl
  | @cons v t vs ts hv hrest ih =>
    intro rest
    have hsplit : ((v :: vs).map fmt).flatten ++ rest
        = fmt v ++ ((vs.map fmt).flatten ++ rest) := by simp
    show (pv t (((v :: vs).map fmt).flatten ++ rest)).bind
      (fun p => (parseTupleTs pv ts p.2).map fun q => (p.1 :: q.1, q.2))
        = .ok (v :: vs, rest)
    rw [hsplit, hv _]
    show (parseTupleTs pv ts ((vs.map fmt).flatten ++ rest)).map
      (fun q => (v :: q.1, q.2)) = .ok (v :: vs, rest)
    rw [ih]
    rfl

theorem parseMapN_fmt (pv : Bytes → PRes (Value × Bytes))
    (fmt : Value → Bytes) (m : List (RStr × Value))
    (hk : ∀ kv ∈ m, utf8Valid kv.1 = true)
    (hv : ∀ kv ∈ m, ∀ rest, pv (fmt kv.2 ++ rest) = .ok (kv.2, rest))
    (hd : keysDistinctB m = true) :
    ∀ acc rest, (∀ kv ∈ m, acc.all (fun kv2 => !(kv2.1 == kv.1)) = true) →
      parseMapN pv m.length
        ((m.map (fun kv =>
          (lebWrite kv.1.length ++ kv.1) ++ fmt kv.2)).flatten ++ rest) acc
        = .ok (acc ++ m, rest) := by
  induction m with
  | nil => intro acc rest _; simp [parseMapN]
  | cons kv m ih =>
    intro acc rest hacc
    rw [keysDistinctB, Bool.and_eq_true] at hd
    have hsplit : (((kv :: m).map (fun kv =>
        (lebWrite kv.1.length ++ kv.1) ++ fmt kv.2)).flatten ++ rest)
        = lebWrite kv.1.length ++ kv.1 ++ (fmt kv.2 ++
          ((m.map (fun kv =>
            (lebWrite kv.1.length ++ kv.1) ++ fmt kv.2)).flatten ++ rest)) := by
      simp
    show (parseValueStr (((kv :: m).map (fun kv =>
        (lebWrite kv.1.length ++ kv.1) ++ fmt kv.2)).flatten ++ rest)).bind
      (fun k => (pv k.2).bind fun p =>
        parseMapN pv m.length p.2 (hmInsert acc k.1 p.1))
      = .ok (acc ++ kv :: m, rest)
    rw [hsplit, parseValueStr_fmt kv.1 _ (hk kv (by simp))]
    show (pv (fmt kv.2 ++ ((m.map (fun kv =>
        (lebWrite kv.1.length ++ kv.1) ++ fmt kv.2)).flatten ++ rest))).bind
      (fun p => parseMapN pv m.length p.2 (hmInsert acc kv.1 p.1))
      = .ok (acc ++ kv :: m, rest)
    rw [hv kv (by simp) _]
    show parseMapN pv m.length ((m.map (fun kv =>
        (lebWrite kv.1.length ++ kv.1) ++ fmt kv.2)).flatten ++ rest)
      (hmInsert acc kv.1 kv.2) = .ok (acc ++ kv :: m, rest)
    rw [hmInsert_notmem acc kv.1 kv.2 (hacc kv (by simp))]
    rw [ih (fun kv2 h2 => hk kv2 (by simp [h2]))
      (fun kv2 h2 => hv kv2 (by simp [h2])) hd.2 (acc ++ [kv]) rest ?_]
    · simp
    · intro kv2 h2
      rw [List.all_append, Bool.and_eq_true]
      refine ⟨hacc kv2 (by simp [h2]), ?_⟩
      have h3 := List.all_eq_true.mp hd.1 kv2 h2
      simp only [List.all_cons, List.all_nil, Bool.and_true]
      simp only [Bool.not_eq_true', beq_eq_false_iff_ne] at h3 ⊢
      exact fun he => h3 (he ▸ rfl)
theorem parseNestedF_fmt (pv : Ty → Bytes → PRes (Value × Bytes))
    (fmt : Value → Bytes) :
    ∀ (m : List (RStr × Value)) (fields : List (RStr × Ty)),
    List.Forall₂ (fun kv ft =>
      ∀ rest, pv ft.2 (fmt kv.2 ++ rest) = .ok (kv.2, rest)) m fields →
    (∀ kv ∈ m, utf8Valid kv.1 = true) →
    keysDistinctB m = true →
    ∀ acc rest,
      (∀ kv ∈ m, acc.all (fun kv2 => !(kv2.1 == kv.1)) = true) →
      parseNestedF pv fields
        ((m.map (fun kv =>
          (lebWrite kv.1.length ++ kv.1) ++ fmt kv.2)).flatten ++ rest) acc
        = .ok (acc ++ m, rest) := by
  intro m fields h
  induction h with
  | nil => intro _ _ acc rest _; simp [parseNestedF]
  | @cons kv ft m fields hv hrest ih =>
    intro hk hd acc rest hacc
    obtain ⟨fn, ftt⟩ := ft
    rw [keysDistinctB, Bool.and_eq_true] at hd
    have hsplit : (((kv :: m).map (fun kv =>
        (lebWrite kv.1.length ++ kv.1) ++ fmt kv.2)).flatten ++ rest)
        = lebWrite kv.1.length ++ kv.1 ++ (fmt kv.2 ++
          ((m.map (fun kv =>
            (lebWrite kv.1.length ++ kv.1) ++ fmt kv.2)).flatten ++ rest)) := by
      simp
    show (parseValueStr (((kv :: m).map (fun kv =>
        (lebWrite kv.1.length ++ kv.1) ++ fmt kv.2)).flatten ++ rest)).bind
      (fun k => (pv ftt k.2).bind fun p =>
        parseNestedF pv fields p.2 (hmInsert acc k.1 p.1))
      = .ok (acc ++ kv :: m, rest)
    rw [hsplit, parseValueStr_fmt kv.1 _ (hk kv (by simp))]
    show (pv ftt (fmt kv.2 ++ ((m.map (fun kv =>
        (lebWrite kv.1.length ++ kv.1) ++ fmt kv.2)).flatten ++ rest))).bind
      (fun p => parseNestedF pv fields p.2 (hmInsert acc kv.1 p.1))
      = .ok (acc ++ kv :: m, rest)
    rw [hv _]
    show parseNestedF pv fields ((m.map (fun kv =>
        (lebWrite kv.1.length ++ kv.1) ++ fmt kv.2)).flatten ++ rest)
      (hmInsert acc kv.1 kv.2) = .ok (acc ++ kv :: m, rest)
    rw [hmInsert_notmem acc kv.1 kv.2 (hacc kv (by simp))]
    rw [ih (fun kv2 h2 => hk kv2 (by simp [h2])) hd.2 (acc ++ [kv]) rest ?_]
    · simp
    · intro kv2 h2
      rw [List.all_append, Bool.and_eq_true]
      refine ⟨hacc kv2 (by simp [h2]), ?_⟩
      have h3 := List.all_eq_true.mp hd.1 kv2 h2
      simp only [List.all_cons, List.all_nil, Bool.and_true]
      simp only [Bool.not_eq_true', beq_eq_false_iff_ne] at h3 ⊢
      exact fun he => h3 (he ▸ rfl)

theorem pow128_mul : Nat.pow 2 (8 * 32) = Nat.pow 2 128 * Nat.pow 2 128 :=
  Nat.pow_add 2 128 128

theorem div_mod_split (a b P : Nat) (hP : 0 < P) (hb : b < P) :
    (a * P + b) / P = a ∧ (a * P + b) % P = b := by
  constructor
  · rw [Nat.mul_comm a P, Nat.mul_add_div hP, Nat.div_eq_of_lt hb]
    rfl
  · rw [Nat.mul_comm a P, Nat.mul_add_mod]
    exact Nat.mod_eq_of_lt hb

theorem parse_u256 (hi lo : Nat) (rest : Bytes)
    (h1 : hi < Nat.pow 2 128) (h2 : lo < Nat.pow 2 128) (g : Nat) :
    parseValue (g + 1) .UInt256
      (leBytes 32 (hi * Nat.pow 2 128 + lo) ++ rest)
      = .ok (.UInt256 (hi, lo), rest) := by
  have hA : 0 < Nat.pow 2 128 := Nat.pos_pow_of_pos _ (by omega)
  have hmul : (hi + 1) * Nat.pow 2 128 ≤ Nat.pow 2 128 * Nat.pow 2 128 :=
    Nat.mul_le_mul_right _ (by omega)
  have hlin : hi * Nat.pow 2 128 + Nat.pow 2 128
      = (hi + 1) * Nat.pow 2 128 := by ring
  have hlt : hi * Nat.pow 2 128 + lo < Nat.pow 2 (8 * 32) := by
    rw [pow128_mul]
    have hstep : hi * Nat.pow 2 128 + lo < hi * Nat.pow 2 128 + Nat.pow 2 128 :=
      Nat.add_lt_add_left h2 _
    exact Nat.lt_of_lt_of_le (Nat.lt_of_lt_of_eq hstep hlin) hmul
  have hdiv : (hi * Nat.pow 2 128 + lo) / Nat.pow 2 128 = hi :=
    (div_mod_split hi lo _ hA h2).1
  have hmod : (hi * Nat.pow 2 128 + lo) % Nat.pow 2 128 = lo :=
    (div_mod_split hi lo _ hA h2).2
  show (match readLE 32 (leBytes 32 (hi * Nat.pow 2 128 + lo) ++ rest) with
    | none => PRes.err "failed to fill whole buffer"
    | some (n, rest) =>
      PRes.ok (Value.UInt256 (n / Nat.pow 2 128, n % Nat.pow 2 128), rest))
    = PRes.ok (Value.UInt256 (hi, lo), rest)
  rw [readLE_leBytes 32 _ rest hlt]
  show PRes.ok (Value.UInt256
    ((hi * Nat.pow 2 128 + lo) / Nat.pow 2 128,
     (hi * Nat.pow 2 128 + lo) % Nat.pow 2 128), rest)
    = PRes.ok (Value.UInt256 (hi, lo), rest)
  rw [hdiv, hmod]
theorem parse_i256 (hi lo : Int) (rest : Bytes)
    (h1 : iOK 16 hi = true) (h2 : iOK 16 lo = true) (g : Nat) :
    parseValue (g + 1) .Int256
      (leBytesI 32 (hi * ((Nat.pow 2 128 : Nat) : Int) +
        lo.emod ((Nat.pow 2 128 : Nat) : Int)) ++ rest)
      = .ok (.Int256 (hi, lo), rest) := by
  have hA : 0 < Nat.pow 2 128 := Nat.pos_pow_of_pos _ (by omega)
  have hAi : (0 : Int) < ((Nat.pow 2 128 : Nat) : Int) := by omega
  have hr0 : 0 ≤ hi.emod ((Nat.pow 2 128 : Nat) : Int) :=
    Int.emod_nonneg hi (by omega)
  have hr1 : hi.emod ((Nat.pow 2 128 : Nat) : Int)
      < ((Nat.pow 2 128 : Nat) : Int) := Int.emod_lt_of_pos hi hAi
  have hs0 : 0 ≤ lo.emod ((Nat.pow 2 128 : Nat) : Int) :=
    Int.emod_nonneg lo (by omega)
  have hs1 : lo.emod ((Nat.pow 2 128 : Nat) : Int)
      < ((Nat.pow 2 128 : Nat) : Int) := Int.emod_lt_of_pos lo hAi
  have hVsplit : hi * ((Nat.pow 2 128 : Nat) : Int) +
      lo.emod ((Nat.pow 2 128 : Nat) : Int)
      = hi.emod ((Nat.pow 2 128 : Nat) : Int) *
          ((Nat.pow 2 128 : Nat) : Int) +
        lo.emod ((Nat.pow 2 128 : Nat) : Int) +
        ((Nat.pow 2 128 : Nat) : Int) * ((Nat.pow 2 128 : Nat) : Int) *
          (hi.ediv ((Nat.pow 2 128 : Nat) : Int)) := by
    have hhi : ((Nat.pow 2 128 : Nat) : Int) *
        (hi.ediv ((Nat.pow 2 128 : Nat) : Int)) +
        hi.emod ((Nat.pow 2 128 : Nat) : Int) = hi :=
      Int.ediv_add_emod hi ((Nat.pow 2 128 : Nat) : Int)
    linear_combination (-((Nat.pow 2 128 : Nat) : Int)) * hhi
  have hX1 : hi.emod ((Nat.pow 2 128 : Nat) : Int) *
        ((Nat.pow 2 128 : Nat) : Int) +
      lo.emod ((Nat.pow 2 128 : Nat) : Int)
      < ((Nat.pow 2 128 : Nat) : Int) * ((Nat.pow 2 128 : Nat) : Int) := by
    nlinarith [hr1, hs1, hr0, hs0, hAi]
  have hAA : (((Nat.pow 2 (8 * 32) : Nat)) : Int)
      = ((Nat.pow 2 128 : Nat) : Int) * ((Nat.pow 2 128 : Nat) : Int) := by
    rw [pow128_mul]
    push_cast
  have key : (hi * ((Nat.pow 2 128 : Nat) : Int) +
      lo.emod ((Nat.pow 2 128 : Nat) : Int)).emod (Nat.pow 2 (8 * 32))
      = hi.emod ((Nat.pow 2 128 : Nat) : Int) *
          ((Nat.pow 2 128 : Nat) : Int) +
        lo.emod ((Nat.pow 2 128 : Nat) : Int) := by
    rw [hAA, hVsplit]
    rw [show (hi.emod ((Nat.pow 2 128 : Nat) : Int) *
          ((Nat.pow 2 128 : Nat) : Int) +
        lo.emod ((Nat.pow 2 128 : Nat) : Int) +
        ((Nat.pow 2 128 : Nat) : Int) * ((Nat.pow 2 128 : Nat) : Int) *
          (hi.ediv ((Nat.pow 2 128 : Nat) : Int))).emod
        (((Nat.pow 2 128 : Nat) : Int) * ((Nat.pow 2 128 : Nat) : Int))
      = (hi.emod ((Nat.pow 2 128 : Nat) : Int) *
          ((Nat.pow 2 128 : Nat) : Int) +
        lo.emod ((Nat.pow 2 128 : Nat) : Int)).emod
        (((Nat.pow 2 128 : Nat) : Int) * ((Nat.pow 2 128 : Nat) : Int)) from
      Int.add_mul_emod_self_left
        (hi.emod ((Nat.pow 2 128 : Nat) : Int) * ((Nat.pow 2 128 : Nat) : Int) +
          lo.emod ((Nat.pow 2 128 : Nat) : Int))
        (((Nat.pow 2 128 : Nat) : Int) * ((Nat.pow 2 128 : Nat) : Int))
        (hi.ediv ((Nat.pow 2 128 : Nat) : Int))]
    exact Int.emod_eq_of_lt (by nlinarith [hr0, hs0, hAi]) hX1
  have ha : ((hi.emod ((Nat.pow 2 128 : Nat) : Int)).toNat : Int)
      = hi.emod ((Nat.pow 2 128 : Nat) : Int) := Int.toNat_of_nonneg hr0
  have hb : ((lo.emod ((Nat.pow 2 128 : Nat) : Int)).toNat : Int)
      = lo.emod ((Nat.pow 2 128 : Nat) : Int) := Int.toNat_of_nonneg hs0
  have hn : (hi * ((Nat.pow 2 128 : Nat) : Int) +
      lo.emod ((Nat.pow 2 128 : Nat) : Int)).emod (Nat.pow 2 (8 * 32))
      = (((hi.emod ((Nat.pow 2 128 : Nat) : Int)).toNat * Nat.pow 2 128 +
          (lo.emod ((Nat.pow 2 128 : Nat) : Int)).toNat : Nat) : Int) := by
    rw [key]
    rw [Nat.cast_add, Nat.cast_mul, ha, hb]
  have hnn : ((hi * ((Nat.pow 2 128 : Nat) : Int) +
      lo.emod ((Nat.pow 2 128 : Nat) : Int)).emod
        (Nat.pow 2 (8 * 32))).toNat
      = (hi.emod ((Nat.pow 2 128 : Nat) : Int)).toNat * Nat.pow 2 128 +
          (lo.emod ((Nat.pow 2 128 : Nat) : Int)).toNat := by
    rw [hn]
    exact Int.toNat_natCast _
  have halt : (hi.emod ((Nat.pow 2 128 : Nat) : Int)).toNat < Nat.pow 2 128 := by
    omega
  have hblt : (lo.emod ((Nat.pow 2 128 : Nat) : Int)).toNat < Nat.pow 2 128 := by
    omega
  have hlt : (hi.emod ((Nat.pow 2 128 : Nat) : Int)).toNat * Nat.pow 2 128 +
      (lo.emod ((Nat.pow 2 128 : Nat) : Int)).toNat < Nat.pow 2 (8 * 32) := by
    rw [pow128_mul]
    have hmul : ((hi.emod ((Nat.pow 2 128 : Nat) : Int)).toNat + 1) *
        Nat.pow 2 128 ≤ Nat.pow 2 128 * Nat.pow 2 128 :=
      Nat.mul_le_mul_right _ (by omega)
    have hlin : (hi.emod ((Nat.pow 2 128 : Nat) : Int)).toNat * Nat.pow 2 128 +
        Nat.pow 2 128
        = ((hi.emod ((Nat.pow 2 128 : Nat) : Int)).toNat + 1) *
          Nat.pow 2 128 := by ring
    have hstep := Nat.add_lt_add_left hblt
      ((hi.emod ((Nat.pow 2 128 : Nat) : Int)).toNat * Nat.pow 2 128)
    exact Nat.lt_of_lt_of_le (Nat.lt_of_lt_of_eq hstep hlin) hmul
  have hdiv : ((hi.emod ((Nat.pow 2 128 : Nat) : Int)).toNat * Nat.pow 2 128 +
      (lo.emod ((Nat.pow 2 128 : Nat) : Int)).toNat) / Nat.pow 2 128
      = (hi.emod ((Nat.pow 2 128 : Nat) : Int)).toNat :=
    (div_mod_split _ _ _ hA hblt).1
  have hmod : ((hi.emod ((Nat.pow 2 128 : Nat) : Int)).toNat * Nat.pow 2 128 +
      (lo.emod ((Nat.pow 2 128 : Nat) : Int)).toNat) % Nat.pow 2 128
      = (lo.emod ((Nat.pow 2 128 : Nat) : Int)).toNat :=
    (div_mod_split _ _ _ hA hblt).2
  have hu1 : unTwos 16 (hi.emod ((Nat.pow 2 128 : Nat) : Int)).toNat = hi := by
    have := unTwos_emod 16 hi (by omega) h1
    simpa using this
  have hu2 : unTwos 16 (lo.emod ((Nat.pow 2 128 : Nat) : Int)).toNat = lo := by
    have := unTwos_emod 16 lo (by omega) h2
    simpa using this
  show (match readLE 32 (leBytes 32
      ((hi * ((Nat.pow 2 128 : Nat) : Int) +
        lo.emod ((Nat.pow 2 128 : Nat) : Int)).emod
          (Nat.pow 2 (8 * 32))).toNat ++ rest) with
    | none => PRes.err "failed to fill whole buffer"
    | some (n, rest) =>
      PRes.ok (Value.Int256 (unTwos 16 (n / Nat.pow 2 128),
        unTwos 16 (n % Nat.pow 2 128)), rest))
    = PRes.ok (Value.Int256 (hi, lo), rest)
  rw [hnn, readLE_leBytes 32 _ rest hlt]
  show PRes.ok (Value.Int256
    (unTwos 16 (((hi.emod ((Nat.pow 2 128 : Nat) : Int)).toNat * Nat.pow 2 128 +
        (lo.emod ((Nat.pow 2 128 : Nat) : Int)).toNat) / Nat.pow 2 128),
     unTwos 16 (((hi.emod ((Nat.pow 2 128 : Nat) : Int)).toNat * Nat.pow 2 128 +
        (lo.emod ((Nat.pow 2 128 : Nat) : Int)).toNat) % Nat.pow 2 128)), rest)
    = PRes.ok (Value.Int256 (hi, lo), rest)
  rw [hdiv, hmod, hu1, hu2]

theorem readExact_append_len (n : Nat) (s rest : List Nat)
    (h : s.length = n) : readExact n (s ++ rest) = some (s, rest) := by
  subst h
  exact readExact_append s rest

theorem parse_string (s : RStr) (rest : Bytes) (h : utf8Valid s = true)
    (g : Nat) :
    parseValue (g + 1) .String ((lebWrite s.length ++ s) ++ rest)
      = .ok (.String s, rest) := by
  show (parseValueStr ((lebWrite s.length ++ s) ++ rest)).map
    (fun p => (Value.String p.1, p.2)) = PRes.ok (Value.String s, rest)
  rw [parseValueStr_fmt s rest h]
  rfl

theorem parse_uuid (u : List Nat) (rest : Bytes) (h : u.length = 16)
    (g : Nat) :
    parseValue (g + 1) .UUID
      (((u.take 8).reverse ++ (u.drop 8).reverse) ++ rest)
      = .ok (.UUID u, rest) := by
  have h1 : (u.take 8).reverse.length = 8 := by simp; omega
  have h2 : (u.drop 8).reverse.length = 8 := by simp; omega
  show (match readExact 8
      (((u.take 8).reverse ++ (u.drop 8).reverse) ++ rest) with
    | none => PRes.err "failed to fill whole buffer"
    | some (b1, r1) =>
      match readExact 8 r1 with
      | none => PRes.err "failed to fill whole buffer"
      | some (b2, r2) => PRes.ok (Value.UUID (b1.reverse ++ b2.reverse), r2))
    = PRes.ok (Value.UUID u, rest)
  rw [List.append_assoc, readExact_append_len 8 _ _ h1]
  show (match readExact 8 ((u.drop 8).reverse ++ rest) with
    | none => PRes.err "failed to fill whole buffer"
    | some (b2, r2) => PRes.ok
        (Value.UUID ((u.take 8).reverse.reverse ++ b2.reverse), r2))
    = PRes.ok (Value.UUID u, rest)
  rw [readExact_append_len 8 _ _ h2]
  simp

theorem rowbinRoundTripAux : ∀ f v ty g rest, valWF f v = true →
    isSameTypeAsF f v ty = true → nestedExactF f v ty = true →
    tyFits g ty = true →
    parseValue g ty (formatValue f v ++ rest) = .ok (v, rest) := by
  intro f
  induction f using Nat.strong_induction_on with
  | _ f ih =>
    intro v ty g rest hwf hst hne hft
    match f, v with
    | 0, v => simp [valWF] at hwf
    | f + 1, v =>
      have ihf : ∀ v ty g rest, valWF f v = true →
          isSameTypeAsF f v ty = true → nestedExactF f v ty = true →
          tyFits g ty = true →
          parseValue g ty (formatValue f v ++ rest) = .ok (v, rest) :=
        ih f (Nat.lt_succ_self f)
      cases v with
      | UInt8 v =>
        simp only [isSameTypeAsF] at hst
        split at hst
        · cases g with
          | zero => simp [tyFits] at hft
          | succ g =>
            simp only [valWF, uOK] at hwf
            exact readLEU_leBytes 1 Value.UInt8 v rest (by simpa using hwf)
        · simp at hst
      | UInt16 v =>
        simp only [isSameTypeAsF] at hst
        split at hst
        · cases g with
          | zero => simp [tyFits] at hft
          | succ g =>
            simp only [valWF, uOK] at hwf
            exact readLEU_leBytes 2 Value.UInt16 v rest (by simpa using hwf)
        · simp at hst
      | UInt32 v =>
        simp only [isSameTypeAsF] at hst
        split at hst
        · cases g with
          | zero => simp [tyFits] at hft
          | succ g =>
            simp only [valWF, uOK] at hwf
            exact readLEU_leBytes 4 Value.UInt32 v rest (by simpa using hwf)
        · simp at hst
      | UInt64 v =>
        simp only [isSameTypeAsF] at hst
        split at hst
        · cases g with
          | zero => simp [tyFits] at hft
          | succ g =>
            simp only [valWF, uOK] at hwf
            exact readLEU_leBytes 8 Value.UInt64 v rest (by simpa using hwf)
        · simp at hst
      | UInt128 v =>
        simp only [isSameTypeAsF] at hst
        split at hst
        · cases g with
          | zero => simp [tyFits] at hft
          | succ g =>
            simp only [valWF, uOK] at hwf
            exact readLEU_leBytes 16 Value.UInt128 v rest (by simpa using hwf)
        · simp at hst
      | UInt256 p =>
        simp only [isSameTypeAsF] at hst
        split at hst
        · cases g with
          | zero => simp [tyFits] at hft
          | succ g =>
            simp only [valWF, uOK] at hwf
            rw [Bool.and_eq_true] at hwf
            exact parse_u256 p.1 p.2 rest (by simpa using hwf.1)
              (by simpa using hwf.2) g
        · simp at hst
      | Int8 v =>
        simp only [isSameTypeAsF] at hst
        split at hst
        · cases g with
          | zero => simp [tyFits] at hft
          | succ g =>
            simp only [valWF] at hwf
            exact readLEI_leBytesI 1 Value.Int8 v rest (by omega) hwf
        · simp at hst
      | Int16 v =>
        simp only [isSameTypeAsF] at hst
        split at hst
        · cases g with
          | zero => simp [tyFits] at hft
          | succ g =>
            simp only [valWF] at hwf
            exact readLEI_leBytesI 2 Value.Int16 v rest (by omega) hwf
        · simp at hst
      | Int32 v =>
        simp only [isSameTypeAsF] at hst
        split at hst
        · cases g with
          | zero => simp [tyFits] at hft
          | succ g =>
            simp only [valWF] at hwf
            exact readLEI_leBytesI 4 Value.Int32 v rest (by omega) hwf
        · simp at hst
      | Int64 v =>
        simp only [isSameTypeAsF] at hst
        split at hst
        · cases g with
          | zero => simp [tyFits] at hft
          | succ g =>
            simp only [valWF] at hwf
            exact readLEI_leBytesI 8 Value.Int64 v rest (by omega) hwf
        · simp at hst
      | Int128 v =>
        simp only [isSameTypeAsF] at hst
        split at hst
        · cases g with
          | zero => simp [tyFits] at hft
          | succ g =>
            simp only [valWF] at hwf
            exact readLEI_leBytesI 16 Value.Int128 v rest (by omega) hwf
        · simp at hst
      | Int256 p =>
        simp only [isSameTypeAsF] at hst
        split at hst
        · cases g with
          | zero => simp [tyFits] at hft
          | succ g =>
            simp only [valWF] at hwf
            rw [Bool.and_eq_true] at hwf
            exact parse_i256 p.1 p.2 rest hwf.1 hwf.2 g
        · simp at hst
      | Float32 v =>
        simp only [isSameTypeAsF] at hst
        split at hst
        · cases g with
          | zero => simp [tyFits] at hft
          | succ g =>
            simp only [valWF, uOK] at hwf
            exact readLEU_leBytes 4 Value.Float32 v rest (by simpa using hwf)
        · simp at hst
      | Float64 v =>
        simp only [isSameTypeAsF] at hst
        split at hst
        · cases g with
          | zero => simp [tyFits] at hft
          | succ g =>
            simp only [valWF, uOK] at hwf
            exact readLEU_leBytes 8 Value.Float64 v rest (by simpa using hwf)
        · simp at hst
      | Bool v =>
        simp only [isSameTypeAsF] at hst
        split at hst
        · cases g with
          | zero => simp [tyFits] at hft
          | succ g =>
            cases v <;> rfl
        · simp at hst
      | String v =>
        simp only [isSameTypeAsF] at hst
        split at hst
        · cases g with
          | zero => simp [tyFits] at hft
          | succ g =>
            simp only [valWF] at hwf
            exact parse_string v rest hwf g
        · simp at hst
      | UUID v =>
        simp only [isSameTypeAsF] at hst
        split at hst
        · cases g with
          | zero => simp [tyFits] at hft
          | succ g =>
            simp only [valWF] at hwf
            rw [Bool.and_eq_true] at hwf
            exact parse_uuid v rest (by simpa using hwf.1) g
        · simp at hst
      | Date v =>
        simp only [isSameTypeAsF] at hst
        split at hst
        · cases g with
          | zero => simp [tyFits] at hft
          | succ g =>
            simp only [valWF, uOK] at hwf
            exact readLEU_leBytes 2 Value.Date v rest (by simpa using hwf)
        · simp at hst
      | Date32 v =>
        simp only [isSameTypeAsF] at hst
        split at hst
        · cases g with
          | zero => simp [tyFits] at hft
          | succ g =>
            simp only [valWF] at hwf
            exact readLEI_leBytesI 4 Value.Date32 v rest (by omega) hwf
        · simp at hst
      | DateTime v =>
        simp only [isSameTypeAsF] at hst
        split at hst
        · cases g with
          | zero => simp [tyFits] at hft
          | succ g =>
            simp only [valWF, uOK] at hwf
            exact readLEU_leBytes 4 Value.DateTime v rest (by simpa using hwf)
        · simp at hst
      | DateTime64 v =>
        simp only [isSameTypeAsF] at hst
        split at hst
        · cases g with
          | zero => simp [tyFits] at hft
          | succ g =>
            simp only [valWF] at hwf
            exact readLEI_leBytesI 8 Value.DateTime64 v rest (by omega) hwf
        · simp at hst
      | Enum8 v =>
        simp only [isSameTypeAsF] at hst
        split at hst
        · cases g with
          | zero => simp [tyFits] at hft
          | succ g =>
            simp only [valWF] at hwf
            exact readLEI_leBytesI 1 Value.Enum8 v rest (by omega) hwf
        · simp at hst
      | Enum16 v =>
        simp only [isSameTypeAsF] at hst
        split at hst
        · cases g with
          | zero => simp [tyFits] at hft
          | succ g =>
            simp only [valWF] at hwf
            exact readLEI_leBytesI 2 Value.Enum16 v rest (by omega) hwf
        · simp at hst
      | Array vs =>
        simp only [isSameTypeAsF] at hst
        split at hst
        · rename_i t
          have hzip := List.all_eq_true.mp hst
          simp only [nestedExactF] at hne
          have hznes := List.all_eq_true.mp hne
          simp only [valWF] at hwf
          have hall := List.all_eq_true.mp hwf
          cases g with
          | zero => simp [tyFits] at hft
          | succ g =>
            simp only [tyFits] at hft
            have hsplit : (lebWrite vs.length ++
                (vs.map (formatValue f)).flatten) ++ rest
                = lebWrite vs.length ++
                  ((vs.map (formatValue f)).flatten ++ rest) := by simp
            show (match lebRead ((lebWrite vs.length ++
                (vs.map (formatValue f)).flatten) ++ rest) with
              | none => PRes.err "leb128 read failure"
              | some (n, rest) =>
                (parseArrayN (parseValue g t) n rest).map
                  fun p => (Value.Array p.1, p.2))
              = PRes.ok (Value.Array vs, rest)
            rw [hsplit, lebRead_lebWrite vs.length
              ((vs.map (formatValue f)).flatten ++ rest)]
            show (parseArrayN (parseValue g t) vs.length
                ((vs.map (formatValue f)).flatten ++ rest)).map
              (fun p => (Value.Array p.1, p.2)) = PRes.ok (Value.Array vs, rest)
            rw [parseArrayN_fmt (parseValue g t) (formatValue f) vs
              (fun v hv rest2 => ihf v t g rest2 (hall v hv) (hzip v hv)
                (hznes v hv) hft) rest]
            rfl
        · simp at hst
      | Tuple vs =>
        simp only [isSameTypeAsF] at hst
        split at hst
        · rename_i ts
          rw [Bool.and_eq_true] at hst
          have hlen : vs.length = ts.length := by simpa using hst.1
          have hzip := List.all_eq_true.mp hst.2
          simp only [nestedExactF] at hne
          have hznes := List.all_eq_true.mp hne
          simp only [valWF] at hwf
          have hall := List.all_eq_true.mp hwf
          cases g with
          | zero => simp [tyFits] at hft
          | succ g =>
            simp only [tyFits] at hft
            have hfts := List.all_eq_true.mp hft
            have hfa : List.Forall₂ (fun v t => ∀ rest2,
                parseValue g t (formatValue f v ++ rest2) = .ok (v, rest2))
                vs ts := by
              rw [List.forall₂_iff_zip]
              refine ⟨hlen, ?_⟩
              intro a b hab rest2
              have hmem := List.mem_zip hab
              exact ihf a b g rest2 (hall a hmem.1)
                (hzip (a, b) hab) (hznes (a, b) hab) (hfts b hmem.2)
            show (parseTupleTs (parseValue g) ts
                ((vs.map (formatValue f)).flatten ++ rest)).map
              (fun p => (Value.Tuple p.1, p.2)) = PRes.ok (Value.Tuple vs, rest)
            rw [parseTupleTs_fmt (parseValue g) (formatValue f) vs ts hfa rest]
            rfl
        · simp at hst
      | Map m =>
        simp only [isSameTypeAsF] at hst
        split at hst
        · rename_i k tv
          have hzip := List.all_eq_true.mp hst
          simp only [nestedExactF] at hne
          have hznes := List.all_eq_true.mp hne
          simp only [valWF] at hwf
          rw [Bool.and_eq_true] at hwf
          have hall := List.all_eq_true.mp hwf.2
          cases g with
          | zero => simp [tyFits] at hft
          | succ g =>
            simp only [tyFits] at hft
            rw [Bool.and_eq_true] at hft
            have hkeys : ∀ kv ∈ m, utf8Valid kv.1 = true := by
              intro kv hkv
              have h2 := hall kv hkv
              rw [Bool.and_eq_true] at h2
              have h3 := h2.1
              cases f with
              | zero => simp [valWF] at h3
              | succ f2 => simpa [valWF] using h3
            have hmapeq : m.map (fun kv =>
                formatValue f (Value.String kv.1) ++ formatValue f kv.2)
                = m.map (fun kv =>
                  (lebWrite kv.1.length ++ kv.1) ++ formatValue f kv.2) := by
              apply List.map_congr_left
              intro kv hkv
              have h2 := hall kv hkv
              rw [Bool.and_eq_true] at h2
              have h3 := h2.1
              cases f with
              | zero => simp [valWF] at h3
              | succ f2 => rfl
            have hvv : ∀ kv ∈ m, ∀ rest2, parseValue g tv
                (formatValue f kv.2 ++ rest2) = .ok (kv.2, rest2) := by
              intro kv hkv rest2
              have h2 := hall kv hkv
              rw [Bool.and_eq_true] at h2
              exact ihf kv.2 tv g rest2 h2.2 (hzip kv hkv) (hznes kv hkv) hft.2
            show (match lebRead ((lebWrite m.length ++ (m.map (fun kv =>
                formatValue f (Value.String kv.1) ++
                  formatValue f kv.2)).flatten) ++ rest) with
              | none => PRes.err "leb128 read failure"
              | some (n, rest) =>
                (parseMapN (parseValue g tv) n rest []).map
                  fun p => (Value.Map p.1, p.2))
              = PRes.ok (Value.Map m, rest)
            rw [hmapeq]
            have hsplit : (lebWrite m.length ++ (m.map (fun kv =>
                (lebWrite kv.1.length ++ kv.1) ++
                  formatValue f kv.2)).flatten) ++ rest
                = lebWrite m.length ++ ((m.map (fun kv =>
                  (lebWrite kv.1.length ++ kv.1) ++
                    formatValue f kv.2)).flatten ++ rest) := by simp
            rw [hsplit, lebRead_lebWrite m.length _]
            show (parseMapN (parseValue g tv) m.length
                ((m.map (fun kv => (lebWrite kv.1.length ++ kv.1) ++
                  formatValue f kv.2)).flatten ++ rest) []).map
              (fun p => (Value.Map p.1, p.2)) = PRes.ok (Value.Map m, rest)
            rw [parseMapN_fmt (parseValue g tv) (formatValue f) m hkeys hvv
              hwf.1 [] rest (fun kv hkv => rfl)]
            rfl
        · simp at hst
      | Nested m =>
        simp only [isSameTypeAsF] at hst
        split at hst
        · rename_i fields
          rw [Bool.and_eq_true] at hst
          simp only [nestedExactF] at hne
          rw [Bool.and_eq_true] at hne
          have hlen : m.length = fields.length := by simpa using hne.1
          have hzipne := List.all_eq_true.mp hne.2
          have hzipst := List.all_eq_true.mp hst.2
          simp only [valWF] at hwf
          rw [Bool.and_eq_true] at hwf
          have hall := List.all_eq_true.mp hwf.2
          cases g with
          | zero => simp [tyFits] at hft
          | succ g =>
            simp only [tyFits] at hft
            have hfts := List.all_eq_true.mp hft
            have hkeys : ∀ kv ∈ m, utf8Valid kv.1 = true := by
              intro kv hkv
              have h2 := hall kv hkv
              rw [Bool.and_eq_true] at h2
              have h3 := h2.1
              cases f with
              | zero => simp [valWF] at h3
              | succ f2 => simpa [valWF] using h3
            have hmapeq : m.map (fun kv =>
                formatValue f (Value.String kv.1) ++ formatValue f kv.2)
                = m.map (fun kv =>
                  (lebWrite kv.1.length ++ kv.1) ++ formatValue f kv.2) := by
              apply List.map_congr_left
              intro kv hkv
              have h2 := hall kv hkv
              rw [Bool.and_eq_true] at h2
              have h3 := h2.1
              cases f with
              | zero => simp [valWF] at h3
              | succ f2 => rfl
            have hfa : List.Forall₂ (fun kv ft => ∀ rest2,
                parseValue g ft.2 (formatValue f kv.2 ++ rest2)
                  = .ok (kv.2, rest2)) m fields := by
              rw [List.forall₂_iff_zip]
              refine ⟨hlen, ?_⟩
              intro a b hab rest2
              have hmem := List.mem_zip hab
              have h2 := hall a hmem.1
              rw [Bool.and_eq_true] at h2
              exact ihf a.2 b.2 g rest2 h2.2 (hzipst (a, b) hab)
                (hzipne (a, b) hab) (hfts b hmem.2)
            show ((parseNestedF (parseValue g) fields
                ((m.map (fun kv => formatValue f (Value.String kv.1) ++
                  formatValue f kv.2)).flatten ++ rest) []).map
              (fun p => (Value.Nested p.1, p.2))) = PRes.ok (Value.Nested m, rest)
            rw [hmapeq]
            rw [parseNestedF_fmt (parseValue g) (formatValue f) m fields hfa
              hkeys hwf.1 [] rest (fun kv hkv => rfl)]
            rfl
        · simp at hst
      | NullableUInt8 o =>
        simp only [isSameTypeAsF] at hst
        split at hst
        · cases g with
          | zero => simp [tyFits] at hft
          | succ g =>
            cases o with
            | none => rfl
            | some v =>
              simp only [valWF, Option.all] at hwf
              have hf1 : isSameTypeAsF f (.UInt8 v) .UInt8 = true := by
                cases f with
                | zero => simp [valWF] at hwf
                | succ f2 => rfl
              have hf2 : nestedExactF f (.UInt8 v) .UInt8 = true := by
                cases f with
                | zero => simp [valWF] at hwf
                | succ f2 => rfl
              have hinner := ihf (.UInt8 v) .UInt8 g rest hwf hf1 hf2 hft
              show (parseValue g .UInt8
                  (formatValue f (.UInt8 v) ++ rest)).bind
                (fun p => match intoNullable p.1 with
                  | some nv => PRes.ok (nv, p.2)
                  | none => PRes.err "Invalid nullable value")
                = PRes.ok (Value.NullableUInt8 (some v), rest)
              rw [hinner]
              rfl
        · simp at hst
      | NullableUInt16 o =>
        simp only [isSameTypeAsF] at hst
        split at hst
        · cases g with
          | zero => simp [tyFits] at hft
          | succ g =>
            cases o with
            | none => rfl
            | some v =>
              simp only [valWF, Option.all] at hwf
              have hf1 : isSameTypeAsF f (.UInt16 v) .UInt16 = true := by
                cases f with
                | zero => simp [valWF] at hwf
                | succ f2 => rfl
              have hf2 : nestedExactF f (.UInt16 v) .UInt16 = true := by
                cases f with
                | zero => simp [valWF] at hwf
                | succ f2 => rfl
              have hinner := ihf (.UInt16 v) .UInt16 g rest hwf hf1 hf2 hft
              show (parseValue g .UInt16
                  (formatValue f (.UInt16 v) ++ rest)).bind
                (fun p => match intoNullable p.1 with
                  | some nv => PRes.ok (nv, p.2)
                  | none => PRes.err "Invalid nullable value")
                = PRes.ok (Value.NullableUInt16 (some v), rest)
              rw [hinner]
              rfl
        · simp at hst
      | NullableUInt32 o =>
        simp only [isSameTypeAsF] at hst
        split at hst
        · cases g with
          | zero => simp [tyFits] at hft
          | succ g =>
            cases o with
            | none => rfl
            | some v =>
              simp only [valWF, Option.all] at hwf
              have hf1 : isSameTypeAsF f (.UInt32 v) .UInt32 = true := by
                cases f with
                | zero => simp [valWF] at hwf
                | succ f2 => rfl
              have hf2 : nestedExactF f (.UInt32 v) .UInt32 = true := by
                cases f with
                | zero => simp [valWF] at hwf
                | succ f2 => rfl
              have hinner := ihf (.UInt32 v) .UInt32 g rest hwf hf1 hf2 hft
              show (parseValue g .UInt32
                  (formatValue f (.UInt32 v) ++ rest)).bind
                (fun p => match intoNullable p.1 with
                  | some nv => PRes.ok (nv, p.2)
                  | none => PRes.err "Invalid nullable value")
                = PRes.ok (Value.NullableUInt32 (some v), rest)
              rw [hinner]
              rfl
        · simp at hst
      | NullableUInt64 o =>
        simp only [isSameTypeAsF] at hst
        split at hst
        · cases g with
          | zero => simp [tyFits] at hft
          | succ g =>
            cases o with
            | none => rfl
            | some v =>
              simp only [valWF, Option.all] at hwf
              have hf1 : isSameTypeAsF f (.UInt64 v) .UInt64 = true := by
                cases f with
                | zero => simp [valWF] at hwf
                | succ f2 => rfl
              have hf2 : nestedExactF f (.UInt64 v) .UInt64 = true := by
                cases f with
                | zero => simp [valWF] at hwf
                | succ f2 => rfl
              have hinner := ihf (.UInt64 v) .UInt64 g rest hwf hf1 hf2 hft
              show (parseValue g .UInt64
                  (formatValue f (.UInt64 v) ++ rest)).bind
                (fun p => match intoNullable p.1 with
                  | some nv => PRes.ok (nv, p.2)
                  | none => PRes.err "Invalid nullable value")
                = PRes.ok (Value.NullableUInt64 (some v), rest)
              rw [hinner]
              rfl
        · simp at hst
      | NullableUInt128 o =>
        simp only [isSameTypeAsF] at hst
        split at hst
        · cases g with
          | zero => simp [tyFits] at hft
          | succ g =>
            cases o with
            | none => rfl
            | some v =>
              simp only [valWF, Option.all] at hwf
              have hf1 : isSameTypeAsF f (.UInt128 v) .UInt128 = true := by
                cases f with
                | zero => simp [valWF] at hwf
                | succ f2 => rfl
              have hf2 : nestedExactF f (.UInt128 v) .UInt128 = true := by
                cases f with
                | zero => simp [valWF] at hwf
                | succ f2 => rfl
              have hinner := ihf (.UInt128 v) .UInt128 g rest hwf hf1 hf2 hft
              show (parseValue g .UInt128
                  (formatValue f (.UInt128 v) ++ rest)).bind
                (fun p => match intoNullable p.1 with
                  | some nv => PRes.ok (nv, p.2)
                  | none => PRes.err "Invalid nullable value")
                = PRes.ok (Value.NullableUInt128 (some v), rest)
              rw [hinner]
              rfl
        · simp at hst
      | NullableUInt256 o =>
        simp only [isSameTypeAsF] at hst
        split at hst
        · cases g with
          | zero => simp [tyFits] at hft
          | succ g =>
            cases o with
            | none => rfl
            | some v =>
              simp only [valWF, Option.all] at hwf
              have hf1 : isSameTypeAsF f (.UInt256 v) .UInt256 = true := by
                cases f with
                | zero => simp [valWF] at hwf
                | succ f2 => rfl
              have hf2 : nestedExactF f (.UInt256 v) .UInt256 = true := by
                cases f with
                | zero => simp [valWF] at hwf
                | succ f2 => rfl
              have hinner := ihf (.UInt256 v) .UInt256 g rest hwf hf1 hf2 hft
              show (parseValue g .UInt256
                  (formatValue f (.UInt256 v) ++ rest)).bind
                (fun p => match intoNullable p.1 with
                  | some nv => PRes.ok (nv, p.2)
                  | none => PRes.err "Invalid nullable value")
                = PRes.ok (Value.NullableUInt256 (some v), rest)
              rw [hinner]
              rfl
        · simp at hst
      | NullableInt8 o =>
        simp only [isSameTypeAsF] at hst
        split at hst
        · cases g with
          | zero => simp [tyFits] at hft
          | succ g =>
            cases o with
            | none => rfl
            | some v =>
              simp only [valWF, Option.all] at hwf
              have hf1 : isSameTypeAsF f (.Int8 v) .Int8 = true := by
                cases f with
                | zero => simp [valWF] at hwf
                | succ f2 => rfl
              have hf2 : nestedExactF f (.Int8 v) .Int8 = true := by
                cases f with
                | zero => simp [valWF] at hwf
                | succ f2 => rfl
              have hinner := ihf (.Int8 v) .Int8 g rest hwf hf1 hf2 hft
              show (parseValue g .Int8
                  (formatValue f (.Int8 v) ++ rest)).bind
                (fun p => match intoNullable p.1 with
                  | some nv => PRes.ok (nv, p.2)
                  | none => PRes.err "Invalid nullable value")
                = PRes.ok (Value.NullableInt8 (some v), rest)
              rw [hinner]
              rfl
        · simp at hst
      | NullableInt16 o =>
        simp only [isSameTypeAsF] at hst
        split at hst
        · cases g with
          | zero => simp [tyFits] at hft
          | succ g =>
            cases o with
            | none => rfl
            | some v =>
              simp only [valWF, Option.all] at hwf
              have hf1 : isSameTypeAsF f (.Int16 v) .Int16 = true := by
                cases f with
                | zero => simp [valWF] at hwf
                | succ f2 => rfl
              have hf2 : nestedExactF f (.Int16 v) .Int16 = true := by
                cases f with
                | zero => simp [valWF] at hwf
                | succ f2 => rfl
              have hinner := ihf (.Int16 v) .Int16 g rest hwf hf1 hf2 hft
              show (parseValue g .Int16
                  (formatValue f (.Int16 v) ++ rest)).bind
                (fun p => match intoNullable p.1 with
                  | some nv => PRes.ok (nv, p.2)
                  | none => PRes.err "Invalid nullable value")
                = PRes.ok (Value.NullableInt16 (some v), rest)
              rw [hinner]
              rfl
        · simp at hst
      | NullableInt32 o =>
        simp only [isSameTypeAsF] at hst
        split at hst
        · cases g with
          | zero => simp [tyFits] at hft
          | succ g =>
            cases o with
            | none => rfl
            | some v =>
              simp only [valWF, Option.all] at hwf
              have hf1 : isSameTypeAsF f (.Int32 v) .Int32 = true := by
                cases f with
                | zero => simp [valWF] at hwf
                | succ f2 => rfl
              have hf2 : nestedExactF f (.Int32 v) .Int32 = true := by
                cases f with
                | zero => simp [valWF] at hwf
                | succ f2 => rfl
              have hinner := ihf (.Int32 v) .Int32 g rest hwf hf1 hf2 hft
              show (parseValue g .Int32
                  (formatValue f (.Int32 v) ++ rest)).bind
                (fun p => match intoNullable p.1 with
                  | some nv => PRes.ok (nv, p.2)
                  | none => PRes.err "Invalid nullable value")
                = PRes.ok (Value.NullableInt32 (some v), rest)
              rw [hinner]
              rfl
        · simp at hst
      | NullableInt64 o =>
        simp only [isSameTypeAsF] at hst
        split at hst
        · cases g with
          | zero => simp [tyFits] at hft
          | succ g =>
            cases o with
            | none => rfl
            | some v =>
              simp only [valWF, Option.all] at hwf
              have hf1 : isSameTypeAsF f (.Int64 v) .Int64 = true := by
                cases f with
                | zero => simp [valWF] at hwf
                | succ f2 => rfl
              have hf2 : nestedExactF f (.Int64 v) .Int64 = true := by
                cases f with
                | zero => simp [valWF] at hwf
                | succ f2 => rfl
              have hinner := ihf (.Int64 v) .Int64 g rest hwf hf1 hf2 hft
              show (parseValue g .Int64
                  (formatValue f (.Int64 v) ++ rest)).bind
                (fun p => match intoNullable p.1 with
                  | some nv => PRes.ok (nv, p.2)
                  | none => PRes.err "Invalid nullable value")
                = PRes.ok (Value.NullableInt64 (some v), rest)
              rw [hinner]
              rfl
        · simp at hst
      | NullableInt128 o =>
        simp only [isSameTypeAsF] at hst
        split at hst
        · cases g with
          | zero => simp [tyFits] at hft
          | succ g =>
            cases o with
            | none => rfl
            | some v =>
              simp only [valWF, Option.all] at hwf
              have hf1 : isSameTypeAsF f (.Int128 v) .Int128 = true := by
                cases f with
                | zero => simp [valWF] at hwf
                | succ f2 => rfl
              have hf2 : nestedExactF f (.Int128 v) .Int128 = true := by
                cases f with
                | zero => simp [valWF] at hwf
                | succ f2 => rfl
              have hinner := ihf (.Int128 v) .Int128 g rest hwf hf1 hf2 hft
              show (parseValue g .Int128
                  (formatValue f (.Int128 v) ++ rest)).bind
                (fun p => match intoNullable p.1 with
                  | some nv => PRes.ok (nv, p.2)
                  | none => PRes.err "Invalid nullable value")
                = PRes.ok (Value.NullableInt128 (some v), rest)
              rw [hinner]
              rfl
        · simp at hst
      | NullableInt256 o =>
        simp only [isSameTypeAsF] at hst
        split at hst
        · cases g with
          | zero => simp [tyFits] at hft
          | succ g =>
            cases o with
            | none => rfl
            | some v =>
              simp only [valWF, Option.all] at hwf
              have hf1 : isSameTypeAsF f (.Int256 v) .Int256 = true := by
                cases f with
                | zero => simp [valWF] at hwf
                | succ f2 => rfl
              have hf2 : nestedExactF f (.Int256 v) .Int256 = true := by
                cases f with
                | zero => simp [valWF] at hwf
                | succ f2 => rfl
              have hinner := ihf (.Int256 v) .Int256 g rest hwf hf1 hf2 hft
              show (parseValue g .Int256
                  (formatValue f (.Int256 v) ++ rest)).bind
                (fun p => match intoNullable p.1 with
                  | some nv => PRes.ok (nv, p.2)
                  | none => PRes.err "Invalid nullable value")
                = PRes.ok (Value.NullableInt256 (some v), rest)
              rw [hinner]
              rfl
        · simp at hst
      | NullableFloat32 o =>
        simp only [isSameTypeAsF] at hst
        split at hst
        · cases g with
          | zero => simp [tyFits] at hft
          | succ g =>
            cases o with
            | none => rfl
            | some v =>
              simp only [valWF, Option.all] at hwf
              have hf1 : isSameTypeAsF f (.Float32 v) .Float32 = true := by
                cases f with
                | zero => simp [valWF] at hwf
                | succ f2 => rfl
              have hf2 : nestedExactF f (.Float32 v) .Float32 = true := by
                cases f with
                | zero => simp [valWF] at hwf
                | succ f2 => rfl
              have hinner := ihf (.Float32 v) .Float32 g rest hwf hf1 hf2 hft
              show (parseValue g .Float32
                  (formatValue f (.Float32 v) ++ rest)).bind
                (fun p => match intoNullable p.1 with
                  | some nv => PRes.ok (nv, p.2)
                  | none => PRes.err "Invalid nullable value")
                = PRes.ok (Value.NullableFloat32 (some v), rest)
              rw [hinner]
              rfl
        · simp at hst
      | NullableFloat64 o =>
        simp only [isSameTypeAsF] at hst
        split at hst
        · cases g with
          | zero => simp [tyFits] at hft
          | succ g =>
            cases o with
            | none => rfl
            | some v =>
              simp only [valWF, Option.all] at hwf
              have hf1 : isSameTypeAsF f (.Float64 v) .Float64 = true := by
                cases f with
                | zero => simp [valWF] at hwf
                | succ f2 => rfl
              have hf2 : nestedExactF f (.Float64 v) .Float64 = true := by
                cases f with
                | zero => simp [valWF] at hwf
                | succ f2 => rfl
              have hinner := ihf (.Float64 v) .Float64 g rest hwf hf1 hf2 hft
              show (parseValue g .Float64
                  (formatValue f (.Float64 v) ++ rest)).bind
                (fun p => match intoNullable p.1 with
                  | some nv => PRes.ok (nv, p.2)
                  | none => PRes.err "Invalid nullable value")
                = PRes.ok (Value.NullableFloat64 (some v), rest)
              rw [hinner]
              rfl
        · simp at hst
      | NullableBool o =>
        simp only [isSameTypeAsF] at hst
        split at hst
        · cases g with
          | zero => simp [tyFits] at hft
          | succ g =>
            cases o with
            | none => rfl
            | some v =>
              simp only [valWF, Option.all] at hwf
              have hf1 : isSameTypeAsF f (.Bool v) .Bool = true := by
                cases f with
                | zero => simp [valWF] at hwf
                | succ f2 => rfl
              have hf2 : nestedExactF f (.Bool v) .Bool = true := by
                cases f with
                | zero => simp [valWF] at hwf
                | succ f2 => rfl
              have hinner := ihf (.Bool v) .Bool g rest hwf hf1 hf2 hft
              show (parseValue g .Bool
                  (formatValue f (.Bool v) ++ rest)).bind
                (fun p => match intoNullable p.1 with
                  | some nv => PRes.ok (nv, p.2)
                  | none => PRes.err "Invalid nullable value")
                = PRes.ok (Value.NullableBool (some v), rest)
              rw [hinner]
              rfl
        · simp at hst
      | NullableString o =>
        simp only [isSameTypeAsF] at hst
        split at hst
        · cases g with
          | zero => simp [tyFits] at hft
          | succ g =>
            cases o with
            | none => rfl
            | some v =>
              simp only [valWF, Option.all] at hwf
              have hf1 : isSameTypeAsF f (.String v) .String = true := by
                cases f with
                | zero => simp [valWF] at hwf
                | succ f2 => rfl
              have hf2 : nestedExactF f (.String v) .String = true := by
                cases f with
                | zero => simp [valWF] at hwf
                | succ f2 => rfl
              have hinner := ihf (.String v) .String g rest hwf hf1 hf2 hft
              show (parseValue g .String
                  (formatValue f (.String v) ++ rest)).bind
                (fun p => match intoNullable p.1 with
                  | some nv => PRes.ok (nv, p.2)
                  | none => PRes.err "Invalid nullable value")
                = PRes.ok (Value.NullableString (some v), rest)
              rw [hinner]
              rfl
        · simp at hst
      | NullableUUID o =>
        simp only [isSameTypeAsF] at hst
        split at hst
        · cases g with
          | zero => simp [tyFits] at hft
          | succ g =>
            cases o with
            | none => rfl
            | some v =>
              simp only [valWF, Option.all] at hwf
              have hf1 : isSameTypeAsF f (.UUID v) .UUID = true := by
                cases f with
                | zero => simp [valWF] at hwf
                | succ f2 => rfl
              have hf2 : nestedExactF f (.UUID v) .UUID = true := by
                cases f with
                | zero => simp [valWF] at hwf
                | succ f2 => rfl
              have hinner := ihf (.UUID v) .UUID g rest hwf hf1 hf2 hft
              show (parseValue g .UUID
                  (formatValue f (.UUID v) ++ rest)).bind
                (fun p => match intoNullable p.1 with
                  | some nv => PRes.ok (nv, p.2)
                  | none => PRes.err "Invalid nullable value")
                = PRes.ok (Value.NullableUUID (some v), rest)
              rw [hinner]
              rfl
        · simp at hst
      | NullableDate o =>
        simp only [isSameTypeAsF] at hst
        split at hst
        · cases g with
          | zero => simp [tyFits] at hft
          | succ g =>
            cases o with
            | none => rfl
            | some v =>
              simp only [valWF, Option.all] at hwf
              have hf1 : isSameTypeAsF f (.Date v) .Date = true := by
                cases f with
                | zero => simp [valWF] at hwf
                | succ f2 => rfl
              have hf2 : nestedExactF f (.Date v) .Date = true := by
                cases f with
                | zero => simp [valWF] at hwf
                | succ f2 => rfl
              have hinner := ihf (.Date v) .Date g rest hwf hf1 hf2 hft
              show (parseValue g .Date
                  (formatValue f (.Date v) ++ rest)).bind
                (fun p => match intoNullable p.1 with
                  | some nv => PRes.ok (nv, p.2)
                  | none => PRes.err "Invalid nullable value")
                = PRes.ok (Value.NullableDate (some v), rest)
              rw [hinner]
              rfl
        · simp at hst
      | NullableDate32 o =>
        simp only [isSameTypeAsF] at hst
        split at hst
        · cases g with
          | zero => simp [tyFits] at hft
          | succ g =>
            cases o with
            | none => rfl
            | some v =>
              simp only [valWF, Option.all] at hwf
              have hf1 : isSameTypeAsF f (.Date32 v) .Date32 = true := by
                cases f with
                | zero => simp [valWF] at hwf
                | succ f2 => rfl
              have hf2 : nestedExactF f (.Date32 v) .Date32 = true := by
                cases f with
                | zero => simp [valWF] at hwf
                | succ f2 => rfl
              have hinner := ihf (.Date32 v) .Date32 g rest hwf hf1 hf2 hft
              show (parseValue g .Date32
                  (formatValue f (.Date32 v) ++ rest)).bind
                (fun p => match intoNullable p.1 with
                  | some nv => PRes.ok (nv, p.2)
                  | none => PRes.err "Invalid nullable value")
                = PRes.ok (Value.NullableDate32 (some v), rest)
              rw [hinner]
              rfl
        · simp at hst
      | NullableDateTime o =>
        simp only [isSameTypeAsF] at hst
        split at hst
        · cases g with
          | zero => simp [tyFits] at hft
          | succ g =>
            cases o with
            | none => rfl
            | some v =>
              simp only [valWF, Option.all] at hwf
              have hf1 : isSameTypeAsF f (.DateTime v) .DateTime = true := by
                cases f with
                | zero => simp [valWF] at hwf
                | succ f2 => rfl
              have hf2 : nestedExactF f (.DateTime v) .DateTime = true := by
                cases f with
                | zero => simp [valWF] at hwf
                | succ f2 => rfl
              have hinner := ihf (.DateTime v) .DateTime g rest hwf hf1 hf2 hft
              show (parseValue g .DateTime
                  (formatValue f (.DateTime v) ++ rest)).bind
                (fun p => match intoNullable p.1 with
                  | some nv => PRes.ok (nv, p.2)
                  | none => PRes.err "Invalid nullable value")
                = PRes.ok (Value.NullableDateTime (some v), rest)
              rw [hinner]
              rfl
        · simp at hst
      | NullableDateTime64 o =>
        simp only [isSameTypeAsF] at hst
        split at hst
        · rename_i p
          cases g with
          | zero => simp [tyFits] at hft
          | succ g =>
            cases o with
            | none => rfl
            | some v =>
              simp only [valWF, Option.all] at hwf
              have hf1 : isSameTypeAsF f (.DateTime64 v) (.DateTime64 p)
                  = true := by
                cases f with
                | zero => simp [valWF] at hwf
                | succ f2 => rfl
              have hf2 : nestedExactF f (.DateTime64 v) (.DateTime64 p)
                  = true := by
                cases f with
                | zero => simp [valWF] at hwf
                | succ f2 => rfl
              have hinner := ihf (.DateTime64 v) (.DateTime64 p) g rest hwf
                hf1 hf2 hft
              show (parseValue g (.DateTime64 p)
                  (formatValue f (.DateTime64 v) ++ rest)).bind
                (fun p => match intoNullable p.1 with
                  | some nv => PRes.ok (nv, p.2)
                  | none => PRes.err "Invalid nullable value")
                = PRes.ok (Value.NullableDateTime64 (some v), rest)
              rw [hinner]
              rfl
        · simp at hst
      | NullableEnum8 o =>
        simp only [isSameTypeAsF] at hst
        split at hst
        · rename_i vars
          cases g with
          | zero => simp [tyFits] at hft
          | succ g =>
            cases o with
            | none => rfl
            | some v =>
              simp only [valWF, Option.all] at hwf
              have hfmt : formatValue f (.Enum8 v) = leBytesI 1 v := by
                cases f with
                | zero => simp [valWF] at hwf
                | succ f2 => rfl
              have hpar : parseValue g (.Enum8 vars) (leBytesI 1 v ++ rest)
                  = .ok (.Enum8 v, rest) := by
                cases g with
                | zero => simp [tyFits] at hft
                | succ g2 =>
                  have hiok : iOK 1 v = true := by
                    cases f with
                    | zero => simp [valWF] at hwf
                    | succ f2 => simpa [valWF] using hwf
                  exact readLEI_leBytesI 1 Value.Enum8 v rest (by omega) hiok
              show (parseValue g (.Enum8 vars)
                  (formatValue f (.Enum8 v) ++ rest)).bind
                (fun p => match intoNullable p.1 with
                  | some nv => PRes.ok (nv, p.2)
                  | none => PRes.err "Invalid nullable value")
                = PRes.ok (Value.NullableEnum8 (some v), rest)
              rw [hfmt, hpar]
              rfl
        · simp at hst
      | NullableEnum16 o =>
        simp only [isSameTypeAsF] at hst
        split at hst
        · rename_i vars
          cases g with
          | zero => simp [tyFits] at hft
          | succ g =>
            cases o with
            | none => rfl
            | some v =>
              simp only [valWF, Option.all] at hwf
              have hfmt : formatValue f (.Enum16 v) = leBytesI 2 v := by
                cases f with
                | zero => simp [valWF] at hwf
                | succ f2 => rfl
              have hpar : parseValue g (.Enum16 vars) (leBytesI 2 v ++ rest)
                  = .ok (.Enum16 v, rest) := by
                cases g with
                | zero => simp [tyFits] at hft
                | succ g2 =>
                  have hiok : iOK 2 v = true := by
                    cases f with
                    | zero => simp [valWF] at hwf
                    | succ f2 => simpa [valWF] using hwf
                  exact readLEI_leBytesI 2 Value.Enum16 v rest (by omega) hiok
              show (parseValue g (.Enum16 vars)
                  (formatValue f (.Enum16 v) ++ rest)).bind
                (fun p => match intoNullable p.1 with
                  | some nv => PRes.ok (nv, p.2)
                  | none => PRes.err "Invalid nullable value")
                = PRes.ok (Value.NullableEnum16 (some v), rest)
              rw [hfmt, hpar]
              rfl
        · simp at hst

-- ## Claim C2

/-- C2 (amended): the claim fails as stated — `is_same_type_as` zips a
`Nested` value against the type's fields truncatingly, so an under-length
`Nested` value (e.g. the empty one) satisfies the type yet fails to decode
(the parser reads one key/value pair per field and runs out of bytes).  With
the extra `nestedExactF` alignment (every `Nested` node carries exactly as
many entries as its type has fields) and value well-formedness (machine-int
ranges, UTF-8 strings, distinct map keys — invariants Rust's types provide),
decoding the encoding returns the original value (floats compared as bit
patterns), and a lone value with trailing bytes is an error. -/
theorem C2_rowbin_roundtrip (f g : Nat) (v : Value) (ty : Ty)
    (hwf : valWF f v = true) (hst : isSameTypeAsF f v ty = true)
    (hne : nestedExactF f v ty = true) (hft : tyFits g ty = true) :
    deserializeValue g (formatValue f v) ty = .ok v ∧
    ∀ rest, rest ≠ [] →
      deserializeValue g (formatValue f v ++ rest) ty =
        .err "Value bytes has remaining bytes" := by
  constructor
  · have h := rowbinRoundTripAux f v ty g [] hwf hst hne hft
    rw [List.append_nil] at h
    rw [deserializeValue, h]
    rfl
  · intro rest hrest
    have h := rowbinRoundTripAux f v ty g rest hwf hst hne hft
    rw [deserializeValue, h]
    show (if rest.isEmpty = true then PRes.ok v
      else PRes.err "Value bytes has remaining bytes")
      = PRes.err "Value bytes has remaining bytes"
    rw [if_neg]
    simp [hrest]

/-- Witness for C2 at a `Map(String, Array(Nullable(UInt8)))` value with a
present and an absent element, exercising LEB128 lengths, string keys and
the nullable discriminant. -/
theorem C2_rowbin_roundtrip_witness :
    valWF 4 (Value.Map [(bs "k",
        Value.Array [Value.NullableUInt8 (some 7), Value.NullableUInt8 none])])
      = true ∧
    isSameTypeAsF 4 (Value.Map [(bs "k",
        Value.Array [Value.NullableUInt8 (some 7), Value.NullableUInt8 none])])
      (Ty.Map Ty.String (Ty.Array Ty.NullableUInt8)) = true ∧
    deserializeValue 4 (formatValue 4 (Value.Map [(bs "k",
        Value.Array [Value.NullableUInt8 (some 7), Value.NullableUInt8 none])]))
      (Ty.Map Ty.String (Ty.Array Ty.NullableUInt8))
      = .ok (Value.Map [(bs "k",
        Value.Array [Value.NullableUInt8 (some 7), Value.NullableUInt8 none])]) ∧
    deserializeValue 4 (formatValue 4 (Value.Map [(bs "k",
        Value.Array [Value.NullableUInt8 (some 7), Value.NullableUInt8 none])])
        ++ [0])
      (Ty.Map Ty.String (Ty.Array Ty.NullableUInt8))
      = .err "Value bytes has remaining bytes" :=
  ⟨rfl, rfl,
   (C2_rowbin_roundtrip 4 4 (Value.Map [(bs "k",
        Value.Array [Value.NullableUInt8 (some 7), Value.NullableUInt8 none])])
      (Ty.Map Ty.String (Ty.Array Ty.NullableUInt8)) rfl rfl rfl
      (by decide)).1,
   (C2_rowbin_roundtrip 4 4 (Value.Map [(bs "k",
        Value.Array [Value.NullableUInt8 (some 7), Value.NullableUInt8 none])])
      (Ty.Map Ty.String (Ty.Array Ty.NullableUInt8)) rfl rfl rfl
      (by decide)).2
     [0] (by simp)⟩

/-- C2 counterexample: the empty `Nested` value satisfies
`Nested(a UInt8)` under `is_same_type_as` (truncating zip), is well formed,
the type is constructible — yet decoding its (empty) encoding errors instead
of returning the value, refuting the claim's universal round trip. -/
theorem C2_rowbin_roundtrip_cex :
    isSameTypeAsF 2 (Value.Nested []) (Ty.Nested [(bs "a", Ty.UInt8)]) = true ∧
    valWF 2 (Value.Nested []) = true ∧
    tyFits 2 (Ty.Nested [(bs "a", Ty.UInt8)]) = true ∧
    deserializeValue 2 (formatValue 2 (Value.Nested []))
      (Ty.Nested [(bs "a", Ty.UInt8)]) = .err "leb128 read failure" :=
  ⟨rfl, rfl, rfl, rfl⟩

-- ## Claim C8

/-- C8 (amended): for every nullable type the `impl_nullable!` macro covers
— all nullable scalars except the `Decimal` family, whose arms are
`unimplemented!` panics — encoding a present value writes `0x00` followed by
the inner encoding, encoding an absent value writes exactly `[0x01]`,
decoding discriminant `0x01` returns the absent value consuming one byte,
and any discriminant other than `0x00`/`0x01` is the error
`"Invalid nullable value"`. -/
theorem C8_rowbin_nullable_discriminant :
    (∀ f v nv, intoNullable v = some nv → nv ≠ v →
      formatValue (f + 1) nv = 0 :: formatValue f v) ∧
    (∀ f ty noneVal, nullNoneOf ty = some noneVal →
      formatValue (f + 1) noneVal = [1]) ∧
    (∀ g ty noneVal bytes, nullNoneOf ty = some noneVal →
      parseValue (g + 1) ty (1 :: bytes) = .ok (noneVal, bytes)) ∧
    (∀ g ty noneVal b bytes, nullNoneOf ty = some noneVal → 2 ≤ b →
      parseValue (g + 1) ty (b :: bytes) = .err "Invalid nullable value") := by
  refine ⟨?_, ?_, ?_, ?_⟩
  · intro f v nv hin hne
    cases v <;> cases hin <;> first | rfl | exact absurd rfl hne
  · intro f ty noneVal hno
    cases ty <;> cases hno <;> rfl
  · intro g ty noneVal bytes hno
    cases ty <;> cases hno <;> rfl
  · intro g ty noneVal b bytes hno hb
    cases ty <;> cases hno <;>
      simp [parseValue, parseNullable, readExact, show b ≠ 1 from by omega,
        show b ≠ 0 from by omega]

/-- Witness for C8 at `Nullable(UInt16)`: present `0x00`-prefixed encoding,
absent `[0x01]`, decode of `0x01`, and rejection of discriminant `0x07`. -/
theorem C8_rowbin_nullable_discriminant_witness :
    formatValue 3 (Value.NullableUInt16 (some 513))
      = 0 :: formatValue 2 (Value.UInt16 513) ∧
    formatValue 3 (Value.NullableUInt16 none) = [1] ∧
    parseValue 3 Ty.NullableUInt16 [1, 9] = .ok (Value.NullableUInt16 none, [9]) ∧
    parseValue 3 Ty.NullableUInt16 [7, 9] = .err "Invalid nullable value" :=
  ⟨C8_rowbin_nullable_discriminant.1 2 (Value.UInt16 513)
     (Value.NullableUInt16 (some 513)) rfl (by simp),
   C8_rowbin_nullable_discriminant.2.1 2 Ty.NullableUInt16
     (Value.NullableUInt16 none) rfl,
   C8_rowbin_nullable_discriminant.2.2.1 2 Ty.NullableUInt16
     (Value.NullableUInt16 none) [9] rfl,
   C8_rowbin_nullable_discriminant.2.2.2 2 Ty.NullableUInt16
     (Value.NullableUInt16 none) 7 [9] rfl (by omega)⟩

/-- C8 counterexample: `Nullable(Decimal32(5))` is a nullable scalar type,
but decoding any byte — here the valid absent discriminant `0x01` — panics
(`unimplemented!`) instead of reading a discriminant and erroring. -/
theorem C8_rowbin_nullable_discriminant_cex :
    parseValue 1 (Ty.NullableDecimal32 5) [1]
      = .panicked "RowBinary format Decimal32" ∧
    parseValue 1 (Ty.NullableDecimal 10 2) [1]
      = .panicked "RowBinary format Decimal" :=
  ⟨rfl, rfl⟩
theorem noPanic_bind {α β : Type} (x : PRes α) (f : α → PRes β)
    (hx : isPanic x = false) (hf : ∀ a, isPanic (f a) = false) :
    isPanic (x.bind f) = false := by
  cases x with
  | ok a => exact hf a
  | err e => rfl
  | panicked m => simp [isPanic] at hx

theorem noPanic_map {α β : Type} (g : α → β) (x : PRes α)
    (hx : isPanic x = false) : isPanic (x.map g) = false := by
  cases x <;> simp_all [PRes.map, isPanic]

theorem noPanic_readLEU (w : Nat) (mk : Nat → Value) (bytes : Bytes) :
    isPanic (readLEU w mk bytes) = false := by
  rcases h : readLE w bytes with _ | ⟨n, rest⟩ <;> simp [readLEU, h, isPanic]

theorem noPanic_readLEI (w : Nat) (mk : Int → Value) (bytes : Bytes) :
    isPanic (readLEI w mk bytes) = false := by
  rcases h : readLE w bytes with _ | ⟨n, rest⟩ <;> simp [readLEI, h, isPanic]

theorem noPanic_parseValueStr (bytes : Bytes) :
    isPanic (parseValueStr bytes) = false := by
  rcases h : lebRead bytes with _ | ⟨n, rest⟩ <;>
    simp only [parseValueStr, h]
  · rfl
  · rcases h2 : readExact n rest with _ | ⟨buf, rest2⟩ <;> simp only [h2]
    · rfl
    · split <;> rfl

theorem noPanic_parseArrayN (pv : Bytes → PRes (Value × Bytes))
    (h : ∀ b, isPanic (pv b) = false) :
    ∀ n bytes, isPanic (parseArrayN pv n bytes) = false := by
  intro n
  induction n with
  | zero => intro bytes; rfl
  | succ n ih =>
    intro bytes
    exact noPanic_bind _ _ (h bytes) (fun p => noPanic_map _ _ (ih p.2))

theorem noPanic_parseTupleTs (pv : Ty → Bytes → PRes (Value × Bytes))
    (ts : List Ty) (h : ∀ t ∈ ts, ∀ b, isPanic (pv t b) = false) :
    ∀ bytes, isPanic (parseTupleTs pv ts bytes) = false := by
  induction ts with
  | nil => intro bytes; rfl
  | cons t ts ih =>
    intro bytes
    exact noPanic_bind _ _ (h t (by simp) bytes)
      (fun p => noPanic_map _ _ (ih (fun t2 h2 b => h t2 (by simp [h2]) b) p.2))

theorem noPanic_parseMapN (pv : Bytes → PRes (Value × Bytes))
    (h : ∀ b, isPanic (pv b) = false) :
    ∀ n bytes acc, isPanic (parseMapN pv n bytes acc) = false := by
  intro n
  induction n with
  | zero => intro bytes acc; rfl
  | succ n ih =>
    intro bytes acc
    exact noPanic_bind _ _ (noPanic_parseValueStr bytes)
      (fun k => noPanic_bind _ _ (h k.2) (fun p => ih p.2 _))

theorem noPanic_parseNestedF (pv : Ty → Bytes → PRes (Value × Bytes))
    (fs : List (RStr × Ty)) (h : ∀ ft ∈ fs, ∀ b, isPanic (pv ft.2 b) = false) :
    ∀ bytes acc, isPanic (parseNestedF pv fs bytes acc) = false := by
  induction fs with
  | nil => intro bytes acc; rfl
  | cons ft fs ih =>
    intro bytes acc
    obtain ⟨fn, ftt⟩ := ft
    show isPanic ((parseValueStr bytes).bind fun k =>
      (pv ftt k.2).bind fun p =>
        parseNestedF pv fs p.2 (hmInsert acc k.1 p.1)) = false
    exact noPanic_bind _ _ (noPanic_parseValueStr bytes)
      (fun k => noPanic_bind _ _ (h (fn, ftt) (by simp) k.2)
        (fun p => ih (fun ft2 h2 b => h ft2 (by simp [h2]) b) p.2 _))

theorem noPanic_parseNullable (pv : Ty → Bytes → PRes (Value × Bytes))
    (mkNone : Value) (innerTy : Ty) (bytes : Bytes)
    (h : ∀ b, isPanic (pv innerTy b) = false) :
    isPanic (parseNullable pv mkNone innerTy bytes) = false := by
  rcases h2 : readExact 1 bytes with _ | ⟨buf, rest⟩ <;>
    simp only [parseNullable, h2]
  · rfl
  · split
    · rfl
    · split
      · exact noPanic_bind _ _ (h rest)
          (fun p => by cases intoNullable p.1 <;> rfl)
      · rfl
theorem parseValue_noPanic : ∀ g f ty bytes, decFreeF f ty = true →
    isPanic (parseValue g ty bytes) = false := by
  intro g
  induction g using Nat.strong_induction_on with
  | _ g ih =>
    intro f ty bytes hdf
    match g with
    | 0 => rfl
    | g + 1 =>
      have ihg : ∀ f ty bytes, decFreeF f ty = true →
          isPanic (parseValue g ty bytes) = false :=
        ih g (Nat.lt_succ_self g)
      cases ty with
      | UInt8 => exact noPanic_readLEU 1 Value.UInt8 bytes
      | UInt16 => exact noPanic_readLEU 2 Value.UInt16 bytes
      | UInt32 => exact noPanic_readLEU 4 Value.UInt32 bytes
      | UInt64 => exact noPanic_readLEU 8 Value.UInt64 bytes
      | UInt128 => exact noPanic_readLEU 16 Value.UInt128 bytes
      | Float32 => exact noPanic_readLEU 4 Value.Float32 bytes
      | Float64 => exact noPanic_readLEU 8 Value.Float64 bytes
      | Date => exact noPanic_readLEU 2 Value.Date bytes
      | DateTime => exact noPanic_readLEU 4 Value.DateTime bytes
      | Int8 => exact noPanic_readLEI 1 Value.Int8 bytes
      | Int16 => exact noPanic_readLEI 2 Value.Int16 bytes
      | Int32 => exact noPanic_readLEI 4 Value.Int32 bytes
      | Int64 => exact noPanic_readLEI 8 Value.Int64 bytes
      | Int128 => exact noPanic_readLEI 16 Value.Int128 bytes
      | Date32 => exact noPanic_readLEI 4 Value.Date32 bytes
      | DateTime64 p => exact noPanic_readLEI 8 Value.DateTime64 bytes
      | Enum8 vars => exact noPanic_readLEI 1 Value.Enum8 bytes
      | Enum16 vars => exact noPanic_readLEI 2 Value.Enum16 bytes
      | UInt256 =>
        rcases h : readLE 32 bytes with _ | ⟨n, rest⟩ <;>
          simp [parseValue, h, isPanic]
      | Int256 =>
        rcases h : readLE 32 bytes with _ | ⟨n, rest⟩ <;>
          simp [parseValue, h, isPanic]
      | Bool =>
        rcases h : readExact 1 bytes with _ | ⟨buf, rest⟩ <;>
          simp only [parseValue, h]
        · rfl
        · split
          · rfl
          · split <;> rfl
      | String =>
        exact noPanic_map _ _ (noPanic_parseValueStr bytes)
      | FixedString n =>
        rcases h : readExact n bytes with _ | ⟨buf, rest⟩ <;>
          simp only [parseValue, h]
        · rfl
        · split <;> rfl
      | UUID =>
        rcases h : readExact 8 bytes with _ | ⟨b1, r1⟩ <;>
          simp only [parseValue, h]
        · rfl
        · rcases h2 : readExact 8 r1 with _ | ⟨b2, r2⟩ <;> simp only [h2] <;> rfl
      | Decimal p s => cases f <;> simp [decFreeF] at hdf
      | Decimal32 s => cases f <;> simp [decFreeF] at hdf
      | Decimal64 s => cases f <;> simp [decFreeF] at hdf
      | Decimal128 s => cases f <;> simp [decFreeF] at hdf
      | Decimal256 s => cases f <;> simp [decFreeF] at hdf
      | NullableDecimal p s => cases f <;> simp [decFreeF] at hdf
      | NullableDecimal32 s => cases f <;> simp [decFreeF] at hdf
      | NullableDecimal64 s => cases f <;> simp [decFreeF] at hdf
      | NullableDecimal128 s => cases f <;> simp [decFreeF] at hdf
      | NullableDecimal256 s => cases f <;> simp [decFreeF] at hdf
      | Array t =>
        have hdt : decFreeF (f - 1) t = true := by
          cases f with
          | zero => simp [decFreeF] at hdf
          | succ f2 => simpa [decFreeF] using hdf
        rcases h : lebRead bytes with _ | ⟨n, rest⟩ <;>
          simp only [parseValue, h]
        · rfl
        · exact noPanic_map _ _
            (noPanic_parseArrayN _ (fun b => ihg (f - 1) t b hdt) n rest)
      | Tuple ts =>
        have hdt : ∀ t ∈ ts, decFreeF (f - 1) t = true := by
          cases f with
          | zero => simp [decFreeF] at hdf
          | succ f2 =>
            intro t ht
            simp only [decFreeF] at hdf
            exact List.all_eq_true.mp hdf t ht
        exact noPanic_map _ _ (noPanic_parseTupleTs (parseValue g) ts
          (fun t ht b => ihg (f - 1) t b (hdt t ht)) bytes)
      | Map k tv =>
        have hdt : decFreeF (f - 1) tv = true := by
          cases f with
          | zero => simp [decFreeF] at hdf
          | succ f2 => simpa [decFreeF] using hdf
        rcases h : lebRead bytes with _ | ⟨n, rest⟩ <;>
          simp only [parseValue, h]
        · rfl
        · exact noPanic_map _ _
            (noPanic_parseMapN _ (fun b => ihg (f - 1) tv b hdt) n rest [])
      | Nested fs =>
        have hdt : ∀ ft ∈ fs, decFreeF (f - 1) ft.2 = true := by
          cases f with
          | zero => simp [decFreeF] at hdf
          | succ f2 =>
            intro ft hft
            simp only [decFreeF] at hdf
            exact List.all_eq_true.mp hdf ft hft
        exact noPanic_map _ _ (noPanic_parseNestedF (parseValue g) fs
          (fun ft hft b => ihg (f - 1) ft.2 b (hdt ft hft)) bytes [])
      | NullableUInt8 =>
        exact noPanic_parseNullable (parseValue g) (.NullableUInt8 none) .UInt8 bytes
          (fun b => ihg 1 .UInt8 b rfl)
      | NullableUInt16 =>
        exact noPanic_parseNullable (parseValue g) (.NullableUInt16 none) .UInt16 bytes
          (fun b => ihg 1 .UInt16 b rfl)
      | NullableUInt32 =>
        exact noPanic_parseNullable (parseValue g) (.NullableUInt32 none) .UInt32 bytes
          (fun b => ihg 1 .UInt32 b rfl)
      | NullableUInt64 =>
        exact noPanic_parseNullable (parseValue g) (.NullableUInt64 none) .UInt64 bytes
          (fun b => ihg 1 .UInt64 b rfl)
      | NullableUInt128 =>
        exact noPanic_parseNullable (parseValue g) (.NullableUInt128 none) .UInt128 bytes
          (fun b => ihg 1 .UInt128 b rfl)
      | NullableUInt256 =>
        exact noPanic_parseNullable (parseValue g) (.NullableUInt256 none) .UInt256 bytes
          (fun b => ihg 1 .UInt256 b rfl)
      | NullableInt8 =>
        exact noPanic_parseNullable (parseValue g) (.NullableInt8 none) .Int8 bytes
          (fun b => ihg 1 .Int8 b rfl)
      | NullableInt16 =>
        exact noPanic_parseNullable (parseValue g) (.NullableInt16 none) .Int16 bytes
          (fun b => ihg 1 .Int16 b rfl)
      | NullableInt32 =>
        exact noPanic_parseNullable (parseValue g) (.NullableInt32 none) .Int32 bytes
          (fun b => ihg 1 .Int32 b rfl)
      | NullableInt64 =>
        exact noPanic_parseNullable (parseValue g) (.NullableInt64 none) .Int64 bytes
          (fun b => ihg 1 .Int64 b rfl)
      | NullableInt128 =>
        exact noPanic_parseNullable (parseValue g) (.NullableInt128 none) .Int128 bytes
          (fun b => ihg 1 .Int128 b rfl)
      | NullableInt256 =>
        exact noPanic_parseNullable (parseValue g) (.NullableInt256 none) .Int256 bytes
          (fun b => ihg 1 .Int256 b rfl)
      | NullableFloat32 =>
        exact noPanic_parseNullable (parseValue g) (.NullableFloat32 none) .Float32 bytes
          (fun b => ihg 1 .Float32 b rfl)
      | NullableFloat64 =>
        exact noPanic_parseNullable (parseValue g) (.NullableFloat64 none) .Float64 bytes
          (fun b => ihg 1 .Float64 b rfl)
      | NullableBool =>
        exact noPanic_parseNullable (parseValue g) (.NullableBool none) .Bool bytes
          (fun b => ihg 1 .Bool b rfl)
      | NullableString =>
        exact noPanic_parseNullable (parseValue g) (.NullableString none) .String bytes
          (fun b => ihg 1 .String b rfl)
      | NullableUUID =>
        exact noPanic_parseNullable (parseValue g) (.NullableUUID none) .UUID bytes
          (fun b => ihg 1 .UUID b rfl)
      | NullableDate =>
        exact noPanic_parseNullable (parseValue g) (.NullableDate none) .Date bytes
          (fun b => ihg 1 .Date b rfl)
      | NullableDate32 =>
        exact noPanic_parseNullable (parseValue g) (.NullableDate32 none) .Date32 bytes
          (fun b => ihg 1 .Date32 b rfl)
      | NullableDateTime =>
        exact noPanic_parseNullable (parseValue g) (.NullableDateTime none) .DateTime bytes
          (fun b => ihg 1 .DateTime b rfl)
      | NullableFixedString n =>
        exact noPanic_parseNullable (parseValue g) (.NullableString none)
          (.FixedString n) bytes (fun b => ihg 1 (.FixedString n) b rfl)
      | NullableDateTime64 p =>
        exact noPanic_parseNullable (parseValue g) (.NullableDateTime64 none)
          (.DateTime64 p) bytes (fun b => ihg 1 (.DateTime64 p) b rfl)
      | NullableEnum8 vars =>
        exact noPanic_parseNullable (parseValue g) (.NullableEnum8 none)
          (.Enum8 vars) bytes (fun b => ihg 1 (.Enum8 vars) b rfl)
      | NullableEnum16 vars =>
        exact noPanic_parseNullable (parseValue g) (.NullableEnum16 none)
          (.Enum16 vars) bytes (fun b => ihg 1 (.Enum16 vars) b rfl)
theorem noPanic_parseRowsRB (g : Nat) (types : List Ty) (f : Nat)
    (hdt : ∀ t ∈ types, decFreeF f t = true) :
    ∀ rowFuel d bytes,
      isPanic (parseRowsRB false g types rowFuel d bytes) = false := by
  intro rowFuel
  induction rowFuel with
  | zero => intro d bytes; rfl
  | succ n ih =>
    intro d bytes
    cases bytes with
    | nil => rfl
    | cons b bs =>
      refine noPanic_bind _ _ (noPanic_parseTupleTs (parseValue g) types
        (fun t ht b2 => parseValue_noPanic g f t b2 (hdt t ht)) _) ?_
      intro p
      refine noPanic_bind _ _ ?_ (fun d2 => ih d2 p.2)
      show isPanic (addRowChecked false g d p.1) = false
      simp [addRowChecked, isPanic]

theorem noPanic_parseDataRB (g rowFuel f : Nat) (mp : List (RStr × Ty))
    (bytes : Bytes)
    (hdt : ∀ nt ∈ mp, decFreeF f nt.2 = true) :
    isPanic (parseDataRB false false false g rowFuel bytes (some mp))
      = false := by
  show isPanic (parseRowsRB false g (mp.map (fun nt => nt.2)) rowFuel
    (QueryData.NoHeaders []) bytes) = false
  refine noPanic_parseRowsRB g _ f ?_ rowFuel _ bytes
  intro t ht
  rw [List.mem_map] at ht
  obtain ⟨nt, hnt, rfl⟩ := ht
  exact hdt nt hnt

-- ## Claim C6

/-- C6 (amended): `add_row_checked` never returns an error to the caller —
its signature has no `Result`.  In debug builds a row whose length differs
from an established column count panics, as does a wrong-typed cell when
the table carries column types; in release builds every row, including
wrong-width and wrong-typed ones, is silently appended.  `n_rows` grows by
one on each accepted row; `n_cols` keeps the header width when headers
exist and is established by the first row otherwise. -/
theorem C6_add_row_rejection (dbg : Bool) (f : Nat) (d : QueryData)
    (row : List Value) :
    (∀ e, addRowChecked dbg f d row ≠ .err e) ∧
    (dbg = false → addRowChecked dbg f d row = .ok (pushRow d row)) ∧
    (dbg = true → 0 < nCols d → row.length ≠ nCols d →
      addRowChecked dbg f d row =
        .panicked "Row length does not match the number of columns") ∧
    (addRowChecked dbg f d row = .ok (pushRow d row) →
      nRows (pushRow d row) = nRows d + 1) ∧
    ((getColumns d).isSome = true → nCols (pushRow d row) = nCols d) ∧
    (d = QueryData.NoHeaders [] → nCols (pushRow d row) = row.length) := by
  refine ⟨?_, ?_, ?_, ?_, ?_, ?_⟩
  · intro e
    rw [addRowChecked]
    split
    · simp
    · split
      · simp
      · simp
  · intro hd
    subst hd
    simp [addRowChecked]
  · intro hd h1 h2
    rw [addRowChecked, if_pos (by simp [hd, h1, h2])]
  · intro _
    cases d <;> simp [nRows, getRows, pushRow]
  · intro h
    cases d <;> simp [getColumns, nCols, pushRow] at h ⊢
  · intro h
    subst h
    simp [nCols, getColumns, getRows, pushRow]

/-- Witness for C6: a 2-cell row against a 1-column typed table is silently
accepted in release mode, panics in debug mode; an accepted good row bumps
`n_rows`. -/
theorem C6_add_row_rejection_witness :
    addRowChecked false 2
      (QueryData.WithNamesAndTypes [(bs "a", Ty.UInt8)] [])
      [Value.Bool true, Value.Bool false]
      = .ok (pushRow (QueryData.WithNamesAndTypes [(bs "a", Ty.UInt8)] [])
          [Value.Bool true, Value.Bool false]) ∧
    addRowChecked true 2
      (QueryData.WithNamesAndTypes [(bs "a", Ty.UInt8)] [])
      [Value.Bool true, Value.Bool false]
      = .panicked "Row length does not match the number of columns" ∧
    nRows (pushRow (QueryData.WithNamesAndTypes [(bs "a", Ty.UInt8)] [])
        [Value.UInt8 3])
      = nRows (QueryData.WithNamesAndTypes [(bs "a", Ty.UInt8)] []) + 1 :=
  ⟨(C6_add_row_rejection false 2
      (QueryData.WithNamesAndTypes [(bs "a", Ty.UInt8)] [])
      [Value.Bool true, Value.Bool false]).2.1 rfl,
   (C6_add_row_rejection true 2
      (QueryData.WithNamesAndTypes [(bs "a", Ty.UInt8)] [])
      [Value.Bool true, Value.Bool false]).2.2.1 rfl (by decide) (by decide),
   (C6_add_row_rejection false 2
      (QueryData.WithNamesAndTypes [(bs "a", Ty.UInt8)] [])
      [Value.UInt8 3]).2.2.2.1 rfl⟩

/-- C6 counterexample: a wrong-width wrong-typed row is never reported as
an error — release mode appends it silently, debug mode panics; a
wrong-typed cell of the right width also panics rather than erroring. -/
theorem C6_add_row_rejection_cex :
    addRowChecked false 2
      (QueryData.WithNamesAndTypes [(bs "a", Ty.UInt8)] [])
      [Value.Bool true, Value.Bool false]
      = .ok (QueryData.WithNamesAndTypes [(bs "a", Ty.UInt8)]
          [[Value.Bool true, Value.Bool false]]) ∧
    addRowChecked true 2
      (QueryData.WithNamesAndTypes [(bs "a", Ty.UInt8)] [])
      [Value.Bool true, Value.Bool false]
      = .panicked "Row length does not match the number of columns" ∧
    addRowChecked true 2
      (QueryData.WithNamesAndTypes [(bs "a", Ty.UInt8)] [])
      [Value.Bool true]
      = .panicked "Field should have the type" :=
  ⟨rfl, rfl, rfl⟩
theorem tsvRowsLoop_takeWhile (pv : Ty → RStr → PRes Value) (dbg : Bool)
    (g : Nat) (types : List Ty) :
    ∀ rows d, tsvRowsLoop pv dbg g types rows d
      = tsvRowsLoop pv dbg g types
          (rows.takeWhile (fun r => !r.isEmpty)) d := by
  intro rows
  induction rows with
  | nil => intro d; rfl
  | cons r rs ih =>
    intro d
    by_cases hr : r.isEmpty = true
    · simp [tsvRowsLoop, hr, List.takeWhile_cons]
    · show (if r.isEmpty = true then PRes.ok d
        else (tsvRowLoop pv (splitSep 9 r) types).bind fun row =>
          (addRowChecked dbg g d row).bind fun d2 =>
            tsvRowsLoop pv dbg g types rs d2)
        = tsvRowsLoop pv dbg g types
            ((r :: rs).takeWhile fun r => !r.isEmpty) d
      rw [if_neg hr, List.takeWhile_cons, if_pos (by simp [hr])]
      show _ = (if r.isEmpty = true then PRes.ok d
        else (tsvRowLoop pv (splitSep 9 r) types).bind fun row =>
          (addRowChecked dbg g d row).bind fun d2 =>
            tsvRowsLoop pv dbg g types (rs.takeWhile fun r => !r.isEmpty) d2)
      rw [if_neg hr]
      congr 1
      funext row
      congr 1
      funext d2
      exact ih d2

theorem splitSep_sep_append (sep : Nat) : ∀ a b,
    splitSep sep (a ++ sep :: b) = splitSep sep a ++ splitSep sep b := by
  intro a
  induction a with
  | nil => intro b; simp [splitSep]
  | cons c a ih =>
    intro b
    by_cases hc : c = sep
    · subst hc
      show splitSep c (c :: (a ++ c :: b)) = splitSep c (c :: a) ++ splitSep c b
      simp [splitSep, ih b]
    · show splitSep sep (c :: (a ++ sep :: b)) = splitSep sep (c :: a) ++ splitSep sep b
      simp only [splitSep, if_neg hc, ih b]
      rcases hs : splitSep sep a with _ | ⟨p, ps⟩
      · exact absurd hs (splitSep_ne_nil sep a)
      · simp

theorem takeWhile_append_falsehead {α : Type} (p : α → Bool) (l : List α)
    (x : α) (l2 : List α) (hx : p x = false) :
    (l ++ x :: l2).takeWhile p = l.takeWhile p := by
  induction l with
  | nil => simp [List.takeWhile_cons, hx]
  | cons a l ih =>
    by_cases h : p a = true <;> simp [List.takeWhile_cons, h, ih]

-- ## Claim C10

/-- C10: `TsvFormatter::parse_data` parses newline-separated rows only up
to (not including) the first empty line: the whole parse equals the row
loop run on the `takeWhile`-nonempty prefix of the split; a single
trailing newline yields no extra row; and any content after an empty line
— here an arbitrary `junk` suffix after a blank line — is silently
discarded, not parsed and not an error. -/
theorem C10_tsv_stops_at_empty_line (dbg : Bool) (ext : TsvExt) (g : Nat)
    (mp : List (RStr × Ty)) (text junk : RStr) :
    parseDataTsv false false dbg ext g text (some mp)
      = tsvRowsLoop (fun t s => parseValueTsv ext g t s false) dbg g
          (mp.map (fun nt => nt.2))
          ((splitSep 10 text).takeWhile (fun r => !r.isEmpty))
          (QueryData.NoHeaders []) ∧
    parseDataTsv false false dbg ext g (text ++ [10]) (some mp)
      = parseDataTsv false false dbg ext g text (some mp) ∧
    parseDataTsv false false dbg ext g (text ++ 10 :: 10 :: junk) (some mp)
      = parseDataTsv false false dbg ext g text (some mp) := by
  have hmain : ∀ t2, parseDataTsv false false dbg ext g t2 (some mp)
      = tsvRowsLoop (fun t s => parseValueTsv ext g t s false) dbg g
          (mp.map (fun nt => nt.2)) (splitSep 10 t2)
          (QueryData.NoHeaders []) := fun t2 => rfl
  refine ⟨?_, ?_, ?_⟩
  · rw [hmain]
    exact tsvRowsLoop_takeWhile _ dbg g _ (splitSep 10 text) _
  · rw [hmain, hmain]
    rw [show text ++ [10] = text ++ 10 :: ([] : RStr) from rfl,
      splitSep_sep_append]
    rw [tsvRowsLoop_takeWhile _ dbg g _ (splitSep 10 text ++ splitSep 10 []) _,
      tsvRowsLoop_takeWhile _ dbg g _ (splitSep 10 text) _]
    rw [show splitSep 10 ([] : RStr) = [[]] from rfl,
      takeWhile_append_falsehead _ _ _ _ rfl]
  · rw [hmain, hmain]
    rw [splitSep_sep_append]
    rw [tsvRowsLoop_takeWhile _ dbg g _
      (splitSep 10 text ++ splitSep 10 (10 :: junk)) _,
      tsvRowsLoop_takeWhile _ dbg g _ (splitSep 10 text) _]
    rw [show splitSep 10 (10 :: junk) = [] :: splitSep 10 junk from rfl,
      takeWhile_append_falsehead _ _ _ _ rfl]

-- ## Claim C4

/-- C4 (amended): the claim's panic-freedom fails — the `Decimal` arms of
`parse_value` are `unimplemented!` panics, `parse_data`'s header length
read is an `unwrap` that panics on truncated input when the formatter has
names, and the TSV header zip indexes `types[i]`, panicking when the names
row is wider than the types row.  On the amended scope it holds: for every
byte buffer and every Decimal-free type, `parse_value` and
`deserialize_value` return `Ok` or a typed `Error`; and `parse_data`
without a name header, in a release build, with a Decimal-free mapping,
never panics on any input. -/
theorem C4_rowbin_no_panic :
    (∀ g f ty bytes, decFreeF f ty = true →
      isPanic (parseValue g ty bytes) = false) ∧
    (∀ g f ty bytes, decFreeF f ty = true →
      isPanic (deserializeValue g bytes ty) = false) ∧
    (∀ g rowFuel f mp bytes, (∀ nt ∈ mp, decFreeF f nt.2 = true) →
      isPanic (parseDataRB false false false g rowFuel bytes (some mp))
        = false) := by
  refine ⟨parseValue_noPanic, ?_, ?_⟩
  · intro g f ty bytes h
    exact noPanic_bind _ _ (parseValue_noPanic g f ty bytes h)
      (fun p => by split <;> rfl)
  · intro g rowFuel f mp bytes hdt
    exact noPanic_parseDataRB g rowFuel f mp bytes hdt

/-- Witness for C4 on `Array(UInt8)` bytes and a one-column mapping. -/
theorem C4_rowbin_no_panic_witness :
    decFreeF 2 (Ty.Array Ty.UInt8) = true ∧
    isPanic (parseValue 3 (Ty.Array Ty.UInt8) [2, 7, 8]) = false ∧
    isPanic (deserializeValue 3 [2, 7, 8] (Ty.Array Ty.UInt8)) = false ∧
    isPanic (parseDataRB false false false 3 4 [1, 2]
      (some [(bs "a", Ty.UInt8)])) = false :=
  ⟨rfl,
   C4_rowbin_no_panic.1 3 2 (Ty.Array Ty.UInt8) [2, 7, 8] rfl,
   C4_rowbin_no_panic.2.1 3 2 (Ty.Array Ty.UInt8) [2, 7, 8] rfl,
   C4_rowbin_no_panic.2.2 3 4 2 [(bs "a", Ty.UInt8)] [1, 2] (by decide)⟩

/-- C4 counterexample: the `Decimal` arms panic on any input; the RowBinary
header read panics (`unwrap`) on an empty buffer with a names header; the
TSV header zip panics (`types[i]` out of bounds) when the names row
`"a\tb"` is wider than the types row `"UInt8"`. -/
theorem C4_rowbin_no_panic_cex :
    parseValue 1 (Ty.Decimal32 5) [0, 0, 0, 0]
      = .panicked "RowBinary format Decimal32" ∧
    deserializeValue 1 [0, 0, 0, 0] (Ty.Decimal 10 2)
      = .panicked "RowBinary format Decimal" ∧
    parseDataRB true false false 1 1 [] none
      = .panicked "leb128 read unwrap" ∧
    parseDataTsv true true false extStd 3
      (bs "a\tb\nUInt8\n") none
      = .panicked "index out of bounds" :=
  ⟨rfl, rfl, rfl, rfl⟩

-- ## String escaping (TSV `StringExt`)

theorem stripPrefixB_length (pat : RStr) :
    ∀ s rest, stripPrefixB pat s = some rest →
      s.length = pat.length + rest.length := by
  induction pat with
  | nil => intro s rest h; cases h; simp
  | cons p ps ih =>
    intro s rest h
    cases s with
    | nil => cases h
    | cons b s =>
      rw [stripPrefixB] at h
      by_cases hp : p = b
      · rw [if_pos hp] at h
        have := ih s rest h
        simp only [List.length_cons, this]
        omega
      · rw [if_neg hp] at h
        cases h

theorem replaceAux_succ_match (pat rep : RStr) (f : Nat) (s rest : RStr)
    (h : stripPrefixB pat s = some rest) :
    replaceAux pat rep (f + 1) s = rep ++ replaceAux pat rep f rest := by
  simp only [replaceAux]
  rw [h]

theorem replaceAux_succ_miss (pat rep : RStr) (f : Nat) (b : Nat) (s : RStr)
    (h : stripPrefixB pat (b :: s) = none) :
    replaceAux pat rep (f + 1) (b :: s) = b :: replaceAux pat rep f s := by
  simp only [replaceAux]
  rw [h]

theorem replaceAux_fuel (pat rep : RStr) (hp : pat ≠ []) :
    ∀ f g s, s.length ≤ f → s.length ≤ g →
      replaceAux pat rep f s = replaceAux pat rep g s := by
  intro f
  induction f using Nat.strong_induction_on with
  | _ f ih =>
    intro g s hf hg
    match f, g with
    | 0, g =>
      have hs : s = [] := by
        cases s with
        | nil => rfl
        | cons b s => simp at hf
      subst hs
      cases pat with
      | nil => exact absurd rfl hp
      | cons p ps =>
        cases g with
        | zero => rfl
        | succ g => rfl
    | f + 1, 0 =>
      have hs : s = [] := by
        cases s with
        | nil => rfl
        | cons b s => simp at hg
      subst hs
      cases pat with
      | nil => exact absurd rfl hp
      | cons p ps => rfl
    | f + 1, g + 1 =>
      have hpl : 1 ≤ pat.length := by
        cases pat with
        | nil => exact absurd rfl hp
        | cons _ _ => simp
      rcases hm : stripPrefixB pat s with _ | rest
      · cases s with
        | nil =>
          cases pat with
          | nil => exact absurd rfl hp
          | cons p ps => rfl
        | cons b s2 =>
          rw [replaceAux_succ_miss pat rep f b s2 hm,
            replaceAux_succ_miss pat rep g b s2 hm,
            ih f (Nat.lt_succ_self f) g s2
              (by simp at hf; omega) (by simp at hg; omega)]
      · have hlen := stripPrefixB_length pat s rest hm
        rw [replaceAux_succ_match pat rep f s rest hm,
          replaceAux_succ_match pat rep g s rest hm,
          ih f (Nat.lt_succ_self f) g rest (by omega) (by omega)]

theorem replaceB_step_match (pat rep : RStr) (hp : pat ≠ [])
    (s rest : RStr) (h : stripPrefixB pat s = some rest) :
    replaceB pat rep s = rep ++ replaceB pat rep rest := by
  cases s with
  | nil =>
    cases pat with
    | nil => exact absurd rfl hp
    | cons p ps => cases h
  | cons b s2 =>
    have hlen := stripPrefixB_length pat (b :: s2) rest h
    have hpl : 1 ≤ pat.length := by
      cases pat with
      | nil => exact absurd rfl hp
      | cons _ _ => simp
    show replaceAux pat rep (s2.length + 1) (b :: s2) = _
    rw [replaceAux_succ_match pat rep s2.length (b :: s2) rest h,
      replaceAux_fuel pat rep hp s2.length rest.length rest
        (by simp at hlen; omega) (le_refl _)]
    rfl

theorem replaceB_step_miss (pat rep : RStr) (b : Nat) (s : RStr)
    (h : stripPrefixB pat (b :: s) = none) :
    replaceB pat rep (b :: s) = b :: replaceB pat rep s := by
  show replaceAux pat rep (s.length + 1) (b :: s) = _
  rw [replaceAux_succ_miss pat rep s.length b s h]
  rfl

theorem replaceB_single (c : Nat) (r : RStr) :
    ∀ s, replaceB [c] r s
      = s.flatMap (fun b => if b = c then r else [b]) := by
  intro s
  induction s with
  | nil => rfl
  | cons b s ih =>
    by_cases hb : b = c
    · subst hb
      rw [replaceB_step_match [b] r (by simp) (b :: s) s
        (by rw [stripPrefixB, if_pos rfl]; rfl)]
      rw [ih]
      simp
    · rw [replaceB_step_miss [c] r b s
        (by rw [stripPrefixB, if_neg (fun hcb => hb hcb.symm)])]
      rw [ih]
      simp [hb]

theorem flatMap_flatMap_assoc {α β γ : Type} (l : List α)
    (f : α → List β) (g : β → List γ) :
    (l.flatMap f).flatMap g = l.flatMap (fun a => (f a).flatMap g) := by
  induction l with
  | nil => rfl
  | cons a l ih => simp only [List.flatMap_cons, List.flatMap_append, ih]

/-- `StringExt::escape` acts independently on each byte, exactly as the
spec's escaping table describes. -/
theorem escape_flatMap (s : RStr) : escape s = s.flatMap escCharSpec := by
  rw [escape, replaceB_single 92 [92, 98] s,
    replaceB_single 32 [92, 110], flatMap_flatMap_assoc,
    replaceB_single 9 [92, 116], flatMap_flatMap_assoc,
    replaceB_single 39 [92, 39], flatMap_flatMap_assoc]
  congr 1
  funext b
  by_cases h92 : b = 92
  · subst h92; rfl
  · by_cases h32 : b = 32
    · subst h32; rfl
    · by_cases h9 : b = 9
      · subst h9; rfl
      · by_cases h39 : b = 39
        · subst h39; rfl
        · simp [escCharSpec, h92, h32, h9, h39]

theorem strip_single_none (c : Nat) (t : RStr) (h : t.head? ≠ some c) :
    stripPrefixB [c] t = none := by
  cases t with
  | nil => rfl
  | cons x r =>
    rw [stripPrefixB, if_neg]
    intro hcx
    exact h (by rw [hcx]; rfl)

theorem strip2_miss2 (a c x : Nat) (r : RStr) (h : x ≠ c) :
    stripPrefixB [a, c] (a :: x :: r) = none := by
  rw [stripPrefixB, if_pos rfl, stripPrefixB, if_neg (fun hcx => h hcx.symm)]

theorem strip2_hit (a c : Nat) (r : RStr) :
    stripPrefixB [a, c] (a :: c :: r) = some r := by
  rw [stripPrefixB, if_pos rfl, stripPrefixB, if_pos rfl]
  rfl

theorem strip2_miss1 (a c x : Nat) (r : RStr) (h : x ≠ a) :
    stripPrefixB [a, c] (x :: r) = none := by
  rw [stripPrefixB, if_neg (fun hax => h hax.symm)]

/-- Stage 1 of `unescape` (`\b` back to `\`) on an escaped stream with an
arbitrary tail: escaped bytes never end in a backslash, so the pattern
never straddles the boundary. -/
theorem unesc_stage1 : ∀ (s t : RStr),
    replaceB [92, 98] [92] (s.flatMap escCharSpec ++ t)
      = s.flatMap escStage1 ++ replaceB [92, 98] [92] t := by
  intro s
  induction s with
  | nil => intro t; simp
  | cons b s ih =>
    intro t
    by_cases h92 : b = 92
    · subst h92
      rw [show (92 :: s).flatMap escCharSpec ++ t
          = 92 :: 98 :: (s.flatMap escCharSpec ++ t) from by
        simp [escCharSpec]]
      rw [replaceB_step_match [92, 98] [92] (by simp) _ _
        (strip2_hit 92 98 _)]
      rw [ih t]
      simp [escStage1]
    · by_cases h32 : b = 32
      · subst h32
        rw [show (32 :: s).flatMap escCharSpec ++ t
            = 92 :: 110 :: (s.flatMap escCharSpec ++ t) from by
          simp [escCharSpec]]
        rw [replaceB_step_miss [92, 98] [92] 92 _
          (strip2_miss2 92 98 110 _ (by omega))]
        rw [replaceB_step_miss [92, 98] [92] 110 _
          (strip2_miss1 92 98 110 _ (by omega))]
        rw [ih t]
        simp [escStage1]
      · by_cases h9 : b = 9
        · subst h9
          rw [show (9 :: s).flatMap escCharSpec ++ t
              = 92 :: 116 :: (s.flatMap escCharSpec ++ t) from by
            simp [escCharSpec]]
          rw [replaceB_step_miss [92, 98] [92] 92 _
            (strip2_miss2 92 98 116 _ (by omega))]
          rw [replaceB_step_miss [92, 98] [92] 116 _
            (strip2_miss1 92 98 116 _ (by omega))]
          rw [ih t]
          simp [escStage1]
        · by_cases h39 : b = 39
          · subst h39
            rw [show (39 :: s).flatMap escCharSpec ++ t
                = 92 :: 39 :: (s.flatMap escCharSpec ++ t) from by
              simp [escCharSpec]]
            rw [replaceB_step_miss [92, 98] [92] 92 _
              (strip2_miss2 92 98 39 _ (by omega))]
            rw [replaceB_step_miss [92, 98] [92] 39 _
              (strip2_miss1 92 98 39 _ (by omega))]
            rw [ih t]
            simp [escStage1]
          · rw [show (b :: s).flatMap escCharSpec ++ t
                = b :: (s.flatMap escCharSpec ++ t) from by
              simp [escCharSpec, h92, h32, h9, h39]]
            rw [replaceB_step_miss [92, 98] [92] b _
              (strip2_miss1 92 98 b _ h92)]
            rw [ih t]
            simp [escStage1, h32, h9, h39]

/-- Stage 2 (`\n` back to space).  A bare backslash of `s` immediately
followed by a literal `n` (or by an `n` opening the tail) would be eaten
as a spurious `\n` escape, so those pairs are excluded. -/
theorem unesc_stage2 : ∀ (s t : RStr), noSeq 92 110 s = true →
    (s.getLast? = some 92 → t.head? ≠ some 110) →
    replaceB [92, 110] [32] (s.flatMap escStage1 ++ t)
      = s.flatMap escStage2 ++ replaceB [92, 110] [32] t := by
  intro s
  induction s with
  | nil => intro t _ _; simp
  | cons b s ih =>
    intro t hns hbd
    have hns2 : noSeq 92 110 s = true := by
      cases s with
      | nil => rfl
      | cons c s2 =>
        rw [noSeq, Bool.and_eq_true] at hns
        exact hns.2
    have hbd2 : s.getLast? = some 92 → t.head? ≠ some 110 := by
      intro hg
      apply hbd
      cases s with
      | nil => simp at hg
      | cons c s2 => rw [List.getLast?_cons_cons]; exact hg
    by_cases h32 : b = 32
    · subst h32
      rw [show (32 :: s).flatMap escStage1 ++ t
          = 92 :: 110 :: (s.flatMap escStage1 ++ t) from by
        simp [escStage1]]
      rw [replaceB_step_match [92, 110] [32] (by simp) _ _
        (strip2_hit 92 110 _)]
      rw [ih t hns2 hbd2]
      simp [escStage2]
    · by_cases h9 : b = 9
      · subst h9
        rw [show (9 :: s).flatMap escStage1 ++ t
            = 92 :: 116 :: (s.flatMap escStage1 ++ t) from by
          simp [escStage1]]
        rw [replaceB_step_miss [92, 110] [32] 92 _
          (strip2_miss2 92 110 116 _ (by omega))]
        rw [replaceB_step_miss [92, 110] [32] 116 _
          (strip2_miss1 92 110 116 _ (by omega))]
        rw [ih t hns2 hbd2]
        simp [escStage2]
      · by_cases h39 : b = 39
        · subst h39
          rw [show (39 :: s).flatMap escStage1 ++ t
              = 92 :: 39 :: (s.flatMap escStage1 ++ t) from by
            simp [escStage1]]
          rw [replaceB_step_miss [92, 110] [32] 92 _
            (strip2_miss2 92 110 39 _ (by omega))]
          rw [replaceB_step_miss [92, 110] [32] 39 _
            (strip2_miss1 92 110 39 _ (by omega))]
          rw [ih t hns2 hbd2]
          simp [escStage2]
        · by_cases h92 : b = 92
          · subst h92
            rw [show (92 :: s).flatMap escStage1 ++ t
                = 92 :: (s.flatMap escStage1 ++ t) from by
              simp [escStage1]]
            have hstrip : stripPrefixB [92, 110]
                (92 :: (s.flatMap escStage1 ++ t)) = none := by
              rw [stripPrefixB, if_pos rfl]
              cases s with
              | nil =>
                simp only [List.flatMap_nil, List.nil_append]
                exact strip_single_none 110 t (hbd rfl)
              | cons c s2 =>
                have hc : c ≠ 110 := by
                  rw [noSeq, Bool.and_eq_true] at hns
                  have h1 := hns.1
                  simp at h1
                  exact h1
                apply strip_single_none 110
                by_cases hc32 : c = 32
                · subst hc32; simp [escStage1]
                · by_cases hc9 : c = 9
                  · subst hc9; simp [escStage1]
                  · by_cases hc39 : c = 39
                    · subst hc39; simp [escStage1]
                    · simp [escStage1, hc32, hc9, hc39]
                      exact hc
            rw [replaceB_step_miss [92, 110] [32] 92 _ hstrip]
            rw [ih t hns2 hbd2]
            simp [escStage2]
          · rw [show (b :: s).flatMap escStage1 ++ t
                = b :: (s.flatMap escStage1 ++ t) from by
              simp [escStage1, h32, h9, h39]]
            rw [replaceB_step_miss [92, 110] [32] b _
              (strip2_miss1 92 110 b _ h92)]
            rw [ih t hns2 hbd2]
            simp [escStage2, h9, h39]

/-- Stage 3 (`\t` back to tab); bare backslashes followed by `t` excluded. -/
theorem unesc_stage3 : ∀ (s t : RStr), noSeq 92 116 s = true →
    (s.getLast? = some 92 → t.head? ≠ some 116) →
    replaceB [92, 116] [9] (s.flatMap escStage2 ++ t)
      = s.flatMap escStage3 ++ replaceB [92, 116] [9] t := by
  intro s
  induction s with
  | nil => intro t _ _; simp
  | cons b s ih =>
    intro t hns hbd
    have hns2 : noSeq 92 116 s = true := by
      cases s with
      | nil => rfl
      | cons c s2 =>
        rw [noSeq, Bool.and_eq_true] at hns
        exact hns.2
    have hbd2 : s.getLast? = some 92 → t.head? ≠ some 116 := by
      intro hg
      apply hbd
      cases s with
      | nil => simp at hg
      | cons c s2 => rw [List.getLast?_cons_cons]; exact hg
    by_cases h9 : b = 9
    · subst h9
      rw [show (9 :: s).flatMap escStage2 ++ t
          = 92 :: 116 :: (s.flatMap escStage2 ++ t) from by
        simp [escStage2]]
      rw [replaceB_step_match [92, 116] [9] (by simp) _ _
        (strip2_hit 92 116 _)]
      rw [ih t hns2 hbd2]
      simp [escStage3]
    · by_cases h39 : b = 39
      · subst h39
        rw [show (39 :: s).flatMap escStage2 ++ t
            = 92 :: 39 :: (s.flatMap escStage2 ++ t) from by
          simp [escStage2]]
        rw [replaceB_step_miss [92, 116] [9] 92 _
          (strip2_miss2 92 116 39 _ (by omega))]
        rw [replaceB_step_miss [92, 116] [9] 39 _
          (strip2_miss1 92 116 39 _ (by omega))]
        rw [ih t hns2 hbd2]
        simp [escStage3]
      · by_cases h92 : b = 92
        · subst h92
          rw [show (92 :: s).flatMap escStage2 ++ t
              = 92 :: (s.flatMap escStage2 ++ t) from by
            simp [escStage2]]
          have hstrip : stripPrefixB [92, 116]
              (92 :: (s.flatMap escStage2 ++ t)) = none := by
            rw [stripPrefixB, if_pos rfl]
            cases s with
            | nil =>
              simp only [List.flatMap_nil, List.nil_append]
              exact strip_single_none 116 t (hbd rfl)
            | cons c s2 =>
              have hc : c ≠ 116 := by
                rw [noSeq, Bool.and_eq_true] at hns
                have h1 := hns.1
                simp at h1
                exact h1
              apply strip_single_none 116
              by_cases hc9 : c = 9
              · subst hc9; simp [escStage2]
              · by_cases hc39 : c = 39
                · subst hc39; simp [escStage2]
                · simp [escStage2, hc9, hc39]
                  exact hc
          rw [replaceB_step_miss [92, 116] [9] 92 _ hstrip]
          rw [ih t hns2 hbd2]
          simp [escStage3]
        · rw [show (b :: s).flatMap escStage2 ++ t
              = b :: (s.flatMap escStage2 ++ t) from by
            simp [escStage2, h9, h39]]
          rw [replaceB_step_miss [92, 116] [9] b _
            (strip2_miss1 92 116 b _ h92)]
          rw [ih t hns2 hbd2]
          simp [escStage3, h39]

/-- Stage 4 (`\'` back to a quote): unconditional on `s` itself — quotes
are always escaped, so a bare backslash is never followed by one. -/
theorem unesc_stage4 : ∀ (s t : RStr),
    (s.getLast? = some 92 → t.head? ≠ some 39) →
    replaceB [92, 39] [39] (s.flatMap escStage3 ++ t)
      = s ++ replaceB [92, 39] [39] t := by
  intro s
  induction s with
  | nil => intro t _; simp
  | cons b s ih =>
    intro t hbd
    have hbd2 : s.getLast? = some 92 → t.head? ≠ some 39 := by
      intro hg
      apply hbd
      cases s with
      | nil => simp at hg
      | cons c s2 => rw [List.getLast?_cons_cons]; exact hg
    by_cases h39 : b = 39
    · subst h39
      rw [show (39 :: s).flatMap escStage3 ++ t
          = 92 :: 39 :: (s.flatMap escStage3 ++ t) from by
        simp [escStage3]]
      rw [replaceB_step_match [92, 39] [39] (by simp) _ _
        (strip2_hit 92 39 _)]
      rw [ih t hbd2]
      simp
    · by_cases h92 : b = 92
      · subst h92
        rw [show (92 :: s).flatMap escStage3 ++ t
            = 92 :: (s.flatMap escStage3 ++ t) from by
          simp [escStage3]]
        have hstrip : stripPrefixB [92, 39]
            (92 :: (s.flatMap escStage3 ++ t)) = none := by
          rw [stripPrefixB, if_pos rfl]
          cases s with
          | nil =>
            simp only [List.flatMap_nil, List.nil_append]
            exact strip_single_none 39 t (hbd rfl)
          | cons c s2 =>
            apply strip_single_none 39
            by_cases hc39 : c = 39
            · subst hc39; simp [escStage3]
            · simp [escStage3, hc39]
        rw [replaceB_step_miss [92, 39] [39] 92 _ hstrip]
        rw [ih t hbd2]
        simp
      · rw [show (b :: s).flatMap escStage3 ++ t
            = b :: (s.flatMap escStage3 ++ t) from by
          simp [escStage3, h39]]
        rw [replaceB_step_miss [92, 39] [39] b _
          (strip2_miss1 92 39 b _ h92)]
        rw [ih t hbd2]
        simp

/-- On the collision-free domain, `unescape` inverts `escape`. -/
theorem unescape_escape (s : RStr) (h : escUnescOK s = true) :
    unescape (escape s) = s := by
  rw [escUnescOK, Bool.and_eq_true] at h
  have e1 : replaceB [92, 98] [92] (s.flatMap escCharSpec)
      = s.flatMap escStage1 := by
    have := unesc_stage1 s []
    simpa [show replaceB [92, 98] [92] [] = [] from rfl] using this
  have e2 : replaceB [92, 110] [32] (s.flatMap escStage1)
      = s.flatMap escStage2 := by
    have := unesc_stage2 s [] h.1 (fun _ => by simp)
    simpa [show replaceB [92, 110] [32] [] = [] from rfl] using this
  have e3 : replaceB [92, 116] [9] (s.flatMap escStage2)
      = s.flatMap escStage3 := by
    have := unesc_stage3 s [] h.2 (fun _ => by simp)
    simpa [show replaceB [92, 116] [9] [] = [] from rfl] using this
  have e4 : replaceB [92, 39] [39] (s.flatMap escStage3) = s := by
    have := unesc_stage4 s [] (fun _ => by simp)
    simpa [show replaceB [92, 39] [39] [] = [] from rfl] using this
  rw [unescape, escape_flatMap, e1, e2, e3, e4]

/-- C9 (corrected): TabSeparated string escaping.  The non-raw top-level
cell rendering of a string replaces each backslash with `\b`, each space
with `\n`, each tab with `\t` and each quote with `\'`, acting
independently on every byte (`escape` equals the per-byte table
`escCharSpec`); `unescape` recovers the original for every string with no
literal backslash immediately followed by `n` or `t` (`escUnescOK`) — but
not for every string, see the counterexample; and the TSV serialization
of `Value::String("hello world")` is the byte string `hello\nworld` with
a literal backslash-n, for every external-renderer choice. -/
theorem C9_tsv_string_escaping :
    (∀ s : RStr, escape s = s.flatMap escCharSpec) ∧
    (∀ s : RStr, escUnescOK s = true → unescape (escape s) = s) ∧
    (∀ ext : TsvExt,
      formatValueTsv false ext 1 (.String (bs "hello world")) false
        = bs "hello\\nworld") :=
  ⟨escape_flatMap, unescape_escape, fun _ => rfl⟩

theorem C9_tsv_string_escaping_witness :
    escUnescOK (bs "hello world") = true ∧
    unescape (escape (bs "hello world")) = bs "hello world" :=
  ⟨by decide, C9_tsv_string_escaping.2.1 (bs "hello world") (by decide)⟩

/-- The string `a\nb` (four bytes, with a literal backslash) escapes to
`a\bnb`, which unescapes to `a b`: the round trip loses the original. -/
theorem C9_unescape_not_inverse_cex :
    unescape (escape (bs "a\\nb")) = bs "a b" ∧
    unescape (escape (bs "a\\nb")) ≠ bs "a\\nb" :=
  ⟨by decide, by decide⟩

-- ## TSV cell properties

theorem natDec_noByte (n c : Nat) (h : c < 48 ∨ 57 < c) :
    noByteB c (natDec n) = true := by
  rw [noByteB, List.all_eq_true]
  intro b hb
  have := natDec_digits n b hb
  simp
  omega

theorem intDec_noByte (i : Int) (c : Nat)
    (h : (c < 48 ∨ 57 < c) ∧ c ≠ 45) :
    noByteB c (intDec i) = true := by
  rw [noByteB, List.all_eq_true]
  intro b hb
  rcases intDec_bytes i b hb with h2 | h2 <;> simp <;> omega

theorem noByteB_append (c : Nat) (a b : RStr) :
    noByteB c (a ++ b) = (noByteB c a && noByteB c b) := by
  simp [noByteB]

theorem noByteB_cons (c b : Nat) (s : RStr) :
    noByteB c (b :: s) = ((b != c) && noByteB c s) := by
  simp [noByteB]

theorem escape_noByte (c : Nat) (s : RStr)
    (hc : c ≠ 92 ∧ c ≠ 98 ∧ c ≠ 110 ∧ c ≠ 116 ∧ c ≠ 39)
    (h : noByteB c s = true) : noByteB c (escape s) = true := by
  rw [escape_flatMap, noByteB, List.all_eq_true]
  intro b hb
  rw [List.mem_flatMap] at hb
  obtain ⟨a, ha, hb2⟩ := hb
  rw [noByteB, List.all_eq_true] at h
  have ha2 := h a ha
  simp at ha2
  rw [escCharSpec] at hb2
  by_cases h92 : a = 92
  · subst h92
    simp at hb2
    simp
    rcases hb2 with h' | h' <;> omega
  · rw [if_neg h92] at hb2
    by_cases h32 : a = 32
    · subst h32
      simp at hb2
      simp
      rcases hb2 with h' | h' <;> omega
    · rw [if_neg h32] at hb2
      by_cases h9 : a = 9
      · subst h9
        simp at hb2
        simp
        rcases hb2 with h' | h' <;> omega
      · rw [if_neg h9] at hb2
        by_cases h39 : a = 39
        · subst h39
          simp at hb2
          simp
          rcases hb2 with h' | h' <;> omega
        · rw [if_neg h39] at hb2
          simp at hb2
          subst hb2
          simp
          omega

theorem trimB_quoted (s : RStr) : trimB (39 :: s ++ [39]) = 39 :: s ++ [39] := by
  apply trimB_eq_self
  · intro b hb
    simp at hb
    subst hb
    rfl
  · intro b hb
    rw [show (39 :: s ++ [39] : RStr) = (39 :: s) ++ [39] from by simp,
      List.getLast?_append] at hb
    simp at hb
    subst hb
    rfl

theorem trimB_boolStr (b : Bool) :
    trimB (if b then bs "true" else bs "false")
      = (if b then bs "true" else bs "false") := by
  cases b <;> decide

theorem head_append_ne_nil {s t : RStr} (h : s ≠ []) :
    (s ++ t).head? = s.head? := by
  cases s with
  | nil => exact absurd rfl h
  | cons b s2 => rfl

theorem getLast_append_ne_nil {s t : RStr} (h : t ≠ []) :
    (s ++ t).getLast? = t.getLast? := by
  rw [List.getLast?_append]
  cases ht : t.getLast? with
  | some x => rfl
  | none =>
    cases t with
    | nil => exact absurd rfl h
    | cons b t2 => simp at ht

theorem natDec_bsN : ∀ n, natDec n ≠ bs "\\N" := by
  intro n h
  have hh := natDec_head_digit n
  rw [h] at hh
  have := hh 92 rfl
  omega

theorem intDec_bsN : ∀ i, intDec i ≠ bs "\\N" := by
  intro i h
  have : (92 : Nat) ∈ intDec i := by rw [h]; decide
  rcases intDec_bytes i 92 this with h2 | h2 <;> omega

theorem boolStr_bsN (b : Bool) :
    (if b then bs "true" else bs "false") ≠ bs "\\N" := by
  cases b <;> decide

theorem escape_bsN (s : RStr) : escape s ≠ bs "\\N" := by
  rw [escape_flatMap]
  intro h
  cases s with
  | nil => simp [bs, utf8Enc] at h
  | cons b s2 =>
    rw [List.flatMap_cons] at h
    by_cases h92 : b = 92
    · subst h92
      rw [show escCharSpec 92 = [92, 98] from rfl] at h
      rw [show (bs "\\N" : RStr) = [92, 78] from rfl] at h
      simp at h
    · by_cases h32 : b = 32
      · subst h32
        rw [show escCharSpec 32 = [92, 110] from rfl] at h
        rw [show (bs "\\N" : RStr) = [92, 78] from rfl] at h
        simp at h
      · by_cases h9 : b = 9
        · subst h9
          rw [show escCharSpec 9 = [92, 116] from rfl] at h
          rw [show (bs "\\N" : RStr) = [92, 78] from rfl] at h
          simp at h
        · by_cases h39 : b = 39
          · subst h39
            rw [show escCharSpec 39 = [92, 39] from rfl] at h
            rw [show (bs "\\N" : RStr) = [92, 78] from rfl] at h
            simp at h
          · rw [show escCharSpec b
                = if b = 92 then [92, 98] else if b = 32 then [92, 110]
                  else if b = 9 then [92, 116] else if b = 39 then [92, 39]
                  else [b] from rfl,
              if_neg h92, if_neg h32, if_neg h9, if_neg h39] at h
            rw [show (bs "\\N" : RStr) = [92, 78] from rfl] at h
            simp at h
            exact h92 h.1

theorem trimStartMatchesB_skip (c : Nat) (s : RStr) (h : s.head? ≠ some c) :
    trimStartMatchesB c s = s := by
  cases s with
  | nil => rfl
  | cons b s2 =>
    rw [trimStartMatchesB, if_neg]
    intro hb
    subst hb
    exact h rfl

theorem trimEndMatchesB_strip (c : Nat) (s : RStr) :
    trimEndMatchesB c (s ++ [c]) = trimEndMatchesB c s := by
  rw [trimEndMatchesB, trimEndMatchesB, List.reverse_append]
  simp only [List.reverse_cons, List.reverse_nil, List.nil_append,
    List.singleton_append]
  rw [show trimStartMatchesB c (c :: s.reverse)
      = trimStartMatchesB c s.reverse from by
    simp [trimStartMatchesB]]

theorem trimEndMatchesB_skip (c : Nat) (s : RStr)
    (h : s.getLast? ≠ some c) : trimEndMatchesB c s = s := by
  rw [trimEndMatchesB, trimStartMatchesB_skip c _ (by
    rw [List.head?_reverse]
    exact h), List.reverse_reverse]

theorem unenclose_quoted (s : RStr) (h1 : s.head? ≠ some 39)
    (h2 : s.getLast? ≠ some 39) : unenclose (39 :: s ++ [39]) = s := by
  cases s with
  | nil => rfl
  | cons b s2 =>
    rw [unenclose]
    rw [show (39 :: (b :: s2) ++ [39] : RStr)
        = 39 :: ((b :: s2) ++ [39]) from by simp]
    rw [show trimStartMatchesB 39 (39 :: ((b :: s2) ++ [39]))
        = trimStartMatchesB 39 ((b :: s2) ++ [39]) from by
      simp [trimStartMatchesB]]
    rw [trimStartMatchesB_skip 39 _ (by
      rw [head_append_ne_nil (by simp)]
      exact h1)]
    rw [trimEndMatchesB_strip, trimEndMatchesB_skip 39 _ h2]

theorem unescape_enclose (s : RStr) (h : escUnescOK s = true)
    (h92 : s.getLast? ≠ some 92) :
    unescape (enclose (escape s)) = 39 :: s ++ [39] := by
  rw [escUnescOK, Bool.and_eq_true] at h
  rw [enclose, escape_flatMap, unescape]
  rw [show (39 :: List.flatMap s escCharSpec ++ [39] : RStr)
      = 39 :: (List.flatMap s escCharSpec ++ [39]) from by simp]
  rw [replaceB_step_miss [92, 98] [92] 39 _
    (strip2_miss1 92 98 39 _ (by omega))]
  rw [unesc_stage1 s [39]]
  rw [show replaceB [92, 98] [92] [39] = [39] from rfl]
  rw [show (39 :: (List.flatMap s escStage1 ++ [39]) : RStr)
      = 39 :: (List.flatMap s escStage1 ++ [39]) from rfl]
  rw [replaceB_step_miss [92, 110] [32] 39 _
    (strip2_miss1 92 110 39 _ (by omega))]
  rw [unesc_stage2 s [39] h.1 (fun _ => by decide)]
  rw [show replaceB [92, 110] [32] [39] = [39] from rfl]
  rw [replaceB_step_miss [92, 116] [9] 39 _
    (strip2_miss1 92 116 39 _ (by omega))]
  rw [unesc_stage3 s [39] h.2 (fun _ => by decide)]
  rw [show replaceB [92, 116] [9] [39] = [39] from rfl]
  rw [replaceB_step_miss [92, 39] [39] 39 _
    (strip2_miss1 92 39 39 _ (by omega))]
  rw [unesc_stage4 s [39] (fun hg => absurd hg h92)]
  rw [show replaceB [92, 39] [39] [39] = [39] from rfl]
  simp

theorem lexSorted_tail {x : RStr} {l : List RStr}
    (h : lexSorted (x :: l) = true) : lexSorted l = true := by
  cases l with
  | nil => rfl
  | cons y l2 =>
    rw [lexSorted, Bool.and_eq_true] at h
    exact h.2

theorem sortLex_sorted : ∀ l, lexSorted l = true → sortLex l = l := by
  intro l
  induction l with
  | nil => intro h; rfl
  | cons x l ih =>
    intro h
    rw [sortLex, ih (lexSorted_tail h)]
    cases l with
    | nil => rfl
    | cons y l2 =>
      rw [lexSorted, Bool.and_eq_true] at h
      rw [insertLex, if_neg]
      rw [lexLt_asymm h.1]
      intro hc
      cases hc

-- ## Trim stability machinery

theorem trimLeftB_length (s : RStr) : (trimLeftB s).length ≤ s.length := by
  induction s with
  | nil => simp [trimLeftB]
  | cons b s2 ih =>
    rw [trimLeftB]
    by_cases hw : isWhite b = true
    · rw [if_pos hw]
      simp
      omega
    · rw [if_neg hw]

theorem trimB_le_trimLeftB (s : RStr) :
    (trimB s).length ≤ (trimLeftB s).length := by
  rw [trimB]
  rw [List.length_reverse]
  have := trimLeftB_length (trimLeftB s).reverse
  simpa using this

theorem trimStable_head (r : RStr) (h : trimB r = r) :
    ∀ b, r.head? = some b → isWhite b = false := by
  intro b hb
  by_contra hw
  simp only [Bool.not_eq_false] at hw
  cases r with
  | nil => simp at hb
  | cons c r2 =>
    simp at hb
    rw [← hb] at hw
    have h1 : trimLeftB (c :: r2) = trimLeftB r2 := by
      rw [trimLeftB, if_pos hw]
    have h2 := trimB_le_trimLeftB (c :: r2)
    rw [h1, h] at h2
    have h3 := trimLeftB_length r2
    simp at h2
    omega

theorem trimLeftB_eq_or_lt (s : RStr) :
    trimLeftB s = s ∨ (trimLeftB s).length < s.length := by
  cases s with
  | nil => left; rfl
  | cons b s2 =>
    rw [trimLeftB]
    by_cases hw : isWhite b = true
    · right
      rw [if_pos hw]
      have := trimLeftB_length s2
      simp
      omega
    · left
      rw [if_neg hw]

theorem trimStable_trimLeft (r : RStr) (h : trimB r = r) :
    trimLeftB r = r := by
  rcases trimLeftB_eq_or_lt r with h1 | h1
  · exact h1
  · have h2 := trimB_le_trimLeftB r
    rw [h] at h2
    omega

theorem trimStable_last (r : RStr) (h : trimB r = r) :
    ∀ b, r.getLast? = some b → isWhite b = false := by
  intro b hb
  have hL := trimStable_trimLeft r h
  have hrev : (trimLeftB r.reverse).reverse = r := by
    rw [trimB, hL] at h
    exact h
  have hrev2 : trimLeftB r.reverse = r.reverse := by
    have := congrArg List.reverse hrev
    simpa using this
  by_contra hw
  simp only [Bool.not_eq_false] at hw
  have hhead : r.reverse.head? = some b := by
    rw [List.head?_reverse]
    exact hb
  cases hr : r.reverse with
  | nil => rw [hr] at hhead; simp at hhead
  | cons c rr =>
    rw [hr] at hhead
    simp at hhead
    subst hhead
    rw [hr, trimLeftB, if_pos hw] at hrev2
    have := trimLeftB_length rr
    have hlen := congrArg List.length hrev2
    simp at hlen
    omega

-- ## joinComma edge structure

theorem joinComma_single (r : RStr) : joinComma [r] = r := by
  simp [joinComma]

theorem joinComma_head (r : RStr) (rs : List RStr) (h : r ≠ []) :
    (joinComma (r :: rs)).head? = r.head? := by
  cases rs with
  | nil => rw [joinComma_single]
  | cons q qs =>
    rw [joinComma_cons_cons]
    exact head_append_ne_nil h

theorem joinComma_ne_nil (q : RStr) (qs : List RStr) (hq : q ≠ []) :
    joinComma (q :: qs) ≠ [] := by
  intro hc
  have h2 := joinComma_le_length (q :: qs) q (by simp)
  rw [hc] at h2
  simp at h2
  exact hq h2

theorem joinComma_getLast_prop (P : Nat → Prop) :
    ∀ (rs : List RStr) (r : RStr), r ≠ [] →
    (∀ x ∈ r :: rs, x ≠ []) →
    (∀ x ∈ r :: rs, ∀ b, x.getLast? = some b → P b) →
    ∀ b, (joinComma (r :: rs)).getLast? = some b → P b := by
  intro rs
  induction rs with
  | nil =>
    intro r hr _ hall b hb
    rw [joinComma_single] at hb
    exact hall r (by simp) b hb
  | cons q qs ih =>
    intro r hr hne hall b hb
    rw [joinComma_cons_cons] at hb
    have hq : q ≠ [] := hne q (by simp)
    have hjn : joinComma (q :: qs) ≠ [] := joinComma_ne_nil q qs hq
    rw [getLast_append_ne_nil (by
      intro hc
      rw [show (44 :: 32 :: joinComma (q :: qs) : RStr)
          = [44, 32] ++ joinComma (q :: qs) from rfl] at hc
      simp at hc)] at hb
    rw [show (44 :: 32 :: joinComma (q :: qs) : RStr)
        = [44, 32] ++ joinComma (q :: qs) from rfl] at hb
    rw [getLast_append_ne_nil hjn] at hb
    exact ih q hq (fun x hx => hne x (List.mem_cons_of_mem r hx))
      (fun x hx => hall x (List.mem_cons_of_mem r hx)) b hb

-- ## Container loop lemmas

theorem tsvPartsLoop_ok (pv : RStr → PRes Value) :
    ∀ (prs : List RStr) (vs : List Value),
      List.Forall₂ (fun p v => pv (trimB p) = .ok v) prs vs →
      tsvPartsLoop pv prs = .ok vs := by
  intro prs
  induction prs with
  | nil =>
    intro vs h
    cases h
    rfl
  | cons p prs ih =>
    intro vs h
    cases h with
    | cons hpv htail =>
      rw [tsvPartsLoop, hpv, ih _ htail]
      rfl

theorem tsvTupleLoop_ok (pv : Ty → RStr → PRes Value) :
    ∀ (prs : List RStr) (ts : List Ty) (vs : List Value),
      List.Forall₂ (fun (pt : RStr × Ty) v => pv pt.2 (trimB pt.1) = .ok v)
        (prs.zip ts) vs →
      prs.length = ts.length →
      tsvTupleLoop pv prs ts = .ok vs := by
  intro prs
  induction prs with
  | nil =>
    intro ts vs h hlen
    cases ts with
    | nil =>
      cases h
      rfl
    | cons t ts2 => simp at hlen
  | cons p prs ih =>
    intro ts vs h hlen
    cases ts with
    | nil => simp at hlen
    | cons t ts2 =>
      rw [List.zip_cons_cons] at h
      cases h with
      | cons hpv htail =>
        rw [tsvTupleLoop, hpv, ih ts2 _ htail (by simpa using hlen)]
        rfl

theorem tsvMapLoop_ok (pv : RStr → PRes Value) :
    ∀ (prs : List RStr) (m acc : List (RStr × Value)),
      List.Forall₂ (fun p (kv : RStr × Value) => ∃ p0 p1,
        splitSep 58 (trimB p) = [p0, p1] ∧
        unenclose (trimB p0) = kv.1 ∧
        pv (trimB p1) = .ok kv.2) prs m →
      (∀ kv ∈ m, acc.all (fun kv2 => !(kv2.1 == kv.1)) = true) →
      keysDistinctB m = true →
      tsvMapLoop pv prs acc = .ok (acc ++ m) := by
  intro prs
  induction prs with
  | nil =>
    intro m acc h _ _
    cases h
    rw [tsvMapLoop]
    simp
  | cons p prs ih =>
    intro m acc h hfresh hdist
    cases h with
    | cons hp htail =>
      rename_i kv m2
      obtain ⟨p0, p1, hsplit, hk, hv⟩ := hp
      rw [tsvMapLoop, hsplit]
      show (pv (trimB p1)).bind (fun v =>
        tsvMapLoop pv prs (hmInsert acc (unenclose (trimB p0)) v))
        = PRes.ok (acc ++ kv :: m2)
      rw [hv]
      show tsvMapLoop pv prs (hmInsert acc (unenclose (trimB p0)) kv.2)
        = .ok (acc ++ kv :: m2)
      rw [hk, hmInsert_notmem acc kv.1 kv.2 (hfresh kv (by simp))]
      rw [keysDistinctB, Bool.and_eq_true] at hdist
      rw [ih m2 (acc ++ [(kv.1, kv.2)]) htail ?_ hdist.2]
      · simp
      · intro kv2 hkv2
        rw [List.all_append, Bool.and_eq_true]
        constructor
        · exact hfresh kv2 (List.mem_cons_of_mem kv hkv2)
        · rw [List.all_eq_true]
          intro x hx
          simp at hx
          subst hx
          have h3 := hdist.1
          rw [List.all_eq_true] at h3
          have h2 := h3 kv2 hkv2
          simp at h2 ⊢
          exact fun e => h2 e.symm

theorem tsvNestedLoop_ok (pv : Ty → RStr → PRes Value) :
    ∀ (prs : List RStr) (fields : List (RStr × Ty))
      (m acc : List (RStr × Value)),
      List.Forall₂ (fun (pf : RStr × (RStr × Ty)) (kv : RStr × Value) =>
        pf.2.1 = kv.1 ∧ pv pf.2.2 (trimB pf.1) = .ok kv.2)
        (prs.zip fields) m →
      prs.length = fields.length →
      (∀ kv ∈ m, acc.all (fun kv2 => !(kv2.1 == kv.1)) = true) →
      keysDistinctB m = true →
      tsvNestedLoop pv prs fields acc = .ok (acc ++ m) := by
  intro prs
  induction prs with
  | nil =>
    intro fields m acc h hlen _ _
    cases fields with
    | nil =>
      cases h
      rw [tsvNestedLoop]
      simp
    | cons ft fs => simp at hlen
  | cons p prs ih =>
    intro fields m acc h hlen hfresh hdist
    cases fields with
    | nil => simp at hlen
    | cons ft fs =>
      rw [List.zip_cons_cons] at h
      cases h with
      | cons hp htail =>
        rename_i kv m2
        obtain ⟨hk, hv⟩ := hp
        rw [tsvNestedLoop, hv]
        show tsvNestedLoop pv prs fs (hmInsert acc ft.1 kv.2)
          = .ok (acc ++ kv :: m2)
        rw [hk, hmInsert_notmem acc kv.1 kv.2 (hfresh kv (by simp))]
        rw [keysDistinctB, Bool.and_eq_true] at hdist
        rw [ih fs m2 (acc ++ [(kv.1, kv.2)]) htail (by simpa using hlen)
          ?_ hdist.2]
        · simp
        · intro kv2 hkv2
          rw [List.all_append, Bool.and_eq_true]
          constructor
          · exact hfresh kv2 (List.mem_cons_of_mem kv hkv2)
          · rw [List.all_eq_true]
            intro x hx
            simp at hx
            subst hx
            have h3 := hdist.1
            rw [List.all_eq_true] at h3
            have h2 := h3 kv2 hkv2
            simp at h2 ⊢
            exact fun e => h2 e.symm

theorem cellOK_enclose (r : RStr) (h44 : noByteB 44 r = true)
    (h58 : noByteB 58 r = true) : cellOK (enclose r) := by
  refine ⟨by simp [enclose], trimB_quoted r, ?_, ?_⟩
  · rw [enclose, noByteB, List.all_eq_true]
    intro b hb
    rcases List.mem_append.mp hb with hb | hb
    · rcases List.mem_cons.mp hb with hb | hb
      · subst hb; decide
      · rw [noByteB, List.all_eq_true] at h44
        exact h44 b hb
    · simp at hb
      subst hb
      decide
  · rw [enclose, noByteB, List.all_eq_true]
    intro b hb
    rcases List.mem_append.mp hb with hb | hb
    · rcases List.mem_cons.mp hb with hb | hb
      · subst hb; decide
      · rw [noByteB, List.all_eq_true] at h58
        exact h58 b hb
    · simp at hb
      subst hb
      decide

theorem cellOK_natDec (n : Nat) : cellOK (natDec n) :=
  ⟨natDec_ne_nil n, trimB_natDec n,
   natDec_noByte n 44 (by omega), natDec_noByte n 58 (by omega)⟩

theorem cellOK_intDec (i : Int) : cellOK (intDec i) :=
  ⟨intDec_ne_nil i, trimB_intDec i,
   intDec_noByte i 44 ⟨by omega, by omega⟩,
   intDec_noByte i 58 ⟨by omega, by omega⟩⟩

theorem cellOK_ext {r : RStr} (h : extRenderOK r) : cellOK r :=
  ⟨h.1, h.2.1, h.2.2.1, h.2.2.2.1⟩

theorem tsvCellOK (ext : TsvExt) (hext : TsvExtOK ext) :
    ∀ f v ty, tsvOkF ext f v ty true = true →
      cellOK (formatValueTsv false ext f v true) := by
  intro f v ty h
  cases f with
  | zero => simp [tsvOkF] at h
  | succ f =>
    obtain ⟨hf32, hf64, huu, hd32, hdt, hdt64,
      gf32, gf64, guu, gd32, gdt, gdt64⟩ := hext
    cases v with
    | UInt8 v => exact cellOK_natDec v
    | UInt16 v => exact cellOK_natDec v
    | UInt32 v => exact cellOK_natDec v
    | UInt64 v => exact cellOK_natDec v
    | UInt128 v => exact cellOK_natDec v
    | UInt256 p => exact cellOK_natDec _
    | Int8 v => exact cellOK_intDec v
    | Int16 v => exact cellOK_intDec v
    | Int32 v => exact cellOK_intDec v
    | Int64 v => exact cellOK_intDec v
    | Int128 v => exact cellOK_intDec v
    | Int256 p => exact cellOK_intDec _
    | Float32 b => exact cellOK_ext (gf32 b)
    | Float64 b => exact cellOK_ext (gf64 b)
    | Bool b =>
      cases b
      · show cellOK (bs "false")
        exact ⟨by decide, by decide, by decide, by decide⟩
      · show cellOK (bs "true")
        exact ⟨by decide, by decide, by decide, by decide⟩
    | String s =>
      simp only [tsvOkF] at h
      split at h
      · rw [tsvStrOK, Bool.and_eq_true] at h
        simp only [Bool.not_eq_true', Bool.or_eq_true, Bool.and_eq_true] at h
        rcases h.2 with h2 | h2
        · cases h2
        · show cellOK (enclose (escape s))
          exact cellOK_enclose _
            (escape_noByte 44 s (by omega) h2.1.1.1.1)
            (escape_noByte 58 s (by omega) h2.1.1.1.2)
      · rw [tsvStrOK, Bool.and_eq_true] at h
        simp only [Bool.not_eq_true', Bool.or_eq_true, Bool.and_eq_true] at h
        rcases h.2 with h2 | h2
        · cases h2
        · show cellOK (enclose (escape s))
          exact cellOK_enclose _
            (escape_noByte 44 s (by omega) h2.1.1.1.1)
            (escape_noByte 58 s (by omega) h2.1.1.1.2)
      · simp at h
    | UUID u => exact cellOK_ext (guu u)
    | Date d => simp [tsvOkF] at h
    | DateTime d => simp [tsvOkF] at h
    | DateTime64 d =>
      exact cellOK_enclose _ ((gdt64 d).2.2.1) ((gdt64 d).2.2.2.1)
    | Date32 d =>
      exact cellOK_enclose _ ((gd32 d).2.2.1) ((gd32 d).2.2.2.1)
    | Enum8 v => simp [tsvOkF] at h
    | Enum16 v => simp [tsvOkF] at h
    | Array vs => simp only [tsvOkF] at h; split at h <;> simp at h
    | Tuple vs => simp only [tsvOkF] at h; split at h <;> simp at h
    | Map m => simp only [tsvOkF] at h; split at h <;> simp at h
    | Nested m =>
      cases ty <;> try simp [tsvOkF] at h
      cases f <;> simp [tsvOkF] at h
    | NullableUInt8 o => simp only [tsvOkF] at h; split at h <;> simp at h
    | NullableUInt16 o => simp only [tsvOkF] at h; split at h <;> simp at h
    | NullableUInt32 o => simp only [tsvOkF] at h; split at h <;> simp at h
    | NullableUInt64 o => simp only [tsvOkF] at h; split at h <;> simp at h
    | NullableUInt128 o => simp only [tsvOkF] at h; split at h <;> simp at h
    | NullableUInt256 o => simp only [tsvOkF] at h; split at h <;> simp at h
    | NullableInt8 o => simp only [tsvOkF] at h; split at h <;> simp at h
    | NullableInt16 o => simp only [tsvOkF] at h; split at h <;> simp at h
    | NullableInt32 o => simp only [tsvOkF] at h; split at h <;> simp at h
    | NullableInt64 o => simp only [tsvOkF] at h; split at h <;> simp at h
    | NullableInt128 o => simp only [tsvOkF] at h; split at h <;> simp at h
    | NullableInt256 o => simp only [tsvOkF] at h; split at h <;> simp at h
    | NullableFloat32 o => simp only [tsvOkF] at h; split at h <;> simp at h
    | NullableFloat64 o => simp only [tsvOkF] at h; split at h <;> simp at h
    | NullableBool o => simp only [tsvOkF] at h; split at h <;> simp at h
    | NullableString o => simp only [tsvOkF] at h; split at h <;> simp at h
    | NullableUUID o => simp only [tsvOkF] at h; split at h <;> simp at h
    | NullableDate o => simp only [tsvOkF] at h; split at h <;> simp at h
    | NullableDate32 o => simp only [tsvOkF] at h; split at h <;> simp at h
    | NullableDateTime o => simp only [tsvOkF] at h; split at h <;> simp at h
    | NullableDateTime64 o => simp only [tsvOkF] at h; split at h <;> simp at h
    | NullableEnum8 o => simp [tsvOkF] at h
    | NullableEnum16 o => simp [tsvOkF] at h
theorem noByteB_forall (c : Nat) (s : RStr) (h : noByteB c s = true) :
    ∀ b ∈ s, b ≠ c := by
  rw [noByteB, List.all_eq_true] at h
  intro b hb
  have h2 := h b hb
  simpa using h2

theorem mapEntry_split (k vr : RStr) (hk58 : noByteB 58 k = true)
    (hv58 : noByteB 58 vr = true) :
    splitSep 58 ((39 :: k) ++ bs "\': " ++ vr)
      = [(39 :: k) ++ [39], 32 :: vr] := by
  rw [show ((39 :: k) ++ bs "\': " ++ vr : RStr)
      = ((39 :: k) ++ [39]) ++ (58 :: 32 :: vr) from by
    rw [show (bs "\': " : RStr) = [39, 58, 32] from rfl]
    simp]
  rw [splitSep_append_noSep 58 ((39 :: k) ++ [39]) (58 :: 32 :: vr) (by
    intro b hb
    rcases List.mem_append.mp hb with hb | hb
    · rcases List.mem_cons.mp hb with hb | hb
      · omega
      · exact noByteB_forall 58 k hk58 b hb
    · simp at hb
      omega)]
  rw [splitSep_cons_sep]
  rw [splitSep_single_noSep 58 (32 :: vr) (by
    intro b hb
    rcases List.mem_cons.mp hb with hb | hb
    · omega
    · exact noByteB_forall 58 vr hv58 b hb)]
  simp

theorem mapEntry_trim (k vr : RStr) (hvne : vr ≠ [])
    (hvt : trimB vr = vr) :
    trimB ((39 :: k) ++ bs "\': " ++ vr) = (39 :: k) ++ bs "\': " ++ vr := by
  apply trimB_eq_self
  · intro b hb
    rw [head_append_ne_nil (by simp), head_append_ne_nil (by simp)] at hb
    simp at hb
    subst hb
    rfl
  · intro b hb
    rw [getLast_append_ne_nil hvne] at hb
    exact trimStable_last vr hvt b hb

theorem mapEntry_no44 (k vr : RStr) (hk44 : noByteB 44 k = true)
    (hv44 : noByteB 44 vr = true) :
    noByteB 44 ((39 :: k) ++ bs "\': " ++ vr) = true := by
  rw [noByteB_append, noByteB_append, noByteB_cons]
  have h1 : noByteB 44 (bs "\': ") = true := by decide
  simp [hk44, hv44, h1]
theorem tsvOkF_nested (ext : TsvExt) (f : Nat) (m : List (RStr × Value))
    (ty : Ty) (iwa : Bool) :
    tsvOkF ext (f + 1) (.Nested m) ty iwa =
      (match ty with
       | .Nested fields =>
         !iwa && !m.isEmpty && m.length == fields.length &&
           keysDistinctB m &&
           (match f with
            | 0 => false
            | f2 + 1 => (List.zip m fields).all (fun p =>
                p.1.1 == p.2.1 && tsvOkF ext f2 p.1.2 p.2.2 true))
       | _ => false) := by
  rw [tsvOkF.eq_def]

theorem trimB_bracketed (a b : Nat) (ha : isWhite a = false)
    (hb : isWhite b = false) (s : RStr) :
    trimB (a :: s ++ [b]) = a :: s ++ [b] := by
  apply trimB_eq_self
  · intro c hc
    rw [show (a :: s ++ [b] : RStr) = a :: (s ++ [b]) from by simp] at hc
    simp at hc
    rw [← hc]
    exact ha
  · intro c hc
    rw [show (a :: s ++ [b] : RStr) = (a :: s) ++ [b] from rfl,
      getLast_append_ne_nil (by simp)] at hc
    simp at hc
    rw [← hc]
    exact hb

theorem stripPrefixB_single_cons (c : Nat) (s : RStr) :
    stripPrefixB [c] (c :: s) = some s := by
  rw [stripPrefixB, if_pos rfl]
  rfl

theorem forall₂_spaced {α : Type} (F : α → RStr) (P : RStr → α → Prop) :
    ∀ l : List α, (∀ x ∈ l, P (32 :: F x) x) →
    List.Forall₂ P ((l.map F).map (fun q => 32 :: q)) l := by
  intro l
  induction l with
  | nil => intro _; exact List.Forall₂.nil
  | cons x l2 ih =>
    intro hall
    exact List.Forall₂.cons (hall x (by simp))
      (ih (fun y hy => hall y (by simp [hy])))

theorem forall₂_zip_spaced {α β : Type} (F : α → RStr)
    (P : RStr × β → α → Prop) :
    ∀ (l : List α) (ts : List β), l.length = ts.length →
      (∀ p ∈ l.zip ts, P (32 :: F p.1, p.2) p.1) →
      List.Forall₂ P (((l.map F).map (fun q => 32 :: q)).zip ts) l := by
  intro l
  induction l with
  | nil =>
    intro ts _ _
    exact List.Forall₂.nil
  | cons x l2 ih =>
    intro ts hlen hall
    cases ts with
    | nil => simp at hlen
    | cons t ts2 =>
      exact List.Forall₂.cons (hall (x, t) (by simp [List.zip_cons_cons]))
        (ih ts2 (by simpa using hlen)
          (fun p hp => hall p (by simp [List.zip_cons_cons, hp])))

theorem mem_zip_left {α β : Type} :
    ∀ (l : List α) (ts : List β), l.length = ts.length →
      ∀ v ∈ l, ∃ t2, (v, t2) ∈ l.zip ts := by
  intro l
  induction l with
  | nil => intro ts _ v hv; simp at hv
  | cons x l2 ih =>
    intro ts hlen v hv
    cases ts with
    | nil => simp at hlen
    | cons t ts2 =>
      rcases List.mem_cons.mp hv with hv | hv
      · subst hv
        exact ⟨t, by simp [List.zip_cons_cons]⟩
      · obtain ⟨t2, ht2⟩ := ih ts2 (by simpa using hlen) v hv
        exact ⟨t2, by simp [List.zip_cons_cons, ht2]⟩

theorem splitSep_trimB_join (r0 : RStr) (rl : List RStr)
    (hall : ∀ r ∈ r0 :: rl,
      r ≠ [] ∧ trimB r = r ∧ noByteB 44 r = true) :
    trimB (joinComma (r0 :: rl)) = joinComma (r0 :: rl) ∧
    splitSep 44 (joinComma (r0 :: rl)) = r0 :: rl.map (fun q => 32 :: q) := by
  constructor
  · apply trimB_eq_self
    · intro b hb
      rw [joinComma_head r0 rl (hall r0 (by simp)).1] at hb
      exact trimStable_head r0 (hall r0 (by simp)).2.1 b hb
    · intro b hb
      exact joinComma_getLast_prop (fun b => isWhite b = false) rl r0
        (hall r0 (by simp)).1 (fun x hx => (hall x hx).1)
        (fun x hx b2 hb2 => trimStable_last x (hall x hx).2.1 b2 hb2) b hb
  · apply splitSep_joinComma
    · intro b hb
      have h2 := (hall r0 (by simp)).2.2
      rw [noByteB, List.all_eq_true] at h2
      have h3 := h2 b hb
      simpa using h3
    · intro q hq b hb
      have h2 := (hall q (List.mem_cons_of_mem _ hq)).2.2
      rw [noByteB, List.all_eq_true] at h2
      have h3 := h2 b hb
      simpa using h3

theorem tsv_i256 (ext : TsvExt) (hi lo : Int) (g : Nat) (iwa : Bool)
    (h1 : iOK 16 hi = true) (h2 : iOK 16 lo = true) :
    parseValueTsv ext (g + 1) .Int256
      (intDec (hi * ((Nat.pow 2 128 : Nat) : Int) +
        lo.emod ((Nat.pow 2 128 : Nat) : Int))) iwa
      = .ok (.Int256 (hi, lo)) := by
  have hA : 0 < Nat.pow 2 128 := Nat.pos_pow_of_pos _ (by omega)
  have hAi : (0 : Int) < ((Nat.pow 2 128 : Nat) : Int) := by
    omega
  have hr0 : 0 ≤ hi.emod ((Nat.pow 2 128 : Nat) : Int) :=
    Int.emod_nonneg hi (by omega)
  have hr1 : hi.emod ((Nat.pow 2 128 : Nat) : Int)
      < ((Nat.pow 2 128 : Nat) : Int) := Int.emod_lt_of_pos hi hAi
  have hs0 : 0 ≤ lo.emod ((Nat.pow 2 128 : Nat) : Int) :=
    Int.emod_nonneg lo (by omega)
  have hs1 : lo.emod ((Nat.pow 2 128 : Nat) : Int)
      < ((Nat.pow 2 128 : Nat) : Int) := Int.emod_lt_of_pos lo hAi
  rw [iOK, Bool.and_eq_true, decide_eq_true_iff, decide_eq_true_iff] at h1 h2
  have hc : ((Nat.pow 2 (8 * 16 - 1) : Nat) : Int)
      = ((Nat.pow 2 127 : Nat) : Int) := rfl
  rw [hc] at h1 h2
  have hQP : ((Nat.pow 2 255 : Nat) : Int)
      = ((Nat.pow 2 127 : Nat) : Int) * ((Nat.pow 2 128 : Nat) : Int) := by
    rw [show Nat.pow 2 255 = Nat.pow 2 127 * Nat.pow 2 128 from
      Nat.pow_add 2 127 128, Nat.cast_mul]
  have hlo2 : -((Nat.pow 2 255 : Nat) : Int)
      ≤ hi * ((Nat.pow 2 128 : Nat) : Int) +
        lo.emod ((Nat.pow 2 128 : Nat) : Int) := by
    have hm : (-((Nat.pow 2 127 : Nat) : Int)) * ((Nat.pow 2 128 : Nat) : Int)
        ≤ hi * ((Nat.pow 2 128 : Nat) : Int) :=
      mul_le_mul_of_nonneg_right h1.1 (le_of_lt hAi)
    rw [hQP]
    nlinarith [hm, hs0]
  have hhi2 : hi * ((Nat.pow 2 128 : Nat) : Int) +
        lo.emod ((Nat.pow 2 128 : Nat) : Int)
      ≤ ((Nat.pow 2 255 - 1 : Nat) : Int) := by
    have hm : hi * ((Nat.pow 2 128 : Nat) : Int)
        ≤ (((Nat.pow 2 127 : Nat) : Int) - 1) * ((Nat.pow 2 128 : Nat) : Int) :=
      mul_le_mul_of_nonneg_right (by omega) (le_of_lt hAi)
    have hone : 1 ≤ Nat.pow 2 255 := Nat.pos_pow_of_pos _ (by omega)
    have hcast : ((Nat.pow 2 255 - 1 : Nat) : Int)
        = ((Nat.pow 2 255 : Nat) : Int) - 1 := by
      omega
    rw [hcast, hQP]
    nlinarith [hm, hs1]
  show (match parseIntR (-((Nat.pow 2 255 : Nat) : Int))
      (((Nat.pow 2 255 - 1 : Nat) : Int))
      (intDec (hi * ((Nat.pow 2 128 : Nat) : Int) +
        lo.emod ((Nat.pow 2 128 : Nat) : Int))) with
    | some w => PRes.ok (Value.Int256
        (unTwos 16 ((w.emod (Nat.pow 2 256)).toNat / Nat.pow 2 128),
         unTwos 16 ((w.emod (Nat.pow 2 256)).toNat % Nat.pow 2 128)))
    | none => PRes.err "invalid digit found in string")
    = PRes.ok (Value.Int256 (hi, lo))
  rw [parseIntR_intDec hlo2 hhi2]
  have hVsplit : hi * ((Nat.pow 2 128 : Nat) : Int) +
      lo.emod ((Nat.pow 2 128 : Nat) : Int)
      = hi.emod ((Nat.pow 2 128 : Nat) : Int) *
          ((Nat.pow 2 128 : Nat) : Int) +
        lo.emod ((Nat.pow 2 128 : Nat) : Int) +
        ((Nat.pow 2 128 : Nat) : Int) * ((Nat.pow 2 128 : Nat) : Int) *
          (hi.ediv ((Nat.pow 2 128 : Nat) : Int)) := by
    have hhi : ((Nat.pow 2 128 : Nat) : Int) *
        (hi.ediv ((Nat.pow 2 128 : Nat) : Int)) +
        hi.emod ((Nat.pow 2 128 : Nat) : Int) = hi :=
      Int.ediv_add_emod hi ((Nat.pow 2 128 : Nat) : Int)
    linear_combination (-((Nat.pow 2 128 : Nat) : Int)) * hhi
  have hX1 : hi.emod ((Nat.pow 2 128 : Nat) : Int) *
        ((Nat.pow 2 128 : Nat) : Int) +
      lo.emod ((Nat.pow 2 128 : Nat) : Int)
      < ((Nat.pow 2 128 : Nat) : Int) * ((Nat.pow 2 128 : Nat) : Int) := by
    nlinarith [hr1, hs1, hr0, hs0, hAi]
  have hAA : (((Nat.pow 2 256 : Nat)) : Int)
      = ((Nat.pow 2 128 : Nat) : Int) * ((Nat.pow 2 128 : Nat) : Int) := by
    rw [show Nat.pow 2 256 = Nat.pow 2 128 * Nat.pow 2 128 from
      Nat.pow_add 2 128 128, Nat.cast_mul]
  have key : (hi * ((Nat.pow 2 128 : Nat) : Int) +
      lo.emod ((Nat.pow 2 128 : Nat) : Int)).emod (Nat.pow 2 256)
      = hi.emod ((Nat.pow 2 128 : Nat) : Int) *
          ((Nat.pow 2 128 : Nat) : Int) +
        lo.emod ((Nat.pow 2 128 : Nat) : Int) := by
    rw [show ((Nat.pow 2 256 : Nat) : Int)
        = (((Nat.pow 2 256 : Nat)) : Int) from rfl, hAA, hVsplit]
    rw [show (hi.emod ((Nat.pow 2 128 : Nat) : Int) *
          ((Nat.pow 2 128 : Nat) : Int) +
        lo.emod ((Nat.pow 2 128 : Nat) : Int) +
        ((Nat.pow 2 128 : Nat) : Int) * ((Nat.pow 2 128 : Nat) : Int) *
          (hi.ediv ((Nat.pow 2 128 : Nat) : Int))).emod
        (((Nat.pow 2 128 : Nat) : Int) * ((Nat.pow 2 128 : Nat) : Int))
      = (hi.emod ((Nat.pow 2 128 : Nat) : Int) *
          ((Nat.pow 2 128 : Nat) : Int) +
        lo.emod ((Nat.pow 2 128 : Nat) : Int)).emod
        (((Nat.pow 2 128 : Nat) : Int) * ((Nat.pow 2 128 : Nat) : Int)) from
      Int.add_mul_emod_self_left
        (hi.emod ((Nat.pow 2 128 : Nat) : Int) *
          ((Nat.pow 2 128 : Nat) : Int) +
          lo.emod ((Nat.pow 2 128 : Nat) : Int))
        (((Nat.pow 2 128 : Nat) : Int) * ((Nat.pow 2 128 : Nat) : Int))
        (hi.ediv ((Nat.pow 2 128 : Nat) : Int))]
    exact Int.emod_eq_of_lt (by nlinarith [hr0, hs0, hAi]) hX1
  have ha : ((hi.emod ((Nat.pow 2 128 : Nat) : Int)).toNat : Int)
      = hi.emod ((Nat.pow 2 128 : Nat) : Int) := Int.toNat_of_nonneg hr0
  have hb : ((lo.emod ((Nat.pow 2 128 : Nat) : Int)).toNat : Int)
      = lo.emod ((Nat.pow 2 128 : Nat) : Int) := Int.toNat_of_nonneg hs0
  have hn : (hi * ((Nat.pow 2 128 : Nat) : Int) +
      lo.emod ((Nat.pow 2 128 : Nat) : Int)).emod (Nat.pow 2 256)
      = (((hi.emod ((Nat.pow 2 128 : Nat) : Int)).toNat * Nat.pow 2 128 +
          (lo.emod ((Nat.pow 2 128 : Nat) : Int)).toNat : Nat) : Int) := by
    rw [key]
    rw [Nat.cast_add, Nat.cast_mul, ha, hb]
  have hnn : ((hi * ((Nat.pow 2 128 : Nat) : Int) +
      lo.emod ((Nat.pow 2 128 : Nat) : Int)).emod
        (Nat.pow 2 256)).toNat
      = (hi.emod ((Nat.pow 2 128 : Nat) : Int)).toNat * Nat.pow 2 128 +
          (lo.emod ((Nat.pow 2 128 : Nat) : Int)).toNat := by
    rw [hn]
    exact Int.toNat_natCast _
  have hblt : (lo.emod ((Nat.pow 2 128 : Nat) : Int)).toNat < Nat.pow 2 128 := by
    omega
  have hdiv : ((hi.emod ((Nat.pow 2 128 : Nat) : Int)).toNat * Nat.pow 2 128 +
      (lo.emod ((Nat.pow 2 128 : Nat) : Int)).toNat) / Nat.pow 2 128
      = (hi.emod ((Nat.pow 2 128 : Nat) : Int)).toNat :=
    (div_mod_split _ _ _ hA hblt).1
  have hmod : ((hi.emod ((Nat.pow 2 128 : Nat) : Int)).toNat * Nat.pow 2 128 +
      (lo.emod ((Nat.pow 2 128 : Nat) : Int)).toNat) % Nat.pow 2 128
      = (lo.emod ((Nat.pow 2 128 : Nat) : Int)).toNat :=
    (div_mod_split _ _ _ hA hblt).2
  have hu1 : unTwos 16 (hi.emod ((Nat.pow 2 128 : Nat) : Int)).toNat = hi := by
    have := unTwos_emod 16 hi (by omega) (by
      rw [iOK, Bool.and_eq_true, decide_eq_true_iff, decide_eq_true_iff, hc]
      exact h1)
    simpa using this
  have hu2 : unTwos 16 (lo.emod ((Nat.pow 2 128 : Nat) : Int)).toNat = lo := by
    have := unTwos_emod 16 lo (by omega) (by
      rw [iOK, Bool.and_eq_true, decide_eq_true_iff, decide_eq_true_iff, hc]
      exact h2)
    simpa using this
  show PRes.ok (Value.Int256
    (unTwos 16 (((hi * ((Nat.pow 2 128 : Nat) : Int) +
        lo.emod ((Nat.pow 2 128 : Nat) : Int)).emod (Nat.pow 2 256)).toNat
        / Nat.pow 2 128),
     unTwos 16 (((hi * ((Nat.pow 2 128 : Nat) : Int) +
        lo.emod ((Nat.pow 2 128 : Nat) : Int)).emod (Nat.pow 2 256)).toNat
        % Nat.pow 2 128)))
    = PRes.ok (Value.Int256 (hi, lo))
  rw [hnn, hdiv, hmod, hu1, hu2]

-- ## The TSV round trip

theorem tsvRoundTripAux (ext : TsvExt) (hext : TsvExtOK ext) :
    ∀ f v ty g iwa, tsvOkF ext f v ty iwa = true → tyFits g ty = true →
      parseValueTsv ext g ty (formatValueTsv false ext f v iwa) iwa
        = .ok v := by
  have pf32 := hext.1
  have pf64 := hext.2.1
  have puu := hext.2.2.1
  have pd32 := hext.2.2.2.1
  have pdt := hext.2.2.2.2.1
  have pdt64 := hext.2.2.2.2.2.1
  have gf32 := hext.2.2.2.2.2.2.1
  have gf64 := hext.2.2.2.2.2.2.2.1
  have guu := hext.2.2.2.2.2.2.2.2.1
  have gd32 := hext.2.2.2.2.2.2.2.2.2.1
  have gdt := hext.2.2.2.2.2.2.2.2.2.2.1
  have gdt64 := hext.2.2.2.2.2.2.2.2.2.2.2
  intro f
  induction f using Nat.strong_induction_on with
  | _ f ih =>
    intro v ty g iwa h hft
    match f with
    | 0 => simp [tsvOkF] at h
    | f + 1 =>
      have ihf : ∀ v ty g iwa, tsvOkF ext f v ty iwa = true →
          tyFits g ty = true →
          parseValueTsv ext g ty (formatValueTsv false ext f v iwa) iwa
            = .ok v :=
        ih f (Nat.lt_succ_self f)
      cases v
      case UInt8 v =>
        simp only [tsvOkF] at h
        split at h
        · cases g with
          | zero => simp [tyFits] at hft
          | succ g =>
            rw [uOK, decide_eq_true_iff] at h
            show (match parseUIntR 255 (natDec v) with
              | some w => PRes.ok (Value.UInt8 w)
              | none => PRes.err "invalid digit found in string")
              = PRes.ok (Value.UInt8 v)
            rw [parseUIntR_natDec (by
              have : Nat.pow 2 (8 * 1) = 256 := rfl
              omega)]
        · simp at h
      case UInt16 v =>
        simp only [tsvOkF] at h
        split at h
        · cases g with
          | zero => simp [tyFits] at hft
          | succ g =>
            rw [uOK, decide_eq_true_iff] at h
            show (match parseUIntR 65535 (natDec v) with
              | some w => PRes.ok (Value.UInt16 w)
              | none => PRes.err "invalid digit found in string")
              = PRes.ok (Value.UInt16 v)
            rw [parseUIntR_natDec (by
              have : Nat.pow 2 (8 * 2) = 65536 := rfl
              omega)]
        · simp at h
      case UInt32 v =>
        simp only [tsvOkF] at h
        split at h
        · cases g with
          | zero => simp [tyFits] at hft
          | succ g =>
            rw [uOK, decide_eq_true_iff] at h
            show (match parseUIntR 4294967295 (natDec v) with
              | some w => PRes.ok (Value.UInt32 w)
              | none => PRes.err "invalid digit found in string")
              = PRes.ok (Value.UInt32 v)
            rw [parseUIntR_natDec (by
              have : Nat.pow 2 (8 * 4) = 4294967296 := rfl
              omega)]
        · simp at h
      case UInt64 v =>
        simp only [tsvOkF] at h
        split at h
        · cases g with
          | zero => simp [tyFits] at hft
          | succ g =>
            rw [uOK, decide_eq_true_iff] at h
            show (match parseUIntR (Nat.pow 2 64 - 1) (natDec v) with
              | some w => PRes.ok (Value.UInt64 w)
              | none => PRes.err "invalid digit found in string")
              = PRes.ok (Value.UInt64 v)
            rw [parseUIntR_natDec (by
              have : Nat.pow 2 (8 * 8) = Nat.pow 2 64 := rfl
              omega)]
        · simp at h
      case UInt128 v =>
        simp only [tsvOkF] at h
        split at h
        · cases g with
          | zero => simp [tyFits] at hft
          | succ g =>
            rw [uOK, decide_eq_true_iff] at h
            show (match parseUIntR (Nat.pow 2 128 - 1) (natDec v) with
              | some w => PRes.ok (Value.UInt128 w)
              | none => PRes.err "invalid digit found in string")
              = PRes.ok (Value.UInt128 v)
            rw [parseUIntR_natDec (by
              have : Nat.pow 2 (8 * 16) = Nat.pow 2 128 := rfl
              omega)]
        · simp at h
      case UInt256 p =>
        simp only [tsvOkF] at h
        split at h
        · cases g with
          | zero => simp [tyFits] at hft
          | succ g =>
            rw [Bool.and_eq_true, uOK, uOK, decide_eq_true_iff,
              decide_eq_true_iff] at h
            have h16 : Nat.pow 2 (8 * 16) = Nat.pow 2 128 := rfl
            rw [h16] at h
            have hA : 0 < Nat.pow 2 128 := Nat.pos_pow_of_pos _ (by omega)
            have hlt : p.1 * Nat.pow 2 128 + p.2 ≤ Nat.pow 2 256 - 1 := by
              have h256 : Nat.pow 2 256 = Nat.pow 2 128 * Nat.pow 2 128 :=
                Nat.pow_add 2 128 128
              have hm : (p.1 + 1) * Nat.pow 2 128
                  ≤ Nat.pow 2 128 * Nat.pow 2 128 :=
                Nat.mul_le_mul_right _ (by omega)
              have hl : p.1 * Nat.pow 2 128 + Nat.pow 2 128
                  = (p.1 + 1) * Nat.pow 2 128 := by ring
              omega
            show (match parseUIntR (Nat.pow 2 256 - 1)
                (natDec (p.1 * Nat.pow 2 128 + p.2)) with
              | some w => PRes.ok (Value.UInt256
                  (w / Nat.pow 2 128, w % Nat.pow 2 128))
              | none => PRes.err "invalid digit found in string")
              = PRes.ok (Value.UInt256 p)
            rw [parseUIntR_natDec hlt]
            show PRes.ok (Value.UInt256
              ((p.1 * Nat.pow 2 128 + p.2) / Nat.pow 2 128,
               (p.1 * Nat.pow 2 128 + p.2) % Nat.pow 2 128))
              = PRes.ok (Value.UInt256 p)
            rw [(div_mod_split p.1 p.2 _ hA h.2).1,
              (div_mod_split p.1 p.2 _ hA h.2).2]
        · simp at h
      case Int8 v =>
        simp only [tsvOkF] at h
        split at h
        · cases g with
          | zero => simp [tyFits] at hft
          | succ g =>
            rw [iOK, Bool.and_eq_true, decide_eq_true_iff,
              decide_eq_true_iff] at h
            have hc : ((Nat.pow 2 (8 * 1 - 1) : Nat) : Int) = 128 := rfl
            rw [hc] at h
            show (match parseIntR (-128) 127 (intDec v) with
              | some w => PRes.ok (Value.Int8 w)
              | none => PRes.err "invalid digit found in string")
              = PRes.ok (Value.Int8 v)
            rw [parseIntR_intDec (by omega) (by omega)]
        · simp at h
      case Int16 v =>
        simp only [tsvOkF] at h
        split at h
        · cases g with
          | zero => simp [tyFits] at hft
          | succ g =>
            rw [iOK, Bool.and_eq_true, decide_eq_true_iff,
              decide_eq_true_iff] at h
            have hc : ((Nat.pow 2 (8 * 2 - 1) : Nat) : Int) = 32768 := rfl
            rw [hc] at h
            show (match parseIntR (-32768) 32767 (intDec v) with
              | some w => PRes.ok (Value.Int16 w)
              | none => PRes.err "invalid digit found in string")
              = PRes.ok (Value.Int16 v)
            rw [parseIntR_intDec (by omega) (by omega)]
        · simp at h
      case Int32 v =>
        simp only [tsvOkF] at h
        split at h
        · cases g with
          | zero => simp [tyFits] at hft
          | succ g =>
            rw [iOK, Bool.and_eq_true, decide_eq_true_iff,
              decide_eq_true_iff] at h
            have hc : ((Nat.pow 2 (8 * 4 - 1) : Nat) : Int) = 2147483648 := rfl
            rw [hc] at h
            show (match parseIntR (-2147483648) 2147483647 (intDec v) with
              | some w => PRes.ok (Value.Int32 w)
              | none => PRes.err "invalid digit found in string")
              = PRes.ok (Value.Int32 v)
            rw [parseIntR_intDec (by omega) (by omega)]
        · simp at h
      case Int64 v =>
        simp only [tsvOkF] at h
        split at h
        · cases g with
          | zero => simp [tyFits] at hft
          | succ g =>
            rw [iOK, Bool.and_eq_true, decide_eq_true_iff,
              decide_eq_true_iff] at h
            have hc : ((Nat.pow 2 (8 * 8 - 1) : Nat) : Int)
                = ((Nat.pow 2 63 : Nat) : Int) := rfl
            rw [hc] at h
            show (match parseIntR (-((Nat.pow 2 63 : Nat) : Int))
                (((Nat.pow 2 63 - 1 : Nat) : Int)) (intDec v) with
              | some w => PRes.ok (Value.Int64 w)
              | none => PRes.err "invalid digit found in string")
              = PRes.ok (Value.Int64 v)
            rw [parseIntR_intDec (by omega) (by
              have h2 : 1 ≤ Nat.pow 2 63 := Nat.pos_pow_of_pos _ (by omega)
              omega)]
        · simp at h
      case Int128 v =>
        simp only [tsvOkF] at h
        split at h
        · cases g with
          | zero => simp [tyFits] at hft
          | succ g =>
            rw [iOK, Bool.and_eq_true, decide_eq_true_iff,
              decide_eq_true_iff] at h
            have hc : ((Nat.pow 2 (8 * 16 - 1) : Nat) : Int)
                = ((Nat.pow 2 127 : Nat) : Int) := rfl
            rw [hc] at h
            show (match parseIntR (-((Nat.pow 2 127 : Nat) : Int))
                (((Nat.pow 2 127 - 1 : Nat) : Int)) (intDec v) with
              | some w => PRes.ok (Value.Int128 w)
              | none => PRes.err "invalid digit found in string")
              = PRes.ok (Value.Int128 v)
            rw [parseIntR_intDec (by omega) (by
              have h2 : 1 ≤ Nat.pow 2 127 := Nat.pos_pow_of_pos _ (by omega)
              omega)]
        · simp at h
      case Int256 p =>
        obtain ⟨hi, lo⟩ := p
        simp only [tsvOkF] at h
        split at h
        · cases g with
          | zero => simp [tyFits] at hft
          | succ g =>
            show parseValueTsv ext (g + 1) .Int256
              (intDec (hi * ((Nat.pow 2 128 : Nat) : Int) +
                lo.emod ((Nat.pow 2 128 : Nat) : Int))) iwa
              = .ok (.Int256 (hi, lo))
            exact tsv_i256 ext hi lo g iwa
              (by rw [Bool.and_eq_true] at h; exact h.1)
              (by rw [Bool.and_eq_true] at h; exact h.2)
        · simp at h
      case Float32 b =>
        simp only [tsvOkF] at h
        split at h
        · cases g with
          | zero => simp [tyFits] at hft
          | succ g =>
            show (match ext.f32Parse (ext.f32Str b) with
              | some w => PRes.ok (Value.Float32 w)
              | none => PRes.err "invalid float literal")
              = PRes.ok (Value.Float32 b)
            rw [pf32 b]
        · simp at h
      case Float64 b =>
        simp only [tsvOkF] at h
        split at h
        · cases g with
          | zero => simp [tyFits] at hft
          | succ g =>
            show (match ext.f64Parse (ext.f64Str b) with
              | some w => PRes.ok (Value.Float64 w)
              | none => PRes.err "invalid float literal")
              = PRes.ok (Value.Float64 b)
            rw [pf64 b]
        · simp at h
      case Bool b =>
        simp only [tsvOkF] at h
        split at h
        · cases g with
          | zero => simp [tyFits] at hft
          | succ g =>
            cases b
            · show parseValueTsv ext (g + 1) .Bool (bs "false") iwa
                = .ok (.Bool false)
              rfl
            · show parseValueTsv ext (g + 1) .Bool (bs "true") iwa
                = .ok (.Bool true)
              rfl
        · simp at h
      case UUID u =>
        simp only [tsvOkF] at h
        split at h
        · cases g with
          | zero => simp [tyFits] at hft
          | succ g =>
            show (match ext.uuidParse (ext.uuidStr u) with
              | some w => PRes.ok (Value.UUID w)
              | none => PRes.err "invalid UUID")
              = PRes.ok (Value.UUID u)
            rw [puu u]
        · simp at h
      case Date d => simp [tsvOkF] at h
      case DateTime d => simp [tsvOkF] at h
      case DateTime64 d =>
        simp only [tsvOkF] at h
        split at h
        · cases g with
          | zero => simp [tyFits] at hft
          | succ g =>
            cases iwa
            · show (match ext.dateTime64Parse (ext.dateTime64Str d) with
                | some w => PRes.ok (Value.DateTime64 w)
                | none => PRes.err "invalid datetime")
                = PRes.ok (Value.DateTime64 d)
              rw [pdt64 d]
            · obtain ⟨-, -, -, -, hh, hl, -⟩ := gdt64 d
              show (match ext.dateTime64Parse
                  (unenclose (39 :: ext.dateTime64Str d ++ [39])) with
                | some w => PRes.ok (Value.DateTime64 w)
                | none => PRes.err "invalid datetime")
                = PRes.ok (Value.DateTime64 d)
              rw [unenclose_quoted _ hh hl, pdt64 d]
        · simp at h
      case String s =>
        simp only [tsvOkF] at h
        split at h
        · cases g with
          | zero => simp [tyFits] at hft
          | succ g =>
            rw [tsvStrOK, Bool.and_eq_true] at h
            cases iwa
            · show PRes.ok (Value.String (unescape (escape s)))
                = PRes.ok (Value.String s)
              rw [unescape_escape s h.1]
            · simp only [Bool.not_true, Bool.false_or,
                Bool.and_eq_true, bne_iff_ne] at h
              show PRes.ok (Value.String
                  (unenclose (unescape (enclose (escape s)))))
                = PRes.ok (Value.String s)
              rw [unescape_enclose s h.1 h.2.2]
              rw [unenclose_quoted s h.2.1.1.2 h.2.1.2]
        · cases g with
          | zero => simp [tyFits] at hft
          | succ g =>
            rw [tsvStrOK, Bool.and_eq_true] at h
            cases iwa
            · show PRes.ok (Value.String (unescape (escape s)))
                = PRes.ok (Value.String s)
              rw [unescape_escape s h.1]
            · simp only [Bool.not_true, Bool.false_or,
                Bool.and_eq_true, bne_iff_ne] at h
              show PRes.ok (Value.String
                  (unenclose (unescape (enclose (escape s)))))
                = PRes.ok (Value.String s)
              rw [unescape_enclose s h.1 h.2.2]
              rw [unenclose_quoted s h.2.1.1.2 h.2.1.2]
        · simp at h
      case Date32 d =>
        simp only [tsvOkF] at h
        split at h
        · cases g with
          | zero => simp [tyFits] at hft
          | succ g =>
            cases iwa
            · show (match ext.date32Parse (ext.date32Str d) with
                | some w => PRes.ok (Value.Date32 w)
                | none => PRes.err "invalid date")
                = PRes.ok (Value.Date32 d)
              rw [pd32 d]
            · obtain ⟨-, -, -, -, hh, hl, -⟩ := gd32 d
              show (match ext.date32Parse
                  (unenclose (39 :: ext.date32Str d ++ [39])) with
                | some w => PRes.ok (Value.Date32 w)
                | none => PRes.err "invalid date")
                = PRes.ok (Value.Date32 d)
              rw [unenclose_quoted _ hh hl, pd32 d]
        · cases g with
          | zero => simp [tyFits] at hft
          | succ g =>
            cases iwa
            · show (match ext.date32Parse (ext.date32Str d) with
                | some w => PRes.ok (Value.Date32 w)
                | none => PRes.err "invalid date")
                = PRes.ok (Value.Date32 d)
              rw [pd32 d]
            · obtain ⟨-, -, -, -, hh, hl, -⟩ := gd32 d
              show (match ext.date32Parse
                  (unenclose (39 :: ext.date32Str d ++ [39])) with
                | some w => PRes.ok (Value.Date32 w)
                | none => PRes.err "invalid date")
                = PRes.ok (Value.Date32 d)
              rw [unenclose_quoted _ hh hl, pd32 d]
        · simp at h
      case Enum8 v => simp [tsvOkF] at h
      case Enum16 v => simp [tsvOkF] at h
      case NullableUInt8 o =>
        simp only [tsvOkF] at h
        split at h
        · rw [Bool.and_eq_true] at h
          obtain ⟨h1, h2⟩ := h
          cases iwa
          case false =>
            cases g with
            | zero => simp [tyFits] at hft
            | succ g =>
              cases o with
              | none => rfl
              | some v =>
                cases f with
                | zero => simp [tsvOkF] at h2
                | succ f2 =>
                  have hinner := ihf (Value.UInt8 v) .UInt8 g false
                    h2 hft
                  have hne : ((formatValueTsv false ext (f2 + 1)
                      (Value.UInt8 v) false) == bs "\\N") = false := by
                    show ((natDec v : RStr) == bs "\\N") = false
                    rw [beq_eq_false_iff_ne]
                    exact natDec_bsN _
                  show (if (formatValueTsv false ext (f2 + 1)
                        (Value.UInt8 v) false) == bs "\\N" then
                      PRes.ok (Value.NullableUInt8 none)
                    else (parseValueTsv ext g .UInt8
                        (formatValueTsv false ext (f2 + 1)
                          (Value.UInt8 v) false) false).bind fun w =>
                      match intoNullable w with
                      | some nv => PRes.ok nv
                      | none => PRes.panicked "called Option unwrap on None")
                    = PRes.ok (Value.NullableUInt8 (some v))
                  rw [if_neg (by
                    intro hc
                    rw [hne] at hc
                    exact Bool.false_ne_true hc)]
                  rw [hinner]
                  rfl
          case true => simp at h1
        · simp at h
      case NullableUInt16 o =>
        simp only [tsvOkF] at h
        split at h
        · rw [Bool.and_eq_true] at h
          obtain ⟨h1, h2⟩ := h
          cases iwa
          case false =>
            cases g with
            | zero => simp [tyFits] at hft
            | succ g =>
              cases o with
              | none => rfl
              | some v =>
                cases f with
                | zero => simp [tsvOkF] at h2
                | succ f2 =>
                  have hinner := ihf (Value.UInt16 v) .UInt16 g false
                    h2 hft
                  have hne : ((formatValueTsv false ext (f2 + 1)
                      (Value.UInt16 v) false) == bs "\\N") = false := by
                    show ((natDec v : RStr) == bs "\\N") = false
                    rw [beq_eq_false_iff_ne]
                    exact natDec_bsN _
                  show (if (formatValueTsv false ext (f2 + 1)
                        (Value.UInt16 v) false) == bs "\\N" then
                      PRes.ok (Value.NullableUInt16 none)
                    else (parseValueTsv ext g .UInt16
                        (formatValueTsv false ext (f2 + 1)
                          (Value.UInt16 v) false) false).bind fun w =>
                      match intoNullable w with
                      | some nv => PRes.ok nv
                      | none => PRes.panicked "called Option unwrap on None")
                    = PRes.ok (Value.NullableUInt16 (some v))
                  rw [if_neg (by
                    intro hc
                    rw [hne] at hc
                    exact Bool.false_ne_true hc)]
                  rw [hinner]
                  rfl
          case true => simp at h1
        · simp at h
      case NullableUInt32 o =>
        simp only [tsvOkF] at h
        split at h
        · rw [Bool.and_eq_true] at h
          obtain ⟨h1, h2⟩ := h
          cases iwa
          case false =>
            cases g with
            | zero => simp [tyFits] at hft
            | succ g =>
              cases o with
              | none => rfl
              | some v =>
                cases f with
                | zero => simp [tsvOkF] at h2
                | succ f2 =>
                  have hinner := ihf (Value.UInt32 v) .UInt32 g false
                    h2 hft
                  have hne : ((formatValueTsv false ext (f2 + 1)
                      (Value.UInt32 v) false) == bs "\\N") = false := by
                    show ((natDec v : RStr) == bs "\\N") = false
                    rw [beq_eq_false_iff_ne]
                    exact natDec_bsN _
                  show (if (formatValueTsv false ext (f2 + 1)
                        (Value.UInt32 v) false) == bs "\\N" then
                      PRes.ok (Value.NullableUInt32 none)
                    else (parseValueTsv ext g .UInt32
                        (formatValueTsv false ext (f2 + 1)
                          (Value.UInt32 v) false) false).bind fun w =>
                      match intoNullable w with
                      | some nv => PRes.ok nv
                      | none => PRes.panicked "called Option unwrap on None")
                    = PRes.ok (Value.NullableUInt32 (some v))
                  rw [if_neg (by
                    intro hc
                    rw [hne] at hc
                    exact Bool.false_ne_true hc)]
                  rw [hinner]
                  rfl
          case true => simp at h1
        · simp at h
      case NullableUInt64 o =>
        simp only [tsvOkF] at h
        split at h
        · rw [Bool.and_eq_true] at h
          obtain ⟨h1, h2⟩ := h
          cases iwa
          case false =>
            cases g with
            | zero => simp [tyFits] at hft
            | succ g =>
              cases o with
              | none => rfl
              | some v =>
                cases f with
                | zero => simp [tsvOkF] at h2
                | succ f2 =>
                  have hinner := ihf (Value.UInt64 v) .UInt64 g false
                    h2 hft
                  have hne : ((formatValueTsv false ext (f2 + 1)
                      (Value.UInt64 v) false) == bs "\\N") = false := by
                    show ((natDec v : RStr) == bs "\\N") = false
                    rw [beq_eq_false_iff_ne]
                    exact natDec_bsN _
                  show (if (formatValueTsv false ext (f2 + 1)
                        (Value.UInt64 v) false) == bs "\\N" then
                      PRes.ok (Value.NullableUInt64 none)
                    else (parseValueTsv ext g .UInt64
                        (formatValueTsv false ext (f2 + 1)
                          (Value.UInt64 v) false) false).bind fun w =>
                      match intoNullable w with
                      | some nv => PRes.ok nv
                      | none => PRes.panicked "called Option unwrap on None")
                    = PRes.ok (Value.NullableUInt64 (some v))
                  rw [if_neg (by
                    intro hc
                    rw [hne] at hc
                    exact Bool.false_ne_true hc)]
                  rw [hinner]
                  rfl
          case true => simp at h1
        · simp at h
      case NullableUInt128 o =>
        simp only [tsvOkF] at h
        split at h
        · rw [Bool.and_eq_true] at h
          obtain ⟨h1, h2⟩ := h
          cases iwa
          case false =>
            cases g with
            | zero => simp [tyFits] at hft
            | succ g =>
              cases o with
              | none => rfl
              | some v =>
                cases f with
                | zero => simp [tsvOkF] at h2
                | succ f2 =>
                  have hinner := ihf (Value.UInt128 v) .UInt128 g false
                    h2 hft
                  have hne : ((formatValueTsv false ext (f2 + 1)
                      (Value.UInt128 v) false) == bs "\\N") = false := by
                    show ((natDec v : RStr) == bs "\\N") = false
                    rw [beq_eq_false_iff_ne]
                    exact natDec_bsN _
                  show (if (formatValueTsv false ext (f2 + 1)
                        (Value.UInt128 v) false) == bs "\\N" then
                      PRes.ok (Value.NullableUInt128 none)
                    else (parseValueTsv ext g .UInt128
                        (formatValueTsv false ext (f2 + 1)
                          (Value.UInt128 v) false) false).bind fun w =>
                      match intoNullable w with
                      | some nv => PRes.ok nv
                      | none => PRes.panicked "called Option unwrap on None")
                    = PRes.ok (Value.NullableUInt128 (some v))
                  rw [if_neg (by
                    intro hc
                    rw [hne] at hc
                    exact Bool.false_ne_true hc)]
                  rw [hinner]
                  rfl
          case true => simp at h1
        · simp at h
      case NullableUInt256 o =>
        simp only [tsvOkF] at h
        split at h
        · rw [Bool.and_eq_true] at h
          obtain ⟨h1, h2⟩ := h
          cases iwa
          case false =>
            cases g with
            | zero => simp [tyFits] at hft
            | succ g =>
              cases o with
              | none => rfl
              | some p =>
                cases f with
                | zero => simp [tsvOkF] at h2
                | succ f2 =>
                  have hinner := ihf (Value.UInt256 p) .UInt256 g false
                    h2 hft
                  have hne : ((formatValueTsv false ext (f2 + 1)
                      (Value.UInt256 p) false) == bs "\\N") = false := by
                    show ((natDec (p.1 * Nat.pow 2 128 + p.2) : RStr) == bs "\\N") = false
                    rw [beq_eq_false_iff_ne]
                    exact natDec_bsN _
                  show (if (formatValueTsv false ext (f2 + 1)
                        (Value.UInt256 p) false) == bs "\\N" then
                      PRes.ok (Value.NullableUInt256 none)
                    else (parseValueTsv ext g .UInt256
                        (formatValueTsv false ext (f2 + 1)
                          (Value.UInt256 p) false) false).bind fun w =>
                      match intoNullable w with
                      | some nv => PRes.ok nv
                      | none => PRes.panicked "called Option unwrap on None")
                    = PRes.ok (Value.NullableUInt256 (some p))
                  rw [if_neg (by
                    intro hc
                    rw [hne] at hc
                    exact Bool.false_ne_true hc)]
                  rw [hinner]
                  rfl
          case true => simp at h1
        · simp at h
      case NullableInt8 o =>
        simp only [tsvOkF] at h
        split at h
        · rw [Bool.and_eq_true] at h
          obtain ⟨h1, h2⟩ := h
          cases iwa
          case false =>
            cases g with
            | zero => simp [tyFits] at hft
            | succ g =>
              cases o with
              | none => rfl
              | some v =>
                cases f with
                | zero => simp [tsvOkF] at h2
                | succ f2 =>
                  have hinner := ihf (Value.Int8 v) .Int8 g false
                    h2 hft
                  have hne : ((formatValueTsv false ext (f2 + 1)
                      (Value.Int8 v) false) == bs "\\N") = false := by
                    show ((intDec v : RStr) == bs "\\N") = false
                    rw [beq_eq_false_iff_ne]
                    exact intDec_bsN _
                  show (if (formatValueTsv false ext (f2 + 1)
                        (Value.Int8 v) false) == bs "\\N" then
                      PRes.ok (Value.NullableInt8 none)
                    else (parseValueTsv ext g .Int8
                        (formatValueTsv false ext (f2 + 1)
                          (Value.Int8 v) false) false).bind fun w =>
                      match intoNullable w with
                      | some nv => PRes.ok nv
                      | none => PRes.panicked "called Option unwrap on None")
                    = PRes.ok (Value.NullableInt8 (some v))
                  rw [if_neg (by
                    intro hc
                    rw [hne] at hc
                    exact Bool.false_ne_true hc)]
                  rw [hinner]
                  rfl
          case true => simp at h1
        · simp at h
      case NullableInt16 o =>
        simp only [tsvOkF] at h
        split at h
        · rw [Bool.and_eq_true] at h
          obtain ⟨h1, h2⟩ := h
          cases iwa
          case false =>
            cases g with
            | zero => simp [tyFits] at hft
            | succ g =>
              cases o with
              | none => rfl
              | some v =>
                cases f with
                | zero => simp [tsvOkF] at h2
                | succ f2 =>
                  have hinner := ihf (Value.Int16 v) .Int16 g false
                    h2 hft
                  have hne : ((formatValueTsv false ext (f2 + 1)
                      (Value.Int16 v) false) == bs "\\N") = false := by
                    show ((intDec v : RStr) == bs "\\N") = false
                    rw [beq_eq_false_iff_ne]
                    exact intDec_bsN _
                  show (if (formatValueTsv false ext (f2 + 1)
                        (Value.Int16 v) false) == bs "\\N" then
                      PRes.ok (Value.NullableInt16 none)
                    else (parseValueTsv ext g .Int16
                        (formatValueTsv false ext (f2 + 1)
                          (Value.Int16 v) false) false).bind fun w =>
                      match intoNullable w with
                      | some nv => PRes.ok nv
                      | none => PRes.panicked "called Option unwrap on None")
                    = PRes.ok (Value.NullableInt16 (some v))
                  rw [if_neg (by
                    intro hc
                    rw [hne] at hc
                    exact Bool.false_ne_true hc)]
                  rw [hinner]
                  rfl
          case true => simp at h1
        · simp at h
      case NullableInt32 o =>
        simp only [tsvOkF] at h
        split at h
        · rw [Bool.and_eq_true] at h
          obtain ⟨h1, h2⟩ := h
          cases iwa
          case false =>
            cases g with
            | zero => simp [tyFits] at hft
            | succ g =>
              cases o with
              | none => rfl
              | some v =>
                cases f with
                | zero => simp [tsvOkF] at h2
                | succ f2 =>
                  have hinner := ihf (Value.Int32 v) .Int32 g false
                    h2 hft
                  have hne : ((formatValueTsv false ext (f2 + 1)
                      (Value.Int32 v) false) == bs "\\N") = false := by
                    show ((intDec v : RStr) == bs "\\N") = false
                    rw [beq_eq_false_iff_ne]
                    exact intDec_bsN _
                  show (if (formatValueTsv false ext (f2 + 1)
                        (Value.Int32 v) false) == bs "\\N" then
                      PRes.ok (Value.NullableInt32 none)
                    else (parseValueTsv ext g .Int32
                        (formatValueTsv false ext (f2 + 1)
                          (Value.Int32 v) false) false).bind fun w =>
                      match intoNullable w with
                      | some nv => PRes.ok nv
                      | none => PRes.panicked "called Option unwrap on None")
                    = PRes.ok (Value.NullableInt32 (some v))
                  rw [if_neg (by
                    intro hc
                    rw [hne] at hc
                    exact Bool.false_ne_true hc)]
                  rw [hinner]
                  rfl
          case true => simp at h1
        · simp at h
      case NullableInt64 o =>
        simp only [tsvOkF] at h
        split at h
        · rw [Bool.and_eq_true] at h
          obtain ⟨h1, h2⟩ := h
          cases iwa
          case false =>
            cases g with
            | zero => simp [tyFits] at hft
            | succ g =>
              cases o with
              | none => rfl
              | some v =>
                cases f with
                | zero => simp [tsvOkF] at h2
                | succ f2 =>
                  have hinner := ihf (Value.Int64 v) .Int64 g false
                    h2 hft
                  have hne : ((formatValueTsv false ext (f2 + 1)
                      (Value.Int64 v) false) == bs "\\N") = false := by
                    show ((intDec v : RStr) == bs "\\N") = false
                    rw [beq_eq_false_iff_ne]
                    exact intDec_bsN _
                  show (if (formatValueTsv false ext (f2 + 1)
                        (Value.Int64 v) false) == bs "\\N" then
                      PRes.ok (Value.NullableInt64 none)
                    else (parseValueTsv ext g .Int64
                        (formatValueTsv false ext (f2 + 1)
                          (Value.Int64 v) false) false).bind fun w =>
                      match intoNullable w with
                      | some nv => PRes.ok nv
                      | none => PRes.panicked "called Option unwrap on None")
                    = PRes.ok (Value.NullableInt64 (some v))
                  rw [if_neg (by
                    intro hc
                    rw [hne] at hc
                    exact Bool.false_ne_true hc)]
                  rw [hinner]
                  rfl
          case true => simp at h1
        · simp at h
      case NullableInt128 o =>
        simp only [tsvOkF] at h
        split at h
        · rw [Bool.and_eq_true] at h
          obtain ⟨h1, h2⟩ := h
          cases iwa
          case false =>
            cases g with
            | zero => simp [tyFits] at hft
            | succ g =>
              cases o with
              | none => rfl
              | some v =>
                cases f with
                | zero => simp [tsvOkF] at h2
                | succ f2 =>
                  have hinner := ihf (Value.Int128 v) .Int128 g false
                    h2 hft
                  have hne : ((formatValueTsv false ext (f2 + 1)
                      (Value.Int128 v) false) == bs "\\N") = false := by
                    show ((intDec v : RStr) == bs "\\N") = false
                    rw [beq_eq_false_iff_ne]
                    exact intDec_bsN _
                  show (if (formatValueTsv false ext (f2 + 1)
                        (Value.Int128 v) false) == bs "\\N" then
                      PRes.ok (Value.NullableInt128 none)
                    else (parseValueTsv ext g .Int128
                        (formatValueTsv false ext (f2 + 1)
                          (Value.Int128 v) false) false).bind fun w =>
                      match intoNullable w with
                      | some nv => PRes.ok nv
                      | none => PRes.panicked "called Option unwrap on None")
                    = PRes.ok (Value.NullableInt128 (some v))
                  rw [if_neg (by
                    intro hc
                    rw [hne] at hc
                    exact Bool.false_ne_true hc)]
                  rw [hinner]
                  rfl
          case true => simp at h1
        · simp at h
      case NullableInt256 o =>
        simp only [tsvOkF] at h
        split at h
        · rw [Bool.and_eq_true] at h
          obtain ⟨h1, h2⟩ := h
          cases iwa
          case false =>
            cases g with
            | zero => simp [tyFits] at hft
            | succ g =>
              cases o with
              | none => rfl
              | some p =>
                cases f with
                | zero => simp [tsvOkF] at h2
                | succ f2 =>
                  have hinner := ihf (Value.Int256 p) .Int256 g false
                    h2 hft
                  have hne : ((formatValueTsv false ext (f2 + 1)
                      (Value.Int256 p) false) == bs "\\N") = false := by
                    show ((intDec (p.1 * ((Nat.pow 2 128 : Nat) : Int) + p.2.emod ((Nat.pow 2 128 : Nat) : Int)) : RStr) == bs "\\N") = false
                    rw [beq_eq_false_iff_ne]
                    exact intDec_bsN _
                  show (if (formatValueTsv false ext (f2 + 1)
                        (Value.Int256 p) false) == bs "\\N" then
                      PRes.ok (Value.NullableInt256 none)
                    else (parseValueTsv ext g .Int256
                        (formatValueTsv false ext (f2 + 1)
                          (Value.Int256 p) false) false).bind fun w =>
                      match intoNullable w with
                      | some nv => PRes.ok nv
                      | none => PRes.panicked "called Option unwrap on None")
                    = PRes.ok (Value.NullableInt256 (some p))
                  rw [if_neg (by
                    intro hc
                    rw [hne] at hc
                    exact Bool.false_ne_true hc)]
                  rw [hinner]
                  rfl
          case true => simp at h1
        · simp at h
      case NullableFloat32 o =>
        simp only [tsvOkF] at h
        split at h
        · rw [Bool.and_eq_true] at h
          obtain ⟨h1, h2⟩ := h
          cases iwa
          case false =>
            cases g with
            | zero => simp [tyFits] at hft
            | succ g =>
              cases o with
              | none => rfl
              | some b =>
                cases f with
                | zero => simp [tsvOkF] at h2
                | succ f2 =>
                  have hinner := ihf (Value.Float32 b) .Float32 g false
                    h2 hft
                  have hne : ((formatValueTsv false ext (f2 + 1)
                      (Value.Float32 b) false) == bs "\\N") = false := by
                    show ((ext.f32Str b : RStr) == bs "\\N") = false
                    rw [beq_eq_false_iff_ne]
                    exact (gf32 _).2.2.2.2.2.2
                  show (if (formatValueTsv false ext (f2 + 1)
                        (Value.Float32 b) false) == bs "\\N" then
                      PRes.ok (Value.NullableFloat32 none)
                    else (parseValueTsv ext g .Float32
                        (formatValueTsv false ext (f2 + 1)
                          (Value.Float32 b) false) false).bind fun w =>
                      match intoNullable w with
                      | some nv => PRes.ok nv
                      | none => PRes.panicked "called Option unwrap on None")
                    = PRes.ok (Value.NullableFloat32 (some b))
                  rw [if_neg (by
                    intro hc
                    rw [hne] at hc
                    exact Bool.false_ne_true hc)]
                  rw [hinner]
                  rfl
          case true => simp at h1
        · simp at h
      case NullableFloat64 o =>
        simp only [tsvOkF] at h
        split at h
        · rw [Bool.and_eq_true] at h
          obtain ⟨h1, h2⟩ := h
          cases iwa
          case false =>
            cases g with
            | zero => simp [tyFits] at hft
            | succ g =>
              cases o with
              | none => rfl
              | some b =>
                cases f with
                | zero => simp [tsvOkF] at h2
                | succ f2 =>
                  have hinner := ihf (Value.Float64 b) .Float64 g false
                    h2 hft
                  have hne : ((formatValueTsv false ext (f2 + 1)
                      (Value.Float64 b) false) == bs "\\N") = false := by
                    show ((ext.f64Str b : RStr) == bs "\\N") = false
                    rw [beq_eq_false_iff_ne]
                    exact (gf64 _).2.2.2.2.2.2
                  show (if (formatValueTsv false ext (f2 + 1)
                        (Value.Float64 b) false) == bs "\\N" then
                      PRes.ok (Value.NullableFloat64 none)
                    else (parseValueTsv ext g .Float64
                        (formatValueTsv false ext (f2 + 1)
                          (Value.Float64 b) false) false).bind fun w =>
                      match intoNullable w with
                      | some nv => PRes.ok nv
                      | none => PRes.panicked "called Option unwrap on None")
                    = PRes.ok (Value.NullableFloat64 (some b))
                  rw [if_neg (by
                    intro hc
                    rw [hne] at hc
                    exact Bool.false_ne_true hc)]
                  rw [hinner]
                  rfl
          case true => simp at h1
        · simp at h
      case NullableBool o =>
        simp only [tsvOkF] at h
        split at h
        · rw [Bool.and_eq_true] at h
          obtain ⟨h1, h2⟩ := h
          cases iwa
          case false =>
            cases g with
            | zero => simp [tyFits] at hft
            | succ g =>
              cases o with
              | none => rfl
              | some b =>
                cases f with
                | zero => simp [tsvOkF] at h2
                | succ f2 =>
                  have hinner := ihf (Value.Bool b) .Bool g false
                    h2 hft
                  have hne : ((formatValueTsv false ext (f2 + 1)
                      (Value.Bool b) false) == bs "\\N") = false := by
                    show (((if b then bs "true" else bs "false") : RStr) == bs "\\N") = false
                    cases b <;> decide
                  show (if (formatValueTsv false ext (f2 + 1)
                        (Value.Bool b) false) == bs "\\N" then
                      PRes.ok (Value.NullableBool none)
                    else (parseValueTsv ext g .Bool
                        (formatValueTsv false ext (f2 + 1)
                          (Value.Bool b) false) false).bind fun w =>
                      match intoNullable w with
                      | some nv => PRes.ok nv
                      | none => PRes.panicked "called Option unwrap on None")
                    = PRes.ok (Value.NullableBool (some b))
                  rw [if_neg (by
                    intro hc
                    rw [hne] at hc
                    exact Bool.false_ne_true hc)]
                  rw [hinner]
                  rfl
          case true => simp at h1
        · simp at h
      case NullableUUID o =>
        simp only [tsvOkF] at h
        split at h
        · rw [Bool.and_eq_true] at h
          obtain ⟨h1, h2⟩ := h
          cases iwa
          case false =>
            cases g with
            | zero => simp [tyFits] at hft
            | succ g =>
              cases o with
              | none => rfl
              | some u =>
                cases f with
                | zero => simp [tsvOkF] at h2
                | succ f2 =>
                  have hinner := ihf (Value.UUID u) .UUID g false
                    h2 hft
                  have hne : ((formatValueTsv false ext (f2 + 1)
                      (Value.UUID u) false) == bs "\\N") = false := by
                    show ((ext.uuidStr u : RStr) == bs "\\N") = false
                    rw [beq_eq_false_iff_ne]
                    exact (guu _).2.2.2.2.2.2
                  show (if (formatValueTsv false ext (f2 + 1)
                        (Value.UUID u) false) == bs "\\N" then
                      PRes.ok (Value.NullableUUID none)
                    else (parseValueTsv ext g .UUID
                        (formatValueTsv false ext (f2 + 1)
                          (Value.UUID u) false) false).bind fun w =>
                      match intoNullable w with
                      | some nv => PRes.ok nv
                      | none => PRes.panicked "called Option unwrap on None")
                    = PRes.ok (Value.NullableUUID (some u))
                  rw [if_neg (by
                    intro hc
                    rw [hne] at hc
                    exact Bool.false_ne_true hc)]
                  rw [hinner]
                  rfl
          case true => simp at h1
        · simp at h
      case NullableDate o =>
        simp only [tsvOkF] at h
        split at h
        · rw [Bool.and_eq_true] at h
          obtain ⟨h1, h2⟩ := h
          cases iwa
          case false =>
            cases g with
            | zero => simp [tyFits] at hft
            | succ g =>
              cases o with
              | none => rfl
              | some d => simp at h2
          case true => simp at h1
        · simp at h
      case NullableDateTime o =>
        simp only [tsvOkF] at h
        split at h
        · rw [Bool.and_eq_true] at h
          obtain ⟨h1, h2⟩ := h
          cases iwa
          case false =>
            cases g with
            | zero => simp [tyFits] at hft
            | succ g =>
              cases o with
              | none => rfl
              | some d => simp at h2
          case true => simp at h1
        · simp at h
      case NullableDateTime64 o =>
        simp only [tsvOkF] at h
        split at h
        · rename_i pp
          rw [Bool.and_eq_true] at h
          obtain ⟨h1, h2⟩ := h
          cases iwa
          case false =>
            cases g with
            | zero => simp [tyFits] at hft
            | succ g =>
              cases o with
              | none => rfl
              | some d =>
                cases f with
                | zero => simp [tsvOkF] at h2
                | succ f2 =>
                  have hinner := ihf (Value.DateTime64 d) (.DateTime64 pp) g
                    false h2 hft
                  have hne : ((formatValueTsv false ext (f2 + 1)
                      (Value.DateTime64 d) false) == bs "\\N") = false := by
                    show ((ext.dateTime64Str d : RStr) == bs "\\N") = false
                    rw [beq_eq_false_iff_ne]
                    exact (gdt64 _).2.2.2.2.2.2
                  show (if (formatValueTsv false ext (f2 + 1)
                        (Value.DateTime64 d) false) == bs "\\N" then
                      PRes.ok (Value.NullableDateTime64 none)
                    else (parseValueTsv ext g (.DateTime64 pp)
                        (formatValueTsv false ext (f2 + 1)
                          (Value.DateTime64 d) false) false).bind fun w =>
                      match intoNullable w with
                      | some nv => PRes.ok nv
                      | none => PRes.panicked "called Option unwrap on None")
                    = PRes.ok (Value.NullableDateTime64 (some d))
                  rw [if_neg (by
                    intro hc
                    rw [hne] at hc
                    exact Bool.false_ne_true hc)]
                  rw [hinner]
                  rfl
          case true => simp at h1
        · simp at h
      case NullableString o =>
        simp only [tsvOkF] at h
        split at h
        · rw [Bool.and_eq_true] at h
          obtain ⟨h1, h2⟩ := h
          cases iwa
          case false =>
            cases g with
            | zero => simp [tyFits] at hft
            | succ g =>
              cases o with
              | none => rfl
              | some s =>
                cases f with
                | zero => simp [tsvOkF] at h2
                | succ f2 =>
                  have hinner := ihf (Value.String s) .String g false h2 hft
                  have hne : ((formatValueTsv false ext (f2 + 1)
                      (Value.String s) false) == bs "\\N") = false := by
                    show ((escape s : RStr) == bs "\\N") = false
                    rw [beq_eq_false_iff_ne]
                    exact escape_bsN _
                  show (if (formatValueTsv false ext (f2 + 1)
                        (Value.String s) false) == bs "\\N" then
                      PRes.ok (Value.NullableString none)
                    else (parseValueTsv ext g .String
                        (formatValueTsv false ext (f2 + 1)
                          (Value.String s) false) false).bind fun w =>
                      match intoNullable w with
                      | some nv => PRes.ok nv
                      | none => PRes.panicked "called Option unwrap on None")
                    = PRes.ok (Value.NullableString (some s))
                  rw [if_neg (by
                    intro hc
                    rw [hne] at hc
                    exact Bool.false_ne_true hc)]
                  rw [hinner]
                  rfl
          case true => simp at h1
        · rename_i nn
          rw [Bool.and_eq_true] at h
          obtain ⟨h1, h2⟩ := h
          cases iwa
          case false =>
            cases g with
            | zero => simp [tyFits] at hft
            | succ g =>
              cases o with
              | none => rfl
              | some s =>
                cases f with
                | zero => simp [tsvOkF] at h2
                | succ f2 =>
                  have hinner := ihf (Value.String s) (.FixedString nn) g
                    false h2 hft
                  have hne : ((formatValueTsv false ext (f2 + 1)
                      (Value.String s) false) == bs "\\N") = false := by
                    show ((escape s : RStr) == bs "\\N") = false
                    rw [beq_eq_false_iff_ne]
                    exact escape_bsN _
                  show (if (formatValueTsv false ext (f2 + 1)
                        (Value.String s) false) == bs "\\N" then
                      PRes.ok (Value.NullableString none)
                    else (parseValueTsv ext g (.FixedString nn)
                        (formatValueTsv false ext (f2 + 1)
                          (Value.String s) false) false).bind fun w =>
                      match intoNullable w with
                      | some nv => PRes.ok nv
                      | none => PRes.panicked "called Option unwrap on None")
                    = PRes.ok (Value.NullableString (some s))
                  rw [if_neg (by
                    intro hc
                    rw [hne] at hc
                    exact Bool.false_ne_true hc)]
                  rw [hinner]
                  rfl
          case true => simp at h1
        · simp at h
      case NullableDate32 o =>
        simp only [tsvOkF] at h
        split at h
        · rw [Bool.and_eq_true] at h
          obtain ⟨h1, h2⟩ := h
          cases iwa
          case false =>
            cases g with
            | zero => simp [tyFits] at hft
            | succ g =>
              cases o with
              | none => rfl
              | some d =>
                cases f with
                | zero => simp [tsvOkF] at h2
                | succ f2 =>
                  have hinner := ihf (Value.Date32 d) .Date32 g false
                    h2 hft
                  have hne : ((formatValueTsv false ext (f2 + 1)
                      (Value.Date32 d) false) == bs "\\N") = false := by
                    show ((ext.date32Str d : RStr) == bs "\\N") = false
                    rw [beq_eq_false_iff_ne]
                    exact (gd32 _).2.2.2.2.2.2
                  show (if (formatValueTsv false ext (f2 + 1)
                        (Value.Date32 d) false) == bs "\\N" then
                      PRes.ok (Value.NullableDate32 none)
                    else (parseValueTsv ext g .Date32
                        (formatValueTsv false ext (f2 + 1)
                          (Value.Date32 d) false) false).bind fun w =>
                      match intoNullable w with
                      | some nv => PRes.ok nv
                      | none => PRes.panicked "called Option unwrap on None")
                    = PRes.ok (Value.NullableDate32 (some d))
                  rw [if_neg (by
                    intro hc
                    rw [hne] at hc
                    exact Bool.false_ne_true hc)]
                  rw [hinner]
                  rfl
          case true => simp at h1
        · simp at h
      case NullableEnum8 o => simp [tsvOkF] at h
      case NullableEnum16 o => simp [tsvOkF] at h
      case Array vs =>
        simp only [tsvOkF] at h
        split at h
        · rename_i t
          simp only [Bool.and_eq_true] at h
          obtain ⟨⟨hiw, hne⟩, hall⟩ := h
          cases iwa
          case true => simp at hiw
          case false =>
            cases g with
            | zero => simp [tyFits] at hft
            | succ g =>
              cases vs with
              | nil => simp at hne
              | cons v0 vs2 =>
                rw [List.all_eq_true] at hall
                have hcell : ∀ v2 ∈ v0 :: vs2,
                    cellOK (formatValueTsv false ext f v2 true) := by
                  intro v2 hv2
                  exact tsvCellOK ext hext f v2 t (hall v2 hv2)
                obtain ⟨htr, hsplit⟩ := splitSep_trimB_join
                  (formatValueTsv false ext f v0 true)
                  (vs2.map (fun v2 => formatValueTsv false ext f v2 true))
                  (by
                    intro r hr
                    rcases List.mem_cons.mp hr with hr | hr
                    · subst hr
                      have := hcell v0 (by simp)
                      exact ⟨this.1, this.2.1, this.2.2.1⟩
                    · rw [List.mem_map] at hr
                      obtain ⟨v2, hv2, hr2⟩ := hr
                      subst hr2
                      have := hcell v2 (by simp [hv2])
                      exact ⟨this.1, this.2.1, this.2.2.1⟩)
                have hfa : List.Forall₂ (fun p v2 =>
                    parseValueTsv ext g t (trimB p) true = .ok v2)
                    (formatValueTsv false ext f v0 true ::
                      (vs2.map (fun v2 =>
                        formatValueTsv false ext f v2 true)).map
                        (fun q => 32 :: q))
                    (v0 :: vs2) := by
                  refine List.Forall₂.cons ?_ ?_
                  · rw [(hcell v0 (by simp)).2.1]
                    exact ihf v0 t g true (hall v0 (by simp)) hft
                  · apply forall₂_spaced
                    intro v2 hv2
                    rw [trimB_cons_space, (hcell v2 (by simp [hv2])).2.1]
                    exact ihf v2 t g true (hall v2 (by simp [hv2])) hft
                show (match stripPrefixB [91] (trimB (91 :: joinComma
                      ((v0 :: vs2).map (fun v2 =>
                        formatValueTsv false ext f v2 true)) ++ [93])) with
                  | none => PRes.err "Invalid array"
                  | some s1 =>
                    match stripSuffixB [93] s1 with
                    | none => PRes.err "Invalid array"
                    | some s2 =>
                      (tsvPartsLoop (fun p => parseValueTsv ext g t p true)
                        (splitSep 44 (trimB s2))).map
                        fun vsr => Value.Array vsr)
                  = PRes.ok (Value.Array (v0 :: vs2))
                rw [trimB_bracketed 91 93 (by decide) (by decide)]
                rw [List.cons_append, stripPrefixB_single_cons]
                show (match stripSuffixB [93] (joinComma
                      ((v0 :: vs2).map (fun v2 =>
                        formatValueTsv false ext f v2 true)) ++ [93]) with
                  | none => PRes.err "Invalid array"
                  | some s2 =>
                    (tsvPartsLoop (fun p => parseValueTsv ext g t p true)
                      (splitSep 44 (trimB s2))).map
                      fun vsr => Value.Array vsr)
                  = PRes.ok (Value.Array (v0 :: vs2))
                rw [stripSuffixB_append_single]
                show (tsvPartsLoop (fun p => parseValueTsv ext g t p true)
                    (splitSep 44 (trimB (joinComma
                      ((v0 :: vs2).map (fun v2 =>
                        formatValueTsv false ext f v2 true)))))).map
                    (fun vsr => Value.Array vsr)
                  = PRes.ok (Value.Array (v0 :: vs2))
                rw [show (v0 :: vs2).map (fun v2 =>
                    formatValueTsv false ext f v2 true)
                    = formatValueTsv false ext f v0 true ::
                      vs2.map (fun v2 => formatValueTsv false ext f v2 true)
                    from rfl]
                rw [htr, hsplit]
                rw [tsvPartsLoop_ok _ _ _ hfa]
                rfl
        · simp at h
      case Tuple vs =>
        simp only [tsvOkF] at h
        split at h
        · rename_i ts
          simp only [Bool.and_eq_true] at h
          obtain ⟨⟨⟨hiw, hne⟩, hlen⟩, hall⟩ := h
          rw [beq_iff_eq] at hlen
          cases iwa
          case true => simp at hiw
          case false =>
            cases g with
            | zero => simp [tyFits] at hft
            | succ g =>
              cases vs with
              | nil => simp at hne
              | cons v0 vs2 =>
                cases ts with
                | nil => simp at hlen
                | cons t0 ts2 =>
                  rw [List.all_eq_true] at hall
                  have hfts : ∀ t2 ∈ t0 :: ts2, tyFits g t2 = true := by
                    have h2 : (t0 :: ts2).all (tyFits g) = true := hft
                    rw [List.all_eq_true] at h2
                    exact h2
                  have hcell : ∀ p ∈ (v0 :: vs2).zip (t0 :: ts2),
                      cellOK (formatValueTsv false ext f p.1 true) := by
                    intro p hp
                    exact tsvCellOK ext hext f p.1 p.2 (hall p hp)
                  obtain ⟨htr, hsplit⟩ := splitSep_trimB_join
                    (formatValueTsv false ext f v0 true)
                    (vs2.map (fun v2 => formatValueTsv false ext f v2 true))
                    (by
                      intro r hr
                      rcases List.mem_cons.mp hr with hr | hr
                      · subst hr
                        have := hcell (v0, t0) (by simp [List.zip_cons_cons])
                        exact ⟨this.1, this.2.1, this.2.2.1⟩
                      · rw [List.mem_map] at hr
                        obtain ⟨v2, hv2, hr2⟩ := hr
                        subst hr2
                        obtain ⟨t2, ht2⟩ := mem_zip_left vs2 ts2
                          (by simpa using hlen) v2 hv2
                        have := hcell (v2, t2)
                          (by simp [List.zip_cons_cons, ht2])
                        exact ⟨this.1, this.2.1, this.2.2.1⟩)
                  have hfa : List.Forall₂ (fun (pt : RStr × Ty) v2 =>
                      parseValueTsv ext g pt.2 (trimB pt.1) true = .ok v2)
                      ((formatValueTsv false ext f v0 true ::
                        (vs2.map (fun v2 =>
                          formatValueTsv false ext f v2 true)).map
                          (fun q => 32 :: q)).zip (t0 :: ts2))
                      (v0 :: vs2) := by
                    rw [List.zip_cons_cons]
                    refine List.Forall₂.cons ?_ ?_
                    · show parseValueTsv ext g t0
                        (trimB (formatValueTsv false ext f v0 true)) true
                        = .ok v0
                      rw [(hcell (v0, t0)
                        (by simp [List.zip_cons_cons])).2.1]
                      exact ihf v0 t0 g true
                        (hall (v0, t0) (by simp [List.zip_cons_cons]))
                        (hfts t0 (by simp))
                    · apply forall₂_zip_spaced
                      · simpa using hlen
                      · intro p hp
                        show parseValueTsv ext g p.2
                          (trimB (32 :: formatValueTsv false ext f p.1 true))
                          true = .ok p.1
                        rw [trimB_cons_space,
                          (hcell p (by simp [List.zip_cons_cons, hp])).2.1]
                        exact ihf p.1 p.2 g true
                          (hall p (by simp [List.zip_cons_cons, hp]))
                          (hfts p.2 (by
                            simp
                            right
                            exact (List.of_mem_zip hp).2))
                  show (match stripPrefixB [40] (trimB (40 :: joinComma
                        ((v0 :: vs2).map (fun v2 =>
                          formatValueTsv false ext f v2 true)) ++ [41])) with
                    | none => PRes.err "Invalid tuple"
                    | some s1 =>
                      match stripSuffixB [41] s1 with
                      | none => PRes.err "Invalid tuple"
                      | some s2 =>
                        if (splitSep 44 (trimB s2)).length
                            ≠ (t0 :: ts2).length then
                          PRes.err "Invalid tuple"
                        else
                          (tsvTupleLoop (fun t2 p =>
                              parseValueTsv ext g t2 p true)
                            (splitSep 44 (trimB s2)) (t0 :: ts2)).map
                            fun vsr => Value.Tuple vsr)
                    = PRes.ok (Value.Tuple (v0 :: vs2))
                  rw [trimB_bracketed 40 41 (by decide) (by decide)]
                  rw [List.cons_append, stripPrefixB_single_cons]
                  show (match stripSuffixB [41] (joinComma
                        ((v0 :: vs2).map (fun v2 =>
                          formatValueTsv false ext f v2 true)) ++ [41]) with
                    | none => PRes.err "Invalid tuple"
                    | some s2 =>
                      if (splitSep 44 (trimB s2)).length
                          ≠ (t0 :: ts2).length then
                        PRes.err "Invalid tuple"
                      else
                        (tsvTupleLoop (fun t2 p =>
                            parseValueTsv ext g t2 p true)
                          (splitSep 44 (trimB s2)) (t0 :: ts2)).map
                          fun vsr => Value.Tuple vsr)
                    = PRes.ok (Value.Tuple (v0 :: vs2))
                  rw [stripSuffixB_append_single]
                  show (if (splitSep 44 (trimB (joinComma
                        ((v0 :: vs2).map (fun v2 =>
                          formatValueTsv false ext f v2 true))))).length
                      ≠ (t0 :: ts2).length then
                      PRes.err "Invalid tuple"
                    else
                      (tsvTupleLoop (fun t2 p => parseValueTsv ext g t2 p true)
                        (splitSep 44 (trimB (joinComma
                          ((v0 :: vs2).map (fun v2 =>
                            formatValueTsv false ext f v2 true)))))
                        (t0 :: ts2)).map fun vsr => Value.Tuple vsr)
                    = PRes.ok (Value.Tuple (v0 :: vs2))
                  rw [show (v0 :: vs2).map (fun v2 =>
                      formatValueTsv false ext f v2 true)
                      = formatValueTsv false ext f v0 true ::
                        vs2.map (fun v2 => formatValueTsv false ext f v2 true)
                      from rfl]
                  rw [htr, hsplit]
                  rw [if_neg (by
                    intro hc
                    apply hc
                    simp at hlen ⊢
                    omega)]
                  rw [tsvTupleLoop_ok _ _ _ _ hfa (by
                    simp at hlen ⊢
                    omega)]
                  rfl
        · simp at h
      case Map m =>
        simp only [tsvOkF] at h
        split at h
        · rename_i kt tv
          simp only [Bool.and_eq_true] at h
          obtain ⟨⟨⟨⟨hiw, hne⟩, hdist⟩, hallm⟩, hsort⟩ := h
          cases iwa
          case true => simp at hiw
          case false =>
            cases g with
            | zero => simp [tyFits] at hft
            | succ g =>
              have hftv : tyFits g tv = true := by
                have h2 : (tyFits g kt && tyFits g tv) = true := hft
                rw [Bool.and_eq_true] at h2
                exact h2.2
              rw [List.all_eq_true] at hallm
              have hEntry : ∀ kv ∈ m, ∃ p0 p1,
                  splitSep 58 (trimB (39 :: kv.1 ++ bs "\': "
                    ++ formatValueTsv false ext f kv.2 true)) = [p0, p1] ∧
                  unenclose (trimB p0) = kv.1 ∧
                  parseValueTsv ext g tv (trimB p1) true = .ok kv.2 := by
                intro kv hkv
                have hkv2 := hallm kv hkv
                rw [Bool.and_eq_true] at hkv2
                obtain ⟨hkey, hdom⟩ := hkv2
                simp only [mapKeyOK, Bool.and_eq_true, bne_iff_ne] at hkey
                obtain ⟨⟨⟨h44, h58⟩, hh39⟩, hl39⟩ := hkey
                obtain ⟨hvne, hvt, hv44, hv58⟩ :=
                  tsvCellOK ext hext f kv.2 tv hdom
                refine ⟨(39 :: kv.1) ++ [39],
                  32 :: formatValueTsv false ext f kv.2 true, ?_, ?_, ?_⟩
                · rw [mapEntry_trim kv.1 _ hvne hvt]
                  exact mapEntry_split kv.1 _ h58 hv58
                · rw [trimB_quoted]
                  exact unenclose_quoted kv.1 hh39 hl39
                · rw [trimB_cons_space, hvt]
                  exact ihf kv.2 tv g true hdom hftv
              cases m with
              | nil => simp at hne
              | cons kv0 m2 =>
                obtain ⟨htr, hsplit⟩ := splitSep_trimB_join
                  (39 :: kv0.1 ++ bs "\': "
                    ++ formatValueTsv false ext f kv0.2 true)
                  (m2.map (fun kv => 39 :: kv.1 ++ bs "\': "
                    ++ formatValueTsv false ext f kv.2 true))
                  (by
                    intro r hr
                    have hr2 : r ∈ (kv0 :: m2).map (fun kv =>
                        39 :: kv.1 ++ bs "\': "
                        ++ formatValueTsv false ext f kv.2 true) := by
                      simpa using hr
                    rw [List.mem_map] at hr2
                    obtain ⟨kv, hkv, hr3⟩ := hr2
                    subst hr3
                    have hkv2 := hallm kv hkv
                    rw [Bool.and_eq_true] at hkv2
                    obtain ⟨hkey, hdom⟩ := hkv2
                    simp only [mapKeyOK, Bool.and_eq_true,
                      bne_iff_ne] at hkey
                    obtain ⟨⟨⟨h44, h58⟩, hh39⟩, hl39⟩ := hkey
                    obtain ⟨hvne, hvt, hv44, hv58⟩ :=
                      tsvCellOK ext hext f kv.2 tv hdom
                    exact ⟨by simp, mapEntry_trim kv.1 _ hvne hvt,
                      mapEntry_no44 kv.1 _ h44 hv44⟩)
                have hfa : List.Forall₂ (fun p (kv : RStr × Value) =>
                    ∃ p0 p1, splitSep 58 (trimB p) = [p0, p1] ∧
                      unenclose (trimB p0) = kv.1 ∧
                      parseValueTsv ext g tv (trimB p1) true = .ok kv.2)
                    ((39 :: kv0.1 ++ bs "\': "
                      ++ formatValueTsv false ext f kv0.2 true) ::
                      (m2.map (fun kv => 39 :: kv.1 ++ bs "\': "
                        ++ formatValueTsv false ext f kv.2 true)).map
                        (fun q => 32 :: q))
                    (kv0 :: m2) := by
                  refine List.Forall₂.cons (hEntry kv0 (by simp)) ?_
                  apply forall₂_spaced
                  intro kv hkv
                  obtain ⟨p0, p1, hs, hu, hp⟩ :=
                    hEntry kv (by simp [hkv])
                  exact ⟨p0, p1, by rw [trimB_cons_space]; exact hs, hu, hp⟩
                have hsort2 : sortLex ((kv0 :: m2).map (fun kv =>
                    39 :: kv.1 ++ bs "\': "
                    ++ formatValueTsv false ext f kv.2 true))
                    = (kv0 :: m2).map (fun kv => 39 :: kv.1 ++ bs "\': "
                      ++ formatValueTsv false ext f kv.2 true) :=
                  sortLex_sorted _ hsort
                show (match stripPrefixB [123] (trimB (123 :: joinComma
                      (sortLex ((kv0 :: m2).map (fun kv =>
                        39 :: kv.1 ++ bs "\': "
                        ++ formatValueTsv false ext f kv.2 true)))
                      ++ [125])) with
                  | none => PRes.err "Invalid map"
                  | some s1 =>
                    match stripSuffixB [125] s1 with
                    | none => PRes.err "Invalid map"
                    | some s2 =>
                      (tsvMapLoop (fun p => parseValueTsv ext g tv p true)
                        (splitSep 44 (trimB s2)) []).map
                        fun mr => Value.Map mr)
                  = PRes.ok (Value.Map (kv0 :: m2))
                rw [hsort2]
                rw [trimB_bracketed 123 125 (by decide) (by decide)]
                rw [List.cons_append, stripPrefixB_single_cons]
                show (match stripSuffixB [125] (joinComma
                      ((kv0 :: m2).map (fun kv => 39 :: kv.1 ++ bs "\': "
                        ++ formatValueTsv false ext f kv.2 true))
                      ++ [125]) with
                  | none => PRes.err "Invalid map"
                  | some s2 =>
                    (tsvMapLoop (fun p => parseValueTsv ext g tv p true)
                      (splitSep 44 (trimB s2)) []).map
                      fun mr => Value.Map mr)
                  = PRes.ok (Value.Map (kv0 :: m2))
                rw [stripSuffixB_append_single]
                show (tsvMapLoop (fun p => parseValueTsv ext g tv p true)
                    (splitSep 44 (trimB (joinComma
                      ((kv0 :: m2).map (fun kv => 39 :: kv.1 ++ bs "\': "
                        ++ formatValueTsv false ext f kv.2 true))))) []).map
                    (fun mr => Value.Map mr)
                  = PRes.ok (Value.Map (kv0 :: m2))
                rw [show (kv0 :: m2).map (fun kv => 39 :: kv.1 ++ bs "\': "
                    ++ formatValueTsv false ext f kv.2 true)
                    = (39 :: kv0.1 ++ bs "\': "
                      ++ formatValueTsv false ext f kv0.2 true) ::
                      m2.map (fun kv => 39 :: kv.1 ++ bs "\': "
                        ++ formatValueTsv false ext f kv.2 true) from rfl]
                rw [htr, hsplit]
                rw [tsvMapLoop_ok _ _ _ [] hfa (fun kv _ => rfl) hdist]
                rfl
        · simp at h
      case Nested m =>
        cases f with
        | zero =>
          rw [tsvOkF_nested] at h
          split at h
          · simp at h
          · simp at h
        | succ f2 =>
          rw [tsvOkF_nested] at h
          split at h
          · rename_i fields
            simp only [Bool.and_eq_true] at h
            obtain ⟨⟨⟨⟨hiw, hne⟩, hlen⟩, hdist⟩, hmf⟩ := h
            rw [beq_iff_eq] at hlen
            cases iwa
            case true => simp at hiw
            case false =>
              cases g with
              | zero => simp [tyFits] at hft
              | succ g =>
                have hmf2 : (List.zip m fields).all (fun p =>
                    p.1.1 == p.2.1 && tsvOkF ext f2 p.1.2 p.2.2 true)
                    = true := hmf
                rw [List.all_eq_true] at hmf2
                have hfts : ∀ pr ∈ fields, tyFits g pr.2 = true := by
                  have h2 : fields.all (fun pr => tyFits g pr.2) = true := hft
                  rw [List.all_eq_true] at h2
                  exact h2
                cases m with
                | nil => simp at hne
                | cons kv0 m2 =>
                  cases fields with
                  | nil => simp at hlen
                  | cons ft0 fs2 =>
                    have hcellAll : ∀ kv ∈ (kv0 :: m2),
                        cellOK (formatValueTsv false ext f2 kv.2 true) := by
                      intro kv hkv
                      obtain ⟨ftk, hz⟩ := mem_zip_left (kv0 :: m2)
                        (ft0 :: fs2) hlen kv hkv
                      have hp := hmf2 (kv, ftk) hz
                      rw [Bool.and_eq_true] at hp
                      exact tsvCellOK ext hext f2 kv.2 ftk.2 hp.2
                    obtain ⟨htr, hsplit⟩ := splitSep_trimB_join
                      (formatValueTsv false ext f2 kv0.2 true)
                      (m2.map (fun kv =>
                        formatValueTsv false ext f2 kv.2 true))
                      (by
                        intro r hr
                        have hr2 : r ∈ (kv0 :: m2).map (fun kv =>
                            formatValueTsv false ext f2 kv.2 true) := by
                          simpa using hr
                        rw [List.mem_map] at hr2
                        obtain ⟨kv, hkv, hr3⟩ := hr2
                        subst hr3
                        obtain ⟨hne2, htr2, h44, h58⟩ := hcellAll kv hkv
                        exact ⟨hne2, htr2, h44⟩)
                    have hfa : List.Forall₂
                        (fun (pf : RStr × (RStr × Ty)) (kv : RStr × Value) =>
                          pf.2.1 = kv.1 ∧
                          parseValueTsv ext g pf.2.2 (trimB pf.1) true
                            = .ok kv.2)
                        ((formatValueTsv false ext f2 kv0.2 true ::
                          (m2.map (fun kv =>
                            formatValueTsv false ext f2 kv.2 true)).map
                            (fun q => 32 :: q)).zip (ft0 :: fs2))
                        (kv0 :: m2) := by
                      rw [List.zip_cons_cons]
                      refine List.Forall₂.cons ?_ ?_
                      · have hp := hmf2 (kv0, ft0)
                          (by simp [List.zip_cons_cons])
                        rw [Bool.and_eq_true] at hp
                        refine ⟨?_, ?_⟩
                        · have hk := hp.1
                          rw [beq_iff_eq] at hk
                          exact hk.symm
                        · show parseValueTsv ext g ft0.2
                            (trimB (formatValueTsv false ext f2 kv0.2 true))
                            true = .ok kv0.2
                          rw [(hcellAll kv0 (by simp)).2.1]
                          exact ih f2 (by omega) kv0.2 ft0.2 g true hp.2
                            (hfts ft0 (by simp))
                      · apply forall₂_zip_spaced
                        · have h3 : (kv0 :: m2).length
                              = (ft0 :: fs2).length := hlen
                          simp at h3
                          exact h3
                        · intro p hp
                          have hq := hmf2 p
                            (by simp [List.zip_cons_cons, hp])
                          rw [Bool.and_eq_true] at hq
                          refine ⟨?_, ?_⟩
                          · have hk := hq.1
                            rw [beq_iff_eq] at hk
                            exact hk.symm
                          · show parseValueTsv ext g p.2.2
                              (trimB (32 ::
                                formatValueTsv false ext f2 p.1.2 true))
                              true = .ok p.1.2
                            rw [trimB_cons_space,
                              (hcellAll p.1 (List.mem_cons_of_mem kv0
                                (List.of_mem_zip hp).1)).2.1]
                            exact ih f2 (by omega) p.1.2 p.2.2 g true hq.2
                              (hfts p.2 (List.mem_cons_of_mem ft0
                                (List.of_mem_zip hp).2))
                    show (match stripPrefixB [91] (trimB (91 :: joinComma
                          (((kv0 :: m2).map (fun kv => kv.2)).map (fun v =>
                            formatValueTsv false ext f2 v true)) ++ [93]))
                        with
                      | none => PRes.err "Invalid array"
                      | some s1 =>
                        match stripSuffixB [93] s1 with
                        | none => PRes.err "Invalid array"
                        | some s2 =>
                          (tsvNestedLoop (fun t2 p =>
                              parseValueTsv ext g t2 p true)
                            (splitSep 44 (trimB s2)) (ft0 :: fs2) []).map
                            fun mr => Value.Nested mr)
                      = PRes.ok (Value.Nested (kv0 :: m2))
                    rw [show ((kv0 :: m2).map (fun kv => kv.2)).map (fun v =>
                        formatValueTsv false ext f2 v true)
                        = formatValueTsv false ext f2 kv0.2 true ::
                          m2.map (fun kv =>
                            formatValueTsv false ext f2 kv.2 true)
                        from by simp]
                    rw [trimB_bracketed 91 93 (by decide) (by decide)]
                    rw [List.cons_append, stripPrefixB_single_cons]
                    show (match stripSuffixB [93] (joinComma
                          (formatValueTsv false ext f2 kv0.2 true ::
                            m2.map (fun kv =>
                              formatValueTsv false ext f2 kv.2 true))
                          ++ [93]) with
                      | none => PRes.err "Invalid array"
                      | some s2 =>
                        (tsvNestedLoop (fun t2 p =>
                            parseValueTsv ext g t2 p true)
                          (splitSep 44 (trimB s2)) (ft0 :: fs2) []).map
                          fun mr => Value.Nested mr)
                      = PRes.ok (Value.Nested (kv0 :: m2))
                    rw [stripSuffixB_append_single]
                    show (tsvNestedLoop (fun t2 p =>
                        parseValueTsv ext g t2 p true)
                        (splitSep 44 (trimB (joinComma
                          (formatValueTsv false ext f2 kv0.2 true ::
                            m2.map (fun kv =>
                              formatValueTsv false ext f2 kv.2 true)))))
                        (ft0 :: fs2) []).map (fun mr => Value.Nested mr)
                      = PRes.ok (Value.Nested (kv0 :: m2))
                    rw [htr, hsplit]
                    rw [tsvNestedLoop_ok _ _ _ _ [] hfa (by
                      have h3 : (kv0 :: m2).length
                          = (ft0 :: fs2).length := hlen
                      simp at h3 ⊢
                      omega) (fun kv _ => rfl) hdist]
                    rfl
          · simp at h

theorem memOfHead {l : RStr} {b : Nat} (h : l.head? = some b) : b ∈ l := by
  cases l with
  | nil => simp at h
  | cons c r =>
    simp at h
    simp [h]

theorem memOfLast {l : RStr} {b : Nat} (h : l.getLast? = some b) : b ∈ l := by
  induction l with
  | nil => simp at h
  | cons c r ih =>
    cases hr : r with
    | nil =>
      subst hr
      simp at h
      simp [h]
    | cons d r2 =>
      subst hr
      rw [List.getLast?_cons_cons] at h
      exact List.mem_cons_of_mem c (ih h)

theorem extRenderOK_of_bytes (r : RStr) (hne : r ≠ [])
    (hb : ∀ b ∈ r, b = 117 ∨ b = 45 ∨ (48 ≤ b ∧ b ≤ 57)) :
    extRenderOK r := by
  have hw : ∀ b ∈ r, isWhite b = false := by
    intro b hbm
    have := hb b hbm
    simp [isWhite]
    omega
  refine ⟨hne, ?_, ?_, ?_, ?_, ?_, ?_⟩
  · apply trimB_eq_self
    · intro b h2
      exact hw b (memOfHead h2)
    · intro b h2
      exact hw b (memOfLast h2)
  · rw [noByteB, List.all_eq_true]
    intro b hbm
    have := hb b hbm
    simp
    omega
  · rw [noByteB, List.all_eq_true]
    intro b hbm
    have := hb b hbm
    simp
    omega
  · intro hc
    have := hb 39 (memOfHead hc)
    omega
  · intro hc
    have := hb 39 (memOfLast hc)
    omega
  · intro hc
    have h92 : (92 : Nat) ∈ r := by
      rw [hc]
      decide
    have := hb 92 h92
    omega

theorem extRenderOK_natDec (n : Nat) : extRenderOK (natDec n) :=
  extRenderOK_of_bytes _ (natDec_ne_nil n)
    (fun b hb => Or.inr (Or.inr (natDec_digits n b hb)))

theorem extRenderOK_intDec (i : Int) : extRenderOK (intDec i) :=
  extRenderOK_of_bytes _ (intDec_ne_nil i) (fun b hb => by
    rcases intDec_bytes i b hb with h | h
    · exact Or.inr (Or.inl h)
    · exact Or.inr (Or.inr h))

theorem uuidStr0_bytes (u : List Nat) :
    ∀ b ∈ uuidStr0 u, b = 117 ∨ b = 45 ∨ (48 ≤ b ∧ b ≤ 57) := by
  intro b hb
  simp only [uuidStr0] at hb
  rcases List.mem_cons.mp hb with hb | hb
  · exact Or.inl hb
  · rw [List.mem_flatMap] at hb
    obtain ⟨a, ha, hb2⟩ := hb
    rcases List.mem_cons.mp hb2 with hb2 | hb2
    · exact Or.inr (Or.inl hb2)
    · exact Or.inr (Or.inr (natDec_digits a b hb2))

theorem extRenderOK_uuidStr0 (u : List Nat) : extRenderOK (uuidStr0 u) :=
  extRenderOK_of_bytes _ (by simp [uuidStr0]) (uuidStr0_bytes u)

theorem uuidSplit (u : List Nat) :
    splitSep 45 (u.flatMap (fun b => 45 :: natDec b))
      = [] :: u.map natDec := by
  induction u with
  | nil => rfl
  | cons b u ih =>
    rw [List.flatMap_cons, List.cons_append, splitSep_cons_sep,
      splitSep_append_noSep 45 (natDec b) _ (by
        intro x hx
        have := natDec_digits b x hx
        omega), ih]
    simp

theorem uuidParse0_uuidStr0 (u : List Nat) :
    uuidParse0 (uuidStr0 u) = some u := by
  show uuidParse0 (117 :: u.flatMap (fun b => 45 :: natDec b)) = some u
  rw [show uuidParse0 (117 :: u.flatMap (fun b => 45 :: natDec b))
      = some (((splitSep 45 (u.flatMap (fun b => 45 :: natDec b))).drop
        1).map (fun p => (digitsVal p).getD 0)) from rfl]
  rw [uuidSplit]
  simp [digitsVal_natDec]
  rw [show ((fun p => (digitsVal p).getD 0) ∘ natDec) = fun b : Nat => b from by
    funext b
    simp [digitsVal_natDec]]
  simp

theorem intDecVal_intDec (i : Int) : intDecVal (intDec i) = some i := by
  by_cases hneg : i < 0
  · rw [show intDec i = 45 :: natDec (-i).toNat from by
      rw [intDec, if_pos hneg]]
    rw [intDecVal,
      if_pos (show (45 :: natDec (-i).toNat).head? = some 45 from rfl)]
    simp [digitsVal_natDec]
    omega
  · rw [show intDec i = natDec i.toNat from by rw [intDec, if_neg hneg]]
    rw [intDecVal,
      if_neg (show ¬(natDec i.toNat).head? = some 45 from fun hc => by
        have := natDec_head_digit i.toNat 45 hc
        omega)]
    simp [digitsVal_natDec]
    omega

theorem extStd_ok : TsvExtOK extStd := by
  refine ⟨?_, ?_, ?_, ?_, ?_, ?_, ?_, ?_, ?_, ?_, ?_, ?_⟩
  · intro b
    exact digitsVal_natDec b
  · intro b
    exact digitsVal_natDec b
  · intro u
    exact uuidParse0_uuidStr0 u
  · intro d
    exact intDecVal_intDec d
  · intro d
    exact digitsVal_natDec d
  · intro d
    exact intDecVal_intDec d
  · intro b
    exact extRenderOK_natDec b
  · intro b
    exact extRenderOK_natDec b
  · intro u
    exact extRenderOK_uuidStr0 u
  · intro d
    exact extRenderOK_intDec d
  · intro d
    exact extRenderOK_natDec d
  · intro d
    exact extRenderOK_intDec d

/-- C3 (corrected): the TabSeparated value round trip holds on the
`tsvOkF` domain — machine-range scalars, escape-collision-free strings,
comma/colon-safe map keys with lexicographically sorted rendered entries,
nonempty containers outside array context — for every external rendering
contract satisfying `TsvExtOK`, but not for every supported
`(Value, Type)` pair: `Enum8`/`Enum16` values are formatted as the raw
signed index while the parser only accepts symbolic variant names, so the
enum round trip fails (see the counterexample); and because the parse
arms end in `date.into()`/`dt.into()` (`Value::Date32` /
`Value::DateTime64` per `value/ext/time.rs`), dates round-trip only as
`Date32` values (under `Date` or `Date32` types) and date-times only as
`DateTime64` values under `DateTime64` — non-null `Date`, `DateTime`,
`NullableDate`, `NullableDateTime` values come back as a different
constructor. -/
theorem C3_tsv_value_roundtrip (ext : TsvExt) (hext : TsvExtOK ext)
    (f g : Nat) (v : Value) (ty : Ty) (iwa : Bool)
    (h : tsvOkF ext f v ty iwa = true) (hft : tyFits g ty = true) :
    parseValueTsv ext g ty (formatValueTsv false ext f v iwa) iwa
      = .ok v :=
  tsvRoundTripAux ext hext f v ty g iwa h hft

theorem C3_tsv_value_roundtrip_witness :
    TsvExtOK extStd ∧
    tsvOkF extStd 3 (Value.Nested [(bs "a", .UInt8 3),
      (bs "b", .String (bs "hi"))])
      (Ty.Nested [(bs "a", .UInt8), (bs "b", .String)]) false = true ∧
    tyFits 2 (Ty.Nested [(bs "a", .UInt8), (bs "b", .String)]) = true ∧
    parseValueTsv extStd 2 (Ty.Nested [(bs "a", .UInt8), (bs "b", .String)])
      (formatValueTsv false extStd 3 (Value.Nested [(bs "a", .UInt8 3),
        (bs "b", .String (bs "hi"))]) false) false
      = .ok (Value.Nested [(bs "a", .UInt8 3),
        (bs "b", .String (bs "hi"))]) :=
  ⟨extStd_ok, by decide, by decide,
    C3_tsv_value_roundtrip extStd extStd_ok 3 2
      (Value.Nested [(bs "a", .UInt8 3), (bs "b", .String (bs "hi"))])
      (Ty.Nested [(bs "a", .UInt8), (bs "b", .String)]) false
      (by decide) (by decide)⟩

theorem C3_enum_roundtrip_cex :
    valWF 1 (Value.Enum8 1) = true ∧
    isSameTypeAsF 1 (Value.Enum8 1) (Ty.Enum8 [(bs "x", 1)]) = true ∧
    formatValueTsv false extStd 1 (Value.Enum8 1) false = bs "1" ∧
    parseValueTsv extStd 1 (Ty.Enum8 [(bs "x", 1)])
      (formatValueTsv false extStd 1 (Value.Enum8 1) false) false
      = .err "Invalid enum variant" :=
  ⟨by decide, by decide, rfl, rfl⟩

/-- C5 (corrected): `as_non_nullable ∘ as_nullable` is the identity on the
non-nullable values on which `as_nullable` succeeds, and whatever
`Value::null` returns maps to `None` under `as_non_nullable` — but not the
claim as stated: `as_nullable` returns `None` for `Enum8`/`Enum16` (so the
composition fails for them), `null(NullableUInt256)` yields
`NullableInt8(None)` instead of the absent `NullableUInt256`, and `null`
panics (`unimplemented!`) on `NullableDecimal`, `NullableDecimal256` and
`NullableEnum` (see the counterexample). -/
theorem C5_nullable_symmetry :
    (∀ v w : CValue, CValue.asNonNullable v = some v →
      CValue.asNullable v = some w → CValue.asNonNullable w = some v) ∧
    (∀ (t : CType) (w : CValue), CValue.null t = .ok (some w) →
      CValue.asNonNullable w = none) := by
  constructor
  · intro v w hnn h
    cases v
    all_goals first
      | (simp only [CValue.asNullable] at h; cases h <;> rfl)
      | (rename_i o; cases o <;> simp [CValue.asNonNullable] at hnn)
  · intro t w h
    cases t
    all_goals simp only [CValue.null] at h
    all_goals cases h <;> rfl

theorem C5_nullable_symmetry_witness :
    CValue.asNonNullable (.UInt8 7) = some (.UInt8 7) ∧
    CValue.asNullable (.UInt8 7) = some (.NullableUInt8 (some 7)) ∧
    CValue.null .NullableString = .ok (some (.NullableString none)) ∧
    CValue.asNonNullable (.NullableUInt8 (some 7)) = some (.UInt8 7) ∧
    CValue.asNonNullable (.NullableString none) = none :=
  ⟨rfl, rfl, rfl,
    C5_nullable_symmetry.1 (.UInt8 7) (.NullableUInt8 (some 7)) rfl rfl,
    C5_nullable_symmetry.2 .NullableString (.NullableString none) rfl⟩

theorem C5_nullable_symmetry_cex :
    CValue.asNullable (.Enum8 1) = none ∧
    CValue.asNullable (.Enum16 1) = none ∧
    CValue.null .NullableUInt256 = .ok (some (.NullableInt8 none)) ∧
    CValue.null (.NullableDecimal 10 2)
      = .panicked "not implemented: Decimal value" ∧
    CValue.null (.NullableDecimal256 3)
      = .panicked "not implemented: Decimal256 value" ∧
    CValue.null (.NullableEnum [])
      = .panicked "not implemented: NullableEnum value" :=
  ⟨rfl, rfl, rfl, rfl, rfl, rfl⟩
